import Mathlib

/-!
The FastCGI responder of pkg_fcgi (`fcgi.c`), its router (`server.c`) and the
end of the supervisor (`pkg_fcgi.c`).

A shallow embedding of the C sources.  Conventions:

* a byte is a `Nat` below 256, a byte string or an `evbuffer` is a `List Nat`;
* `int` variables are `Int`; arithmetic on them that can leave the 32-bit range
  is wrapped with `wrap32`, a conversion to `size_t` is `to_size_t`;
* a pointer to a heap structure is passed as the structure's value and the
  updated value is returned (`struct client` lives in the client tree of its
  connection and is written back there where the C code keeps using the tree);
* `calloc`, `strdup`, `asprintf` and `vasprintf` are taken to succeed;
  `bufferevent_write` fails when the write oracle of the `bufferevent` says so;
* a loop is a structurally recursive function on a fuel argument that the
  caller computes from the loop's input; running out of fuel is the result
  `res.nofuel`; where the C code has no defined behaviour (it reads a stack
  byte it never initialised, or dereferences a NULL pointer) the result is
  `res.undefined`.
-/

namespace PkgFcgi

/-! ## Results, bytes and machine arithmetic -/

/-- Result of a modelled C function. -/
inductive res (α : Type) where
  | ok (a : α)
  | undefined
  | nofuel
  deriving DecidableEq, Repr

/-- Bytes of a string literal. -/
def bytes (s : String) : List Nat := s.data.map Char.toNat

/-- The C string stored in a byte array: the bytes before the first NUL. -/
def cstr (l : List Nat) : List Nat := l.takeWhile (fun b => b != 0)

/-- Two's complement wrap of an `int` result. -/
def wrap32 (x : Int) : Int := (x + 2147483648) % 4294967296 - 2147483648

/-- Conversion of an `int` to `size_t` (64 bits). -/
def to_size_t (x : Int) : Nat := (x % 18446744073709551616).toNat

/-- Conversion of an `int` to `unsigned char`. -/
def to_uchar (x : Int) : Nat := (x % 256).toNat

/-- The macro `CAT(f0, f1)`: `(f0) + ((f1) << 8)`. -/
def CAT (f0 f1 : Nat) : Nat := f0 + (f1 <<< 8)

/-- The function `tolower` on ASCII bytes, as `strcasecmp` applies it. -/
def tolower (b : Nat) : Nat := if 65 ≤ b ∧ b ≤ 90 then b + 32 else b

/-- Equality of C strings under `strcasecmp`. -/
def strcasecmp_eq (a b : List Nat) : Bool := (cstr a).map tolower == (cstr b).map tolower

/-- Equality of C strings under `strcmp`. -/
def strcmp_eq (a b : List Nat) : Bool := cstr a == cstr b

/-- The call `memcpy(&dst[off], src, |src|)` on a byte array. -/
def memcpy (dst : List Nat) (off : Nat) (src : List Nat) : List Nat :=
  dst.take off ++ src ++ dst.drop (off + src.length)

def FCGI_HEADER_LEN : Nat := 8
def FCGI_VERSION_1 : Nat := 1
def FCGI_BEGIN_REQUEST : Nat := 1
def FCGI_ABORT_REQUEST : Nat := 2
def FCGI_END_REQUEST : Nat := 3
def FCGI_PARAMS : Nat := 4
def FCGI_STDIN : Nat := 5
def FCGI_STDOUT : Nat := 6
def FCGI_KEEP_CONN : Nat := 1
def FCGI_RESPONDER : Nat := 1
def FCGI_REQUEST_COMPLETE : Int := 0
def FCGI_OVERLOADED : Int := 2
def FCGI_UNKNOWN_ROLE : Int := 3
def FCGI_RECORD_HEADER : Nat := 0
def FCGI_RECORD_BODY : Nat := 1
def METHOD_UNKNOWN : Nat := 0
def METHOD_GET : Nat := 1
def METHOD_POST : Nat := 2
/-- The constant `GEMINI_MAXLEN` of `pkg.h`. -/
def GEMINI_MAXLEN : Nat := 1025
/-- Modelled from the spec: the limit `HOST_NAME_MAX` of the system header
`<limits.h>`, which the repository does not define; the spec stores
`SERVER_NAME` for a value length below 256, the size of `server[HOST_NAME_MAX + 1]`. -/
def HOST_NAME_MAX : Nat := 255
/-- Modelled from the spec: the limit `PATH_MAX` of the system header
`<limits.h>`, which the repository does not define; the spec names 1024 as
the limit, the value of OpenBSD. -/
def PATH_MAX : Nat := 1024
/-- The size of `clt_buf` in `struct client`. -/
def CLT_BUF_SIZE : Nat := 1024

/-! ## Data model (`pkg.h`) -/

/-- The structure `struct client` of `pkg.h`: one active request. -/
structure client where
  clt_id : Nat
  clt_fd : Int
  clt_server_name : Option (List Nat)
  clt_script_name : Option (List Nat)
  clt_path_info : Option (List Nat)
  clt_query : Option (List Nat)
  clt_method : Nat
  clt_buf : List Nat
  clt_buflen : Nat
  deriving DecidableEq, Repr

/-- Outcome of one `sqlite3_step`. -/
inductive step_result where
  | row (cols : List (Option (List Nat)))
  | done
  | error (code : Nat)
  deriving DecidableEq, Repr

/-- A prepared statement: what the catalog answers (`bind_rc`, `rows`, both
keyed by the bound text) and the statement's cursor. -/
structure sqlite3_stmt where
  bind_rc : List (List Nat × Nat)
  rows : List (List Nat × List step_result)
  bound : List Nat
  pos : Nat
  busy : Bool
  deriving DecidableEq, Repr

/-- The structure `struct env` of `pkg.h` (statements only), with the global
counter `fcgi_inflight` of `fcgi.c`. -/
structure env where
  env_qsearch : sqlite3_stmt
  env_qfullpkgpath : sqlite3_stmt
  env_qcats : sqlite3_stmt
  env_qbycat : sqlite3_stmt
  fcgi_inflight : Int
  deriving DecidableEq, Repr

/-- A libevent `bufferevent`: input and output `evbuffer`, and the write oracle
`wfail`: `none` when `bufferevent_write` never fails, `some k` when the next
`k` calls succeed and the calls after them fail. -/
structure bufferevent where
  input : List Nat
  output : List Nat
  wfail : Option Nat
  deriving DecidableEq, Repr

/-- The structure `struct fcgi` of `pkg.h`: one connection.  The client tree is
the list of its clients in increasing `clt_id`; `fcg_freed` records that
`fcgi_free` released the connection, and `fcg_replies` counts the calls of
`server_reply` made for requests of the connection (neither is a field of the
C structure). -/
structure fcgi where
  fcg_id : Nat
  fcg_clients : List client
  fcg_bev : bufferevent
  fcg_toread : Int
  fcg_want : Nat
  fcg_padding : Int
  fcg_type : Nat
  fcg_rec_id : Nat
  fcg_keep_conn : Nat
  fcg_done : Nat
  fcg_env : env
  fcg_freed : Bool
  fcg_replies : Nat
  deriving DecidableEq, Repr

/-! ## libevent and the client tree -/

/-- Macro `EVBUFFER_LENGTH`. -/
def EVBUFFER_LENGTH (b : List Nat) : Nat := b.length

/-- Library call `evbuffer_drain`: drops `len` bytes, all of them when fewer are held. -/
def evbuffer_drain (src : List Nat) (len : Nat) : List Nat := src.drop len

/-- Library call `bufferevent_write`: appends to the output buffer unless the
oracle makes the call fail. -/
def bufferevent_write (bev : bufferevent) (data : List Nat) : Int × bufferevent :=
  match bev.wfail with
  | none => (0, { bev with output := bev.output ++ data })
  | some 0 => (-1, bev)
  | some (k + 1) => (0, { bev with output := bev.output ++ data, wfail := some k })

/-- The comparison `fcgi_client_cmp`: `(int)a->clt_id - b->clt_id`. -/
def fcgi_client_cmp (a b : client) : Int := wrap32 ((a.clt_id : Int) - (b.clt_id : Int))

/-- Macro `SPLAY_FIND(client_tree, ..)` with a key `q`. -/
def SPLAY_FIND (t : List client) (q : client) : Option client :=
  t.find? (fun c => fcgi_client_cmp q c == 0)

/-- Macro `SPLAY_INSERT(client_tree, ..)`: no insertion when the key is present. -/
def SPLAY_INSERT : List client → client → List client
  | [], e => [e]
  | c :: t, e =>
    if fcgi_client_cmp e c == 0 then c :: t
    else if fcgi_client_cmp e c < 0 then e :: c :: t
    else c :: SPLAY_INSERT t e

/-- Macro `SPLAY_REMOVE(client_tree, ..)`. -/
def SPLAY_REMOVE (t : List client) (e : client) : List client :=
  t.filter (fun c => !(fcgi_client_cmp e c == 0))

/-- A write through the pointer `clt` while the client is in the tree. -/
def client_store (t : List client) (e : client) : List client :=
  t.map (fun c => if fcgi_client_cmp e c == 0 then e else c)

/-! ## `fcgi.c`: output side -/

/-- The function `fcgi_error`: frees every client and the connection. -/
def fcgi_error (f : fcgi) : fcgi :=
  { f with
    fcg_clients := []
    fcg_env := { f.fcg_env with fcgi_inflight := f.fcg_env.fcgi_inflight - 1 }
    fcg_freed := true }

/-- The function `fcgi_send_end_req`. -/
def fcgi_send_end_req (f : fcgi) (id : Nat) (as ps : Int) : Int × fcgi :=
  let hdr := [FCGI_VERSION_1, FCGI_END_REQUEST, (id >>> 8) % 256, id &&& 0xFF, 0, 8, 0, 0]
  let body := [0, 0, 0, to_uchar as, to_uchar ps, 0, 0, 0]
  let w1 := bufferevent_write f.fcg_bev hdr
  if w1.1 = -1 then (-1, { f with fcg_bev := w1.2 })
  else
    let w2 := bufferevent_write w1.2 body
    if w2.1 = -1 then (-1, { f with fcg_bev := w2.2 })
    else (0, { f with fcg_bev := w2.2 })

/-- The function `clt_flush`. -/
def clt_flush (f : fcgi) (clt : client) : Int × fcgi × client :=
  if clt.clt_buflen = 0 then (0, f, clt)
  else
    let hdr := [FCGI_VERSION_1, FCGI_STDOUT, (clt.clt_id >>> 8) % 256, clt.clt_id &&& 0xFF,
      (clt.clt_buflen >>> 8) % 256, clt.clt_buflen &&& 0xFF, 0, 0]
    let w1 := bufferevent_write f.fcg_bev hdr
    if w1.1 = -1 then (-1, fcgi_error { f with fcg_bev := w1.2 }, clt)
    else
      let w2 := bufferevent_write w1.2 (clt.clt_buf.take clt.clt_buflen)
      if w2.1 = -1 then (-1, fcgi_error { f with fcg_bev := w2.2 }, clt)
      else (0, { f with fcg_bev := w2.2 }, { clt with clt_buflen := 0 })

/-- The loop of `clt_write`, one iteration per unit of fuel. -/
def clt_write_loop : Nat → fcgi → client → List Nat → res (Int × fcgi × client)
  | 0, _, _, _ => .nofuel
  | fuel + 1, f, clt, buf =>
    if buf.length > 0 then
      let left := (CLT_BUF_SIZE + 18446744073709551616 - clt.clt_buflen) % 18446744073709551616
      if left = 0 then
        match clt_flush f clt with
        | (r, f1, clt1) =>
          if r = -1 then .ok (-1, f1, clt1)
          else
            let copy := min CLT_BUF_SIZE buf.length
            clt_write_loop fuel f1
              { clt1 with
                clt_buf := memcpy clt1.clt_buf clt1.clt_buflen (buf.take copy)
                clt_buflen := clt1.clt_buflen + copy }
              (buf.drop copy)
      else
        let copy := min left buf.length
        clt_write_loop fuel f
          { clt with
            clt_buf := memcpy clt.clt_buf clt.clt_buflen (buf.take copy)
            clt_buflen := clt.clt_buflen + copy }
          (buf.drop copy)
    else .ok (0, f, clt)

/-- The function `clt_write`; `buf` holds the `len` bytes to append. -/
def clt_write (f : fcgi) (clt : client) (buf : List Nat) : res (Int × fcgi × client) :=
  clt_write_loop (buf.length + 1) f clt buf

/-- The function `clt_putc`. -/
def clt_putc (f : fcgi) (clt : client) (ch : Nat) : res (Int × fcgi × client) :=
  clt_write f clt [ch]

/-- The function `clt_puts`; `str` holds the C string. -/
def clt_puts (f : fcgi) (clt : client) (str : List Nat) : res (Int × fcgi × client) :=
  clt_write f clt (cstr str)

/-- The function `end_request`. -/
def end_request (f : fcgi) (clt : client) (status proto_status : Int) : Int × fcgi :=
  match clt_flush f clt with
  | (r, f1, clt1) =>
    if r = -1 then (-1, f1)
    else
      let s := fcgi_send_end_req f1 clt1.clt_id status proto_status
      if s.1 = -1 then (-1, fcgi_error s.2)
      else
        let f2 : fcgi := { s.2 with fcg_clients := SPLAY_REMOVE s.2.fcg_clients clt1 }
        if f2.fcg_keep_conn = 0 then (0, { f2 with fcg_done := 1 })
        else (0, f2)

/-- The function `fcgi_end_request`. -/
def fcgi_end_request (f : fcgi) (clt : client) (status : Int) : Int × fcgi :=
  end_request f clt status FCGI_REQUEST_COMPLETE

/-- The function `fcgi_abort_request`. -/
def fcgi_abort_request (f : fcgi) (clt : client) : Int × fcgi :=
  end_request f clt 1 FCGI_OVERLOADED

/-! ## `fcgi.c`: parameters -/

/-- The function `parse_len`; `src` is the input buffer of the connection.
The byte `c` (or part of `x`) is uninitialised when the buffer is short. -/
def parse_len (f : fcgi) : res (Int × fcgi) :=
  let toread1 := wrap32 (f.fcg_toread - 1)
  match f.fcg_bev.input with
  | [] => .undefined
  | c :: src1 =>
    let f1 : fcgi := { f with fcg_toread := toread1, fcg_bev := { f.fcg_bev with input := src1 } }
    if c >>> 7 = 0 then .ok ((c : Int), f1)
    else if toread1 < 3 then .ok (-1, f1)
    else
      match src1 with
      | x0 :: x1 :: x2 :: src2 =>
        .ok ((((((c &&& 0x7F) <<< 24) ||| (x0 <<< 16)) ||| (x1 <<< 8)) ||| x2 : Nat),
          { f with fcg_toread := wrap32 (toread1 - 3), fcg_bev := { f.fcg_bev with input := src2 } })
      | _ => .undefined

/-- Library call `evbuffer_remove` of `n` bytes from the input buffer of the
connection into a stack array, with `fcg_toread -= n` before it: `none` when
the buffer holds fewer bytes (the array is then partly uninitialised). -/
def take_field (f : fcgi) (n : Int) : Option (List Nat × fcgi) :=
  if f.fcg_bev.input.length < to_size_t n then none
  else some (f.fcg_bev.input.take (to_size_t n),
    { f with
      fcg_toread := wrap32 (f.fcg_toread - n)
      fcg_bev := { f.fcg_bev with input := evbuffer_drain f.fcg_bev.input (to_size_t n) } })

/-- The loop of `fcgi_parse_params`, one iteration per unit of fuel. -/
def fcgi_parse_params_loop : Nat → fcgi → client → res (Int × fcgi × client)
  | 0, _, _ => .nofuel
  | fuel + 1, f, clt =>
    if f.fcg_toread > 0 then
      match parse_len f with
      | .undefined => .undefined
      | .nofuel => .nofuel
      | .ok (nlen, f1) =>
        if nlen < 0 then .ok (-1, f1, clt)
        else
          match parse_len f1 with
          | .undefined => .undefined
          | .nofuel => .nofuel
          | .ok (vlen, f2) =>
            if vlen < 0 then .ok (-1, f2, clt)
            else if f2.fcg_toread < wrap32 (nlen + vlen) then .ok (-1, f2, clt)
            else if to_size_t nlen > 32 - 1 then
              /- ignore this parameter -/
              fcgi_parse_params_loop fuel
                { f2 with
                  fcg_toread := wrap32 (f2.fcg_toread - wrap32 (nlen - vlen))
                  fcg_bev := { f2.fcg_bev with
                    input := evbuffer_drain f2.fcg_bev.input (to_size_t (wrap32 (nlen + vlen))) } }
                clt
            else
              match take_field f2 nlen with
              | none => .undefined
              | some (pname, f3) =>
                if strcmp_eq pname (bytes "SERVER_NAME") && to_size_t vlen < HOST_NAME_MAX + 1 then
                  match take_field f3 vlen with
                  | none => .undefined
                  | some (server, f4) =>
                    fcgi_parse_params_loop fuel f4 { clt with clt_server_name := some (cstr server) }
                else if strcmp_eq pname (bytes "SCRIPT_NAME") && to_size_t vlen < PATH_MAX then
                  match take_field f3 vlen with
                  | none => .undefined
                  | some (path, f4) =>
                    if vlen = 0 ∨ path.getLast? ≠ some 47 then
                      fcgi_parse_params_loop fuel f4
                        { clt with clt_script_name := some (cstr path ++ [47]) }
                    else
                      fcgi_parse_params_loop fuel f4 { clt with clt_script_name := some (cstr path) }
                else if strcmp_eq pname (bytes "GEMINI_URL_PATH") && to_size_t vlen < PATH_MAX then
                  match take_field f3 vlen with
                  | none => .undefined
                  | some (path, f4) =>
                    if path.head? ≠ some 47 then
                      fcgi_parse_params_loop fuel f4
                        { clt with clt_path_info := some (47 :: cstr path) }
                    else
                      fcgi_parse_params_loop fuel f4 { clt with clt_path_info := some (cstr path) }
                else if strcmp_eq pname (bytes "QUERY_STRING") && to_size_t vlen < GEMINI_MAXLEN
                    && vlen > 0 then
                  match take_field f3 vlen with
                  | none => .undefined
                  | some (query, f4) =>
                    fcgi_parse_params_loop fuel f4 { clt with clt_query := some (cstr query) }
                else if strcmp_eq pname (bytes "REQUEST_METHOD") && to_size_t vlen < 8 then
                  match take_field f3 vlen with
                  | none => .undefined
                  | some (method, f4) =>
                    let m1 := if strcasecmp_eq method (bytes "GET") then METHOD_GET
                      else clt.clt_method
                    let m2 := if strcasecmp_eq method (bytes "POST") then METHOD_POST else m1
                    fcgi_parse_params_loop fuel f4 { clt with clt_method := m2 }
                else
                  fcgi_parse_params_loop fuel
                    { f3 with
                      fcg_toread := wrap32 (f3.fcg_toread - vlen)
                      fcg_bev := { f3.fcg_bev with
                        input := evbuffer_drain f3.fcg_bev.input (to_size_t vlen) } }
                    clt
    else .ok (0, f, clt)

/-- The function `fcgi_parse_params`; every iteration removes at least two
bytes from the input buffer. -/
def fcgi_parse_params (f : fcgi) (clt : client) : res (Int × fcgi × client) :=
  fcgi_parse_params_loop (f.fcg_bev.input.length + 1) f clt

/-! ## sqlite3 and libc, as `server.c` uses them -/

def SQLITE_OK : Nat := 0
def SQLITE_ROW : Nat := 100
def SQLITE_DONE : Nat := 101

/-- Library call `sqlite3_bind_text(stmt, 1, text, -1, NULL)`. -/
def sqlite3_bind_text (s : sqlite3_stmt) (text : List Nat) : Nat × sqlite3_stmt :=
  match s.bind_rc.lookup (cstr text) with
  | some rc => if rc = SQLITE_OK then (rc, { s with bound := cstr text, busy := true })
    else (rc, { s with busy := true })
  | none => (SQLITE_OK, { s with bound := cstr text, busy := true })

/-- Library call `sqlite3_step`: the next answer of the catalog for the bound
text, `done` once they are exhausted. -/
def sqlite3_step (s : sqlite3_stmt) : step_result × sqlite3_stmt :=
  (((s.rows.lookup s.bound).getD []).getD s.pos step_result.done,
    { s with pos := s.pos + 1, busy := true })

/-- Library call `sqlite3_reset`. -/
def sqlite3_reset (s : sqlite3_stmt) : sqlite3_stmt := { s with pos := 0, busy := false }

/-- Library call `sqlite3_column_text`: `none` is the NULL pointer. -/
def sqlite3_column_text (cols : List (Option (List Nat))) (i : Nat) : Option (List Nat) :=
  (cols.getD i none).map cstr

/-- The function `isxdigit` in the C locale. -/
def isxdigit (b : Nat) : Bool :=
  (48 ≤ b && b ≤ 57) || (65 ≤ b && b ≤ 70) || (97 ≤ b && b ≤ 102)

/-- The function `isspace` in the C locale; also the set given to `strspn`. -/
def isspace (b : Nat) : Bool :=
  b == 32 || b == 12 || b == 10 || b == 13 || b == 9 || b == 11

/-- Value of one hexadecimal digit. -/
def hexval (b : Nat) : Nat :=
  if 48 ≤ b ∧ b ≤ 57 then b - 48 else if 65 ≤ b ∧ b ≤ 70 then b - 55 else b - 87

/-- The star of a glob pattern: `k` matches some suffix of the string. -/
def fnmatch_star (k : List Nat → Bool) : List Nat → Bool
  | [] => k []
  | c :: s => k (c :: s) || fnmatch_star k s

/-- Library call `fnmatch(pattern, string, 0) == 0` for patterns made of
ordinary bytes, `?` and `*` (no bracket expression, no backslash). -/
def fnmatch : List Nat → List Nat → Bool
  | [], s => s.isEmpty
  | 42 :: p, s => fnmatch_star (fnmatch p) s
  | 63 :: p, s => match s with
    | [] => false
    | _ :: t => fnmatch p t
  | c :: p, s => match s with
    | [] => false
    | d :: t => c == d && fnmatch p t

/-- The `%02d` conversion of `printf` for a status code. -/
def fmt_02d (n : Nat) : List Nat :=
  if n < 10 then [48, 48 + n] else (Nat.toDigits 10 n).map Char.toNat

/-- Index of the last occurrence of `c`, as `strrchr` finds it. -/
def strrchr (s : List Nat) (c : Nat) : Option Nat :=
  match (s.reverse).indexOf? c with
  | none => none
  | some i => some (s.length - 1 - i)

/-! ## `server.c` -/

/-- The function `clt_printf`; `str` is the string `vasprintf` produced. -/
def clt_printf (f : fcgi) (clt : client) (str : List Nat) : res (Int × fcgi × client) :=
  clt_write f clt str

/-- The function `server_reply`. -/
def server_reply (f : fcgi) (clt : client) (status : Nat) (ctype : List Nat) :
    res (Int × fcgi × client) :=
  clt_printf { f with fcg_replies := f.fcg_replies + 1 } clt
    (fmt_02d status ++ [32] ++ cstr ctype ++ [13, 10])

/-- The step `if (e == -1) return (-1);` followed by the rest `k` of the function. -/
def on_ok (r : res (Int × fcgi × client)) (k : fcgi → client → res (Int × fcgi)) :
    res (Int × fcgi) :=
  match r with
  | .ok (rc, f, clt) => if rc = -1 then .ok (-1, f) else k f clt
  | .undefined => .undefined
  | .nofuel => .nofuel

/-- The step `if (e == -1) goto err;` followed by the rest `k` of the
function; `err` is the code at the label. -/
def on_ok_else (r : res (Int × fcgi × client)) (err : fcgi → res (Int × fcgi))
    (k : fcgi → client → res (Int × fcgi)) : res (Int × fcgi) :=
  match r with
  | .ok (rc, f, clt) => if rc = -1 then err f else k f clt
  | .undefined => .undefined
  | .nofuel => .nofuel

/-- The loop of `unquote`: `out` is what has been written through `q`. -/
def unquote_loop : List Nat → List Nat → Int × List Nat
  | [], out => (0, out)
  | 37 :: a :: b :: rest, out =>
    if !isxdigit a || !isxdigit b || (a == 48 && b == 48) then (-1, out)
    else unquote_loop rest (out ++ [(hexval a * 16 + hexval b) % 256])
  | 37 :: _, out => (-1, out)
  | c :: rest, out => unquote_loop rest (out ++ [c])

/-- The function `unquote` on a C string, decoded in place: on failure the
string keeps its bytes beyond the part already rewritten. -/
def unquote (str : List Nat) : Int × List Nat :=
  match unquote_loop (cstr str) [] with
  | (r, out) => if r = -1 then (-1, out ++ (cstr str).drop out.length) else (r, out)

/-- The inner loop of `fts_escape` over one word: remaining input, bytes
stored so far, remaining `bufsize`. -/
def fts_escape_word : List Nat → List Nat → Nat → List Nat × List Nat × Nat
  | [], out, bufsize => ([], out, bufsize)
  | c :: p, out, bufsize =>
    if !isspace c && bufsize != 0 then
      if c == 34 then
        if bufsize - 1 == 0 then (c :: p, out ++ [34], bufsize - 1)
        else fts_escape_word p (out ++ [34, c]) (bufsize - 1 - 1)
      else fts_escape_word p (out ++ [c]) (bufsize - 1)
    else (c :: p, out, bufsize)

/-- The outer loop of `fts_escape`, one word per unit of fuel. -/
def fts_escape_loop : Nat → List Nat → List Nat → Nat → res (List Nat × List Nat × Nat)
  | 0, _, _, _ => .nofuel
  | fuel + 1, p, out, bufsize =>
    if bufsize != 0 then
      let p1 := p.dropWhile isspace
      if p1.isEmpty then .ok (p1, out, bufsize)
      else
        match fts_escape_word p1 (out ++ [34]) (bufsize - 1) with
        | (p2, out2, bufsize2) =>
          if bufsize2 < 2 then .ok (p2, out2, bufsize2)
          else fts_escape_loop fuel p2 (out2 ++ [34, 32]) (bufsize2 - 2)
    else .ok (p, out, bufsize)

/-- The function `fts_escape`: the return value and the bytes stored in `buf`,
in the order of their indices. -/
def fts_escape (p : List Nat) (bufsize : Nat) : res (Int × List Nat) :=
  match fts_escape_loop ((cstr p).length + 1) (cstr p) [] bufsize with
  | .ok (p1, out, bufsize1) =>
    if p1.isEmpty && bufsize1 != 0 then .ok (0, out ++ [0]) else .ok (-1, out)
  | .undefined => .undefined
  | .nofuel => .nofuel

/-- The function `route_home`. -/
def route_home (f : fcgi) (clt : client) : res (Int × fcgi) :=
  on_ok (server_reply f clt 20 (bytes "text/gemini")) fun f clt =>
  on_ok (clt_printf f clt (bytes "# pkg_fcgi\n\n")) fun f clt =>
  on_ok (clt_printf f clt (bytes ("Welcome to pkg_fcgi, the Gemini interface " ++
    "for the OpenBSD ports collection.\n\n"))) fun f clt =>
  match clt.clt_script_name with
  | none => .undefined
  | some script =>
    on_ok (clt_printf f clt (bytes "=> " ++ cstr script ++
      bytes "/search Search for a package\n")) fun f clt =>
    on_ok (clt_printf f clt (bytes "=> " ++ cstr script ++
      bytes "/all All categories\n")) fun f clt =>
    on_ok (clt_printf f clt (bytes "\n")) fun f clt =>
    on_ok (clt_printf f clt (bytes ("What you search will be matched against the " ++
      "package name (pkgstem), comment, DESCR and maintainer.\n"))) fun f clt =>
    .ok (fcgi_end_request f clt 0)

/-- Number of answers the catalog still holds for a statement, plus one: the
fuel of a `for (;;)` loop over `sqlite3_step`. -/
def stmt_fuel (s : sqlite3_stmt) : Nat := ((s.rows.lookup s.bound).getD []).length + 1

/-- Assignment to `env->env_qsearch`. -/
def set_qsearch (f : fcgi) (s : sqlite3_stmt) : fcgi :=
  { f with fcg_env := { f.fcg_env with env_qsearch := s } }

/-- Assignment to `env->env_qfullpkgpath`. -/
def set_qfullpkgpath (f : fcgi) (s : sqlite3_stmt) : fcgi :=
  { f with fcg_env := { f.fcg_env with env_qfullpkgpath := s } }

/-- Assignment to `env->env_qcats`. -/
def set_qcats (f : fcgi) (s : sqlite3_stmt) : fcgi :=
  { f with fcg_env := { f.fcg_env with env_qcats := s } }

/-- Assignment to `env->env_qbycat`. -/
def set_qbycat (f : fcgi) (s : sqlite3_stmt) : fcgi :=
  { f with fcg_env := { f.fcg_env with env_qbycat := s } }

/-- The row loop of `route_search`: the return value is -1 after `goto err`,
and the last component is `found`. -/
def route_search_loop : Nat → fcgi → client → Bool → res (Int × fcgi × client × Bool)
  | 0, _, _, _ => .nofuel
  | fuel + 1, f, clt, found =>
    let st := sqlite3_step f.fcg_env.env_qsearch
    let f1 := set_qsearch f st.2
    match st.1 with
    | .done => .ok (0, f1, clt, found)
    | .error _ => .ok (0, f1, clt, found)
    | .row cols =>
      match clt.clt_script_name, sqlite3_column_text cols 2, sqlite3_column_text cols 0,
        sqlite3_column_text cols 1 with
      | some script, some fullpkgpath, some stem, some comment =>
        match clt_printf f1 clt (bytes "=> " ++ cstr script ++ [47] ++ fullpkgpath ++ [32] ++
          stem ++ bytes ": " ++ comment ++ [10]) with
        | .ok (r, f2, clt2) =>
          if r = -1 then .ok (-1, f2, clt2, true) else route_search_loop fuel f2 clt2 true
        | .undefined => .undefined
        | .nofuel => .nofuel
      | _, _, _, _ => .undefined

/-- The function `route_search`. -/
def route_search (f : fcgi) (clt : client) : res (Int × fcgi) :=
  if clt.clt_query = none ∨ clt.clt_query = some [] then
    on_ok (server_reply f clt 10 (bytes "search for a package")) fun f clt =>
    .ok (fcgi_end_request f clt 0)
  else
    let u := unquote (clt.clt_query.getD [])
    let clt : client := { clt with clt_query := some u.2 }
    let bad : res (Int × fcgi) :=
      on_ok (server_reply f clt 59 (bytes "bad request")) fun f clt =>
      .ok (fcgi_end_request f clt 1)
    if u.1 = -1 then bad
    else
      match fts_escape u.2 1024 with
      | .undefined => .undefined
      | .nofuel => .nofuel
      | .ok (r, equery) =>
        if r = -1 then bad
        else
          let b := sqlite3_bind_text f.fcg_env.env_qsearch equery
          if b.1 ≠ SQLITE_OK then
            let f := set_qsearch f (sqlite3_reset b.2)
            on_ok (server_reply f clt 42 (bytes "internal error")) fun f clt =>
            .ok (fcgi_end_request f clt 1)
          else
            let f := set_qsearch f b.2
            let err : fcgi → res (Int × fcgi) := fun f =>
              .ok (-1, set_qsearch f (sqlite3_reset f.fcg_env.env_qsearch))
            on_ok_else (server_reply f clt 20 (bytes "text/gemini")) err fun f clt =>
            on_ok_else (clt_printf f clt (bytes "# search results for " ++ u.2 ++
              bytes "\n\n")) err fun f clt =>
            match route_search_loop (stmt_fuel f.fcg_env.env_qsearch) f clt false with
            | .undefined => .undefined
            | .nofuel => .nofuel
            | .ok (r, f, clt, found) =>
              if r = -1 then err f
              else
                let f := set_qsearch f (sqlite3_reset f.fcg_env.env_qsearch)
                if !found then
                  on_ok (clt_printf f clt (bytes "No ports found\n")) fun f clt =>
                  .ok (fcgi_end_request f clt 0)
                else .ok (fcgi_end_request f clt 0)

/-- The row loop of `route_categories`; -1 after a failed write. -/
def route_categories_loop : Nat → fcgi → client → res (Int × fcgi × client)
  | 0, _, _ => .nofuel
  | fuel + 1, f, clt =>
    let st := sqlite3_step f.fcg_env.env_qcats
    let f1 := set_qcats f st.2
    match st.1 with
    | .done => .ok (0, f1, clt)
    | .error _ => .ok (0, f1, clt)
    | .row cols =>
      match clt.clt_script_name, sqlite3_column_text cols 0 with
      | some script, some fullpkgpath =>
        match clt_printf f1 clt (bytes "=> " ++ cstr script ++ [47] ++ fullpkgpath ++ [32] ++
          fullpkgpath ++ [10]) with
        | .ok (r, f2, clt2) =>
          if r = -1 then .ok (-1, f2, clt2) else route_categories_loop fuel f2 clt2
        | .undefined => .undefined
        | .nofuel => .nofuel
      | _, _ => .undefined

/-- The function `route_categories`. -/
def route_categories (f : fcgi) (clt : client) : res (Int × fcgi) :=
  on_ok (server_reply f clt 20 (bytes "text/gemini")) fun f clt =>
  on_ok (clt_printf f clt (bytes "# list of all categories\n")) fun f clt =>
  on_ok (clt_puts f clt (bytes "\n")) fun f clt =>
  match route_categories_loop (stmt_fuel f.fcg_env.env_qcats) f clt with
  | .undefined => .undefined
  | .nofuel => .nofuel
  | .ok (r, f, clt) =>
    let f := set_qcats f (sqlite3_reset f.fcg_env.env_qcats)
    if r = -1 then .ok (-1, f) else .ok (fcgi_end_request f clt 0)

/-- The loop `while ((s = strrchr(buf, '/')) != NULL) *s = '\0';` of `route_listing`. -/
def listing_cut : Nat → List Nat → res (List Nat)
  | 0, _ => .nofuel
  | fuel + 1, buf =>
    match strrchr buf 47 with
    | none => .ok buf
    | some i => listing_cut fuel (buf.take i)

/-- The row loop of `route_listing`; -1 after a failed write. -/
def route_listing_loop : Nat → fcgi → client → res (Int × fcgi × client)
  | 0, _, _ => .nofuel
  | fuel + 1, f, clt =>
    let st := sqlite3_step f.fcg_env.env_qbycat
    let f1 := set_qbycat f st.2
    match st.1 with
    | .done => .ok (0, f1, clt)
    | .error _ => .ok (0, f1, clt)
    | .row cols =>
      match clt.clt_script_name, sqlite3_column_text cols 0 with
      | some script, some fullpkgpath =>
        match clt_printf f1 clt (bytes "=> " ++ cstr script ++ [47] ++ fullpkgpath ++ [32] ++
          fullpkgpath ++ [10]) with
        | .ok (r, f2, clt2) =>
          if r = -1 then .ok (-1, f2, clt2) else route_listing_loop fuel f2 clt2
        | .undefined => .undefined
        | .nofuel => .nofuel
      | _, _ => .undefined

/-- The function `route_listing`. -/
def route_listing (f : fcgi) (clt : client) : res (Int × fcgi) :=
  match clt.clt_path_info with
  | none => .undefined
  | some path_info =>
    let path := (cstr path_info).drop 1
    match listing_cut (path.length + 1) (path.take 127) with
    | .undefined => .undefined
    | .nofuel => .nofuel
    | .ok buf =>
      let b := sqlite3_bind_text f.fcg_env.env_qbycat buf
      if b.1 ≠ SQLITE_OK then
        let f := set_qbycat f (sqlite3_reset b.2)
        on_ok (server_reply f clt 42 (bytes "internal error")) fun f clt =>
        .ok (fcgi_end_request f clt 1)
      else
        let f := set_qbycat f b.2
        let err : fcgi → res (Int × fcgi) := fun f =>
          .ok (-1, set_qbycat f (sqlite3_reset f.fcg_env.env_qbycat))
        on_ok_else (server_reply f clt 20 (bytes "text/gemini")) err fun f clt =>
        on_ok_else (clt_printf f clt (bytes "# port(s) under " ++ path ++
          bytes "\n\n")) err fun f clt =>
        match route_listing_loop (stmt_fuel f.fcg_env.env_qbycat) f clt with
        | .undefined => .undefined
        | .nofuel => .nofuel
        | .ok (r, f, clt) =>
          let f := set_qbycat f (sqlite3_reset f.fcg_env.env_qbycat)
          if r = -1 then .ok (-1, f) else .ok (fcgi_end_request f clt 0)

/-- The function `print_maintainer`; the flag is `in_addr`. -/
def print_maintainer : List Nat → Bool → fcgi → client → res (Int × fcgi × client)
  | [], _, f, clt => .ok (0, f, clt)
  | c :: mail, in_addr, f, clt =>
    if !in_addr then
      match clt_putc f clt c with
      | .ok (r, f1, clt1) =>
        if r = -1 then .ok (-1, f1, clt1) else print_maintainer mail (c == 60) f1 clt1
      | .undefined => .undefined
      | .nofuel => .nofuel
    else
      match (if c == 64 then clt_puts f clt (bytes " at ")
        else if c == 46 then clt_puts f clt (bytes " dot ")
        else clt_putc f clt c) with
      | .ok (r, f1, clt1) =>
        if r = -1 then .ok (-1, f1, clt1) else print_maintainer mail (!(c == 62)) f1 clt1
      | .undefined => .undefined
      | .nofuel => .nofuel

/-- The function `route_port`. -/
def route_port (f : fcgi) (clt : client) : res (Int × fcgi) :=
  match clt.clt_path_info with
  | none => .undefined
  | some path_info =>
    let path := (cstr path_info).drop 1
    let b := sqlite3_bind_text f.fcg_env.env_qfullpkgpath path
    if b.1 ≠ SQLITE_OK then
      let f := set_qfullpkgpath f (sqlite3_reset b.2)
      on_ok (server_reply f clt 42 (bytes "internal error")) fun f clt =>
      .ok (fcgi_end_request f clt 1)
    else
      let st := sqlite3_step b.2
      let f := set_qfullpkgpath f st.2
      let err : fcgi → res (Int × fcgi) := fun f =>
        .ok (-1, set_qfullpkgpath f (sqlite3_reset f.fcg_env.env_qfullpkgpath))
      let done : fcgi → client → res (Int × fcgi) := fun f clt =>
        .ok (fcgi_end_request (set_qfullpkgpath f (sqlite3_reset f.fcg_env.env_qfullpkgpath)) clt 0)
      match st.1 with
      | .done =>
        /- No rows, retry as a category -/
        route_listing (set_qfullpkgpath f (sqlite3_reset f.fcg_env.env_qfullpkgpath)) clt
      | .error _ =>
        on_ok_else (server_reply f clt 42 (bytes "internal error")) err done
      | .row cols =>
        let readme := sqlite3_column_text cols 6
        let www := sqlite3_column_text cols 7
        match sqlite3_column_text cols 3 with
        | none => .undefined
        | some pkgname =>
          let version := match strrchr pkgname 45 with
            | some i => pkgname.drop (i + 1)
            | none => bytes " unknown"
          on_ok_else (server_reply f clt 20 (bytes "text/gemini")) err fun f clt =>
          on_ok_else (clt_printf f clt (bytes "# " ++ path ++ bytes " v" ++ version ++
            [10])) err fun f clt =>
          on_ok_else (clt_puts f clt (bytes "\n")) err fun f clt =>
          match sqlite3_column_text cols 1 with
          | none => .undefined
          | some stem =>
          on_ok_else (clt_printf f clt (bytes "``` Command to install the package " ++ stem ++
            [10])) err fun f clt =>
          on_ok_else (clt_printf f clt (bytes "# pkg_add " ++ stem ++ [10])) err fun f clt =>
          on_ok_else (clt_printf f clt (bytes "```\n")) err fun f clt =>
          on_ok_else (clt_printf f clt (bytes "\n")) err fun f clt =>
          match sqlite3_column_text cols 2 with
          | none => .undefined
          | some comment =>
          on_ok_else (clt_printf f clt (bytes "> " ++ comment ++ [10])) err fun f clt =>
          on_ok_else (clt_printf f clt (bytes "\n")) err fun f clt =>
          match sqlite3_column_text cols 0 with
          | none => .undefined
          | some fullpkgpath =>
          on_ok_else (clt_printf f clt (bytes "=> https://cvsweb.openbsd.org/ports/" ++
            fullpkgpath ++ bytes " CVS Web\n")) err fun f clt =>
          on_ok_else (if www.isSome && www != some [] then
              clt_printf f clt (bytes "=> " ++ www.getD [] ++ bytes " Port Homepage (WWW)\n")
            else .ok (0, f, clt)) err fun f clt =>
          on_ok_else (clt_printf f clt (bytes "\n")) err fun f clt =>
          on_ok_else (clt_printf f clt (bytes "Maintainer: ")) err fun f clt =>
          match sqlite3_column_text cols 5 with
          | none => .undefined
          | some maintainer =>
          on_ok_else (print_maintainer maintainer false f clt) err fun f clt =>
          on_ok_else (clt_puts f clt (bytes "\n\n")) err fun f clt =>
          on_ok_else (clt_printf f clt (bytes "## Description\n\n")) err fun f clt =>
          on_ok_else (clt_printf f clt (bytes "``` " ++ stem ++
            bytes " description\n")) err fun f clt =>
          match sqlite3_column_text cols 4 with
          | none => .undefined
          | some descr =>
          on_ok_else (clt_puts f clt descr) err fun f clt =>
          on_ok_else (clt_puts f clt (bytes "```\n")) err fun f clt =>
          on_ok_else (clt_puts f clt (bytes "\n")) err fun f clt =>
          if readme.isSome && readme != some [] then
            on_ok_else (clt_puts f clt (bytes "## Readme\n\n")) err fun f clt =>
            on_ok_else (clt_puts f clt (bytes "\n")) err fun f clt =>
            on_ok_else (clt_printf f clt (bytes "``` README for " ++ stem ++
              [10])) err fun f clt =>
            on_ok_else (clt_puts f clt (readme.getD [])) err fun f clt =>
            on_ok_else (clt_puts f clt (bytes "\n")) err done
          else done f clt

/-- The routing table `routes`: pattern and handler. -/
def routes : List (List Nat × (fcgi → client → res (Int × fcgi))) :=
  [ (bytes "/", route_home),
    (bytes "/search", route_search),
    (bytes "/all", route_categories),
    (bytes "/*", route_port) ]

/-- The loop of `route_dispatch` over the routing table. -/
def route_dispatch_loop (path_info : List Nat) (f : fcgi) (clt : client) :
    List (List Nat × (fcgi → client → res (Int × fcgi))) → res (Int × fcgi)
  | [] =>
    on_ok (server_reply f clt 51 (bytes "not found")) fun f clt =>
    .ok (fcgi_end_request f clt 0)
  | r :: rest =>
    if fnmatch r.1 path_info then r.2 f clt else route_dispatch_loop path_info f clt rest

/-- The function `route_dispatch`. -/
def route_dispatch (f : fcgi) (clt : client) : res (Int × fcgi) :=
  match clt.clt_path_info with
  | none => .undefined
  | some path_info => route_dispatch_loop (cstr path_info) f clt routes

/-- The function `server_handle`. -/
def server_handle (f : fcgi) (clt : client) : res (Int × fcgi) :=
  route_dispatch f clt

/-! ## `fcgi.c`: the connection engine -/

/-- Assignment to the input buffer `src` of the connection. -/
def set_input (f : fcgi) (src : List Nat) : fcgi :=
  { f with fcg_bev := { f.fcg_bev with input := src } }

/-- The code of `fcgi_read` after the `switch`: "Prepare for the next record". -/
def next_record (f : fcgi) : fcgi :=
  { set_input f (evbuffer_drain f.fcg_bev.input (to_size_t f.fcg_padding)) with
    fcg_want := FCGI_RECORD_HEADER
    fcg_toread := (FCGI_HEADER_LEN : Int) }

/-- A zeroed `struct client`, as `memset` or `calloc` leave it. -/
def client_zero : client :=
  { clt_id := 0, clt_fd := 0, clt_server_name := none, clt_script_name := none,
    clt_path_info := none, clt_query := none, clt_method := METHOD_UNKNOWN,
    clt_buf := List.replicate CLT_BUF_SIZE 0, clt_buflen := 0 }

/-- The client `fcgi_read` allocates for a new request: `calloc`, then
`clt_id` and `clt_fd` are set. -/
def client_calloc (id : Nat) : client :=
  { client_zero with clt_id := id, clt_fd := -1 }

/-- The header branch of the loop of `fcgi_read`, entered with at least
`fcg_toread` bytes buffered (eight in this state): the flag tells whether the
loop goes on (`continue`) or the function returned after `fcgi_error`. -/
def fcgi_read_header (f : fcgi) : Bool × fcgi :=
  let f1 : fcgi := { f with fcg_want := FCGI_RECORD_BODY }
  let hdr := f1.fcg_bev.input.take FCGI_HEADER_LEN
  let f2 := set_input f1 (f1.fcg_bev.input.drop FCGI_HEADER_LEN)
  if hdr.getD 0 0 ≠ FCGI_VERSION_1 then (false, fcgi_error f2)
  else
    let f3 : fcgi := { f2 with fcg_toread := (CAT (hdr.getD 5 0) (hdr.getD 4 0) : Nat) }
    if f3.fcg_toread < 0 then (false, fcgi_error f3)
    else
      let f4 : fcgi := { f3 with fcg_padding := (hdr.getD 6 0 : Nat) }
      if f4.fcg_padding < 0 then (false, fcgi_error f4)
      else (true, { f4 with fcg_type := hdr.getD 1 0, fcg_rec_id := CAT (hdr.getD 3 0) (hdr.getD 2 0) })

/-- The body branch of the loop of `fcgi_read` (the `switch` and the code
after it): the flag tells whether the loop goes on or the function returned. -/
def fcgi_read_body (f : fcgi) : res (Bool × fcgi) :=
  let q : client := { client_zero with clt_id := f.fcg_rec_id }
  let clt := SPLAY_FIND f.fcg_clients q
  if f.fcg_type = FCGI_BEGIN_REQUEST then
    if (8 : Int) ≠ f.fcg_toread then .ok (false, fcgi_error f)
    else
      let breq := f.fcg_bev.input.take 8
      let f1 := set_input f (f.fcg_bev.input.drop 8)
      let role := CAT (breq.getD 1 0) (breq.getD 0 0)
      if role ≠ FCGI_RESPONDER then
        let s := fcgi_send_end_req f1 f1.fcg_rec_id 1 FCGI_UNKNOWN_ROLE
        if s.1 = -1 then .ok (false, fcgi_error s.2) else .ok (true, next_record s.2)
      else if f1.fcg_keep_conn = 0 then .ok (false, fcgi_error f1)
      else
        let f2 : fcgi := { f1 with fcg_keep_conn := breq.getD 2 0 &&& FCGI_KEEP_CONN }
        match clt with
        | some _ => .ok (true, next_record f2)
        | none =>
          .ok (true, next_record
            { f2 with fcg_clients := SPLAY_INSERT f2.fcg_clients (client_calloc f2.fcg_rec_id) })
  else if f.fcg_type = FCGI_PARAMS then
    match clt with
    | none =>
      .ok (true, next_record (set_input f (evbuffer_drain f.fcg_bev.input (to_size_t f.fcg_toread))))
    | some c =>
      if f.fcg_toread = 0 then
        let f1 := set_input f (evbuffer_drain f.fcg_bev.input (to_size_t f.fcg_toread))
        match server_handle f1 c with
        | .undefined => .undefined
        | .nofuel => .nofuel
        | .ok (r, f2) => if r = -1 then .ok (false, f2) else .ok (true, next_record f2)
      else
        match fcgi_parse_params f c with
        | .undefined => .undefined
        | .nofuel => .nofuel
        | .ok (r, f1, c1) =>
          let f2 : fcgi := { f1 with fcg_clients := client_store f1.fcg_clients c1 }
          if r = -1 then .ok (false, fcgi_error f2) else .ok (true, next_record f2)
  else if f.fcg_type = FCGI_STDIN then
    /- not interested in reading stdin -/
    .ok (true, next_record (set_input f (evbuffer_drain f.fcg_bev.input (to_size_t f.fcg_toread))))
  else if f.fcg_type = FCGI_ABORT_REQUEST then
    match clt with
    | none =>
      .ok (true, next_record (set_input f (evbuffer_drain f.fcg_bev.input (to_size_t f.fcg_toread))))
    | some c =>
      let e := fcgi_end_request f c 1
      if e.1 = -1 then .ok (false, e.2) else .ok (true, next_record e.2)
  else
    .ok (true, next_record (set_input f (evbuffer_drain f.fcg_bev.input (to_size_t f.fcg_toread))))

/-- The loop `for (;;)` of `fcgi_read`, one iteration per unit of fuel. -/
def fcgi_read_loop : Nat → fcgi → res fcgi
  | 0, _ => .nofuel
  | fuel + 1, f =>
    if EVBUFFER_LENGTH f.fcg_bev.input < to_size_t f.fcg_toread then .ok f
    else if f.fcg_want = FCGI_RECORD_HEADER then
      match fcgi_read_header f with
      | (true, f1) => fcgi_read_loop fuel f1
      | (false, f1) => .ok f1
    else
      match fcgi_read_body f with
      | .undefined => .undefined
      | .nofuel => .nofuel
      | .ok (true, f1) => fcgi_read_loop fuel f1
      | .ok (false, f1) => .ok f1

/-- The callback `fcgi_read`: two iterations of the loop take at least the
eight bytes of a header from the input buffer. -/
def fcgi_read (f : fcgi) : res fcgi :=
  fcgi_read_loop (f.fcg_bev.input.length + 2) f

/-- The callback `fcgi_write`. -/
def fcgi_write (f : fcgi) : fcgi :=
  if f.fcg_done ≠ 0 ∧ EVBUFFER_LENGTH f.fcg_bev.output = 0 then fcgi_error f else f

/-- The connection `fcgi_accept` sets up on a new socket. -/
def fcgi_new (id : Nat) (e : env) (wfail : Option Nat) : fcgi :=
  { fcg_id := id, fcg_clients := [], fcg_bev := { input := [], output := [], wfail := wfail },
    fcg_toread := (FCGI_HEADER_LEN : Int), fcg_want := FCGI_RECORD_HEADER, fcg_padding := 0,
    fcg_type := 0, fcg_rec_id := 0, fcg_keep_conn := 1, fcg_done := 0, fcg_env := e,
    fcg_freed := false, fcg_replies := 0 }

/-- The read side of libevent: bytes that arrive are appended to the input
buffer and the read callback runs, unless the connection has been freed. -/
def bufferevent_readcb (f : fcgi) (chunk : List Nat) : res fcgi :=
  if f.fcg_freed then .ok f
  else fcgi_read (set_input f (f.fcg_bev.input ++ chunk))

/-- Delivery of the successive chunks of an input stream. -/
def deliver : fcgi → List (List Nat) → res fcgi
  | f, [] => .ok f
  | f, chunk :: rest =>
    match bufferevent_readcb f chunk with
    | .ok f1 => deliver f1 rest
    | .undefined => .undefined
    | .nofuel => .nofuel

/-- The write side of libevent: the output buffer is sent to the peer and,
once it is empty, the write callback runs. -/
def bufferevent_writecb (f : fcgi) : fcgi :=
  if f.fcg_freed then f
  else fcgi_write { f with fcg_bev := { f.fcg_bev with output := [] } }

/-! ## Records as the peer and the responder lay them out -/

/-- The eight bytes of a record header. -/
def fcgi_header (type id len padding reserved : Nat) : List Nat :=
  [FCGI_VERSION_1, type, id >>> 8, id &&& 0xFF, len >>> 8, len &&& 0xFF, padding, reserved]

/-- A whole record: header, content and padding. -/
def fcgi_record (type id : Nat) (content padding : List Nat) : List Nat :=
  fcgi_header type id content.length padding.length 0 ++ content ++ padding

/-- The body of a `BEGIN_REQUEST` record. -/
def begin_body (role flags : Nat) : List Nat :=
  [role >>> 8, role &&& 0xFF, flags, 0, 0, 0, 0, 0]

/-- The `FCGI_STDOUT` record `clt_flush` writes for a payload. -/
def stdout_record (id : Nat) (payload : List Nat) : List Nat :=
  [FCGI_VERSION_1, FCGI_STDOUT, (id >>> 8) % 256, id &&& 0xFF,
    (payload.length >>> 8) % 256, payload.length &&& 0xFF, 0, 0] ++ payload

/-- The `END_REQUEST` record `fcgi_send_end_req` writes. -/
def end_record (id : Nat) (as ps : Int) : List Nat :=
  [FCGI_VERSION_1, FCGI_END_REQUEST, (id >>> 8) % 256, id &&& 0xFF, 0, 8, 0, 0,
    0, 0, 0, to_uchar as, to_uchar ps, 0, 0, 0]

/-- The reference encoding of a name or value length. -/
def encode_len (n : Nat) : List Nat :=
  if n ≤ 127 then [n]
  else [(n >>> 24) ||| 0x80, (n >>> 16) &&& 0xFF, (n >>> 8) &&& 0xFF, n &&& 0xFF]

/-- A name/value pair of a `PARAMS` record. -/
def nv_pair (name value : List Nat) : List Nat :=
  encode_len name.length ++ encode_len value.length ++ name ++ value

/-- A statement of a catalog that answers no row. -/
def stmt_empty : sqlite3_stmt := { bind_rc := [], rows := [], bound := [], pos := 0, busy := false }

/-- An environment over an empty catalog, with one connection in flight. -/
def env_empty : env :=
  { env_qsearch := stmt_empty, env_qfullpkgpath := stmt_empty, env_qcats := stmt_empty,
    env_qbycat := stmt_empty, fcgi_inflight := 1 }

/-- A row of the details statement for the port `sysutils/tmux`, with the
given `pkgname`; the columns are fullpkgpath, pkgstem, comment, pkgname, descr,
maintainer, readme and homepage, the last two NULL. -/
def port_row (pkgname : List Nat) : List (Option (List Nat)) :=
  [some (bytes "sysutils/tmux"), some (bytes "tmux"), some (bytes "terminal multiplexer"),
    some pkgname, some (bytes "tmux is a terminal multiplexer\n"),
    some (bytes "Jane Doe <jane@example.org>"), none, none]

/-- An environment over a catalog that holds the port `sysutils/tmux` only. -/
def env_port (pkgname : List Nat) : env :=
  { env_empty with
    env_qfullpkgpath := { stmt_empty with
      rows := [(bytes "sysutils/tmux", [step_result.row (port_row pkgname)])] } }

/-- One append to the output buffer of a request. -/
inductive append_op where
  | write (buf : List Nat)
  | puts (str : List Nat)
  | putc (ch : Nat)
  deriving DecidableEq, Repr

/-- The bytes an append hands over. -/
def append_op.payload : append_op → List Nat
  | .write buf => buf
  | .puts str => cstr str
  | .putc ch => [ch]

/-- The call of `clt_write`, `clt_puts` or `clt_putc` for an append. -/
def run_op (f : fcgi) (clt : client) : append_op → res (Int × fcgi × client)
  | .write buf => clt_write f clt buf
  | .puts str => clt_puts f clt str
  | .putc ch => clt_putc f clt ch

/-- Successive appends, up to the first one that returns -1. -/
def run_ops : fcgi → client → List append_op → res (Int × fcgi × client)
  | f, clt, [] => .ok (0, f, clt)
  | f, clt, op :: rest =>
    match run_op f clt op with
    | .ok (r, f1, clt1) => if r = -1 then .ok (-1, f1, clt1) else run_ops f1 clt1 rest
    | .undefined => .undefined
    | .nofuel => .nofuel


/-! ## `fcgi.c`: accepting connections -/

def EV_TIMEOUT : Nat := 0x01
def EV_READ : Nat := 0x02
def EV_WRITE : Nat := 0x04
def EV_SIGNAL : Nat := 0x08
def EV_PERSIST : Nat := 0x10
/-- The constant `ENFILE` of `<errno.h>`. -/
def ENFILE : Nat := 23
/-- The constant `EMFILE` of `<errno.h>`. -/
def EMFILE : Nat := 24

/-- A libevent `struct event`: the events it was set for, whether it is
registered for them, and the timeout armed on it, in seconds. -/
structure event where
  ev_events : Nat
  inserted : Bool
  timeout : Option Nat
  deriving DecidableEq, Repr

/-- Library call `event_add(ev, tv)`: an event set for reading, writing or a
signal is registered; the timeout `tv` is armed unless `tv` is NULL. -/
def event_add (ev : event) (tv : Option Nat) : event :=
  let ev1 : event :=
    if ev.ev_events &&& (EV_READ ||| EV_WRITE ||| EV_SIGNAL) ≠ 0 then { ev with inserted := true }
    else ev
  match tv with
  | none => ev1
  | some t => { ev1 with timeout := some t }

/-- Library call `event_del`. -/
def event_del (ev : event) : event := { ev with inserted := false, timeout := none }

/-- Macro `evtimer_add(ev, tv)`. -/
def evtimer_add (ev : event) (tv : Nat) : event := event_add ev (some tv)

/-- The fields `env_sockev` and `env_pausev` of `struct env` (`pkg.h`), kept
apart from the statements of the environment. -/
structure listener where
  env_sockev : event
  env_pausev : event
  deriving DecidableEq, Repr

/-- Outcome of `accept_reserve`: the new descriptor, or -1 with `errno`. -/
inductive accept_result where
  | sock (s : Nat)
  | error (errno : Nat)
  deriving DecidableEq, Repr

/-- The function `fcgi_accept` up to the set-up of the connection: the events
after the call, whether `accept_reserve` was called, and the descriptor it
gave; `a` is what `accept_reserve` answers when it is called. -/
def fcgi_accept (e : listener) (ev : Nat) (a : accept_result) : listener × Bool × Option Nat :=
  let e1 : listener := { e with env_pausev := event_add e.env_pausev none }
  if ev &&& EV_TIMEOUT ≠ 0 then (e1, false, none)
  else
    match a with
    | .error errno =>
      /- Pause accept if we are out of file descriptors -/
      if errno = ENFILE ∨ errno = EMFILE then
        ({ e1 with
          env_sockev := event_del e1.env_sockev
          env_pausev := evtimer_add e1.env_pausev 1 }, true, none)
      else (e1, true, none)
    | .sock s => (e1, true, some s)

/-- The events as `server_main` sets them before `event_dispatch`:
`env_sockev` for `EV_READ | EV_PERSIST`, added; `env_pausev` a timer, not added. -/
def server_main_events : listener :=
  { env_sockev := event_add ⟨EV_READ ||| EV_PERSIST, false, none⟩ none
    env_pausev := ⟨0, false, none⟩ }

/-- What `event_dispatch` sees: the listen socket is readable (and
`accept_reserve` would answer `a`), or a second passes. -/
inductive occurrence where
  | readable (a : accept_result)
  | second
  deriving DecidableEq, Repr

/-- One turn of `event_dispatch` for the two events of the environment: a
readable socket runs `fcgi_accept` with `EV_READ` when `env_sockev` is
registered; a timeout that expires is removed and runs `fcgi_accept` with
`EV_TIMEOUT`.  The flag tells whether `accept_reserve` was called. -/
def dispatch_step (e : listener) : occurrence → listener × Bool
  | .readable a =>
    if e.env_sockev.inserted then ((fcgi_accept e EV_READ a).1, (fcgi_accept e EV_READ a).2.1)
    else (e, false)
  | .second =>
    match e.env_pausev.timeout with
    | none => (e, false)
    | some t =>
      if t ≤ 1 then
        ((fcgi_accept { e with env_pausev := event_del e.env_pausev } EV_TIMEOUT (.error 0)).1,
          false)
      else ({ e with env_pausev := { e.env_pausev with timeout := some (t - 1) } }, false)

/-- Successive turns of `event_dispatch`, with the flags of the turns. -/
def dispatch : listener → List occurrence → listener × List Bool
  | e, [] => (e, [])
  | e, o :: rest =>
    ((dispatch (dispatch_step e o).1 rest).1,
      (dispatch_step e o).2 :: (dispatch (dispatch_step e o).1 rest).2)

/-! ## `pkg_fcgi.c`: the supervisor -/

/-- The constant `EINTR` of `<errno.h>`. -/
def EINTR : Nat := 4
/-- The constant `ECHILD` of `<errno.h>`. -/
def ECHILD : Nat := 10

/-- Macro `WIFEXITED` of `<sys/wait.h>`. -/
def WIFEXITED (status : Nat) : Bool := status &&& 0x7F == 0
/-- Macro `WIFSIGNALED` of `<sys/wait.h>`. -/
def WIFSIGNALED (status : Nat) : Bool := status &&& 0x7F != 0x7F && status &&& 0x7F != 0
/-- Macro `WEXITSTATUS` of `<sys/wait.h>`. -/
def WEXITSTATUS (status : Nat) : Nat := (status >>> 8) &&& 0xFF

/-- The `%lld` conversion of `printf`. -/
def fmt_lld (x : Int) : List Nat :=
  if x < 0 then 45 :: (Nat.toDigits 10 x.natAbs).map Char.toNat
  else (Nat.toDigits 10 x.toNat).map Char.toNat

/-- Outcome of one call `waitpid(WAIT_ANY, &status, 0)`: the pid of a child
with its status, or -1 with `errno`. -/
inductive wait_result where
  | child (pid : Nat) (status : Nat)
  | failed (errno : Nat)
  deriving DecidableEq, Repr

/-- How `main` ends in the supervisor: `return` with a value, or `fatal`
(which exits with 1) with its message. -/
inductive main_end where
  | returned (value : Int)
  | fatal (msg : List Nat)
  deriving DecidableEq, Repr

/-- The loop `do { pid = waitpid(...); } while (pid != -1 || errno == EINTR);`
of `main`, one call per answer of the system: `pid`, `status`, `errno` and the
answers left.  The process waits for ever when the answers are used up. -/
def main_wait : List wait_result → Nat → Nat → res (Int × Nat × Nat × List wait_result)
  | [], _, _ => .nofuel
  | w :: rest, status, errno =>
    let pid : Int := match w with
      | .child p _ => (p : Int)
      | .failed _ => -1
    let status1 : Nat := match w with
      | .child _ st => st
      | .failed _ => status
    let errno1 : Nat := match w with
      | .child _ _ => errno
      | .failed e => e
    if pid ≠ -1 ∨ errno1 = EINTR then main_wait rest status1 errno1
    else .ok (pid, status1, errno1, rest)

/-- The loop `for (;;)` at the end of `main`, one iteration per unit of fuel:
how `main` ends and the lines written with `log_warnx`. -/
def main_reap_loop : Nat → List wait_result → Nat → Nat → List (List Nat) →
    res (main_end × List (List Nat))
  | 0, _, _, _, _ => .nofuel
  | fuel + 1, ws, status, errno, log =>
    match main_wait ws status errno with
    | .undefined => .undefined
    | .nofuel => .nofuel
    | .ok (pid, status1, errno1, rest) =>
      if pid = -1 then
        if errno1 = ECHILD then .ok (.returned 1, log)
        else .ok (.fatal (bytes "waitpid failed"), log)
      else
        let cause : List Nat :=
          if WIFSIGNALED status1 then bytes "was terminated"
          else if WIFEXITED status1 then
            if WEXITSTATUS status1 ≠ 0 then bytes "exited abnormally"
            else bytes "exited successfully"
          else bytes "died"
        main_reap_loop fuel rest status1 errno1
          (log ++ [bytes "child process " ++ fmt_lld pid ++ [32] ++ cause])

/-- The end of `main` in the supervisor, from the first `waitpid`; `errno` is
the value at entry. -/
def main_reap (ws : List wait_result) (errno : Nat) : res (main_end × List (List Nat)) :=
  main_reap_loop (ws.length + 1) ws 0 errno []



/-! ## Predicates the theorems are stated with -/

/-- The connection `f` with another output buffer and write oracle. -/
def with_out (f : fcgi) (out : List Nat) (w : Option Nat) : fcgi :=
  { f with fcg_bev := { f.fcg_bev with output := out, wfail := w } }

/-- The client `clt` with another output buffer and cursor. -/
def with_buf (clt : client) (buf : List Nat) (n : Nat) : client :=
  { clt with clt_buf := buf, clt_buflen := n }

/-- The invariant of the output buffer of a request: the array has its 1024
bytes and the cursor is inside it. -/
def buf_ok (clt : client) : Prop :=
  clt.clt_buf.length = CLT_BUF_SIZE ∧ clt.clt_buflen ≤ CLT_BUF_SIZE

/-- Successful appends of `data` took `(f, clt)` to `(f1, clt1)`: only the
output buffer of the connection, its write oracle, and the buffer and cursor of
the request changed; the output gained `FCGI_STDOUT` records of the request
with payloads `ps`, and these payloads followed by the bytes now buffered are
the bytes buffered before followed by `data`. -/
def emitted (f : fcgi) (clt : client) (f1 : fcgi) (clt1 : client) (data : List Nat) : Prop :=
  ∃ (ps : List (List Nat)) (w : Option Nat) (buf1 : List Nat) (n1 : Nat),
    f1 = with_out f (f.fcg_bev.output ++ (ps.map (stdout_record clt.clt_id)).flatten) w ∧
    clt1 = with_buf clt buf1 n1 ∧
    buf1.length = CLT_BUF_SIZE ∧ n1 ≤ CLT_BUF_SIZE ∧
    (f.fcg_bev.wfail = none → w = none) ∧
    ps.flatten ++ buf1.take n1 = clt.clt_buf.take clt.clt_buflen ++ data ∧
    ∀ p ∈ ps, 0 < p.length ∧ p.length ≤ CLT_BUF_SIZE

/-- The connection after the header step of `fcgi_read` read a header with
these fields; `rest` is what follows the header in the input buffer. -/
def header_done (f : fcgi) (type id len padding : Nat) (rest : List Nat) : fcgi :=
  { f with
    fcg_want := FCGI_RECORD_BODY
    fcg_bev := { f.fcg_bev with input := rest }
    fcg_toread := (len : Int)
    fcg_padding := (padding : Int)
    fcg_type := type
    fcg_rec_id := id }

/-- The connection waits for a record: it is open, in the header state, and
its input buffer is empty. -/
def idle (f : fcgi) : Prop :=
  f.fcg_freed = false ∧ f.fcg_want = FCGI_RECORD_HEADER ∧ f.fcg_toread = 8 ∧
    f.fcg_bev.input = []

/-- The fields of a connection that neither the output side nor a handler
touches: the identity of the connection, its input buffer, the decoder state
and `fcg_keep_conn`. -/
def same_decoder (f f1 : fcgi) : Prop :=
  f1.fcg_id = f.fcg_id ∧ f1.fcg_bev.input = f.fcg_bev.input ∧ f1.fcg_toread = f.fcg_toread ∧
  f1.fcg_want = f.fcg_want ∧ f1.fcg_padding = f.fcg_padding ∧ f1.fcg_type = f.fcg_type ∧
  f1.fcg_rec_id = f.fcg_rec_id ∧ f1.fcg_keep_conn = f.fcg_keep_conn

/-- Between `f` and `f1` the function `fcgi_error` ran, once: the connection
is freed, its request table is empty and `fcgi_inflight` went down by one. -/
def torn_down (f f1 : fcgi) : Prop :=
  same_decoder f f1 ∧ f1.fcg_freed = true ∧ f1.fcg_clients = [] ∧ f1.fcg_done = f.fcg_done ∧
  f1.fcg_env.fcgi_inflight = f.fcg_env.fcgi_inflight - 1

/-- Between `(f, clt)` and `(f1, clt1)` output calls for the request succeeded:
the connection only gained `FCGI_STDOUT` records of the request on its output
(and its catalog statements may have moved), and the request kept its id and
the invariant of its buffer. -/
def wrote (f : fcgi) (clt : client) (f1 : fcgi) (clt1 : client) : Prop :=
  same_decoder f f1 ∧ f1.fcg_freed = f.fcg_freed ∧ f1.fcg_clients = f.fcg_clients ∧
  f1.fcg_done = f.fcg_done ∧ f1.fcg_env.fcgi_inflight = f.fcg_env.fcgi_inflight ∧
  (f.fcg_bev.wfail = none → f1.fcg_bev.wfail = none) ∧
  clt1.clt_id = clt.clt_id ∧ buf_ok clt1 ∧
  ∃ ps : List (List Nat),
    f1.fcg_bev.output = f.fcg_bev.output ++ (ps.map (stdout_record clt.clt_id)).flatten ∧
    ∀ p ∈ ps, 0 < p.length ∧ p.length ≤ CLT_BUF_SIZE

/-- What an output call that returned `r` did: it wrote, or the connection was
torn down. -/
def stepped (f : fcgi) (clt : client) (r : Int) (f1 : fcgi) (clt1 : client) : Prop :=
  (r = 0 ∧ wrote f clt f1 clt1) ∨ (r = -1 ∧ torn_down f f1 ∧ buf_ok clt1)

/-- What a handler that returned `r` did.  With 0: the output gained
`FCGI_STDOUT` records of the request and then its `END_REQUEST` with protocol
status 0, the request left the table, and `fcg_done` is set when
`fcg_keep_conn` is 0.  With -1: the connection was torn down. -/
def handled (f : fcgi) (clt : client) (r : Int) (f1 : fcgi) : Prop :=
  (r = 0 ∧ same_decoder f f1 ∧ f1.fcg_freed = f.fcg_freed ∧
    f1.fcg_clients = SPLAY_REMOVE f.fcg_clients clt ∧
    f1.fcg_done = (if f.fcg_keep_conn = 0 then 1 else f.fcg_done) ∧
    f1.fcg_env.fcgi_inflight = f.fcg_env.fcgi_inflight ∧
    (f.fcg_bev.wfail = none → f1.fcg_bev.wfail = none) ∧
    ∃ (ps : List (List Nat)) (status : Int),
      f1.fcg_bev.output = f.fcg_bev.output ++ (ps.map (stdout_record clt.clt_id)).flatten ++
        end_record clt.clt_id status 0 ∧
      ∀ p ∈ ps, 0 < p.length ∧ p.length ≤ CLT_BUF_SIZE) ∨
  (r = -1 ∧ torn_down f f1)

/-- The percent-decoding the spec describes for `unquote`, written on its
own: scanning from the left, a `%` must be followed by two hexadecimal digits
that are not both `0` and the three bytes give the byte of that value, every
other byte is copied; `none` when some `%` is not so followed. -/
def unquote_reference : List Nat → Option (List Nat)
  | [] => some []
  | 37 :: a :: b :: rest =>
    if isxdigit a && isxdigit b && !(a == 48 && b == 48) then
      (unquote_reference rest).map (fun out => (hexval a * 16 + hexval b) :: out)
    else none
  | 37 :: _ => none
  | c :: rest => (unquote_reference rest).map (fun out => c :: out)

/-- The parser of a record body took bytes from the front of the input buffer
and counted them in `fcg_toread`; nothing else of the connection changed
(the counter `fcg_replies`, which is not part of the C structure, is left out). -/
def consumed (f f1 : fcgi) : Prop :=
  f1.fcg_id = f.fcg_id ∧ f1.fcg_clients = f.fcg_clients ∧
  f1.fcg_bev.output = f.fcg_bev.output ∧ f1.fcg_bev.wfail = f.fcg_bev.wfail ∧
  f1.fcg_want = f.fcg_want ∧ f1.fcg_padding = f.fcg_padding ∧ f1.fcg_type = f.fcg_type ∧
  f1.fcg_rec_id = f.fcg_rec_id ∧ f1.fcg_keep_conn = f.fcg_keep_conn ∧
  f1.fcg_done = f.fcg_done ∧ f1.fcg_env = f.fcg_env ∧ f1.fcg_freed = f.fcg_freed ∧
  ∃ k : Nat, f1.fcg_bev.input = f.fcg_bev.input.drop k

/-- The request `c1` is the request `c` with other parameters: same id, same
descriptor, same output buffer and cursor. -/
def same_request (c c1 : client) : Prop :=
  c1.clt_id = c.clt_id ∧ c1.clt_fd = c.clt_fd ∧ c1.clt_buf = c.clt_buf ∧
  c1.clt_buflen = c.clt_buflen

/-- The invariant of the request table: no two requests have the same id,
every id fits 16 bits, and every output buffer is sound. -/
def table_ok (t : List client) : Prop :=
  (t.map (fun c => c.clt_id)).Nodup ∧ ∀ c ∈ t, c.clt_id < 65536 ∧ buf_ok c

/-- The invariant of a connection: its request table is sound, its input
buffer holds bytes, and the id of the record being read fits 16 bits. -/
def conn_ok (f : fcgi) : Prop :=
  table_ok f.fcg_clients ∧ (∀ b ∈ f.fcg_bev.input, b < 256) ∧ f.fcg_rec_id < 65536

/-- The request table of `f1` is sound and holds only ids that the table of
`f` held; the input of `f1` is made of bytes of the input of `f`, and the id of
the record being read is the same. -/
def kept (f f1 : fcgi) : Prop :=
  table_ok f1.fcg_clients ∧
  (∀ c ∈ f1.fcg_clients, ∃ c0 ∈ f.fcg_clients, c0.clt_id = c.clt_id) ∧
  (∀ b ∈ f1.fcg_bev.input, b ∈ f.fcg_bev.input) ∧ f1.fcg_rec_id = f.fcg_rec_id

/-- A call that appends to the response of a request and answers 0 or -1, such
as `clt_printf`: whenever it returns, it made a step from `(f, clt)`. -/
def writer_ok (f : fcgi) (clt : client) (r : res (Int × fcgi × client)) : Prop :=
  ∀ (rc : Int) (f1 : fcgi) (clt1 : client), r = .ok (rc, f1, clt1) → stepped f clt rc f1 clt1

/-- The rest of a handler that was entered on `(f, clt)`: whenever it returns,
the request was handled. -/
def handler_ok (f : fcgi) (clt : client) (r : res (Int × fcgi)) : Prop :=
  ∀ (rr : Int) (f1 : fcgi), r = .ok (rr, f1) → handled f clt rr f1

/-- The part of an iteration of `fcgi_parse_params` that follows the read of
the name into `pname`: the chain of `strcmp` tests on the name and the work of
the branch taken, with `fuel` iterations left for the rest of the loop. -/
def params_value (fuel : Nat) (pname : List Nat) (vlen : Int) (f3 : fcgi) (clt : client) :
    res (Int × fcgi × client) :=
  if strcmp_eq pname (bytes "SERVER_NAME") && to_size_t vlen < HOST_NAME_MAX + 1 then
    match take_field f3 vlen with
    | none => .undefined
    | some (server, f4) =>
      fcgi_parse_params_loop fuel f4 { clt with clt_server_name := some (cstr server) }
  else if strcmp_eq pname (bytes "SCRIPT_NAME") && to_size_t vlen < PATH_MAX then
    match take_field f3 vlen with
    | none => .undefined
    | some (path, f4) =>
      if vlen = 0 ∨ path.getLast? ≠ some 47 then
        fcgi_parse_params_loop fuel f4
          { clt with clt_script_name := some (cstr path ++ [47]) }
      else
        fcgi_parse_params_loop fuel f4 { clt with clt_script_name := some (cstr path) }
  else if strcmp_eq pname (bytes "GEMINI_URL_PATH") && to_size_t vlen < PATH_MAX then
    match take_field f3 vlen with
    | none => .undefined
    | some (path, f4) =>
      if path.head? ≠ some 47 then
        fcgi_parse_params_loop fuel f4
          { clt with clt_path_info := some (47 :: cstr path) }
      else
        fcgi_parse_params_loop fuel f4 { clt with clt_path_info := some (cstr path) }
  else if strcmp_eq pname (bytes "QUERY_STRING") && to_size_t vlen < GEMINI_MAXLEN
      && vlen > 0 then
    match take_field f3 vlen with
    | none => .undefined
    | some (query, f4) =>
      fcgi_parse_params_loop fuel f4 { clt with clt_query := some (cstr query) }
  else if strcmp_eq pname (bytes "REQUEST_METHOD") && to_size_t vlen < 8 then
    match take_field f3 vlen with
    | none => .undefined
    | some (method, f4) =>
      let m1 := if strcasecmp_eq method (bytes "GET") then METHOD_GET
        else clt.clt_method
      let m2 := if strcasecmp_eq method (bytes "POST") then METHOD_POST else m1
      fcgi_parse_params_loop fuel f4 { clt with clt_method := m2 }
  else
    fcgi_parse_params_loop fuel
      { f3 with
        fcg_toread := wrap32 (f3.fcg_toread - vlen)
        fcg_bev := { f3.fcg_bev with
          input := evbuffer_drain f3.fcg_bev.input (to_size_t vlen) } }
      clt

/-- The bytes of a word with every `"` doubled. -/
def fts_quote (w : List Nat) : List Nat :=
  w.flatMap (fun c => if c == 34 then [34, 34] else [c])

/-- The escaping the spec describes for `fts_escape`, written on its own: for
each maximal run of non-whitespace bytes of the input, in order, a `"`, the run
with every `"` doubled, a `"` and one space. -/
def fts_reference (s : List Nat) : List Nat :=
  ((s.splitOnP isspace).filter (fun w => !w.isEmpty)).flatMap
    (fun w => [34] ++ fts_quote w ++ [34, 32])

/-- The reference escaping as a scan with two states; `in_run` tells that the
bytes before belong to a run whose closing `"` is still to come. -/
def fts_scan : Bool → List Nat → List Nat
  | false, [] => []
  | true, [] => [34, 32]
  | false, c :: s =>
    if isspace c then fts_scan false s else [34] ++ fts_quote [c] ++ fts_scan true s
  | true, c :: s =>
    if isspace c then [34, 32] ++ fts_scan false s else fts_quote [c] ++ fts_scan true s

/-- The obfuscation the spec describes for `print_maintainer`, written on its
own as a scan with two states: outside a `<...>` pair every byte is copied and
`<` enters the pair; inside, `@` becomes ` at `, `.` becomes ` dot `, `>` is
copied and leaves the pair, every other byte is copied. -/
def obfuscate : Bool → List Nat → List Nat
  | _, [] => []
  | false, c :: s => c :: obfuscate (c == 60) s
  | true, c :: s =>
    if c == 64 then bytes " at " ++ obfuscate true s
    else if c == 46 then bytes " dot " ++ obfuscate true s
    else if c == 62 then c :: obfuscate false s
    else c :: obfuscate true s

/-- The status line that `server_reply` formats: `"%02d %s\r\n"`. -/
def status_line (status : Nat) (ctype : List Nat) : List Nat :=
  fmt_02d status ++ [32] ++ cstr ctype ++ [13, 10]

/-- Appends that all succeeded took `(f, clt)` to `(f1, clt1)`, on a
connection whose writes do not fail: the bytes `data` were handed over, in
`FCGI_STDOUT` records of the request or still in its buffer, with `n` calls of
`server_reply`; the prepared statements may have changed. -/
def said (f : fcgi) (clt : client) (f1 : fcgi) (clt1 : client) (data : List Nat) (n : Nat) :
    Prop :=
  same_decoder f f1 ∧ f1.fcg_freed = f.fcg_freed ∧ f1.fcg_clients = f.fcg_clients ∧
  f1.fcg_done = f.fcg_done ∧ f1.fcg_bev.wfail = none ∧
  f1.fcg_replies = f.fcg_replies + n ∧
  clt1.clt_id = clt.clt_id ∧ buf_ok clt1 ∧
  ∃ ps : List (List Nat),
    f1.fcg_bev.output = f.fcg_bev.output ++ (ps.map (stdout_record clt.clt_id)).flatten ∧
    ps.flatten ++ clt1.clt_buf.take clt1.clt_buflen = clt.clt_buf.take clt.clt_buflen ++ data ∧
    ∀ p ∈ ps, 0 < p.length ∧ p.length ≤ CLT_BUF_SIZE

/-- The request `clt` of `f` was answered in full: the output gained the
`FCGI_STDOUT` records of the request, whose payloads are what its buffer held
followed by `data`, and then its `FCGI_END_REQUEST` with application status
`status`; `server_reply` was called `n` times and the request left the table. -/
def replied (f : fcgi) (clt : client) (f1 : fcgi) (data : List Nat) (n : Nat) (status : Int) :
    Prop :=
  same_decoder f f1 ∧ f1.fcg_freed = f.fcg_freed ∧
  f1.fcg_clients = SPLAY_REMOVE f.fcg_clients clt ∧
  f1.fcg_done = (if f.fcg_keep_conn = 0 then 1 else f.fcg_done) ∧
  f1.fcg_bev.wfail = none ∧ f1.fcg_replies = f.fcg_replies + n ∧
  ∃ ps : List (List Nat),
    f1.fcg_bev.output = f.fcg_bev.output ++ (ps.map (stdout_record clt.clt_id)).flatten ++
      end_record clt.clt_id status 0 ∧
    ps.flatten = clt.clt_buf.take clt.clt_buflen ++ data ∧
    ∀ p ∈ ps, 0 < p.length ∧ p.length ≤ CLT_BUF_SIZE

/-- A handler entered on `(f, clt)` with writes that do not fail: it stops on
a null pointer, or it returns 0 after answering the request with bytes, a
number of status lines and a status that satisfy `Q`. -/
def handler_says (f : fcgi) (clt : client) (Q : List Nat → Nat → Int → Prop)
    (r : res (Int × fcgi)) : Prop :=
  r = .undefined ∨
  ∃ (f1 : fcgi) (data : List Nat) (n : Nat) (status : Int),
    r = .ok (0, f1) ∧ replied f clt f1 data n status ∧ Q data n status

/-- The state `(f1, clt1)` of a handler entered on `(f, clt)`: what it said
so far satisfies `P`, with `n` calls of `server_reply`. -/
def so_far (P : List Nat → Prop) (f : fcgi) (clt : client) (f1 : fcgi) (clt1 : client)
    (n : Nat) : Prop :=
  ∃ d : List Nat, said f clt f1 clt1 d n ∧ P d

/-- A call that appends to the response, with writes that do not fail: it
stops on a null pointer or it returns 0 and the bytes said so far still
satisfy `P`. -/
def writer_says (P : List Nat → Prop) (f : fcgi) (clt : client) (n : Nat)
    (r : res (Int × fcgi × client)) : Prop :=
  r = .undefined ∨
  ∃ (f2 : fcgi) (clt2 : client), r = .ok (0, f2, clt2) ∧ so_far P f clt f2 clt2 n

/-- Number of answers the catalog still holds for a statement at its cursor. -/
def rows_left (s : sqlite3_stmt) : Nat := ((s.rows.lookup s.bound).getD []).length - s.pos

/-- The bytes `d` begin with a status line of `server_reply`: one of the
codes 10, 20, 42, 51, 59 in two decimal digits, a space, one of the five meta
texts of `server.c`, CR and LF. -/
def status_first (d : List Nat) : Prop :=
  ∃ (code : Nat) (ctype body : List Nat),
    code ∈ [10, 20, 42, 51, 59] ∧
    ctype ∈ [bytes "search for a package", bytes "text/gemini", bytes "internal error",
      bytes "not found", bytes "bad request"] ∧
    d = status_line code ctype ++ body

/-- The bytes `d` begin with the status line `20 text/gemini`. -/
def begins_20 (d : List Nat) : Prop :=
  ∃ body : List Nat, d = status_line 20 (bytes "text/gemini") ++ body

/-- What `route_port` did with a row `cols` of the details statement, with
writes that do not fail: it stopped on a null pointer, one of the columns 0,
1, 2, 4 and 5 being NULL, or it returned 0 after one reply and ended the
request with status 0, and the bytes of the response satisfy `P`. -/
def page_says (f : fcgi) (clt : client) (cols : List (Option (List Nat)))
    (P : List Nat → Prop) (r : res (Int × fcgi)) : Prop :=
  ((∃ i, i ∈ [0, 1, 2, 4, 5] ∧ sqlite3_column_text cols i = none) ∧ r = .undefined) ∨
  ∃ (f1 : fcgi) (d : List Nat), r = .ok (0, f1) ∧ replied f clt f1 d 1 0 ∧ P d

/-- The path of a request, when it is set, is a C string that begins with `/`. -/
def path_ok (c : client) : Prop :=
  ∀ p : List Nat, c.clt_path_info = some p → ∃ s : List Nat, cstr p = 47 :: s

/-- The prepared statements are the same in both environments. -/
def same_stmts (e e1 : env) : Prop :=
  e1.env_qsearch = e.env_qsearch ∧ e1.env_qfullpkgpath = e.env_qfullpkgpath ∧
  e1.env_qcats = e.env_qcats ∧ e1.env_qbycat = e.env_qbycat

/-- The prepared statements of the environment are reset, the one numbered
`skip` apart: 0 is `env_qsearch`, 1 `env_qfullpkgpath`, 2 `env_qcats`, 3
`env_qbycat`; with `skip = 4` all four are reset. -/
def stmts_idle (skip : Nat) (e : env) : Prop :=
  (skip ≠ 0 → e.env_qsearch.busy = false) ∧ (skip ≠ 1 → e.env_qfullpkgpath.busy = false) ∧
  (skip ≠ 2 → e.env_qcats.busy = false) ∧ (skip ≠ 3 → e.env_qbycat.busy = false)

/-- A handler, or the rest of one, returned or stopped on a null pointer; when
it returned, with 0 or -1, the four prepared statements are reset. -/
def returns_idle (r : res (Int × fcgi)) : Prop :=
  r = .undefined ∨
  ∃ (x : Int) (f1 : fcgi), r = .ok (x, f1) ∧ (x = 0 ∨ x = -1) ∧ stmts_idle 4 f1.fcg_env

/-- A call that appends to the response returned or stopped on a null
pointer; when it returned, with 0 or -1, the buffer of the request is sound and
the statements other than `skip` are reset. -/
def appends_idle (skip : Nat) (r : res (Int × fcgi × client)) : Prop :=
  r = .undefined ∨
  ∃ (x : Int) (f1 : fcgi) (clt1 : client),
    r = .ok (x, f1, clt1) ∧ (x = 0 ∨ x = -1) ∧ buf_ok clt1 ∧ stmts_idle skip f1.fcg_env

/-- The life of a connection between two of its states: `fcg_keep_conn`, once
0, stays 0; `fcg_done`, once set, stays set; `fcg_done` set implies
`fcg_keep_conn` 0 if it did before; reset statements are still reset; and
`fcgi_error` did not run, or it ran once, on the open connection. -/
def lived (f f1 : fcgi) : Prop :=
  (f.fcg_keep_conn = 0 → f1.fcg_keep_conn = 0) ∧
  (f.fcg_done ≠ 0 → f1.fcg_done ≠ 0) ∧
  ((f.fcg_done ≠ 0 → f.fcg_keep_conn = 0) → f1.fcg_done ≠ 0 → f1.fcg_keep_conn = 0) ∧
  (stmts_idle 4 f.fcg_env → stmts_idle 4 f1.fcg_env) ∧
  ((f1.fcg_freed = f.fcg_freed ∧ f1.fcg_env.fcgi_inflight = f.fcg_env.fcgi_inflight) ∨
    (f.fcg_freed = false ∧ f1.fcg_freed = true ∧
      f1.fcg_env.fcgi_inflight = f.fcg_env.fcgi_inflight - 1))

/-! # Theorems -/

/-! ## Machine arithmetic -/

theorem and_255 (n : Nat) : n &&& 255 = n % 256 := by
  simpa using Nat.and_pow_two_sub_one_eq_mod n 8

theorem and_127 (n : Nat) : n &&& 127 = n % 128 := by
  simpa using Nat.and_pow_two_sub_one_eq_mod n 7

theorem wrap32_of_range (x : Int) (h1 : -2147483648 ≤ x) (h2 : x < 2147483648) :
    wrap32 x = x := by
  unfold wrap32
  omega

theorem to_size_t_of_nat (n : Nat) (h : n < 18446744073709551616) : to_size_t (n : Int) = n := by
  unfold to_size_t
  omega

theorem CAT_split (n : Nat) : CAT (n &&& 0xFF) (n >>> 8) = n := by
  unfold CAT
  simp only [Nat.shiftRight_eq_div_pow, Nat.shiftLeft_eq, and_255]
  omega

theorem or_128_and_127 (a : Nat) (h : a < 128) : (a ||| 128) &&& 127 = a := by
  interval_cases a <;> rfl

theorem or_128_shift (a : Nat) (h : a < 128) : (a ||| 128) >>> 7 = 1 := by
  interval_cases a <;> rfl

theorem decode_long (n : Nat) (h : n < 2147483648) :
    ((((((n >>> 24) ||| 0x80) &&& 0x7F) <<< 24) ||| (((n >>> 16) &&& 0xFF) <<< 16)) |||
      (((n >>> 8) &&& 0xFF) <<< 8)) ||| (n &&& 0xFF) = n := by
  have ha : n >>> 24 < 128 := by
    simp only [Nat.shiftRight_eq_div_pow]; omega
  rw [or_128_and_127 _ ha]
  simp only [Nat.shiftRight_eq_div_pow, Nat.shiftLeft_eq, and_255]
  have e1 : n / 2 ^ 24 * 2 ^ 24 ||| n / 2 ^ 16 % 256 * 2 ^ 16
      = 2 ^ 16 * (n / 2 ^ 24 * 2 ^ 8 + n / 2 ^ 16 % 256) := by
    have := Nat.mul_add_lt_is_or (show n / 2 ^ 16 % 256 * 2 ^ 16 < 2 ^ 24 by omega) (n / 2 ^ 24)
    rw [show n / 2 ^ 24 * 2 ^ 24 = 2 ^ 24 * (n / 2 ^ 24) by ring, ← this]
    ring
  rw [e1]
  have e2 : 2 ^ 16 * (n / 2 ^ 24 * 2 ^ 8 + n / 2 ^ 16 % 256) ||| n / 2 ^ 8 % 256 * 2 ^ 8
      = 2 ^ 8 * (2 ^ 8 * (n / 2 ^ 24 * 2 ^ 8 + n / 2 ^ 16 % 256) + n / 2 ^ 8 % 256) := by
    have := Nat.mul_add_lt_is_or (show n / 2 ^ 8 % 256 * 2 ^ 8 < 2 ^ 16 by omega)
      (n / 2 ^ 24 * 2 ^ 8 + n / 2 ^ 16 % 256)
    rw [← this]
    ring
  rw [e2, ← Nat.mul_add_lt_is_or (show n % 256 < 2 ^ 8 by omega)]
  omega

/-! ## Lengths of name/value pairs (`parse_len`) -/

theorem encode_len_length (n : Nat) : (encode_len n).length = if n ≤ 127 then 1 else 4 := by
  unfold encode_len
  split <;> rfl

/-- The function `parse_len` on the reference encoding of a length. -/
theorem parse_len_encode (f : fcgi) (n : Nat) (rest : List Nat)
    (hn : n < 2147483648)
    (hin : f.fcg_bev.input = encode_len n ++ rest)
    (hlo : ((encode_len n).length : Int) ≤ f.fcg_toread)
    (hhi : f.fcg_toread ≤ 2147483647) :
    parse_len f = .ok ((n : Int),
      { f with
        fcg_toread := f.fcg_toread - ((encode_len n).length : Int)
        fcg_bev := { f.fcg_bev with input := rest } }) := by
  rw [encode_len_length] at hlo
  by_cases h : n ≤ 127
  · have henc : encode_len n = [n] := by simp [encode_len, h]
    have hs : n >>> 7 = 0 := by
      simp only [Nat.shiftRight_eq_div_pow]; omega
    simp only [h, if_true] at hlo
    rw [henc] at hin
    simp only [List.singleton_append] at hin
    have hw : wrap32 (f.fcg_toread - 1) = f.fcg_toread - 1 :=
      wrap32_of_range _ (by omega) (by omega)
    simp [parse_len, hin, hs, hw, henc]
  · have henc : encode_len n = [(n >>> 24) ||| 0x80, (n >>> 16) &&& 0xFF,
        (n >>> 8) &&& 0xFF, n &&& 0xFF] := by simp [encode_len, h]
    have ha : n >>> 24 < 128 := by
      simp only [Nat.shiftRight_eq_div_pow]; omega
    have hs : ((n >>> 24) ||| 0x80) >>> 7 ≠ 0 := by
      rw [or_128_shift _ ha]; decide
    simp only [h, if_false] at hlo
    rw [henc] at hin
    simp only [List.cons_append, List.nil_append] at hin
    have hw : wrap32 (f.fcg_toread - 1) = f.fcg_toread - 1 :=
      wrap32_of_range _ (by omega) (by omega)
    have hw3 : wrap32 (f.fcg_toread - 1 - 3) = f.fcg_toread - 4 := by
      rw [wrap32_of_range _ (by omega) (by omega)]; omega
    have h3 : ¬ f.fcg_toread - 1 < 3 := by
      have : (4 : Int) ≤ f.fcg_toread := by exact_mod_cast hlo
      omega
    have hd := decode_long n hn
    simp only [parse_len, hin, hs, hw, hw3, h3, if_false, henc, hd, List.length_cons,
      List.length_nil]
    norm_num

/-- C3: for every `n < 2^31`, `parse_len` applied to the reference encoding of
`n`, with at least that many bytes left in the record, returns `n`, removes
exactly the 1 byte (`n ≤ 127`) or 4 bytes (`n ≥ 128`) of the encoding from the
input and decrements `fcg_toread` by the same amount. -/
theorem parse_len_roundtrip (f : fcgi) (n : Nat) (rest : List Nat)
    (hn : n < 2147483648)
    (hin : f.fcg_bev.input = encode_len n ++ rest)
    (hlo : ((encode_len n).length : Int) ≤ f.fcg_toread)
    (hhi : f.fcg_toread ≤ 2147483647) :
    parse_len f = .ok ((n : Int),
      { f with
        fcg_toread := f.fcg_toread - ((encode_len n).length : Int)
        fcg_bev := { f.fcg_bev with input := rest } }) ∧
    (encode_len n).length = (if n ≤ 127 then 1 else 4) :=
  ⟨parse_len_encode f n rest hn hin hlo hhi, encode_len_length n⟩

theorem parse_len_roundtrip_witness :
    parse_len { fcgi_new 1 env_empty none with
        fcg_toread := 10
        fcg_bev := { input := encode_len 300 ++ [7], output := [], wfail := none } } =
      .ok ((300 : Int),
        { fcgi_new 1 env_empty none with
          fcg_toread := 10 - ((encode_len 300).length : Int)
          fcg_bev := { input := [7], output := [], wfail := none } }) :=
  (parse_len_roundtrip
    { fcgi_new 1 env_empty none with
      fcg_toread := 10
      fcg_bev := { input := encode_len 300 ++ [7], output := [], wfail := none } }
    300 [7] (by decide) rfl (by decide) (by decide)).1

/-! ## The header step of `fcgi_read` -/

theorem fcgi_read_header_eq (f : fcgi) (type id len padding reserved : Nat) (rest : List Nat)
    (hin : f.fcg_bev.input = fcgi_header type id len padding reserved ++ rest) :
    fcgi_read_header f = (true, header_done f type id len padding rest) := by
  have h1 := CAT_split id
  have h2 := CAT_split len
  have h3 : ¬ ((len : Int) < 0) := by omega
  have h4 : ¬ ((padding : Int) < 0) := by omega
  simp only [fcgi_read_header, set_input, hin, fcgi_header, FCGI_HEADER_LEN, FCGI_VERSION_1,
    header_done]
  simp [h1, h2, h3, h4]

theorem fcgi_read_loop_header (f : fcgi) (type id len padding reserved : Nat) (rest : List Nat)
    (hin : f.fcg_bev.input = fcgi_header type id len padding reserved ++ rest)
    (hw : f.fcg_want = FCGI_RECORD_HEADER) (ht : f.fcg_toread = 8) (fuel : Nat) :
    fcgi_read_loop (fuel + 1) f = fcgi_read_loop fuel (header_done f type id len padding rest) := by
  have hl : ¬ EVBUFFER_LENGTH f.fcg_bev.input < to_size_t f.fcg_toread := by
    rw [ht, hin]
    simp [EVBUFFER_LENGTH, fcgi_header, to_size_t]
  simp only [fcgi_read_loop, hl, if_false, hw, if_true,
    fcgi_read_header_eq f type id len padding reserved rest hin]

/-- C5: for every request id and content length below 65536 (and every type,
padding and reserved byte), the header step of `fcgi_read` decodes a header
laid out as version 1, type, id>>8, id&0xFF, len>>8, len&0xFF, padding,
reserved to the same type, id, content length (`fcg_toread`) and padding, and
moves to the body state; the loop of `fcgi_read` takes this step when it waits
for a header. -/
theorem fcgi_read_header_roundtrip (f : fcgi) (type id len padding reserved : Nat)
    (rest : List Nat) (hid : id < 65536) (hlen : len < 65536)
    (hin : f.fcg_bev.input = fcgi_header type id len padding reserved ++ rest) :
    fcgi_read_header f = (true,
      { f with
        fcg_want := FCGI_RECORD_BODY
        fcg_bev := { f.fcg_bev with input := rest }
        fcg_toread := (len : Int)
        fcg_padding := (padding : Int)
        fcg_type := type
        fcg_rec_id := id }) ∧
    (f.fcg_want = FCGI_RECORD_HEADER → f.fcg_toread = 8 → ∀ fuel : Nat,
      fcgi_read_loop (fuel + 1) f = fcgi_read_loop fuel
        { f with
          fcg_want := FCGI_RECORD_BODY
          fcg_bev := { f.fcg_bev with input := rest }
          fcg_toread := (len : Int)
          fcg_padding := (padding : Int)
          fcg_type := type
          fcg_rec_id := id }) :=
  ⟨fcgi_read_header_eq f type id len padding reserved rest hin,
    fun hw ht fuel => fcgi_read_loop_header f type id len padding reserved rest hin hw ht fuel⟩

theorem fcgi_read_header_roundtrip_witness :
    fcgi_read_header { fcgi_new 1 env_empty none with
        fcg_bev := { input := fcgi_header 4 513 1000 3 0 ++ [9], output := [], wfail := none } } =
      (true,
        { fcgi_new 1 env_empty none with
          fcg_want := FCGI_RECORD_BODY
          fcg_bev := { input := [9], output := [], wfail := none }
          fcg_toread := 1000
          fcg_padding := 3
          fcg_type := 4
          fcg_rec_id := 513 }) :=
  (fcgi_read_header_roundtrip
    { fcgi_new 1 env_empty none with
      fcg_bev := { input := fcgi_header 4 513 1000 3 0 ++ [9], output := [], wfail := none } }
    4 513 1000 3 0 [9] (by decide) (by decide) rfl).1

/-! ## The output buffer (`clt_flush`, `clt_write`) -/

theorem memcpy_length (dst src : List Nat) (off : Nat) (h : off + src.length ≤ dst.length) :
    (memcpy dst off src).length = dst.length := by
  simp [memcpy, List.length_take, List.length_drop]
  omega

theorem memcpy_take (dst src : List Nat) (off : Nat) (h : off + src.length ≤ dst.length) :
    (memcpy dst off src).take (off + src.length) = dst.take off ++ src := by
  unfold memcpy
  apply List.take_left'
  simp [List.length_take]
  omega

theorem emitted_refl (f : fcgi) (clt : client) (h : buf_ok clt) : emitted f clt f clt [] := by
  refine ⟨[], f.fcg_bev.wfail, clt.clt_buf, clt.clt_buflen, ?_, ?_, h.1, h.2, fun h => h, ?_, ?_⟩
  · simp [with_out]
  · simp [with_buf]
  · simp
  · simp

theorem emitted_trans (f f1 f2 : fcgi) (clt clt1 clt2 : client) (d1 d2 : List Nat)
    (h1 : emitted f clt f1 clt1 d1) (h2 : emitted f1 clt1 f2 clt2 d2) :
    emitted f clt f2 clt2 (d1 ++ d2) := by
  obtain ⟨ps1, w1, b1, n1, hf1, hc1, _, _, hw1, hd1, hp1⟩ := h1
  obtain ⟨ps2, w2, b2, n2, hf2, hc2, hb2, hn2, hw2, hd2, hp2⟩ := h2
  refine ⟨ps1 ++ ps2, w2, b2, n2, ?_, ?_, hb2, hn2, ?_, ?_, ?_⟩
  · rw [hf2, hf1, hc1]
    simp [with_out, with_buf, List.append_assoc]
  · rw [hc2, hc1]
    simp [with_buf]
  · intro h
    apply hw2
    rw [hf1]
    simpa [with_out] using hw1 h
  · rw [hc1] at hd2
    simp only [with_buf] at hd2
    rw [List.flatten_append, List.append_assoc, hd2, ← List.append_assoc, hd1,
      List.append_assoc]
  · intro p hp
    rcases List.mem_append.mp hp with h | h
    · exact hp1 p h
    · exact hp2 p h

theorem emitted_buf_ok (f f1 : fcgi) (clt clt1 : client) (d : List Nat)
    (h : emitted f clt f1 clt1 d) : buf_ok clt1 := by
  obtain ⟨_, _, b1, n1, _, hc1, hb, hn, _⟩ := h
  rw [hc1]
  exact ⟨hb, hn⟩

theorem emitted_wfail (f f1 : fcgi) (clt clt1 : client) (d : List Nat)
    (h : emitted f clt f1 clt1 d) (hw : f.fcg_bev.wfail = none) : f1.fcg_bev.wfail = none := by
  obtain ⟨_, w, _, _, hf1, _, _, _, hw1, _⟩ := h
  rw [hf1]
  simpa [with_out] using hw1 hw

/-- A successful `clt_flush` emits the buffered bytes as one record (none when
the buffer is empty) and empties the buffer; it succeeds when writes cannot fail. -/
theorem clt_flush_emitted (f : fcgi) (clt : client) (h : buf_ok clt) :
    ((clt_flush f clt).1 = 0 ∨ (clt_flush f clt).1 = -1) ∧
    (f.fcg_bev.wfail = none → (clt_flush f clt).1 = 0) ∧
    ((clt_flush f clt).1 = 0 →
      emitted f clt (clt_flush f clt).2.1 (clt_flush f clt).2.2 [] ∧
      (clt_flush f clt).2.2.clt_buflen = 0) := by
  obtain ⟨hb, hn⟩ := h
  by_cases h0 : clt.clt_buflen = 0
  · have e : clt_flush f clt = (0, f, clt) := by simp [clt_flush, h0]
    rw [e]
    exact ⟨Or.inl rfl, fun _ => rfl, fun _ => ⟨emitted_refl f clt ⟨hb, hn⟩, h0⟩⟩
  · have hlen : (clt.clt_buf.take clt.clt_buflen).length = clt.clt_buflen := by
      rw [List.length_take]; omega
    rcases hw : f.fcg_bev.wfail with _ | k
    · simp only [clt_flush, h0, if_false, bufferevent_write, hw]
      refine ⟨Or.inl (by simp), fun _ => by simp, fun _ => ⟨?_, by simp⟩⟩
      refine ⟨[clt.clt_buf.take clt.clt_buflen], none, clt.clt_buf, 0, ?_, ?_, hb,
        Nat.zero_le _, fun _ => rfl, by simp, ?_⟩
      · simp [with_out, stdout_record, hlen, hw, List.append_assoc]
      · simp [with_buf]
      · intro p hp
        simp only [List.mem_singleton] at hp
        rw [hp, hlen]
        exact ⟨Nat.pos_of_ne_zero h0, hn⟩
    · rcases k with _ | k
      · simp [clt_flush, h0, bufferevent_write, hw]
      · rcases k with _ | k
        · simp [clt_flush, h0, bufferevent_write, hw]
        · simp only [clt_flush, h0, if_false, bufferevent_write, hw]
          refine ⟨Or.inl (by simp), fun h => by simp at h, fun _ => ⟨?_, by simp⟩⟩
          refine ⟨[clt.clt_buf.take clt.clt_buflen], some k, clt.clt_buf, 0, ?_, ?_, hb,
            Nat.zero_le _, fun h => by simp [hw] at h, by simp, ?_⟩
          · simp [with_out, stdout_record, hlen, hw, List.append_assoc]
          · simp [with_buf]
          · intro p hp
            simp only [List.mem_singleton] at hp
            rw [hp, hlen]
            exact ⟨Nat.pos_of_ne_zero h0, hn⟩

theorem emitted_copy (f : fcgi) (clt : client) (data : List Nat) (h : buf_ok clt)
    (hfit : clt.clt_buflen + data.length ≤ CLT_BUF_SIZE) :
    emitted f clt f
      { clt with
        clt_buf := memcpy clt.clt_buf clt.clt_buflen data
        clt_buflen := clt.clt_buflen + data.length } data := by
  obtain ⟨hb, hn⟩ := h
  have hfit2 : clt.clt_buflen + data.length ≤ clt.clt_buf.length := by rw [hb]; exact hfit
  refine ⟨[], f.fcg_bev.wfail, memcpy clt.clt_buf clt.clt_buflen data,
    clt.clt_buflen + data.length, ?_, ?_, ?_, hfit, fun h => h, ?_, ?_⟩
  · simp [with_out]
  · simp [with_buf]
  · rw [memcpy_length _ _ _ hfit2, hb]
  · rw [memcpy_take _ _ _ hfit2]
    simp
  · simp

/-- The loop of `clt_write` returns with any fuel above the number of bytes to
append, with 0 or -1, with 0 when writes cannot fail, and a return of 0 means
the bytes were appended in order. -/
theorem clt_write_loop_emitted (fuel : Nat) :
    ∀ (f : fcgi) (clt : client) (buf : List Nat), buf.length < fuel → buf_ok clt →
    ∃ (r : Int) (f1 : fcgi) (clt1 : client),
      clt_write_loop fuel f clt buf = .ok (r, f1, clt1) ∧ (r = 0 ∨ r = -1) ∧
      (f.fcg_bev.wfail = none → r = 0) ∧ (r = 0 → emitted f clt f1 clt1 buf) := by
  induction fuel with
  | zero => intro f clt buf h; omega
  | succ fuel ih =>
    intro f clt buf hfuel hok
    by_cases hlen : buf.length > 0
    · have hleft : (CLT_BUF_SIZE + 18446744073709551616 - clt.clt_buflen) % 18446744073709551616
          = CLT_BUF_SIZE - clt.clt_buflen := by
        have := hok.2
        simp only [CLT_BUF_SIZE] at this ⊢
        omega
      by_cases hfull : CLT_BUF_SIZE - clt.clt_buflen = 0
      · -- the buffer is full: flush first
        obtain ⟨hr, hw, hem⟩ := clt_flush_emitted f clt hok
        rcases hfl : clt_flush f clt with ⟨r, f1, clt1⟩
        rw [hfl] at hr hw hem
        simp only at hr hw hem
        by_cases hr1 : r = -1
        · refine ⟨-1, f1, clt1, ?_, Or.inr rfl, ?_, ?_⟩
          · simp [clt_write_loop, hlen, hleft, hfull, hfl, hr1]
          · intro h; have := hw h; omega
          · intro h; omega
        · have hr0 : r = 0 := by omega
          obtain ⟨hem1, hzero⟩ := hem hr0
          have hok1 := emitted_buf_ok _ _ _ _ _ hem1
          have hfit : clt1.clt_buflen + (buf.take (min CLT_BUF_SIZE buf.length)).length
              ≤ CLT_BUF_SIZE := by
            rw [hzero, List.length_take]; simp only [CLT_BUF_SIZE]; omega
          have hcp := emitted_copy f1 clt1 (buf.take (min CLT_BUF_SIZE buf.length)) hok1 hfit
          have hlt : (buf.take (min CLT_BUF_SIZE buf.length)).length
              = min CLT_BUF_SIZE buf.length := by
            rw [List.length_take]; omega
          rw [hlt] at hcp
          have hok2 := emitted_buf_ok _ _ _ _ _ hcp
          have hdrop : (buf.drop (min CLT_BUF_SIZE buf.length)).length < fuel := by
            rw [List.length_drop]; simp only [CLT_BUF_SIZE]; omega
          obtain ⟨r2, f2, clt2, he, hr2, hw2, hem2⟩ := ih f1 _ _ hdrop hok2
          refine ⟨r2, f2, clt2, ?_, hr2, ?_, ?_⟩
          · simp [clt_write_loop, hlen, hleft, hfull, hfl, hr1, he]
          · intro h
            exact hw2 (emitted_wfail _ _ _ _ _ hem1 h)
          · intro h
            have := emitted_trans _ _ _ _ _ _ _ _ (emitted_trans _ _ _ _ _ _ _ _ hem1 hcp)
              (hem2 h)
            simpa [List.take_append_drop] using this
      · have hfit : clt.clt_buflen + (buf.take (min (CLT_BUF_SIZE - clt.clt_buflen)
            buf.length)).length ≤ CLT_BUF_SIZE := by
          have := hok.2
          rw [List.length_take]; simp only [CLT_BUF_SIZE] at this ⊢; omega
        have hcp := emitted_copy f clt (buf.take (min (CLT_BUF_SIZE - clt.clt_buflen)
          buf.length)) hok hfit
        have hlt : (buf.take (min (CLT_BUF_SIZE - clt.clt_buflen) buf.length)).length
            = min (CLT_BUF_SIZE - clt.clt_buflen) buf.length := by
          rw [List.length_take]; omega
        rw [hlt] at hcp
        have hok2 := emitted_buf_ok _ _ _ _ _ hcp
        have hdrop : (buf.drop (min (CLT_BUF_SIZE - clt.clt_buflen) buf.length)).length
            < fuel := by
          rw [List.length_drop]; omega
        obtain ⟨r2, f2, clt2, he, hr2, hw2, hem2⟩ := ih f _ _ hdrop hok2
        refine ⟨r2, f2, clt2, ?_, hr2, hw2, ?_⟩
        · simp [clt_write_loop, hlen, hleft, hfull, he]
        · intro h
          have := emitted_trans _ _ _ _ _ _ _ _ hcp (hem2 h)
          simpa [List.take_append_drop] using this
    · have hnil : buf = [] := by
        cases buf with
        | nil => rfl
        | cons a t => simp at hlen
      subst hnil
      refine ⟨0, f, clt, ?_, Or.inl rfl, fun _ => rfl, fun _ => emitted_refl f clt hok⟩
      simp [clt_write_loop]

/-- The function `clt_write` returns (its fuel suffices), with 0 or -1, with 0
when writes cannot fail, and a return of 0 means the bytes were appended. -/
theorem clt_write_emitted (f : fcgi) (clt : client) (buf : List Nat) (hok : buf_ok clt) :
    ∃ (r : Int) (f1 : fcgi) (clt1 : client),
      clt_write f clt buf = .ok (r, f1, clt1) ∧ (r = 0 ∨ r = -1) ∧
      (f.fcg_bev.wfail = none → r = 0) ∧ (r = 0 → emitted f clt f1 clt1 buf) :=
  clt_write_loop_emitted (buf.length + 1) f clt buf (Nat.lt_succ_self _) hok

theorem run_op_emitted (f : fcgi) (clt : client) (op : append_op) (hok : buf_ok clt) :
    ∃ (r : Int) (f1 : fcgi) (clt1 : client),
      run_op f clt op = .ok (r, f1, clt1) ∧ (r = 0 ∨ r = -1) ∧
      (f.fcg_bev.wfail = none → r = 0) ∧ (r = 0 → emitted f clt f1 clt1 op.payload) := by
  cases op with
  | write buf => exact clt_write_emitted f clt buf hok
  | puts str => exact clt_write_emitted f clt (cstr str) hok
  | putc ch => exact clt_write_emitted f clt [ch] hok

theorem run_ops_emitted (ops : List append_op) :
    ∀ (f : fcgi) (clt : client), buf_ok clt →
    ∃ (r : Int) (f1 : fcgi) (clt1 : client),
      run_ops f clt ops = .ok (r, f1, clt1) ∧ (r = 0 ∨ r = -1) ∧
      (f.fcg_bev.wfail = none → r = 0) ∧
      (r = 0 → emitted f clt f1 clt1 (ops.map append_op.payload).flatten) := by
  induction ops with
  | nil =>
    intro f clt hok
    exact ⟨0, f, clt, rfl, Or.inl rfl, fun _ => rfl, fun _ => emitted_refl f clt hok⟩
  | cons op rest ih =>
    intro f clt hok
    obtain ⟨r, f1, clt1, he, hr, hw, hem⟩ := run_op_emitted f clt op hok
    by_cases hr1 : r = -1
    · refine ⟨-1, f1, clt1, ?_, Or.inr rfl, ?_, ?_⟩
      · simp [run_ops, he, hr1]
      · intro h; have := hw h; omega
      · intro h; omega
    · have hr0 : r = 0 := by omega
      have hem1 := hem hr0
      obtain ⟨r2, f2, clt2, he2, hr2, hw2, hem2⟩ := ih f1 clt1 (emitted_buf_ok _ _ _ _ _ hem1)
      refine ⟨r2, f2, clt2, ?_, hr2, ?_, ?_⟩
      · simp [run_ops, he, hr1, he2]
      · intro h
        exact hw2 (emitted_wfail _ _ _ _ _ hem1 h)
      · intro h
        have := emitted_trans _ _ _ _ _ _ _ _ hem1 (hem2 h)
        simpa using this

/-- C2: for every request and every sequence of `clt_write` / `clt_puts` /
`clt_putc` appends, the calls return (0 or -1, and 0 when no write can fail),
and when none of them failed the payloads of the `FCGI_STDOUT` records emitted
for the request, followed by the bytes still held in the request buffer, are
the bytes buffered before followed by all appended byte strings in order. -/
theorem clt_appends_keep_bytes (f : fcgi) (clt : client) (ops : List append_op)
    (hbuf : clt.clt_buf.length = CLT_BUF_SIZE) (hlen : clt.clt_buflen ≤ CLT_BUF_SIZE) :
    ∃ (r : Int) (f1 : fcgi) (clt1 : client),
      run_ops f clt ops = .ok (r, f1, clt1) ∧ (r = 0 ∨ r = -1) ∧
      (f.fcg_bev.wfail = none → r = 0) ∧
      (r = 0 → ∃ ps : List (List Nat),
        f1.fcg_bev.output =
          f.fcg_bev.output ++ (ps.map (stdout_record clt.clt_id)).flatten ∧
        ps.flatten ++ clt1.clt_buf.take clt1.clt_buflen =
          clt.clt_buf.take clt.clt_buflen ++ (ops.map append_op.payload).flatten ∧
        (∀ p ∈ ps, 0 < p.length ∧ p.length ≤ CLT_BUF_SIZE) ∧
        clt1.clt_id = clt.clt_id ∧ clt1.clt_buflen ≤ CLT_BUF_SIZE) := by
  obtain ⟨r, f1, clt1, he, hr, hw, hem⟩ := run_ops_emitted ops f clt ⟨hbuf, hlen⟩
  refine ⟨r, f1, clt1, he, hr, hw, fun h => ?_⟩
  obtain ⟨ps, w, b1, n1, hf1, hc1, _, hn1, _, hd, hp⟩ := hem h
  refine ⟨ps, ?_, ?_, hp, ?_, ?_⟩
  · rw [hf1]; simp [with_out]
  · rw [hc1]; simpa [with_buf] using hd
  · rw [hc1]; simp [with_buf]
  · rw [hc1]; simpa [with_buf] using hn1

theorem clt_appends_keep_bytes_witness :
    ∃ (r : Int) (f1 : fcgi) (clt1 : client),
      run_ops (fcgi_new 1 env_empty none) (client_calloc 1)
        [.write (List.replicate 1500 65), .puts (bytes "ab"), .putc 10] = .ok (r, f1, clt1) ∧
      (r = 0 ∨ r = -1) ∧
      ((fcgi_new 1 env_empty none).fcg_bev.wfail = none → r = 0) ∧
      (r = 0 → ∃ ps : List (List Nat),
        f1.fcg_bev.output = (fcgi_new 1 env_empty none).fcg_bev.output ++
          (ps.map (stdout_record (client_calloc 1).clt_id)).flatten ∧
        ps.flatten ++ clt1.clt_buf.take clt1.clt_buflen =
          (client_calloc 1).clt_buf.take (client_calloc 1).clt_buflen ++
            (([.write (List.replicate 1500 65), .puts (bytes "ab"), .putc 10] :
              List append_op).map append_op.payload).flatten ∧
        (∀ p ∈ ps, 0 < p.length ∧ p.length ≤ CLT_BUF_SIZE) ∧
        clt1.clt_id = (client_calloc 1).clt_id ∧ clt1.clt_buflen ≤ CLT_BUF_SIZE) :=
  clt_appends_keep_bytes (fcgi_new 1 env_empty none) (client_calloc 1)
    [.write (List.replicate 1500 65), .puts (bytes "ab"), .putc 10]
    (by simp [client_calloc, client_zero]) (by decide)

/-! ## End of a request (`end_request`) -/

theorem fcgi_client_cmp_eq_zero (a b : client) (ha : a.clt_id < 4294967296)
    (hb : b.clt_id < 4294967296) : (fcgi_client_cmp a b == 0) = (a.clt_id == b.clt_id) := by
  have h : fcgi_client_cmp a b = 0 ↔ a.clt_id = b.clt_id := by
    unfold fcgi_client_cmp wrap32
    omega
  by_cases e : a.clt_id = b.clt_id
  · simp [e, h.mpr e]
  · have : ¬ fcgi_client_cmp a b = 0 := fun x => e (h.mp x)
    simp [e, this]

theorem SPLAY_REMOVE_eq_filter (t : List client) (e : client) (he : e.clt_id < 4294967296)
    (ht : ∀ c ∈ t, c.clt_id < 4294967296) :
    SPLAY_REMOVE t e = t.filter (fun c => c.clt_id != e.clt_id) := by
  unfold SPLAY_REMOVE
  apply List.filter_congr
  intro c hc
  rw [fcgi_client_cmp_eq_zero e c he (ht c hc)]
  by_cases h : e.clt_id = c.clt_id
  · simp [h]
  · have h2 : ¬ c.clt_id = e.clt_id := fun x => h x.symm
    have h3 : (e.clt_id == c.clt_id) = false := by simpa using h
    have h4 : (c.clt_id != e.clt_id) = true := by simpa using h2
    rw [h3, h4]
    rfl

/-- A successful `clt_flush` writes exactly one record with the buffered bytes
(nothing when the buffer is empty) and resets the cursor. -/
theorem clt_flush_exact (f : fcgi) (clt : client) (hlen : clt.clt_buflen ≤ clt.clt_buf.length) :
    (f.fcg_bev.wfail = none → (clt_flush f clt).1 = 0) ∧
    ((clt_flush f clt).1 = 0 → ∃ w : Option Nat,
      (f.fcg_bev.wfail = none → w = none) ∧
      (clt_flush f clt).2.1 = with_out f (f.fcg_bev.output ++
        (if clt.clt_buflen = 0 then [] else
          stdout_record clt.clt_id (clt.clt_buf.take clt.clt_buflen))) w ∧
      (clt_flush f clt).2.2 = with_buf clt clt.clt_buf 0) := by
  have hl : (clt.clt_buf.take clt.clt_buflen).length = clt.clt_buflen := by
    rw [List.length_take]; omega
  by_cases h0 : clt.clt_buflen = 0
  · have e : clt_flush f clt = (0, f, clt) := by simp [clt_flush, h0]
    rw [e]
    refine ⟨fun _ => rfl, fun _ => ⟨f.fcg_bev.wfail, fun h => h, ?_, ?_⟩⟩
    · simp [with_out, h0]
    · cases clt; simp_all [with_buf]
  · rcases hw : f.fcg_bev.wfail with _ | k
    · simp only [clt_flush, h0, if_false, bufferevent_write, hw]
      refine ⟨fun _ => by simp, fun _ => ⟨none, fun _ => rfl, ?_, ?_⟩⟩
      · simp [with_out, stdout_record, hl, hw, List.append_assoc]
      · simp [with_buf]
    · rcases k with _ | k
      · simp [clt_flush, h0, bufferevent_write, hw]
      · rcases k with _ | k
        · simp [clt_flush, h0, bufferevent_write, hw]
        · simp only [clt_flush, h0, if_false, bufferevent_write, hw]
          refine ⟨fun h => by simp at h, fun _ => ⟨some k, fun h => by simp at h, ?_, ?_⟩⟩
          · simp [with_out, stdout_record, hl, hw, List.append_assoc]
          · simp [with_buf]

/-- A successful `fcgi_send_end_req` writes exactly the `END_REQUEST` record. -/
theorem fcgi_send_end_req_exact (f : fcgi) (id : Nat) (as ps : Int) :
    (f.fcg_bev.wfail = none → (fcgi_send_end_req f id as ps).1 = 0) ∧
    ((fcgi_send_end_req f id as ps).1 = 0 → ∃ w : Option Nat,
      (f.fcg_bev.wfail = none → w = none) ∧
      (fcgi_send_end_req f id as ps).2 =
        with_out f (f.fcg_bev.output ++ end_record id as ps) w) := by
  rcases hw : f.fcg_bev.wfail with _ | k
  · simp only [fcgi_send_end_req, bufferevent_write, hw]
    refine ⟨fun _ => by simp, fun _ => ⟨none, fun _ => rfl, ?_⟩⟩
    simp [with_out, end_record, hw, List.append_assoc]
  · rcases k with _ | k
    · simp [fcgi_send_end_req, bufferevent_write, hw]
    · rcases k with _ | k
      · simp [fcgi_send_end_req, bufferevent_write, hw]
      · simp only [fcgi_send_end_req, bufferevent_write, hw]
        refine ⟨fun h => by simp at h, fun _ => ⟨some k, fun h => by simp at h, ?_⟩⟩
        simp [with_out, end_record, hw, List.append_assoc]

/-- What a successful `end_request` leaves: the output gained the flushed
record and the `END_REQUEST` record, the request left the tree, `fcg_done` is
set when `fcg_keep_conn` is 0, and nothing else changed. -/
theorem end_request_exact (f : fcgi) (clt : client) (status proto_status : Int)
    (hlen : clt.clt_buflen ≤ clt.clt_buf.length) :
    (f.fcg_bev.wfail = none → (end_request f clt status proto_status).1 = 0) ∧
    ((end_request f clt status proto_status).1 = 0 → ∃ w : Option Nat,
      (f.fcg_bev.wfail = none → w = none) ∧
      (end_request f clt status proto_status).2 =
        { with_out f (f.fcg_bev.output ++
            (if clt.clt_buflen = 0 then [] else
              stdout_record clt.clt_id (clt.clt_buf.take clt.clt_buflen)) ++
            end_record clt.clt_id status proto_status) w with
          fcg_clients := SPLAY_REMOVE f.fcg_clients clt
          fcg_done := if f.fcg_keep_conn = 0 then 1 else f.fcg_done }) := by
  obtain ⟨hfw, hfe⟩ := clt_flush_exact f clt hlen
  rcases hfl : clt_flush f clt with ⟨r, f1, clt1⟩
  rw [hfl] at hfw hfe
  simp only at hfw hfe
  by_cases hr : r = -1
  · have e : (end_request f clt status proto_status).1 = -1 := by
      simp [end_request, hfl, hr]
    refine ⟨fun h => ?_, fun h => ?_⟩
    · have := hfw h; omega
    · rw [e] at h; omega
  · by_cases hr0 : r = 0
    · obtain ⟨w1, hw1, hf1, hc1⟩ := hfe hr0
      obtain ⟨hsw, hse⟩ := fcgi_send_end_req_exact f1 clt1.clt_id status proto_status
      have hid : clt1.clt_id = clt.clt_id := by rw [hc1]; rfl
      have hrem : ∀ t, SPLAY_REMOVE t clt1 = SPLAY_REMOVE t clt := by
        intro t
        simp [SPLAY_REMOVE, fcgi_client_cmp, hid]
      by_cases hs : (fcgi_send_end_req f1 clt1.clt_id status proto_status).1 = -1
      · have e : (end_request f clt status proto_status).1 = -1 := by
          simp [end_request, hfl, hr, hs]
        refine ⟨fun h => ?_, fun h => ?_⟩
        · have h1 : f1.fcg_bev.wfail = none := by
            rw [hf1]; simpa [with_out] using hw1 h
          have := hsw h1; omega
        · rw [e] at h; omega
      · by_cases hs0 : (fcgi_send_end_req f1 clt1.clt_id status proto_status).1 = 0
        · obtain ⟨w2, hw2, hf2⟩ := hse hs0
          have e : (end_request f clt status proto_status).1 = 0 := by
            simp only [end_request, hfl, hr, hs, if_false]
            split <;> rfl
          refine ⟨fun _ => e, fun _ => ⟨w2, fun h => ?_, ?_⟩⟩
          · apply hw2
            rw [hf1]; simpa [with_out] using hw1 h
          · simp only [end_request, hfl, hr, hs, if_false]
            rw [hf2, hid, hf1]
            by_cases hk : f.fcg_keep_conn = 0
            · simp [with_out, hk, hrem, List.append_assoc]
            · simp [with_out, hk, hrem, List.append_assoc]
        · exfalso
          have : ∀ g : fcgi, (fcgi_send_end_req g clt1.clt_id status proto_status).1 = 0 ∨
              (fcgi_send_end_req g clt1.clt_id status proto_status).1 = -1 := by
            intro g
            simp only [fcgi_send_end_req]
            split
            · right; rfl
            · split
              · right; rfl
              · left; rfl
          rcases this f1 with h | h
          · exact hs0 h
          · exact hs h
    · exfalso
      have : (clt_flush f clt).1 = 0 ∨ (clt_flush f clt).1 = -1 := by
        simp only [clt_flush]
        split
        · left; rfl
        · split
          · right; rfl
          · split
            · right; rfl
            · left; rfl
      rw [hfl] at this
      simp only at this
      omega

/-- C6: `end_request` succeeds when writes cannot fail, and when it succeeds
for a request holding `n` buffered bytes the outbound queue gains, in this
order, one `FCGI_STDOUT` record carrying exactly those `n` bytes (no record
when `n = 0`) and the `END_REQUEST` record of the request with the given
statuses; afterwards the request is no longer in the request table and the
other requests of the table are as before, in the same order. -/
theorem end_request_flushes_then_ends (f : fcgi) (clt : client) (status proto_status : Int)
    (hbuf : clt.clt_buf.length = CLT_BUF_SIZE) (hlen : clt.clt_buflen ≤ CLT_BUF_SIZE)
    (hid : clt.clt_id < 4294967296) (hids : ∀ c ∈ f.fcg_clients, c.clt_id < 4294967296) :
    (f.fcg_bev.wfail = none → (end_request f clt status proto_status).1 = 0) ∧
    ((end_request f clt status proto_status).1 = 0 →
      (end_request f clt status proto_status).2.fcg_bev.output =
        f.fcg_bev.output ++
          (if clt.clt_buflen = 0 then [] else
            stdout_record clt.clt_id (clt.clt_buf.take clt.clt_buflen)) ++
          end_record clt.clt_id status proto_status ∧
      (clt.clt_buf.take clt.clt_buflen).length = clt.clt_buflen ∧
      (end_request f clt status proto_status).2.fcg_clients =
        f.fcg_clients.filter (fun c => c.clt_id != clt.clt_id) ∧
      (∀ c, c ∈ (end_request f clt status proto_status).2.fcg_clients ↔
        c ∈ f.fcg_clients ∧ c.clt_id ≠ clt.clt_id)) := by
  have hl : clt.clt_buflen ≤ clt.clt_buf.length := by rw [hbuf]; exact hlen
  obtain ⟨h1, h2⟩ := end_request_exact f clt status proto_status hl
  refine ⟨h1, fun h => ?_⟩
  obtain ⟨w, _, he⟩ := h2 h
  have hc : (end_request f clt status proto_status).2.fcg_clients =
      f.fcg_clients.filter (fun c => c.clt_id != clt.clt_id) := by
    rw [he]
    exact SPLAY_REMOVE_eq_filter _ _ hid hids
  refine ⟨?_, ?_, hc, ?_⟩
  · rw [he]; simp [with_out]
  · rw [List.length_take]; omega
  · intro c
    rw [hc]
    simp

set_option maxRecDepth 100000 in
theorem end_request_flushes_then_ends_witness :
    (end_request { fcgi_new 1 env_empty none with fcg_clients := [client_calloc 1, client_calloc 2] }
      { client_calloc 1 with clt_buflen := 2 } 0 0).1 = 0 ∧
    (end_request { fcgi_new 1 env_empty none with fcg_clients := [client_calloc 1, client_calloc 2] }
      { client_calloc 1 with clt_buflen := 2 } 0 0).2.fcg_bev.output =
      [] ++ (if 2 = 0 then [] else stdout_record 1 [0, 0]) ++ end_record 1 0 0 ∧
    (end_request { fcgi_new 1 env_empty none with fcg_clients := [client_calloc 1, client_calloc 2] }
      { client_calloc 1 with clt_buflen := 2 } 0 0).2.fcg_clients =
      [client_calloc 2] :=
  have h := end_request_flushes_then_ends
    { fcgi_new 1 env_empty none with fcg_clients := [client_calloc 1, client_calloc 2] }
    { client_calloc 1 with clt_buflen := 2 } 0 0 (by decide) (by decide) (by decide) (by decide)
  ⟨h.1 rfl, (h.2 (h.1 rfl)).1, (h.2 (h.1 rfl)).2.2.1⟩



/-! ## One record through `fcgi_read` -/

theorem fcgi_read_loop_wait (f : fcgi) (fuel : Nat)
    (h : EVBUFFER_LENGTH f.fcg_bev.input < to_size_t f.fcg_toread) :
    fcgi_read_loop (fuel + 1) f = .ok f := by
  simp [fcgi_read_loop, h]

theorem fcgi_read_loop_body (f : fcgi) (fuel : Nat) (hw : f.fcg_want = FCGI_RECORD_BODY)
    (h : ¬ EVBUFFER_LENGTH f.fcg_bev.input < to_size_t f.fcg_toread) :
    fcgi_read_loop (fuel + 1) f =
      match fcgi_read_body f with
      | .undefined => .undefined
      | .nofuel => .nofuel
      | .ok (true, f1) => fcgi_read_loop fuel f1
      | .ok (false, f1) => .ok f1 := by
  have hne : ¬ f.fcg_want = FCGI_RECORD_HEADER := by rw [hw]; decide
  simp only [fcgi_read_loop, h, if_false, hne]

/-- A whole record arriving on an idle connection: `fcgi_read` reads the
header, runs the body step on it and, when that step goes on, stops in front of
the empty buffer. -/
theorem readcb_record (f : fcgi) (type id : Nat) (content padding : List Nat) (hidle : idle f)
    (hlen : content.length < 65536) :
    bufferevent_readcb f (fcgi_record type id content padding) =
      match fcgi_read_body
        (header_done f type id content.length padding.length (content ++ padding)) with
      | .undefined => .undefined
      | .nofuel => .nofuel
      | .ok (true, f1) => fcgi_read_loop (content.length + padding.length + 8) f1
      | .ok (false, f1) => .ok f1 := by
  obtain ⟨hfree, hwant, htoread, hin⟩ := hidle
  have hrec : (set_input f (f.fcg_bev.input ++ fcgi_record type id content padding)).fcg_bev.input
      = fcgi_header type id content.length padding.length 0 ++ (content ++ padding) := by
    simp [set_input, hin, fcgi_record, List.append_assoc]
  have hfuel : (set_input f (f.fcg_bev.input ++ fcgi_record type id content padding)).fcg_bev.input.length + 2
      = (content.length + padding.length + 8) + 1 + 1 := by
    rw [hrec]
    simp [fcgi_header]
  have hd : header_done (set_input f (f.fcg_bev.input ++ fcgi_record type id content padding))
      type id content.length padding.length (content ++ padding)
      = header_done f type id content.length padding.length (content ++ padding) := by
    simp [header_done, set_input]
  simp only [bufferevent_readcb, hfree, Bool.false_eq_true, if_false, fcgi_read]
  rw [hfuel, fcgi_read_loop_header _ type id content.length padding.length 0 (content ++ padding)
    hrec (by simpa [set_input] using hwant) (by simpa [set_input] using htoread), hd]
  apply fcgi_read_loop_body
  · rfl
  · simp only [header_done, EVBUFFER_LENGTH, List.length_append]
    rw [to_size_t_of_nat _ (by omega)]
    omega

theorem bev_eta (b : bufferevent) (l : List Nat) (h : b.input = l) :
    ({ input := l, output := b.output, wfail := b.wfail } : bufferevent) = b := by
  cases b
  simp_all

theorem fcgi_send_end_req_none (f : fcgi) (id : Nat) (as ps : Int)
    (hw : f.fcg_bev.wfail = none) :
    fcgi_send_end_req f id as ps =
      (0, with_out f (f.fcg_bev.output ++ end_record id as ps) none) := by
  simp [fcgi_send_end_req, bufferevent_write, hw, with_out, end_record, List.append_assoc]

/-- The state after "Prepare for the next record" when the padding that is
left in the buffer is exactly the padding of the record. -/
theorem next_record_padding (f : fcgi) (padding : List Nat) (hp : padding.length < 256)
    (hin : f.fcg_bev.input = padding) (hpad : f.fcg_padding = (padding.length : Int)) :
    next_record f =
      { f with
        fcg_bev := { f.fcg_bev with input := [] }
        fcg_want := FCGI_RECORD_HEADER
        fcg_toread := 8 } := by
  simp only [next_record, set_input, evbuffer_drain, hin, hpad]
  rw [to_size_t_of_nat _ (by omega)]
  simp [FCGI_HEADER_LEN]

/-! ## `BEGIN_REQUEST` with an unknown role -/

/-- C8: a `BEGIN_REQUEST` record with an 8-byte body whose role is not 1,
arriving on an idle connection whose writes do not fail, appends to the
outbound queue exactly one `END_REQUEST` record carrying the record's id,
app-status 1 and protocol-status 3 (`UNKNOWN_ROLE`) and nothing else, and
leaves the request table, `fcg_keep_conn` and `fcg_done` as they were: the
connection only remembers the decoded header. -/
theorem begin_request_unknown_role (f : fcgi) (id role flags : Nat) (padding : List Nat)
    (hidle : idle f) (hw : f.fcg_bev.wfail = none)
    (hid : id < 65536) (hrole : role < 65536) (hne : role ≠ 1)
    (hpad : padding.length < 256) :
    bufferevent_readcb f (fcgi_record FCGI_BEGIN_REQUEST id (begin_body role flags) padding) =
      .ok { f with
        fcg_bev := { f.fcg_bev with output := f.fcg_bev.output ++ end_record id 1 3 }
        fcg_padding := (padding.length : Int)
        fcg_type := FCGI_BEGIN_REQUEST
        fcg_rec_id := id } := by
  have hl : (begin_body role flags).length = 8 := rfl
  rw [readcb_record f _ id _ padding hidle (by rw [hl]; decide)]
  obtain ⟨hfree, hwant, htoread, hin⟩ := hidle
  have hcat : CAT (role &&& 255) (role >>> 8) = role := CAT_split role
  have hbody : fcgi_read_body (header_done f FCGI_BEGIN_REQUEST id (begin_body role flags).length
      padding.length (begin_body role flags ++ padding)) =
      .ok (true, { f with
        fcg_bev := { f.fcg_bev with output := f.fcg_bev.output ++ end_record id 1 3 }
        fcg_padding := (padding.length : Int)
        fcg_type := FCGI_BEGIN_REQUEST
        fcg_rec_id := id }) := by
    simp only [fcgi_read_body, header_done, hl, begin_body, set_input, FCGI_BEGIN_REQUEST,
      if_true, List.cons_append, List.nil_append, List.take, List.drop, List.getD_cons_zero,
      List.getD_cons_succ, hcat, FCGI_RESPONDER, hne, if_false, ne_eq, not_false_eq_true,
      Nat.cast_ofNat, not_true_eq_false, FCGI_UNKNOWN_ROLE]
    rw [fcgi_send_end_req_none _ _ _ _ (by simpa using hw)]
    simp only [if_false, with_out]
    rw [next_record_padding _ padding hpad rfl rfl]
    simp [hwant, htoread, hw, FCGI_RECORD_HEADER]
    exact hin
  rw [hbody]
  apply fcgi_read_loop_wait
  simp [EVBUFFER_LENGTH, hin, htoread, to_size_t]

theorem begin_request_unknown_role_witness :
    bufferevent_readcb (fcgi_new 1 env_empty none)
      (fcgi_record FCGI_BEGIN_REQUEST 7 (begin_body 2 1) [0, 0]) =
      .ok { fcgi_new 1 env_empty none with
        fcg_bev := { (fcgi_new 1 env_empty none).fcg_bev with
          output := (fcgi_new 1 env_empty none).fcg_bev.output ++ end_record 7 1 3 }
        fcg_padding := (([0, 0] : List Nat).length : Int)
        fcg_type := FCGI_BEGIN_REQUEST
        fcg_rec_id := 7 } :=
  begin_request_unknown_role (fcgi_new 1 env_empty none) 7 2 1 [0, 0] ⟨rfl, rfl, rfl, rfl⟩ rfl
    (by decide) (by decide) (by decide) (by decide)

/-! ## Lookup in the client tree -/

theorem SPLAY_FIND_some (t : List client) (id : Nat) (hid : id < 4294967296)
    (ht : ∀ c ∈ t, c.clt_id < 4294967296) (hact : ∃ c ∈ t, c.clt_id = id) :
    ∃ c, SPLAY_FIND t { client_zero with clt_id := id } = some c ∧ c ∈ t ∧ c.clt_id = id := by
  obtain ⟨c0, hc0, hc0id⟩ := hact
  have hsome : (SPLAY_FIND t { client_zero with clt_id := id }).isSome := by
    unfold SPLAY_FIND
    rw [List.find?_isSome]
    refine ⟨c0, hc0, ?_⟩
    rw [fcgi_client_cmp_eq_zero _ _ hid (ht c0 hc0)]
    simp [hc0id]
  obtain ⟨c, hc⟩ := Option.isSome_iff_exists.mp hsome
  refine ⟨c, hc, ?_, ?_⟩
  · exact List.mem_of_find?_eq_some hc
  · have h1 := List.find?_some hc
    have hmem := List.mem_of_find?_eq_some hc
    rw [fcgi_client_cmp_eq_zero _ _ hid (ht c hmem)] at h1
    have h2 : id = c.clt_id := by simpa using h1
    exact h2.symm

theorem SPLAY_FIND_none (t : List client) (id : Nat) (hid : id < 4294967296)
    (ht : ∀ c ∈ t, c.clt_id < 4294967296) (hfresh : ∀ c ∈ t, c.clt_id ≠ id) :
    SPLAY_FIND t { client_zero with clt_id := id } = none := by
  unfold SPLAY_FIND
  rw [List.find?_eq_none]
  intro c hc
  rw [fcgi_client_cmp_eq_zero _ _ hid (ht c hc)]
  have := hfresh c hc
  simp
  exact fun h => this h.symm

theorem end_request_none (f : fcgi) (clt : client) (status proto_status : Int)
    (hlen : clt.clt_buflen ≤ clt.clt_buf.length) (hw : f.fcg_bev.wfail = none) :
    end_request f clt status proto_status =
      (0, { with_out f (f.fcg_bev.output ++
            (if clt.clt_buflen = 0 then [] else
              stdout_record clt.clt_id (clt.clt_buf.take clt.clt_buflen)) ++
            end_record clt.clt_id status proto_status) none with
          fcg_clients := SPLAY_REMOVE f.fcg_clients clt
          fcg_done := if f.fcg_keep_conn = 0 then 1 else f.fcg_done }) := by
  obtain ⟨h1, h2⟩ := end_request_exact f clt status proto_status hlen
  obtain ⟨w, hw1, he⟩ := h2 (h1 hw)
  rw [hw1 hw] at he
  exact Prod.ext (h1 hw) he

/-! ## `ABORT_REQUEST` -/

/-- C9: an `ABORT_REQUEST` record for an active request id, arriving on an idle
connection whose writes do not fail and whose requests hold no buffered output
(none has been dispatched), appends to the outbound queue exactly one
`END_REQUEST` record for that id with app-status 1 and protocol-status 0,
removes the request from the request table, and sets `fcg_done` when
`fcg_keep_conn` is 0: once the output is sent the connection is closed exactly
when keep-conn was not set (or the connection was done already). -/
theorem abort_request_active (f : fcgi) (id : Nat) (padding : List Nat)
    (hidle : idle f) (hw : f.fcg_bev.wfail = none) (hid : id < 65536)
    (hpad : padding.length < 256)
    (hids : ∀ c ∈ f.fcg_clients, c.clt_id < 4294967296)
    (hact : ∃ c ∈ f.fcg_clients, c.clt_id = id)
    (hbuf : ∀ c ∈ f.fcg_clients, c.clt_buflen = 0) :
    bufferevent_readcb f (fcgi_record FCGI_ABORT_REQUEST id [] padding) =
      .ok { f with
        fcg_clients := f.fcg_clients.filter (fun c => c.clt_id != id)
        fcg_bev := { f.fcg_bev with output := f.fcg_bev.output ++ end_record id 1 0 }
        fcg_padding := (padding.length : Int)
        fcg_type := FCGI_ABORT_REQUEST
        fcg_rec_id := id
        fcg_done := if f.fcg_keep_conn = 0 then 1 else f.fcg_done } ∧
    ((bufferevent_writecb { f with
        fcg_clients := f.fcg_clients.filter (fun c => c.clt_id != id)
        fcg_bev := { f.fcg_bev with output := f.fcg_bev.output ++ end_record id 1 0 }
        fcg_padding := (padding.length : Int)
        fcg_type := FCGI_ABORT_REQUEST
        fcg_rec_id := id
        fcg_done := if f.fcg_keep_conn = 0 then 1 else f.fcg_done }).fcg_freed = true ↔
      (f.fcg_keep_conn = 0 ∨ f.fcg_done ≠ 0)) := by
  have hid32 : id < 4294967296 := by omega
  obtain ⟨c, hfind, hmem, hcid⟩ := SPLAY_FIND_some f.fcg_clients id hid32 hids hact
  obtain ⟨hfree, hwant, htoread, hin⟩ := hidle
  constructor
  · rw [readcb_record f _ id [] padding ⟨hfree, hwant, htoread, hin⟩ (by decide)]
    have hbody : fcgi_read_body (header_done f FCGI_ABORT_REQUEST id ([] : List Nat).length
        padding.length ([] ++ padding)) =
        .ok (true, { f with
          fcg_clients := f.fcg_clients.filter (fun c => c.clt_id != id)
          fcg_bev := { f.fcg_bev with output := f.fcg_bev.output ++ end_record id 1 0 }
          fcg_padding := (padding.length : Int)
          fcg_type := FCGI_ABORT_REQUEST
          fcg_rec_id := id
          fcg_done := if f.fcg_keep_conn = 0 then 1 else f.fcg_done }) := by
      have hrm : SPLAY_REMOVE f.fcg_clients c = f.fcg_clients.filter (fun c => c.clt_id != id) := by
        rw [SPLAY_REMOVE_eq_filter _ _ (hids c hmem) hids, hcid]
      simp only [fcgi_read_body, header_done, FCGI_ABORT_REQUEST, FCGI_BEGIN_REQUEST,
        FCGI_PARAMS, FCGI_STDIN, hfind, fcgi_end_request, FCGI_REQUEST_COMPLETE,
        List.nil_append, List.length_nil]
      rw [end_request_none _ c 1 0 (by rw [hbuf c hmem]; exact Nat.zero_le _)
        (by simpa using hw)]
      simp only [hbuf c hmem, hcid, hrm, if_true, List.append_nil, with_out]
      simp only [OfNat.ofNat_ne_one, if_false, OfNat.ofNat_ne_zero, Nat.reduceEqDiff,
        if_true, OfNat.zero_ne_ofNat, Int.reduceNeg]
      rw [next_record_padding _ padding hpad rfl rfl]
      simp [hwant, htoread, hw, FCGI_RECORD_HEADER, hin]
    rw [hbody]
    apply fcgi_read_loop_wait
    simp [EVBUFFER_LENGTH, hin, htoread, to_size_t]
  · simp only [bufferevent_writecb, hfree, Bool.false_eq_true, if_false, fcgi_write,
      EVBUFFER_LENGTH, List.length_nil, and_true, fcgi_error]
    by_cases hk : f.fcg_keep_conn = 0
    · simp [hk]
    · by_cases hd : f.fcg_done = 0
      · simp [hk, hd, hfree]
      · simp [hk, hd]

theorem abort_request_active_witness :
    bufferevent_readcb { fcgi_new 1 env_empty none with fcg_clients := [client_calloc 5] }
      (fcgi_record FCGI_ABORT_REQUEST 5 [] []) =
      .ok { fcgi_new 1 env_empty none with
        fcg_clients := []
        fcg_bev := { (fcgi_new 1 env_empty none).fcg_bev with output := end_record 5 1 0 }
        fcg_padding := 0
        fcg_type := FCGI_ABORT_REQUEST
        fcg_rec_id := 5
        fcg_done := 0 } :=
  (abort_request_active { fcgi_new 1 env_empty none with fcg_clients := [client_calloc 5] }
    5 [] ⟨rfl, rfl, rfl, rfl⟩ rfl (by decide) (by decide) (by decide) (by decide)
    (by decide)).1

/-! ## `BEGIN_REQUEST` for the responder role -/

/-- A responder `BEGIN_REQUEST` on an idle connection whose `fcg_keep_conn` is
set: the flag becomes `flags & 1`, and a request is created unless the id is
active. -/
theorem readcb_begin_role (f : fcgi) (id role flags : Nat) (padding : List Nat)
    (hidle : idle f) (hpad : padding.length < 256) (hk : f.fcg_keep_conn ≠ 0)
    (hrole : role = 1) :
    bufferevent_readcb f (fcgi_record FCGI_BEGIN_REQUEST id (begin_body role flags) padding) =
      .ok { f with
        fcg_clients :=
          match SPLAY_FIND f.fcg_clients { client_zero with clt_id := id } with
          | some _ => f.fcg_clients
          | none => SPLAY_INSERT f.fcg_clients (client_calloc id)
        fcg_padding := (padding.length : Int)
        fcg_type := FCGI_BEGIN_REQUEST
        fcg_rec_id := id
        fcg_keep_conn := flags &&& 1 } := by
  have hl : (begin_body role flags).length = 8 := rfl
  rw [readcb_record f _ id _ padding hidle (by rw [hl]; decide)]
  obtain ⟨hfree, hwant, htoread, hin⟩ := hidle
  have hcat : CAT (role &&& 255) (role >>> 8) = role := CAT_split role
  have hbody : fcgi_read_body (header_done f FCGI_BEGIN_REQUEST id (begin_body role flags).length
      padding.length (begin_body role flags ++ padding)) =
      .ok (true, { f with
        fcg_clients :=
          match SPLAY_FIND f.fcg_clients { client_zero with clt_id := id } with
          | some _ => f.fcg_clients
          | none => SPLAY_INSERT f.fcg_clients (client_calloc id)
        fcg_padding := (padding.length : Int)
        fcg_type := FCGI_BEGIN_REQUEST
        fcg_rec_id := id
        fcg_keep_conn := flags &&& 1 }) := by
    simp only [fcgi_read_body, header_done, hl, begin_body, set_input, FCGI_BEGIN_REQUEST,
      if_true, List.cons_append, List.nil_append, List.take, List.drop, List.getD_cons_zero,
      List.getD_cons_succ, FCGI_RESPONDER, if_false, ne_eq, not_false_eq_true,
      Nat.cast_ofNat, not_true_eq_false, FCGI_KEEP_CONN, hcat]
    have hr : ¬ (¬ role = 1) := by simp [hrole]
    rw [if_neg hr, if_neg hk]
    rcases hfind : SPLAY_FIND f.fcg_clients { client_zero with clt_id := id } with _ | c
    · simp only
      rw [next_record_padding _ padding hpad rfl rfl]
      simp [hwant, htoread, FCGI_RECORD_HEADER, hin]
      exact bev_eta _ _ hin
    · simp only
      rw [next_record_padding _ padding hpad rfl rfl]
      simp [hwant, htoread, FCGI_RECORD_HEADER, hin]
      exact bev_eta _ _ hin
  rw [hbody]
  apply fcgi_read_loop_wait
  simp [EVBUFFER_LENGTH, hin, htoread, to_size_t]

/-- A responder `BEGIN_REQUEST` on an idle connection whose `fcg_keep_conn` is
0 tears the connection down. -/
theorem readcb_begin_reuse (f : fcgi) (id role flags : Nat) (padding : List Nat)
    (hidle : idle f) (hk : f.fcg_keep_conn = 0) (hrole : role = 1) :
    bufferevent_readcb f (fcgi_record FCGI_BEGIN_REQUEST id (begin_body role flags) padding) =
      .ok (fcgi_error (set_input
        (header_done f FCGI_BEGIN_REQUEST id 8 padding.length (begin_body role flags ++ padding))
        padding)) := by
  have hl : (begin_body role flags).length = 8 := rfl
  rw [readcb_record f _ id _ padding hidle (by rw [hl]; decide)]
  have hcat : CAT (role &&& 255) (role >>> 8) = role := CAT_split role
  simp only [fcgi_read_body, header_done, hl, begin_body, set_input, FCGI_BEGIN_REQUEST,
    if_true, List.cons_append, List.nil_append, List.take, List.drop, List.getD_cons_zero,
    List.getD_cons_succ, FCGI_RESPONDER, if_false, ne_eq, not_false_eq_true,
    Nat.cast_ofNat, not_true_eq_false, hcat]
  have hr : ¬ (¬ role = 1) := by simp [hrole]
  rw [if_neg hr, if_pos hk]
  rfl

/-- The case of role 1 written out. -/
theorem readcb_begin_responder (f : fcgi) (id flags : Nat) (padding : List Nat)
    (hidle : idle f) (hpad : padding.length < 256) (hk : f.fcg_keep_conn ≠ 0) :
    bufferevent_readcb f (fcgi_record FCGI_BEGIN_REQUEST id (begin_body 1 flags) padding) =
      .ok { f with
        fcg_clients :=
          match SPLAY_FIND f.fcg_clients { client_zero with clt_id := id } with
          | some _ => f.fcg_clients
          | none => SPLAY_INSERT f.fcg_clients (client_calloc id)
        fcg_padding := (padding.length : Int)
        fcg_type := FCGI_BEGIN_REQUEST
        fcg_rec_id := id
        fcg_keep_conn := flags &&& 1 } :=
  readcb_begin_role f id 1 flags padding hidle hpad hk rfl

/-- C10 (amended): a responder `BEGIN_REQUEST` record whose request id is
already active, arriving on an idle connection whose `fcg_keep_conn` is set,
is consumed and changes nothing in the connection but the decoded header and
`fcg_keep_conn`, which becomes `flags & 1`: the request table, the existing
request with its parameters and output buffer, `fcg_done` and the outbound
queue are as before.  On a connection whose `fcg_keep_conn` is 0 the record
tears the connection down. -/
theorem begin_request_duplicate (f : fcgi) (id flags : Nat) (padding : List Nat)
    (hidle : idle f) (hid : id < 65536) (hpad : padding.length < 256)
    (hids : ∀ c ∈ f.fcg_clients, c.clt_id < 4294967296)
    (hact : ∃ c ∈ f.fcg_clients, c.clt_id = id) :
    (f.fcg_keep_conn ≠ 0 →
      bufferevent_readcb f (fcgi_record FCGI_BEGIN_REQUEST id (begin_body 1 flags) padding) =
        .ok { f with
          fcg_padding := (padding.length : Int)
          fcg_type := FCGI_BEGIN_REQUEST
          fcg_rec_id := id
          fcg_keep_conn := flags &&& 1 }) ∧
    (f.fcg_keep_conn = 0 →
      ∃ f1, bufferevent_readcb f
          (fcgi_record FCGI_BEGIN_REQUEST id (begin_body 1 flags) padding) = .ok f1 ∧
        f1.fcg_freed = true ∧ f1.fcg_clients = [] ∧
        f1.fcg_bev.output = f.fcg_bev.output) := by
  constructor
  · intro hk
    obtain ⟨c, hfind, _, _⟩ := SPLAY_FIND_some f.fcg_clients id (by omega) hids hact
    rw [readcb_begin_responder f id flags padding hidle hpad hk, hfind]
  · intro hk
    exact ⟨_, readcb_begin_reuse f id 1 flags padding hidle hk rfl, rfl, rfl, rfl⟩

theorem begin_request_duplicate_witness :
    bufferevent_readcb { fcgi_new 1 env_empty none with fcg_clients := [client_calloc 5] }
        (fcgi_record FCGI_BEGIN_REQUEST 5 (begin_body 1 1) []) =
      .ok { fcgi_new 1 env_empty none with
        fcg_clients := [client_calloc 5]
        fcg_padding := 0
        fcg_type := FCGI_BEGIN_REQUEST
        fcg_rec_id := 5
        fcg_keep_conn := 1 } :=
  (begin_request_duplicate { fcgi_new 1 env_empty none with fcg_clients := [client_calloc 5] }
    5 1 [] ⟨rfl, rfl, rfl, rfl⟩ (by decide) (by decide) (by decide) (by decide)).1 (by decide)

set_option maxRecDepth 100000 in
/-- C10 as stated fails.  On a connection that holds the active request 1,
begun with keep-conn, a second `BEGIN_REQUEST` for id 1 with flags 0 changes
`fcg_keep_conn` from 1 to 0.  On a connection that holds the active request 1,
begun without keep-conn, a second `BEGIN_REQUEST` for id 1 empties the request
table and closes the connection. -/
theorem begin_request_duplicate_changes_state :
    (∃ f1 f2 : fcgi,
      bufferevent_readcb (fcgi_new 1 env_empty none)
        (fcgi_record FCGI_BEGIN_REQUEST 1 (begin_body 1 1) []) = .ok f1 ∧
      f1.fcg_clients.map (fun c => c.clt_id) = [1] ∧
      bufferevent_readcb f1 (fcgi_record FCGI_BEGIN_REQUEST 1 (begin_body 1 0) []) = .ok f2 ∧
      f1.fcg_keep_conn = 1 ∧ f2.fcg_keep_conn = 0 ∧ f2.fcg_freed = false) ∧
    (∃ f1 f2 : fcgi,
      bufferevent_readcb (fcgi_new 1 env_empty none)
        (fcgi_record FCGI_BEGIN_REQUEST 1 (begin_body 1 0) []) = .ok f1 ∧
      f1.fcg_clients.map (fun c => c.clt_id) = [1] ∧ f1.fcg_freed = false ∧
      bufferevent_readcb f1 (fcgi_record FCGI_BEGIN_REQUEST 1 (begin_body 1 0) []) = .ok f2 ∧
      f2.fcg_clients = [] ∧ f2.fcg_freed = true) :=
  ⟨⟨_, _, rfl, by decide, rfl, by decide, by decide, by decide⟩,
    ⟨_, _, rfl, by decide, by decide, rfl, by decide, by decide⟩⟩

/-! ## Keep-conn -/

theorem fcgi_write_freed (h : fcgi) (hfree : h.fcg_freed = false) :
    (fcgi_write h).fcg_freed = true ↔ (h.fcg_done ≠ 0 ∧ h.fcg_bev.output = []) := by
  unfold fcgi_write EVBUFFER_LENGTH
  by_cases hc : h.fcg_done ≠ 0 ∧ h.fcg_bev.output.length = 0
  · rw [if_pos hc]
    simp only [fcgi_error, true_iff]
    exact ⟨hc.1, List.length_eq_zero.mp hc.2⟩
  · rw [if_neg hc]
    constructor
    · intro hx; rw [hfree] at hx; cases hx
    · intro hx
      exact absurd ⟨hx.1, by rw [hx.2]; rfl⟩ hc

/-- An empty `PARAMS` record for an active request hands the request to
`server_handle`. -/
theorem readcb_params_empty (f : fcgi) (id : Nat) (padding : List Nat) (c : client)
    (hidle : idle f)
    (hfind : SPLAY_FIND f.fcg_clients { client_zero with clt_id := id } = some c) :
    bufferevent_readcb f (fcgi_record FCGI_PARAMS id [] padding) =
      match server_handle (header_done f FCGI_PARAMS id 0 padding.length padding) c with
      | .undefined => .undefined
      | .nofuel => .nofuel
      | .ok (r, f1) =>
        if r = -1 then .ok f1 else fcgi_read_loop (padding.length + 8) (next_record f1) := by
  rw [readcb_record f _ id [] padding hidle (by decide)]
  have hd : header_done f FCGI_PARAMS id ([] : List Nat).length padding.length ([] ++ padding)
      = header_done f FCGI_PARAMS id 0 padding.length padding := rfl
  rw [hd]
  have hfind2 : SPLAY_FIND (header_done f FCGI_PARAMS id 0 padding.length padding).fcg_clients
      { client_zero with
        clt_id := (header_done f FCGI_PARAMS id 0 padding.length padding).fcg_rec_id } =
      some c := hfind
  have hset : set_input (header_done f FCGI_PARAMS id 0 padding.length padding)
      (evbuffer_drain (header_done f FCGI_PARAMS id 0 padding.length padding).fcg_bev.input
        (to_size_t (header_done f FCGI_PARAMS id 0 padding.length padding).fcg_toread))
      = header_done f FCGI_PARAMS id 0 padding.length padding := by
    simp [set_input, header_done, evbuffer_drain, to_size_t]
  have hbody : fcgi_read_body (header_done f FCGI_PARAMS id 0 padding.length padding) =
      match server_handle (header_done f FCGI_PARAMS id 0 padding.length padding) c with
      | .undefined => .undefined
      | .nofuel => .nofuel
      | .ok (r, f2) => if r = -1 then .ok (false, f2) else .ok (true, next_record f2) := by
    unfold fcgi_read_body
    simp only [hfind2, hset]
    simp [header_done, FCGI_PARAMS, FCGI_BEGIN_REQUEST]
  rw [hbody]
  rcases server_handle (header_done f FCGI_PARAMS id 0 padding.length padding) c with
    ⟨r, f2⟩ | _ | _
  · by_cases hr : r = -1
    · simp [hr]
    · simp [hr]
  · rfl
  · rfl

/-- C7: a responder `BEGIN_REQUEST` with flags `fl` and a fresh id, arriving on
an idle connection whose `fcg_keep_conn` is set and whose `fcg_done` is clear
(a new connection, or one whose earlier requests kept it open), creates the
request and sets `fcg_keep_conn` to `fl & 1`.  From any later state `g` of the
connection with that `fcg_keep_conn` and `fcg_done` still clear, a successful
`end_request` sets `fcg_done` if and only if `(fl & 1) = 0`, and the write
callback that runs once the output is sent closes the connection if and only
if `(fl & 1) = 0`; when `(fl & 1) = 1`, `fcg_keep_conn` stays set, so that the
first part applies to a following `BEGIN_REQUEST`.  `fcgi_write` closes an open
connection exactly when `fcg_done` is set and the outbound queue is empty.  An
empty `PARAMS` record for an active request hands it to `server_handle`. -/
theorem keep_conn_discipline (f : fcgi) (id fl : Nat) (padding : List Nat)
    (hidle : idle f) (hk : f.fcg_keep_conn ≠ 0) (hd : f.fcg_done = 0)
    (hid : id < 65536) (hpad : padding.length < 256)
    (hids : ∀ c ∈ f.fcg_clients, c.clt_id < 4294967296)
    (hfresh : ∀ c ∈ f.fcg_clients, c.clt_id ≠ id) :
    (∃ f1 : fcgi,
      bufferevent_readcb f (fcgi_record FCGI_BEGIN_REQUEST id (begin_body 1 fl) padding) =
        .ok f1 ∧
      f1.fcg_clients = SPLAY_INSERT f.fcg_clients (client_calloc id) ∧
      f1.fcg_keep_conn = fl &&& 1 ∧ f1.fcg_done = 0 ∧ idle f1 ∧
      f1.fcg_bev.output = f.fcg_bev.output) ∧
    (∀ (g : fcgi) (clt : client) (status proto_status : Int),
      g.fcg_keep_conn = fl &&& 1 → g.fcg_done = 0 → g.fcg_freed = false →
      clt.clt_buflen ≤ clt.clt_buf.length →
      (end_request g clt status proto_status).1 = 0 →
      ((end_request g clt status proto_status).2.fcg_done ≠ 0 ↔ fl &&& 1 = 0) ∧
      ((bufferevent_writecb (end_request g clt status proto_status).2).fcg_freed = true ↔
        fl &&& 1 = 0) ∧
      (end_request g clt status proto_status).2.fcg_keep_conn = fl &&& 1 ∧
      (end_request g clt status proto_status).2.fcg_freed = false) ∧
    (∀ h : fcgi, h.fcg_freed = false →
      ((fcgi_write h).fcg_freed = true ↔ (h.fcg_done ≠ 0 ∧ h.fcg_bev.output = []))) ∧
    (∀ (g : fcgi) (id2 : Nat) (padding2 : List Nat), idle g → id2 < 65536 →
      (∀ c ∈ g.fcg_clients, c.clt_id < 4294967296) →
      (∃ c ∈ g.fcg_clients, c.clt_id = id2) →
      ∃ c ∈ g.fcg_clients, c.clt_id = id2 ∧
        bufferevent_readcb g (fcgi_record FCGI_PARAMS id2 [] padding2) =
          match server_handle (header_done g FCGI_PARAMS id2 0 padding2.length padding2) c with
          | .undefined => .undefined
          | .nofuel => .nofuel
          | .ok (r, g1) =>
            if r = -1 then .ok g1
            else fcgi_read_loop (padding2.length + 8) (next_record g1)) := by
  refine ⟨?_, ?_, fcgi_write_freed, ?_⟩
  · have hnone := SPLAY_FIND_none f.fcg_clients id (by omega) hids hfresh
    refine ⟨_, readcb_begin_responder f id fl padding hidle hpad hk, ?_, rfl, hd, ?_, rfl⟩
    · simp only [hnone]
    · obtain ⟨hfree, hwant, htoread, hin⟩ := hidle
      exact ⟨hfree, hwant, htoread, hin⟩
  · intro g clt status proto_status hgk hgd hgf hlen hret
    obtain ⟨_, h2⟩ := end_request_exact g clt status proto_status hlen
    obtain ⟨w, _, he⟩ := h2 hret
    rw [he]
    have hdone : (if g.fcg_keep_conn = 0 then 1 else g.fcg_done) ≠ 0 ↔ fl &&& 1 = 0 := by
      rw [hgk, hgd]
      by_cases hz : fl &&& 1 = 0
      · simp [hz]
      · simp [hz]
    refine ⟨hdone, ?_, hgk, hgf⟩
    simp only [bufferevent_writecb, with_out, hgf, Bool.false_eq_true, if_false]
    rw [fcgi_write_freed _ rfl]
    simp only [and_true]
    exact hdone
  · intro g id2 padding2 hgidle hid2 hgids hact
    obtain ⟨c, hfind, hmem, hcid⟩ := SPLAY_FIND_some g.fcg_clients id2 (by omega) hgids hact
    exact ⟨c, hmem, hcid, readcb_params_empty g id2 padding2 c hgidle hfind⟩

theorem keep_conn_discipline_witness :
    ∃ f1 : fcgi,
      bufferevent_readcb (fcgi_new 1 env_empty none)
        (fcgi_record FCGI_BEGIN_REQUEST 1 (begin_body 1 0) []) = .ok f1 ∧
      f1.fcg_clients = SPLAY_INSERT (fcgi_new 1 env_empty none).fcg_clients (client_calloc 1) ∧
      f1.fcg_keep_conn = 0 &&& 1 ∧ f1.fcg_done = 0 ∧ idle f1 ∧
      f1.fcg_bev.output = (fcgi_new 1 env_empty none).fcg_bev.output :=
  (keep_conn_discipline (fcgi_new 1 env_empty none) 1 0 [] ⟨rfl, rfl, rfl, rfl⟩ (by decide) rfl
    (by decide) (by decide) (by decide) (by decide)).1

set_option maxRecDepth 1000000 in
/-- The keep-conn discipline on the home page: with flags 1 the connection
survives the response of request 1 and serves request 2 in full; with flags 0
the write callback closes it after the response of request 1. -/
theorem keep_conn_scenario :
    (match deliver (fcgi_new 1 env_empty none)
        [fcgi_record FCGI_BEGIN_REQUEST 1 (begin_body 1 1) [] ++
          fcgi_record FCGI_PARAMS 1 (nv_pair (bytes "SCRIPT_NAME") (bytes "/app") ++
            nv_pair (bytes "GEMINI_URL_PATH") (bytes "/")) [] ++
          fcgi_record FCGI_PARAMS 1 [] []] with
      | .ok f =>
        (match deliver (bufferevent_writecb f)
            [fcgi_record FCGI_BEGIN_REQUEST 2 (begin_body 1 1) [] ++
              fcgi_record FCGI_PARAMS 2 (nv_pair (bytes "SCRIPT_NAME") (bytes "/app") ++
                nv_pair (bytes "GEMINI_URL_PATH") (bytes "/search")) [] ++
              fcgi_record FCGI_PARAMS 2 [] []] with
          | .ok f2 => (f.fcg_done, (bufferevent_writecb f).fcg_freed, f2.fcg_freed,
              f2.fcg_bev.output)
          | _ => (0, true, true, []))
      | _ => (0, true, true, [])) =
      (0, false, false,
        stdout_record 2 (bytes "10 search for a package\r\n") ++ end_record 2 0 0) ∧
    (match deliver (fcgi_new 1 env_empty none)
        [fcgi_record FCGI_BEGIN_REQUEST 1 (begin_body 1 0) [] ++
          fcgi_record FCGI_PARAMS 1 (nv_pair (bytes "SCRIPT_NAME") (bytes "/app") ++
            nv_pair (bytes "GEMINI_URL_PATH") (bytes "/search")) [] ++
          fcgi_record FCGI_PARAMS 1 [] []] with
      | .ok f => (f.fcg_done, f.fcg_freed, (bufferevent_writecb f).fcg_freed, f.fcg_bev.output)
      | _ => (0, true, false, [])) =
      (1, false, true,
        stdout_record 1 (bytes "10 search for a package\r\n") ++ end_record 1 0 0) := by
  decide

/-! ## Defects met by well-formed input -/

set_option maxRecDepth 1000000 in
/-- C1 fails on the code: `fcgi_read` dispatches a body once `fcg_toread`
(the content length) bytes are buffered and then drains only the padding that
has arrived.  The stream made of an empty `STDIN` record with eight bytes of
padding and a `BEGIN_REQUEST` record creates request 1 when it arrives whole,
and tears the connection down when the first chunk ends after the header of
the `STDIN` record: the padding is then read as the next header. -/
theorem fcgi_read_padding_split :
    (match deliver (fcgi_new 1 env_empty none)
        [fcgi_record FCGI_STDIN 1 [] [0, 0, 0, 0, 0, 0, 0, 0] ++
          fcgi_record FCGI_BEGIN_REQUEST 1 (begin_body 1 1) []] with
      | .ok f => (f.fcg_freed, f.fcg_clients.map (fun c => c.clt_id), f.fcg_bev.input)
      | _ => (true, [], [])) = (false, [1], []) ∧
    (match deliver (fcgi_new 1 env_empty none)
        [fcgi_header FCGI_STDIN 1 0 8 0,
          [0, 0, 0, 0, 0, 0, 0, 0] ++
            fcgi_record FCGI_BEGIN_REQUEST 1 (begin_body 1 1) []] with
      | .ok f => (f.fcg_freed, f.fcg_clients.map (fun c => c.clt_id), f.fcg_bev.input)
      | _ => (false, [], [])) =
      (true, [], fcgi_record FCGI_BEGIN_REQUEST 1 (begin_body 1 1) []) ∧
    fcgi_record FCGI_STDIN 1 [] [0, 0, 0, 0, 0, 0, 0, 0] =
      fcgi_header FCGI_STDIN 1 0 8 0 ++ [0, 0, 0, 0, 0, 0, 0, 0] := by
  decide

set_option maxRecDepth 1000000 in
/-- C4 fails on the code: on the pair whose name has 32 bytes and whose value
is the byte `B`, `fcgi_parse_params` subtracts `nlen - vlen` = 31 from
`fcg_toread` while it drains the 33 bytes of the pair, so that two bytes are
still expected when the record is over.  With the header of the next record
buffered behind it, the function reads two bytes of that header as lengths and
returns -1; with nothing behind it, it reads an uninitialised byte; delivered
after a `BEGIN_REQUEST`, the record tears the connection down. -/
theorem fcgi_parse_params_long_name :
    (match fcgi_parse_params
        { fcgi_new 1 env_empty none with
          fcg_toread := 35
          fcg_bev :=
            { input := (nv_pair (List.replicate 32 65) [66] ++ fcgi_header FCGI_PARAMS 1 0 0 0)
              output := []
              wfail := none } }
        (client_calloc 1) with
      | .ok (r, f, _) => (r, f.fcg_toread, f.fcg_bev.input)
      | _ => (0, 0, [])) = (-1, 0, (fcgi_header FCGI_PARAMS 1 0 0 0).drop 2) ∧
    (nv_pair (List.replicate 32 65) [66]).length = 35 ∧
    fcgi_parse_params
        { fcgi_new 1 env_empty none with
          fcg_toread := 35
          fcg_bev :=
            { input := nv_pair (List.replicate 32 65) [66]
              output := []
              wfail := none } }
        (client_calloc 1) = .undefined ∧
    (match deliver (fcgi_new 1 env_empty none)
        [fcgi_record FCGI_BEGIN_REQUEST 1 (begin_body 1 1) [] ++
          fcgi_record FCGI_PARAMS 1 (nv_pair (List.replicate 32 65) [66]) [] ++
          fcgi_record FCGI_PARAMS 1 [] []] with
      | .ok f => f.fcg_freed
      | _ => false) = true := by
  decide



/-! ## What the output calls leave unchanged -/

theorem same_decoder_refl (f : fcgi) : same_decoder f f :=
  ⟨rfl, rfl, rfl, rfl, rfl, rfl, rfl, rfl⟩

theorem same_decoder_trans (f f1 f2 : fcgi) (h1 : same_decoder f f1) (h2 : same_decoder f1 f2) :
    same_decoder f f2 := by
  obtain ⟨a1, a2, a3, a4, a5, a6, a7, a8⟩ := h1
  obtain ⟨b1, b2, b3, b4, b5, b6, b7, b8⟩ := h2
  exact ⟨b1.trans a1, b2.trans a2, b3.trans a3, b4.trans a4, b5.trans a5, b6.trans a6,
    b7.trans a7, b8.trans a8⟩

theorem wrote_refl (f : fcgi) (clt : client) (h : buf_ok clt) : wrote f clt f clt :=
  ⟨same_decoder_refl f, rfl, rfl, rfl, rfl, fun h => h, rfl, h, [], by simp, by simp⟩

theorem wrote_trans (f f1 f2 : fcgi) (clt clt1 clt2 : client)
    (h1 : wrote f clt f1 clt1) (h2 : wrote f1 clt1 f2 clt2) : wrote f clt f2 clt2 := by
  obtain ⟨a1, a2, a3, a4, a5, a6, a7, _, ps1, a9, a10⟩ := h1
  obtain ⟨b1, b2, b3, b4, b5, b6, b7, b8, ps2, b9, b10⟩ := h2
  refine ⟨same_decoder_trans _ _ _ a1 b1, b2.trans a2, b3.trans a3, b4.trans a4, b5.trans a5,
    fun h => b6 (a6 h), b7.trans a7, b8, ps1 ++ ps2, ?_, ?_⟩
  · rw [b9, a9, a7]
    simp [List.append_assoc]
  · intro p hp
    rcases List.mem_append.mp hp with h | h
    · exact a10 p h
    · exact b10 p h

theorem torn_down_after_wrote (f f1 f2 : fcgi) (clt clt1 : client)
    (h1 : wrote f clt f1 clt1) (h2 : torn_down f1 f2) : torn_down f f2 := by
  obtain ⟨a1, _, _, a4, a5, _⟩ := h1
  obtain ⟨b1, b2, b3, b4, b5⟩ := h2
  exact ⟨same_decoder_trans _ _ _ a1 b1, b2, b3, b4.trans a4, by rw [b5, a5]⟩

theorem wrote_of_emitted (f f1 : fcgi) (clt clt1 : client) (d : List Nat)
    (h : emitted f clt f1 clt1 d) : wrote f clt f1 clt1 := by
  obtain ⟨ps, w, b1, n1, hf1, hc1, hb, hn, hw, _, hp⟩ := h
  subst hf1
  subst hc1
  exact ⟨⟨rfl, rfl, rfl, rfl, rfl, rfl, rfl, rfl⟩, rfl, rfl, rfl, rfl, hw, rfl, ⟨hb, hn⟩,
    ps, rfl, hp⟩

/-- A failed `clt_flush` tore the connection down and left the request alone. -/
theorem clt_flush_failed (f : fcgi) (clt : client) (h : (clt_flush f clt).1 = -1) :
    torn_down f (clt_flush f clt).2.1 ∧ (clt_flush f clt).2.2 = clt := by
  unfold clt_flush at h ⊢
  by_cases h0 : clt.clt_buflen = 0
  · simp [h0] at h
  · simp only [h0, if_false] at h ⊢
    split
    · exact ⟨⟨⟨rfl, by simp [fcgi_error, bufferevent_write]; split <;> rfl, rfl, rfl, rfl, rfl,
        rfl, rfl⟩, rfl, rfl, rfl, rfl⟩, rfl⟩
    · split
      · refine ⟨⟨⟨rfl, ?_, rfl, rfl, rfl, rfl, rfl, rfl⟩, rfl, rfl, rfl, rfl⟩, rfl⟩
        simp only [fcgi_error, bufferevent_write]
        split <;> split <;> rfl
      · rename_i h1 h2
        simp [h1, h2] at h

theorem clt_flush_zero_or_neg (f : fcgi) (clt : client) :
    (clt_flush f clt).1 = 0 ∨ (clt_flush f clt).1 = -1 := by
  simp only [clt_flush]
  split
  · left; rfl
  · split
    · right; rfl
    · split
      · right; rfl
      · left; rfl

/-- Whatever the loop of `clt_write` returns, it wrote or the connection was
torn down. -/
theorem clt_write_loop_stepped (fuel : Nat) :
    ∀ (f : fcgi) (clt : client) (buf : List Nat), buf_ok clt →
    ∀ (r : Int) (f1 : fcgi) (clt1 : client),
      clt_write_loop fuel f clt buf = .ok (r, f1, clt1) → stepped f clt r f1 clt1 := by
  induction fuel with
  | zero => intro f clt buf _ r f1 clt1 h; simp [clt_write_loop] at h
  | succ fuel ih =>
    intro f clt buf hok r f1 clt1 h
    by_cases hlen : buf.length > 0
    · have hleft : (CLT_BUF_SIZE + 18446744073709551616 - clt.clt_buflen) % 18446744073709551616
          = CLT_BUF_SIZE - clt.clt_buflen := by
        have := hok.2
        simp only [CLT_BUF_SIZE] at this ⊢
        omega
      by_cases hfull : CLT_BUF_SIZE - clt.clt_buflen = 0
      · obtain ⟨_, _, hem⟩ := clt_flush_emitted f clt hok
        have hfail := clt_flush_failed f clt
        have hz := clt_flush_zero_or_neg f clt
        rcases hfl : clt_flush f clt with ⟨r0, fa, ca⟩
        rw [hfl] at hem hfail hz
        simp only at hem hfail hz
        by_cases hr1 : r0 = -1
        · simp only [clt_write_loop, hlen, if_true, hleft, hfull, hfl, hr1] at h
          have h' := res.ok.inj h
          simp only [Prod.mk.injEq] at h'
          obtain ⟨e1, e2, e3⟩ := h'
          subst e1 e2 e3
          obtain ⟨ht, hc⟩ := hfail hr1
          exact Or.inr ⟨rfl, ht, by rw [hc]; exact hok⟩
        · have hr0 : r0 = 0 := by omega
          obtain ⟨hem1, hzero⟩ := hem hr0
          have hok1 := emitted_buf_ok _ _ _ _ _ hem1
          have hfit : ca.clt_buflen + (buf.take (min CLT_BUF_SIZE buf.length)).length
              ≤ CLT_BUF_SIZE := by
            rw [hzero, List.length_take]; simp only [CLT_BUF_SIZE]; omega
          have hcp := emitted_copy fa ca (buf.take (min CLT_BUF_SIZE buf.length)) hok1 hfit
          have hlt : (buf.take (min CLT_BUF_SIZE buf.length)).length
              = min CLT_BUF_SIZE buf.length := by
            rw [List.length_take]; omega
          rw [hlt] at hcp
          have hw2 := wrote_trans _ _ _ _ _ _ (wrote_of_emitted _ _ _ _ _ hem1)
            (wrote_of_emitted _ _ _ _ _ hcp)
          simp only [clt_write_loop, hlen, if_true, hleft, hfull, hfl, hr1, if_false] at h
          rcases ih fa _ _ (emitted_buf_ok _ _ _ _ _ hcp) r f1 clt1 h with ⟨e, hw⟩ | ⟨e, ht, hb⟩
          · exact Or.inl ⟨e, wrote_trans _ _ _ _ _ _ hw2 hw⟩
          · exact Or.inr ⟨e, torn_down_after_wrote _ _ _ _ _ hw2 ht, hb⟩
      · have hfit : clt.clt_buflen + (buf.take (min (CLT_BUF_SIZE - clt.clt_buflen)
            buf.length)).length ≤ CLT_BUF_SIZE := by
          have := hok.2
          rw [List.length_take]; simp only [CLT_BUF_SIZE] at this ⊢; omega
        have hcp := emitted_copy f clt (buf.take (min (CLT_BUF_SIZE - clt.clt_buflen)
          buf.length)) hok hfit
        have hlt : (buf.take (min (CLT_BUF_SIZE - clt.clt_buflen) buf.length)).length
            = min (CLT_BUF_SIZE - clt.clt_buflen) buf.length := by
          rw [List.length_take]; omega
        rw [hlt] at hcp
        have hw2 := wrote_of_emitted _ _ _ _ _ hcp
        simp only [clt_write_loop, hlen, if_true, hleft, hfull, if_false] at h
        rcases ih f _ _ (emitted_buf_ok _ _ _ _ _ hcp) r f1 clt1 h with ⟨e, hw⟩ | ⟨e, ht, hb⟩
        · exact Or.inl ⟨e, wrote_trans _ _ _ _ _ _ hw2 hw⟩
        · exact Or.inr ⟨e, torn_down_after_wrote _ _ _ _ _ hw2 ht, hb⟩
    · simp only [clt_write_loop, hlen, if_false] at h
      have h' := res.ok.inj h
      simp only [Prod.mk.injEq] at h'
      obtain ⟨e1, e2, e3⟩ := h'
      subst e1 e2 e3
      exact Or.inl ⟨rfl, wrote_refl _ _ hok⟩

theorem clt_write_stepped (f : fcgi) (clt : client) (buf : List Nat) (hok : buf_ok clt)
    (r : Int) (f1 : fcgi) (clt1 : client) (h : clt_write f clt buf = .ok (r, f1, clt1)) :
    stepped f clt r f1 clt1 :=
  clt_write_loop_stepped _ f clt buf hok r f1 clt1 h

/-! ## The cursor of the request buffer -/

theorem clt_flush_client (f : fcgi) (clt : client) :
    (clt_flush f clt).2.2 = clt ∨ (clt_flush f clt).2.2 = { clt with clt_buflen := 0 } := by
  simp only [clt_flush]
  split
  · left; rfl
  · split
    · left; rfl
    · split
      · left; rfl
      · right; rfl

theorem run_op_stepped (f : fcgi) (clt : client) (op : append_op) (hok : buf_ok clt)
    (r : Int) (f1 : fcgi) (clt1 : client) (h : run_op f clt op = .ok (r, f1, clt1)) :
    stepped f clt r f1 clt1 := by
  cases op with
  | write buf => exact clt_write_stepped f clt buf hok r f1 clt1 h
  | puts str => exact clt_write_stepped f clt (cstr str) hok r f1 clt1 h
  | putc ch => exact clt_write_stepped f clt [ch] hok r f1 clt1 h

theorem stepped_buf_ok (f f1 : fcgi) (clt clt1 : client) (r : Int)
    (h : stepped f clt r f1 clt1) : buf_ok clt1 := by
  rcases h with ⟨_, hw⟩ | ⟨_, _, hb⟩
  · exact hw.2.2.2.2.2.2.2.1
  · exact hb

/-- C13: on a request whose buffer has its 1024 bytes and whose cursor is at
most 1024, every `clt_write`, `clt_putc` and `clt_puts` returns and leaves
`clt_buflen ≤ 1024` with the array still 1024 bytes long (a copy past the end
would lengthen the modelled array), and so does `clt_flush`.  One iteration of
the loop of `clt_write`: with the cursor at 1024 it calls `clt_flush` first,
returns -1 if that fails and otherwise copies from cursor 0; with the cursor
below 1024 it copies at most `1024 - clt_buflen` bytes, so that the copy ends
at or before index 1023. -/
theorem clt_buflen_bounded (f : fcgi) (clt : client)
    (hbuf : clt.clt_buf.length = CLT_BUF_SIZE) (hlen : clt.clt_buflen ≤ CLT_BUF_SIZE) :
    (∀ op : append_op, ∃ (r : Int) (f1 : fcgi) (clt1 : client),
      run_op f clt op = .ok (r, f1, clt1) ∧
      clt1.clt_buflen ≤ CLT_BUF_SIZE ∧ clt1.clt_buf.length = CLT_BUF_SIZE) ∧
    ((clt_flush f clt).2.2.clt_buflen ≤ CLT_BUF_SIZE ∧
      (clt_flush f clt).2.2.clt_buf.length = CLT_BUF_SIZE) ∧
    (∀ (fuel : Nat) (buf : List Nat), buf ≠ [] →
      (clt.clt_buflen = CLT_BUF_SIZE → (clt_flush f clt).1 = -1 →
        clt_write_loop (fuel + 1) f clt buf =
          .ok (-1, (clt_flush f clt).2.1, (clt_flush f clt).2.2)) ∧
      (clt.clt_buflen = CLT_BUF_SIZE → (clt_flush f clt).1 ≠ -1 →
        (clt_flush f clt).2.2.clt_buflen = 0 ∧
        clt_write_loop (fuel + 1) f clt buf =
          clt_write_loop fuel (clt_flush f clt).2.1
            { (clt_flush f clt).2.2 with
              clt_buf := memcpy (clt_flush f clt).2.2.clt_buf (clt_flush f clt).2.2.clt_buflen
                (buf.take (min CLT_BUF_SIZE buf.length))
              clt_buflen := (clt_flush f clt).2.2.clt_buflen + min CLT_BUF_SIZE buf.length }
            (buf.drop (min CLT_BUF_SIZE buf.length)) ∧
        (clt_flush f clt).2.2.clt_buflen + min CLT_BUF_SIZE buf.length ≤ CLT_BUF_SIZE) ∧
      (clt.clt_buflen < CLT_BUF_SIZE →
        clt_write_loop (fuel + 1) f clt buf =
          clt_write_loop fuel f
            { clt with
              clt_buf := memcpy clt.clt_buf clt.clt_buflen
                (buf.take (min (CLT_BUF_SIZE - clt.clt_buflen) buf.length))
              clt_buflen := clt.clt_buflen + min (CLT_BUF_SIZE - clt.clt_buflen) buf.length }
            (buf.drop (min (CLT_BUF_SIZE - clt.clt_buflen) buf.length)) ∧
        0 < min (CLT_BUF_SIZE - clt.clt_buflen) buf.length ∧
        clt.clt_buflen + min (CLT_BUF_SIZE - clt.clt_buflen) buf.length ≤ CLT_BUF_SIZE)) := by
  have hok : buf_ok clt := ⟨hbuf, hlen⟩
  refine ⟨?_, ?_, ?_⟩
  · intro op
    obtain ⟨r, f1, clt1, he, _, _, _⟩ := run_op_emitted f clt op hok
    have hb := stepped_buf_ok _ _ _ _ _ (run_op_stepped f clt op hok r f1 clt1 he)
    exact ⟨r, f1, clt1, he, hb.2, hb.1⟩
  · rcases clt_flush_client f clt with h | h
    · rw [h]; exact ⟨hlen, hbuf⟩
    · rw [h]; exact ⟨Nat.zero_le _, hbuf⟩
  · intro fuel buf hne
    have hpos : buf.length > 0 := List.length_pos.mpr hne
    have hleft : (CLT_BUF_SIZE + 18446744073709551616 - clt.clt_buflen) % 18446744073709551616
        = CLT_BUF_SIZE - clt.clt_buflen := by
      simp only [CLT_BUF_SIZE] at hlen ⊢
      omega
    refine ⟨?_, ?_, ?_⟩
    · intro hfull hfail
      have h0 : CLT_BUF_SIZE - clt.clt_buflen = 0 := by omega
      rcases hfl : clt_flush f clt with ⟨r0, fa, ca⟩
      rw [hfl] at hfail
      simp only at hfail
      simp [clt_write_loop, hpos, hleft, h0, hfl, hfail]
    · intro hfull hsucc
      have h0 : CLT_BUF_SIZE - clt.clt_buflen = 0 := by omega
      obtain ⟨_, _, hem⟩ := clt_flush_emitted f clt hok
      have hz := clt_flush_zero_or_neg f clt
      have hr0 : (clt_flush f clt).1 = 0 := by
        rcases hz with h | h
        · exact h
        · exact absurd h hsucc
      have hzero := (hem hr0).2
      refine ⟨hzero, ?_, ?_⟩
      · simp [clt_write_loop, hpos, hleft, h0, hsucc]
      · rw [hzero]; simp only [CLT_BUF_SIZE]; omega
    · intro hlt
      have h0 : ¬ CLT_BUF_SIZE - clt.clt_buflen = 0 := by omega
      refine ⟨?_, ?_, ?_⟩
      · simp [clt_write_loop, hpos, hleft, h0]
      · omega
      · omega

theorem clt_buflen_bounded_witness :
    ∃ (r : Int) (f1 : fcgi) (clt1 : client),
      run_op (fcgi_new 1 env_empty none) (client_calloc 1)
        (.write (List.replicate 3000 65)) = .ok (r, f1, clt1) ∧
      clt1.clt_buflen ≤ CLT_BUF_SIZE ∧ clt1.clt_buf.length = CLT_BUF_SIZE :=
  (clt_buflen_bounded (fcgi_new 1 env_empty none) (client_calloc 1)
    (by simp [client_calloc, client_zero]) (by decide)).1 (.write (List.replicate 3000 65))

/-! ## The records the responder writes -/

theorem shift8_mod (n : Nat) (h : n < 65536) : (n >>> 8) % 256 = n >>> 8 := by
  simp only [Nat.shiftRight_eq_div_pow]
  omega

/-- C14: `clt_flush` on a buffer holding `n` bytes with `1 ≤ n ≤ 1024`, for a
request id below 65536, appends to the outbound queue exactly the 8 + `n`
bytes 1, 6, id>>8, id&0xFF, n>>8, n&0xFF, 0, 0 followed by the `n` buffered
bytes and resets the cursor to 0, whenever it returns 0, which it does when
writes cannot fail; on an empty buffer it returns 0 and changes nothing, so no
`FCGI_STDOUT` record with content length 0 is written. -/
theorem clt_flush_record (f : fcgi) (clt : client)
    (hbuf : clt.clt_buf.length = CLT_BUF_SIZE) (hid : clt.clt_id < 65536) :
    (1 ≤ clt.clt_buflen → clt.clt_buflen ≤ CLT_BUF_SIZE →
      (f.fcg_bev.wfail = none → (clt_flush f clt).1 = 0) ∧
      ((clt_flush f clt).1 = 0 →
        (clt_flush f clt).2.1.fcg_bev.output = f.fcg_bev.output ++
          ([1, 6, clt.clt_id >>> 8, clt.clt_id &&& 0xFF, clt.clt_buflen >>> 8,
            clt.clt_buflen &&& 0xFF, 0, 0] ++ clt.clt_buf.take clt.clt_buflen) ∧
        (clt_flush f clt).2.2 = { clt with clt_buflen := 0 }) ∧
      ([1, 6, clt.clt_id >>> 8, clt.clt_id &&& 0xFF, clt.clt_buflen >>> 8,
        clt.clt_buflen &&& 0xFF, 0, 0] ++ clt.clt_buf.take clt.clt_buflen).length =
        8 + clt.clt_buflen) ∧
    (clt.clt_buflen = 0 → clt_flush f clt = (0, f, clt)) := by
  constructor
  · intro h1 hn
    have hl : clt.clt_buflen ≤ clt.clt_buf.length := by rw [hbuf]; exact hn
    obtain ⟨hw, he⟩ := clt_flush_exact f clt hl
    have hne : ¬ clt.clt_buflen = 0 := by omega
    have hlen : (clt.clt_buf.take clt.clt_buflen).length = clt.clt_buflen := by
      rw [List.length_take]; omega
    refine ⟨hw, fun h => ?_, ?_⟩
    · obtain ⟨w, _, hf, hc⟩ := he h
      rw [hf, hc]
      simp only [hne, if_false, with_out, stdout_record, hlen, FCGI_VERSION_1, FCGI_STDOUT,
        shift8_mod _ hid, shift8_mod clt.clt_buflen (by simp only [CLT_BUF_SIZE] at hn; omega),
        with_buf, and_true]
    · simp [hlen]
      omega
  · intro h0
    simp [clt_flush, h0]

theorem clt_flush_record_witness :
    (clt_flush (fcgi_new 1 env_empty none) { client_calloc 258 with clt_buflen := 2 }).1 = 0 :=
  ((clt_flush_record (fcgi_new 1 env_empty none) { client_calloc 258 with clt_buflen := 2 }
    (by simp [client_calloc, client_zero]) (by decide)).1 (by decide) (by decide)).1 rfl

theorem to_uchar_nat (n : Nat) : to_uchar (n : Int) = n &&& 0xFF := by
  unfold to_uchar
  rw [and_255]
  omega

/-- C15: for every request id below 65536 and all status arguments,
`fcgi_send_end_req` returns 0 when writes cannot fail, and when it returns 0
it has written exactly the 16 bytes 1, 3, id>>8, id&0xFF, 0, 8, 0, 0 followed
by 0, 0, 0, as&0xFF, ps&0xFF, 0, 0, 0, where the low byte of a status is its
value modulo 256. -/
theorem fcgi_send_end_req_bytes (f : fcgi) (id : Nat) (as ps : Int) (hid : id < 65536) :
    (f.fcg_bev.wfail = none → (fcgi_send_end_req f id as ps).1 = 0) ∧
    ((fcgi_send_end_req f id as ps).1 = 0 →
      (fcgi_send_end_req f id as ps).2.fcg_bev.output = f.fcg_bev.output ++
        [1, 3, id >>> 8, id &&& 0xFF, 0, 8, 0, 0, 0, 0, 0, to_uchar as, to_uchar ps, 0, 0, 0]) ∧
    to_uchar as = (as % 256).toNat ∧ to_uchar ps = (ps % 256).toNat ∧
    to_uchar as < 256 ∧ to_uchar ps < 256 ∧
    (∀ n : Nat, to_uchar (n : Int) = n &&& 0xFF) := by
  obtain ⟨hw, he⟩ := fcgi_send_end_req_exact f id as ps
  refine ⟨hw, fun h => ?_, rfl, rfl, ?_, ?_, to_uchar_nat⟩
  · obtain ⟨w, _, hf⟩ := he h
    rw [hf]
    simp [with_out, end_record, FCGI_VERSION_1, FCGI_END_REQUEST, shift8_mod _ hid]
  · unfold to_uchar; omega
  · unfold to_uchar; omega

theorem fcgi_send_end_req_bytes_witness :
    (fcgi_send_end_req (fcgi_new 1 env_empty none) 513 1 0).1 = 0 :=
  (fcgi_send_end_req_bytes (fcgi_new 1 env_empty none) 513 1 0 (by decide)).1 rfl



/-! ## Percent-decoding (`unquote`) -/

theorem hexval_lt (b : Nat) (h : isxdigit b = true) : hexval b < 16 := by
  simp only [isxdigit, Bool.or_eq_true, Bool.and_eq_true, decide_eq_true_eq] at h
  unfold hexval
  split
  · omega
  · split
    · omega
    · omega

theorem unquote_loop_reference : ∀ (s acc : List Nat),
    (∀ out, unquote_reference s = some out → unquote_loop s acc = (0, acc ++ out)) ∧
    (unquote_reference s = none → (unquote_loop s acc).1 = -1) := by
  intro s
  induction s using unquote_reference.induct with
  | case1 => intro acc; simp [unquote_reference, unquote_loop]
  | case2 a b rest hc ih =>
    intro acc
    have hc' := hc
    simp only [Bool.and_eq_true, Bool.not_eq_true', Bool.and_eq_false_iff] at hc'
    have ha := hexval_lt a hc'.1.1
    have hb := hexval_lt b hc'.1.2
    have hmod : (hexval a * 16 + hexval b) % 256 = hexval a * 16 + hexval b := by omega
    have hn : (!isxdigit a || !isxdigit b || (a == 48 && b == 48)) = false := by
      rcases hc'.2 with h | h <;> simp [hc'.1.1, hc'.1.2, h]
    obtain ⟨ih1, ih2⟩ := ih (acc ++ [hexval a * 16 + hexval b])
    constructor
    · intro out ho
      simp only [unquote_reference, hc, if_true, Option.map_eq_some'] at ho
      obtain ⟨o, ho1, ho2⟩ := ho
      subst ho2
      simp [unquote_loop, hn, hmod, ih1 o ho1]
    · intro hnone
      simp only [unquote_reference, hc, if_true, Option.map_eq_none'] at hnone
      simp [unquote_loop, hn, hmod, ih2 hnone]
  | case3 a b rest hc =>
    intro acc
    have hn : (!isxdigit a || !isxdigit b || (a == 48 && b == 48)) = true := by
      cases h1 : isxdigit a <;> cases h2 : isxdigit b <;> cases h3 : (a == 48 && b == 48) <;>
        simp_all
    constructor
    · intro out ho
      simp only [unquote_reference] at ho
      rw [if_neg hc] at ho
      cases ho
    · intro _
      simp [unquote_loop, hn]
  | case4 t ht =>
    intro acc
    constructor
    · intro out ho
      rw [unquote_reference] at ho
      · cases ho
      · exact ht
    · intro _
      rw [unquote_loop]
      exact ht
  | case5 c rest h1 h2 ih =>
    intro acc
    obtain ⟨ih1, ih2⟩ := ih (acc ++ [c])
    constructor
    · intro out ho
      rw [unquote_reference] at ho
      · simp only [Option.map_eq_some'] at ho
        obtain ⟨o, ho1, ho2⟩ := ho
        subst ho2
        rw [unquote_loop]
        · simp [ih1 o ho1]
        · exact h1
        · exact h2
      · exact h1
      · exact h2
    · intro hnone
      rw [unquote_reference] at hnone
      · simp only [Option.map_eq_none'] at hnone
        rw [unquote_loop]
        · exact ih2 hnone
        · exact h1
        · exact h2
      · exact h1
      · exact h2

/-- C20: `unquote` returns 0 exactly when the reference percent-decoding of
the string exists, that is when, scanning from the left and skipping the two
characters of each accepted escape, every `%` is followed by two hexadecimal
digits that are not both `0`; otherwise it returns -1.  On success the string
is replaced by the reference decoding: each `%XY` gives the byte of value
0xXY and every other byte is copied.  `a%20b` becomes `a b`; `a%00b`, `a%2`
and `a%Gf` fail. -/
theorem unquote_refines (str : List Nat) :
    ((unquote str).1 = 0 ↔ (unquote_reference (cstr str)).isSome = true) ∧
    ((unquote str).1 = 0 ∨ (unquote str).1 = -1) ∧
    (∀ out, unquote_reference (cstr str) = some out → unquote str = (0, out)) ∧
    unquote (bytes "a%20b") = (0, bytes "a b") ∧
    (unquote (bytes "a%00b")).1 = -1 ∧
    (unquote (bytes "a%2")).1 = -1 ∧
    (unquote (bytes "a%Gf")).1 = -1 := by
  obtain ⟨h1, h2⟩ := unquote_loop_reference (cstr str) []
  have hsome : ∀ out, unquote_reference (cstr str) = some out → unquote str = (0, out) := by
    intro out ho
    have := h1 out ho
    simp [unquote, this]
  have hnone : unquote_reference (cstr str) = none → (unquote str).1 = -1 := by
    intro hn
    have h := h2 hn
    rcases hl : unquote_loop (cstr str) [] with ⟨r, o⟩
    rw [hl] at h
    simp only at h
    simp [unquote, hl, h]
  refine ⟨?_, ?_, hsome, by decide, by decide, by decide, by decide⟩
  · rcases href : unquote_reference (cstr str) with _ | out
    · have := hnone href
      rw [this]
      simp
    · rw [hsome out href]
      simp
  · rcases href : unquote_reference (cstr str) with _ | out
    · exact Or.inr (hnone href)
    · rw [hsome out href]
      exact Or.inl rfl



/-! ## Routing (`route_dispatch`) -/

theorem fnmatch_literal (pat : List Nat) (hlit : ∀ c ∈ pat, c ≠ 42 ∧ c ≠ 63) :
    ∀ s : List Nat, fnmatch pat s = decide (pat = s) := by
  induction pat with
  | nil =>
    intro s
    cases s <;> simp [fnmatch]
  | cons c p ih =>
    intro s
    have hc := hlit c (List.mem_cons_self _ _)
    have ihp := ih (fun d hd => hlit d (List.mem_cons_of_mem _ hd))
    cases s with
    | nil =>
      rw [fnmatch]
      · simp
      · exact hc.1
      · exact hc.2
    | cons d t =>
      rw [fnmatch]
      · simp only [ihp t]
        by_cases h1 : c = d
        · by_cases h2 : p = t
          · simp [h1, h2]
          · simp [h1, h2]
        · simp [h1]
      · exact hc.1
      · exact hc.2

theorem fnmatch_star_end (k : List Nat → Bool) (hk : k [] = true) :
    ∀ s : List Nat, fnmatch_star k s = true := by
  intro s
  induction s with
  | nil => simpa [fnmatch_star] using hk
  | cons c t ih => simp [fnmatch_star, ih]

theorem fnmatch_slash_star (s : List Nat) : fnmatch (bytes "/*") (47 :: s) = true := by
  have h : bytes "/*" = [47, 42] := by decide
  rw [h, fnmatch]
  · simp only [beq_self_eq_true, Bool.true_and]
    rw [fnmatch]
    exact fnmatch_star_end _ rfl s
  · decide
  · decide

/-- The loop of `route_dispatch` runs the handler of the first entry of the
table whose pattern matches. -/
theorem route_dispatch_loop_first (path_info : List Nat) (f : fcgi) (clt : client) :
    ∀ rs : List (List Nat × (fcgi → client → res (Int × fcgi))),
    route_dispatch_loop path_info f clt rs =
      match rs.find? (fun r => fnmatch r.1 path_info) with
      | some r => r.2 f clt
      | none => route_dispatch_loop path_info f clt [] := by
  intro rs
  induction rs with
  | nil => rfl
  | cons r rest ih =>
    by_cases h : fnmatch r.1 path_info = true
    · simp [route_dispatch_loop, List.find?, h]
    · simp only [Bool.not_eq_true] at h
      simp only [route_dispatch_loop, List.find?, h]
      simpa using ih

theorem routes_patterns :
    routes.map (fun r => r.1) = [bytes "/", bytes "/search", bytes "/all", bytes "/*"] := rfl

/-- C19: `route_dispatch` runs the handler of the first routing-table entry
whose pattern matches `path_info`: `/` goes to home, `/search` to search,
`/all` to categories, and every other `path_info` that begins with `/` (such as
`/foo/bar`) to port; port hands the request over to listing when the bind of
the details query succeeds and its first step returns no row. -/
theorem route_dispatch_table (f : fcgi) (clt : client) (p : List Nat)
    (hp : clt.clt_path_info = some p) :
    (route_dispatch f clt =
      match routes.find? (fun r => fnmatch r.1 (cstr p)) with
      | some r => r.2 f clt
      | none => route_dispatch_loop (cstr p) f clt []) ∧
    (cstr p = bytes "/" → route_dispatch f clt = route_home f clt) ∧
    (cstr p = bytes "/search" → route_dispatch f clt = route_search f clt) ∧
    (cstr p = bytes "/all" → route_dispatch f clt = route_categories f clt) ∧
    (∀ s : List Nat, cstr p = 47 :: s → cstr p ≠ bytes "/" → cstr p ≠ bytes "/search" →
      cstr p ≠ bytes "/all" → route_dispatch f clt = route_port f clt) ∧
    (cstr p = bytes "/foo/bar" → route_dispatch f clt = route_port f clt) ∧
    ((sqlite3_bind_text f.fcg_env.env_qfullpkgpath ((cstr p).drop 1)).1 = SQLITE_OK →
      (sqlite3_step (sqlite3_bind_text f.fcg_env.env_qfullpkgpath ((cstr p).drop 1)).2).1 =
        step_result.done →
      route_port f clt =
        route_listing
          (set_qfullpkgpath f (sqlite3_reset
            (sqlite3_step (sqlite3_bind_text f.fcg_env.env_qfullpkgpath
              ((cstr p).drop 1)).2).2))
          clt) := by
  have hlit1 : ∀ s, fnmatch (bytes "/") s = decide (bytes "/" = s) :=
    fnmatch_literal _ (by decide)
  have hlit2 : ∀ s, fnmatch (bytes "/search") s = decide (bytes "/search" = s) :=
    fnmatch_literal _ (by decide)
  have hlit3 : ∀ s, fnmatch (bytes "/all") s = decide (bytes "/all" = s) :=
    fnmatch_literal _ (by decide)
  have hgen : ∀ s : List Nat, cstr p = 47 :: s → cstr p ≠ bytes "/" →
      cstr p ≠ bytes "/search" → cstr p ≠ bytes "/all" →
      route_dispatch f clt = route_port f clt := by
    intro s hs h1 h2 h3
    have e1 : fnmatch (bytes "/") (cstr p) = false := by
      rw [hlit1]; simpa using fun h => h1 h.symm
    have e2 : fnmatch (bytes "/search") (cstr p) = false := by
      rw [hlit2]; simpa using fun h => h2 h.symm
    have e3 : fnmatch (bytes "/all") (cstr p) = false := by
      rw [hlit3]; simpa using fun h => h3 h.symm
    have e4 : fnmatch (bytes "/*") (cstr p) = true := by
      rw [hs]; exact fnmatch_slash_star s
    simp [route_dispatch, hp, routes, route_dispatch_loop, e1, e2, e3, e4]
  refine ⟨?_, ?_, ?_, ?_, hgen, ?_, ?_⟩
  · simp only [route_dispatch, hp]
    exact route_dispatch_loop_first _ f clt routes
  · intro h
    have e1 : fnmatch (bytes "/") (cstr p) = true := by rw [hlit1]; simp [h]
    simp [route_dispatch, hp, routes, route_dispatch_loop, e1]
  · intro h
    have e1 : fnmatch (bytes "/") (cstr p) = false := by rw [hlit1, h]; decide
    have e2 : fnmatch (bytes "/search") (cstr p) = true := by rw [hlit2]; simp [h]
    simp [route_dispatch, hp, routes, route_dispatch_loop, e1, e2]
  · intro h
    have e1 : fnmatch (bytes "/") (cstr p) = false := by rw [hlit1, h]; decide
    have e2 : fnmatch (bytes "/search") (cstr p) = false := by rw [hlit2, h]; decide
    have e3 : fnmatch (bytes "/all") (cstr p) = true := by rw [hlit3]; simp [h]
    simp [route_dispatch, hp, routes, route_dispatch_loop, e1, e2, e3]
  · intro h
    exact hgen (bytes "foo/bar") (by rw [h]; decide) (by rw [h]; decide) (by rw [h]; decide)
      (by rw [h]; decide)
  · intro hb hs
    have hb' : ¬ (sqlite3_bind_text f.fcg_env.env_qfullpkgpath ((cstr p).drop 1)).1
        ≠ SQLITE_OK := by simpa using hb
    simp only [route_port, hp, hb', if_false, hs]
    rfl

theorem route_dispatch_table_witness :
    route_dispatch (fcgi_new 1 env_empty none)
        { client_calloc 1 with clt_path_info := some (bytes "/search") } =
      route_search (fcgi_new 1 env_empty none)
        { client_calloc 1 with clt_path_info := some (bytes "/search") } :=
  (route_dispatch_table (fcgi_new 1 env_empty none)
    { client_calloc 1 with clt_path_info := some (bytes "/search") } (bytes "/search")
    rfl).2.2.1 (by decide)



/-! ## Name/value pairs (`fcgi_parse_params`) -/

theorem take_field_append (f : fcgi) (a b : List Nat) (x : Int)
    (hx : x = (a.length : Int)) (hlen : a.length < 2147483648)
    (hin : f.fcg_bev.input = a ++ b) :
    take_field f x = some (a,
      { f with
        fcg_toread := wrap32 (f.fcg_toread - x)
        fcg_bev := { f.fcg_bev with input := b } }) := by
  subst hx
  have hs : to_size_t (a.length : Int) = a.length := to_size_t_of_nat _ (by omega)
  simp [take_field, hs, hin, evbuffer_drain]

/-- One iteration of the loop of `fcgi_parse_params` on a pair whose name fits
`pname`: the two lengths and the name are read, and the iteration continues
with the tests on the name. -/
theorem fcgi_parse_params_loop_name (fuel : Nat) (f : fcgi) (clt : client)
    (name value rest : List Nat)
    (hname : name.length ≤ 31) (hvalue : value.length < 2147483648)
    (hin : f.fcg_bev.input = nv_pair name value ++ rest)
    (hlo : ((nv_pair name value).length : Int) ≤ f.fcg_toread)
    (hhi : f.fcg_toread ≤ 2147483647) :
    fcgi_parse_params_loop (fuel + 1) f clt =
      params_value fuel name (value.length : Int)
        { f with
          fcg_toread := f.fcg_toread -
            (((encode_len name.length).length + (encode_len value.length).length +
              name.length : Nat) : Int)
          fcg_bev := { f.fcg_bev with input := value ++ rest } }
        clt := by
  have hl1 := encode_len_length name.length
  have hl2 := encode_len_length value.length
  have hpl : (nv_pair name value).length =
      (encode_len name.length).length + (encode_len value.length).length + name.length +
        value.length := by
    simp [nv_pair]; omega
  rw [hpl] at hlo
  have hn1 : (encode_len name.length).length = 1 := by rw [hl1, if_pos (by omega)]
  have hv4 : (encode_len value.length).length ≤ 4 := by rw [hl2]; split <;> omega
  have hv1 : 1 ≤ (encode_len value.length).length := by rw [hl2]; split <;> omega
  have hin1 : f.fcg_bev.input =
      encode_len name.length ++ (encode_len value.length ++ (name ++ (value ++ rest))) := by
    rw [hin]; simp [nv_pair]
  have h1 := parse_len_encode f name.length _ (by omega) hin1 (by omega) hhi
  have h2 := parse_len_encode
    { f with
      fcg_toread := f.fcg_toread - ((encode_len name.length).length : Int)
      fcg_bev := { f.fcg_bev with
        input := (encode_len value.length ++ (name ++ (value ++ rest))) } }
    value.length (name ++ (value ++ rest)) hvalue rfl (by simp only; omega) (by simp only; omega)
  have h3 := take_field_append
    { f with
      fcg_toread := f.fcg_toread - ((encode_len name.length).length : Int) -
        ((encode_len value.length).length : Int)
      fcg_bev := { f.fcg_bev with
        input := (name ++ (value ++ rest)) } }
    name (value ++ rest) (name.length : Int) rfl (by omega) rfl
  have hpos : f.fcg_toread > 0 := by omega
  have hw : wrap32 ((name.length : Int) + (value.length : Int)) =
      (name.length : Int) + (value.length : Int) := wrap32_of_range _ (by omega) (by omega)
  have hs : to_size_t (name.length : Int) = name.length := to_size_t_of_nat _ (by omega)
  have hw3 : wrap32 (f.fcg_toread - ((encode_len name.length).length : Int) -
        ((encode_len value.length).length : Int) - (name.length : Int)) =
      f.fcg_toread - (((encode_len name.length).length + (encode_len value.length).length +
              name.length : Nat) : Int) := by
    rw [wrap32_of_range _ (by omega) (by omega)]; push_cast; omega
  simp only at h2 h3
  rw [hw3] at h3
  have hn0 : ¬ ((name.length : Int) < 0) := by omega
  have hv0 : ¬ ((value.length : Int) < 0) := by omega
  have hfit : ¬ (f.fcg_toread - ((encode_len name.length).length : Int) -
        ((encode_len value.length).length : Int) <
      (name.length : Int) + (value.length : Int)) := by omega
  have hshort : ¬ (name.length > 32 - 1) := by omega
  simp only [fcgi_parse_params_loop, hpos, if_true, h1, hn0, if_false, h2, hv0, hw, hfit, hs,
    hshort, h3]
  rfl

theorem cstr_of_no_nul (v : List Nat) (h : 0 ∉ v) : cstr v = v := by
  unfold cstr
  rw [List.takeWhile_eq_self_iff]
  intro b hb
  have : b ≠ 0 := fun hb0 => h (hb0 ▸ hb)
  simpa using this

theorem nv_pair_length (name value : List Nat) :
    (nv_pair name value).length =
      (encode_len name.length).length + (encode_len value.length).length + name.length +
        value.length := by
  simp [nv_pair]; omega

/-- The loop of `fcgi_parse_params` stops with 0 once the record is used up. -/
theorem fcgi_parse_params_loop_end (fuel : Nat) (f : fcgi) (clt : client)
    (h : f.fcg_toread ≤ 0) :
    fcgi_parse_params_loop (fuel + 1) f clt = .ok (0, f, clt) := by
  have : ¬ f.fcg_toread > 0 := by omega
  simp [fcgi_parse_params_loop, this]

/-- One iteration of the loop on a pair named `QUERY_STRING`. -/
theorem fcgi_parse_params_loop_query (fuel : Nat) (f : fcgi) (clt : client)
    (v rest : List Nat)
    (hnul : 0 ∉ v) (hv : v.length < 2147483648)
    (hin : f.fcg_bev.input = nv_pair (bytes "QUERY_STRING") v ++ rest)
    (hlo : ((nv_pair (bytes "QUERY_STRING") v).length : Int) ≤ f.fcg_toread)
    (hhi : f.fcg_toread ≤ 2147483647) :
    fcgi_parse_params_loop (fuel + 1) f clt =
      fcgi_parse_params_loop fuel
        { f with
          fcg_toread := f.fcg_toread - ((nv_pair (bytes "QUERY_STRING") v).length : Int)
          fcg_bev := { f.fcg_bev with input := rest } }
        (if 1 ≤ v.length ∧ v.length ≤ 1024 then { clt with clt_query := some v } else clt) := by
  have hname : (bytes "QUERY_STRING").length = 12 := by decide
  rw [fcgi_parse_params_loop_name fuel f clt (bytes "QUERY_STRING") v rest (by rw [hname]; omega)
    hv hin hlo hhi]
  have hpl := nv_pair_length (bytes "QUERY_STRING") v
  rw [hpl] at hlo ⊢
  have hl2 := encode_len_length v.length
  have hv4 : (encode_len v.length).length ≤ 4 := by rw [hl2]; split <;> omega
  have e1 : strcmp_eq (bytes "QUERY_STRING") (bytes "SERVER_NAME") = false := by decide
  have e2 : strcmp_eq (bytes "QUERY_STRING") (bytes "SCRIPT_NAME") = false := by decide
  have e3 : strcmp_eq (bytes "QUERY_STRING") (bytes "GEMINI_URL_PATH") = false := by decide
  have e4 : strcmp_eq (bytes "QUERY_STRING") (bytes "QUERY_STRING") = true := by decide
  have e5 : strcmp_eq (bytes "QUERY_STRING") (bytes "REQUEST_METHOD") = false := by decide
  have hs : to_size_t (v.length : Int) = v.length := to_size_t_of_nat _ (by omega)
  have hw : wrap32 (f.fcg_toread -
        (((encode_len (bytes "QUERY_STRING").length).length + (encode_len v.length).length +
          (bytes "QUERY_STRING").length : Nat) : Int) - (v.length : Int)) =
      f.fcg_toread - (((encode_len (bytes "QUERY_STRING").length).length +
        (encode_len v.length).length + (bytes "QUERY_STRING").length + v.length : Nat) : Int) := by
    rw [wrap32_of_range _ (by push_cast; omega) (by push_cast; omega)]; push_cast; omega
  by_cases hr : 1 ≤ v.length ∧ v.length ≤ 1024
  · have h4 := take_field_append
      { f with
        fcg_toread := f.fcg_toread -
          (((encode_len (bytes "QUERY_STRING").length).length + (encode_len v.length).length +
            (bytes "QUERY_STRING").length : Nat) : Int)
        fcg_bev := { f.fcg_bev with
          input := (v ++ rest) } }
      v rest (v.length : Int) rfl hv rfl
    simp only at h4
    rw [hw] at h4
    have c1 : v.length < GEMINI_MAXLEN := by unfold GEMINI_MAXLEN; omega
    have c2 : (v.length : Int) > 0 := by omega
    simp only [params_value, e1, e2, e3, e4, Bool.false_and, Bool.true_and, hs, c1, c2,
      decide_True, Bool.and_self, if_true, h4, if_pos hr, cstr_of_no_nul v hnul]
    simp
  · have c : ¬ (v.length < GEMINI_MAXLEN ∧ (v.length : Int) > 0) := by
      unfold GEMINI_MAXLEN; omega
    have c3 : (decide (v.length < GEMINI_MAXLEN) && decide ((v.length : Int) > 0)) = false := by
      simpa using c
    simp only [params_value, e1, e2, e3, e4, e5, Bool.false_and, Bool.true_and, hs, c3,
      if_neg hr, hw, evbuffer_drain]
    simp

/-- C16: on a pair named `QUERY_STRING` whose value `v` has no NUL byte, one
iteration of `fcgi_parse_params` sets the query of the request to exactly `v`
when `1 ≤ |v| ≤ 1024` and leaves the request unchanged when `|v| = 0` or
`|v| > 1024`; in both cases exactly the bytes of the pair are removed from the
input and from `fcg_toread`, and the loop goes on with the next pair.  When the
pair is the last one of the record, `fcgi_parse_params` returns 0 in that
state. -/
theorem params_query_string (f : fcgi) (clt : client) (v rest : List Nat)
    (hnul : 0 ∉ v) (hv : v.length < 2147483648)
    (hin : f.fcg_bev.input = nv_pair (bytes "QUERY_STRING") v ++ rest)
    (hlo : ((nv_pair (bytes "QUERY_STRING") v).length : Int) ≤ f.fcg_toread)
    (hhi : f.fcg_toread ≤ 2147483647) :
    (∀ fuel, fcgi_parse_params_loop (fuel + 1) f clt =
      fcgi_parse_params_loop fuel
        { f with
          fcg_toread := f.fcg_toread - ((nv_pair (bytes "QUERY_STRING") v).length : Int)
          fcg_bev := { f.fcg_bev with input := rest } }
        (if 1 ≤ v.length ∧ v.length ≤ 1024 then { clt with clt_query := some v } else clt)) ∧
    (f.fcg_toread = ((nv_pair (bytes "QUERY_STRING") v).length : Int) →
      fcgi_parse_params f clt = .ok (0,
        { f with
          fcg_toread := 0
          fcg_bev := { f.fcg_bev with input := rest } },
        (if 1 ≤ v.length ∧ v.length ≤ 1024 then { clt with clt_query := some v } else clt))) := by
  refine ⟨fun fuel => fcgi_parse_params_loop_query fuel f clt v rest hnul hv hin hlo hhi, ?_⟩
  intro hlast
  have hpl := nv_pair_length (bytes "QUERY_STRING") v
  have hlen : f.fcg_bev.input.length = (f.fcg_bev.input.length - 1) + 1 := by
    rw [hin, List.length_append, hpl]
    have : (bytes "QUERY_STRING").length = 12 := by decide
    omega
  unfold fcgi_parse_params
  rw [fcgi_parse_params_loop_query _ f clt v rest hnul hv hin hlo hhi, hlen,
    fcgi_parse_params_loop_end _ _ _ (by simp only; omega), hlast]
  simp

theorem params_query_string_witness :
    fcgi_parse_params
        { fcgi_new 1 env_empty none with
          fcg_toread := 16
          fcg_bev := { input := nv_pair (bytes "QUERY_STRING") (bytes "vi") ++ [1, 6]
                       output := []
                       wfail := none } }
        (client_calloc 1) =
      .ok (0,
        { fcgi_new 1 env_empty none with
          fcg_toread := 0
          fcg_bev := { input := [1, 6], output := [], wfail := none } },
        { client_calloc 1 with clt_query := some (bytes "vi") }) :=
  (params_query_string
    { fcgi_new 1 env_empty none with
      fcg_toread := 16
      fcg_bev := { input := nv_pair (bytes "QUERY_STRING") (bytes "vi") ++ [1, 6]
                   output := []
                   wfail := none } }
    (client_calloc 1) (bytes "vi") [1, 6] (by decide) (by decide) rfl (by decide) (by decide)).2
    (by decide)

/-- One iteration of the loop on a pair named `SCRIPT_NAME`. -/
theorem fcgi_parse_params_loop_script (fuel : Nat) (f : fcgi) (clt : client)
    (v rest : List Nat)
    (hnul : 0 ∉ v) (hv : v.length < PATH_MAX)
    (hin : f.fcg_bev.input = nv_pair (bytes "SCRIPT_NAME") v ++ rest)
    (hlo : ((nv_pair (bytes "SCRIPT_NAME") v).length : Int) ≤ f.fcg_toread)
    (hhi : f.fcg_toread ≤ 2147483647) :
    fcgi_parse_params_loop (fuel + 1) f clt =
      fcgi_parse_params_loop fuel
        { f with
          fcg_toread := f.fcg_toread - ((nv_pair (bytes "SCRIPT_NAME") v).length : Int)
          fcg_bev := { f.fcg_bev with input := rest } }
        { clt with
          clt_script_name := some (if v.getLast? = some 47 then v else v ++ [47]) } := by
  have hname : (bytes "SCRIPT_NAME").length = 11 := by decide
  have hv2 : v.length < 1024 := hv
  rw [fcgi_parse_params_loop_name fuel f clt (bytes "SCRIPT_NAME") v rest (by rw [hname]; omega)
    (by omega) hin hlo hhi]
  have hpl := nv_pair_length (bytes "SCRIPT_NAME") v
  rw [hpl] at hlo ⊢
  have hl2 := encode_len_length v.length
  have hv4 : (encode_len v.length).length ≤ 4 := by rw [hl2]; split <;> omega
  have e1 : strcmp_eq (bytes "SCRIPT_NAME") (bytes "SERVER_NAME") = false := by decide
  have e2 : strcmp_eq (bytes "SCRIPT_NAME") (bytes "SCRIPT_NAME") = true := by decide
  have hs : to_size_t (v.length : Int) = v.length := to_size_t_of_nat _ (by omega)
  have hw : wrap32 (f.fcg_toread -
        (((encode_len (bytes "SCRIPT_NAME").length).length + (encode_len v.length).length +
          (bytes "SCRIPT_NAME").length : Nat) : Int) - (v.length : Int)) =
      f.fcg_toread - (((encode_len (bytes "SCRIPT_NAME").length).length +
        (encode_len v.length).length + (bytes "SCRIPT_NAME").length + v.length : Nat) : Int) := by
    rw [wrap32_of_range _ (by push_cast; omega) (by push_cast; omega)]; push_cast; omega
  have h4 := take_field_append
    { f with
      fcg_toread := f.fcg_toread -
        (((encode_len (bytes "SCRIPT_NAME").length).length + (encode_len v.length).length +
          (bytes "SCRIPT_NAME").length : Nat) : Int)
      fcg_bev := { f.fcg_bev with
        input := (v ++ rest) } }
    v rest (v.length : Int) rfl (by omega) rfl
  simp only at h4
  rw [hw] at h4
  simp only [params_value, e1, e2, Bool.false_and, Bool.true_and, hs, hv, decide_True, if_true,
    h4, cstr_of_no_nul v hnul]
  by_cases hl : v.getLast? = some 47
  · have hne : ¬ ((v.length : Int) = 0) := by
      intro h0
      have : v = [] := List.length_eq_zero.mp (by exact_mod_cast h0)
      rw [this] at hl
      simp at hl
    have hc : ¬ ((v.length : Int) = 0 ∨ v.getLast? ≠ some 47) := by
      rintro (h | h)
      · exact hne h
      · exact h hl
    rw [if_neg hc, if_pos hl]
    simp
  · have hc : (v.length : Int) = 0 ∨ v.getLast? ≠ some 47 := Or.inr hl
    rw [if_pos hc, if_neg hl]
    simp

/-- C17, amended: for every `SCRIPT_NAME` value `v` of length `< PATH_MAX`
that contains no NUL byte, the iteration of `fcgi_parse_params` stores `v`
itself when `v` ends with `/` and `v` followed by one `/` otherwise; what is
stored ends with `/`, and the empty value is stored as `/`.  When the pair is
the last one of the record, `fcgi_parse_params` returns 0 in that state. -/
theorem params_script_name (f : fcgi) (clt : client) (v rest : List Nat)
    (hnul : 0 ∉ v) (hv : v.length < PATH_MAX)
    (hin : f.fcg_bev.input = nv_pair (bytes "SCRIPT_NAME") v ++ rest)
    (hlo : ((nv_pair (bytes "SCRIPT_NAME") v).length : Int) ≤ f.fcg_toread)
    (hhi : f.fcg_toread ≤ 2147483647) :
    (∀ fuel, fcgi_parse_params_loop (fuel + 1) f clt =
      fcgi_parse_params_loop fuel
        { f with
          fcg_toread := f.fcg_toread - ((nv_pair (bytes "SCRIPT_NAME") v).length : Int)
          fcg_bev := { f.fcg_bev with input := rest } }
        { clt with
          clt_script_name := some (if v.getLast? = some 47 then v else v ++ [47]) }) ∧
    (if v.getLast? = some 47 then v else v ++ [47]).getLast? = some 47 ∧
    (v = [] → (if v.getLast? = some 47 then v else v ++ [47]) = bytes "/") ∧
    (f.fcg_toread = ((nv_pair (bytes "SCRIPT_NAME") v).length : Int) →
      fcgi_parse_params f clt = .ok (0,
        { f with
          fcg_toread := 0
          fcg_bev := { f.fcg_bev with input := rest } },
        { clt with
          clt_script_name := some (if v.getLast? = some 47 then v else v ++ [47]) })) := by
  refine ⟨fun fuel => fcgi_parse_params_loop_script fuel f clt v rest hnul hv hin hlo hhi,
    ?_, ?_, ?_⟩
  · by_cases hl : v.getLast? = some 47
    · rw [if_pos hl]; exact hl
    · rw [if_neg hl]; simp
  · intro he
    subst he
    decide
  · intro hlast
    have hpl := nv_pair_length (bytes "SCRIPT_NAME") v
    have hlen : f.fcg_bev.input.length = (f.fcg_bev.input.length - 1) + 1 := by
      rw [hin, List.length_append, hpl]
      have : (bytes "SCRIPT_NAME").length = 11 := by decide
      omega
    unfold fcgi_parse_params
    rw [fcgi_parse_params_loop_script _ f clt v rest hnul hv hin hlo hhi, hlen,
      fcgi_parse_params_loop_end _ _ _ (by simp only; omega), hlast]
    simp

theorem params_script_name_witness :
    fcgi_parse_params
        { fcgi_new 1 env_empty none with
          fcg_toread := 17
          fcg_bev := { input := nv_pair (bytes "SCRIPT_NAME") (bytes "/app") ++ [1, 4]
                       output := []
                       wfail := none } }
        (client_calloc 1) =
      .ok (0,
        { fcgi_new 1 env_empty none with
          fcg_toread := 0
          fcg_bev := { input := [1, 4], output := [], wfail := none } },
        { client_calloc 1 with clt_script_name := some (bytes "/app/") }) :=
  (params_script_name
    { fcgi_new 1 env_empty none with
      fcg_toread := 17
      fcg_bev := { input := nv_pair (bytes "SCRIPT_NAME") (bytes "/app") ++ [1, 4]
                   output := []
                   wfail := none } }
    (client_calloc 1) (bytes "/app") [1, 4] (by decide) (by decide) rfl (by decide)
    (by decide)).2.2.2 (by decide)

set_option maxRecDepth 100000 in
/-- C17 as stated fails on values that hold a NUL byte.  The two-byte value
NUL `/` has length `< PATH_MAX` and ends with `/`, and what is stored for it
is the empty string: not the value, and not a string that ends with `/`.  The
three-byte value `a` NUL `b` does not end with `/`, and what is stored is
`a/`, not the value followed by `/`. -/
theorem params_script_name_nul :
    (match fcgi_parse_params
        { fcgi_new 1 env_empty none with
          fcg_toread := 15
          fcg_bev := { input := nv_pair (bytes "SCRIPT_NAME") [0, 47]
                       output := []
                       wfail := none } }
        (client_calloc 1) with
      | .ok (r, _, c) => (r, c.clt_script_name)
      | _ => (-1, none)) = (0, some []) ∧
    ([0, 47] : List Nat).length < PATH_MAX ∧
    ([0, 47] : List Nat).getLast? = some 47 ∧
    ([] : List Nat).getLast? ≠ some 47 ∧
    (match fcgi_parse_params
        { fcgi_new 1 env_empty none with
          fcg_toread := 16
          fcg_bev := { input := nv_pair (bytes "SCRIPT_NAME") [97, 0, 98]
                       output := []
                       wfail := none } }
        (client_calloc 1) with
      | .ok (r, _, c) => (r, c.clt_script_name)
      | _ => (-1, none)) = (0, some (bytes "a/")) ∧
    bytes "a/" ≠ [97, 0, 98] ++ [47] := by
  decide


/-! ## The request handed to `server_handle` -/

set_option maxRecDepth 1000000 in
/-- C18 fails on the code: `fcgi_read` hands a request to `server_handle` on
its empty `PARAMS` record whatever parameters came before.  After a
`BEGIN_REQUEST` for id 1 the request has neither `path_info` nor
`script_name`; the empty `PARAMS` record that follows hands it over, and
`route_dispatch` passes the null `clt_path_info` to `fnmatch`.  When only
`GEMINI_URL_PATH` was sent, `route_home` prints the null `clt_script_name`.
When `SCRIPT_NAME` was sent as the two bytes NUL `/`, the request is handed
over with the empty `script_name`, which does not end with `/`. -/
theorem server_handle_unset_path :
    (match bufferevent_readcb (fcgi_new 1 env_empty none)
        (fcgi_record FCGI_BEGIN_REQUEST 1 (begin_body 1 1) []) with
      | .ok f => f.fcg_clients.map (fun c => (c.clt_id, c.clt_path_info, c.clt_script_name))
      | _ => []) = [(1, none, none)] ∧
    deliver (fcgi_new 1 env_empty none)
      [fcgi_record FCGI_BEGIN_REQUEST 1 (begin_body 1 1) [],
        fcgi_record FCGI_PARAMS 1 [] []] = .undefined ∧
    (∀ f : fcgi, server_handle f (client_calloc 1) = .undefined) ∧
    (match deliver (fcgi_new 1 env_empty none)
        [fcgi_record FCGI_BEGIN_REQUEST 1 (begin_body 1 1) [],
          fcgi_record FCGI_PARAMS 1 (nv_pair (bytes "GEMINI_URL_PATH") (bytes "/")) []] with
      | .ok f => f.fcg_clients.map (fun c => (c.clt_id, c.clt_path_info, c.clt_script_name))
      | _ => []) = [(1, some (bytes "/"), none)] ∧
    deliver (fcgi_new 1 env_empty none)
      [fcgi_record FCGI_BEGIN_REQUEST 1 (begin_body 1 1) [],
        fcgi_record FCGI_PARAMS 1 (nv_pair (bytes "GEMINI_URL_PATH") (bytes "/")) [],
        fcgi_record FCGI_PARAMS 1 [] []] = .undefined ∧
    (match deliver (fcgi_new 1 env_empty none)
        [fcgi_record FCGI_BEGIN_REQUEST 1 (begin_body 1 1) [],
          fcgi_record FCGI_PARAMS 1 (nv_pair (bytes "GEMINI_URL_PATH") (bytes "/") ++
            nv_pair (bytes "SCRIPT_NAME") [0, 47]) []] with
      | .ok f => f.fcg_clients.map (fun c => (c.clt_id, c.clt_path_info, c.clt_script_name))
      | _ => []) = [(1, some (bytes "/"), some [])] := by
  refine ⟨by decide, by decide, fun f => rfl, by decide, by decide, by decide⟩


/-! ## What a handler does to the connection -/

theorem stepped_after_wrote (f0 f f1 : fcgi) (clt0 clt clt1 : client) (r : Int)
    (h1 : wrote f0 clt0 f clt) (h2 : stepped f clt r f1 clt1) : stepped f0 clt0 r f1 clt1 := by
  rcases h2 with ⟨hr, hw⟩ | ⟨hr, ht, hb⟩
  · exact Or.inl ⟨hr, wrote_trans _ _ _ _ _ _ h1 hw⟩
  · exact Or.inr ⟨hr, torn_down_after_wrote _ _ _ _ _ h1 ht, hb⟩

/-- An assignment to a prepared statement of the environment is not seen by `wrote`. -/
theorem wrote_set_env (f0 f : fcgi) (clt0 clt : client) (e : env)
    (h : wrote f0 clt0 f clt) (he : e.fcgi_inflight = f.fcg_env.fcgi_inflight) :
    wrote f0 clt0 { f with fcg_env := e } clt := by
  obtain ⟨a1, a2, a3, a4, a5, a6, a7, a8, ps, a9, a10⟩ := h
  exact ⟨a1, a2, a3, a4, he.trans a5, a6, a7, a8, ps, a9, a10⟩

theorem torn_down_set_env (f0 f : fcgi) (e : env)
    (h : torn_down f0 f) (he : e.fcgi_inflight = f.fcg_env.fcgi_inflight) :
    torn_down f0 { f with fcg_env := e } := by
  obtain ⟨a1, a2, a3, a4, a5⟩ := h
  exact ⟨a1, a2, a3, a4, he.trans a5⟩

theorem stepped_set_env (f0 f : fcgi) (clt0 clt : client) (r : Int) (e : env)
    (h : stepped f0 clt0 r f clt) (he : e.fcgi_inflight = f.fcg_env.fcgi_inflight) :
    stepped f0 clt0 r { f with fcg_env := e } clt := by
  rcases h with ⟨hr, hw⟩ | ⟨hr, ht, hb⟩
  · exact Or.inl ⟨hr, wrote_set_env _ _ _ _ _ hw he⟩
  · exact Or.inr ⟨hr, torn_down_set_env _ _ _ ht he, hb⟩

/-- The macro `SPLAY_REMOVE` looks at the id of its key only. -/
theorem SPLAY_REMOVE_id (t : List client) (a b : client) (h : a.clt_id = b.clt_id) :
    SPLAY_REMOVE t a = SPLAY_REMOVE t b := by
  simp [SPLAY_REMOVE, fcgi_client_cmp, h]

theorem handled_after_wrote (f0 f f1 : fcgi) (clt0 clt : client) (r : Int)
    (h1 : wrote f0 clt0 f clt) (h2 : handled f clt r f1) : handled f0 clt0 r f1 := by
  rcases h2 with ⟨hr, b1, b2, b3, b4, b5, b6, ps2, status, b9, b10⟩ | ⟨hr, ht⟩
  · obtain ⟨a1, a2, a3, a4, a5, a6, a7, _, ps1, a9, a10⟩ := h1
    refine Or.inl ⟨hr, same_decoder_trans _ _ _ a1 b1, b2.trans a2, ?_, ?_, b5.trans a5,
      fun h => b6 (a6 h), ps1 ++ ps2, status, ?_, ?_⟩
    · rw [b3, a3, SPLAY_REMOVE_id _ _ _ a7]
    · rw [b4, a4, a1.2.2.2.2.2.2.2]
    · rw [b9, a9, a7]
      simp [List.append_assoc]
    · intro p hp
      rcases List.mem_append.mp hp with h | h
      · exact a10 p h
      · exact b10 p h
  · exact Or.inr ⟨hr, torn_down_after_wrote _ _ _ _ _ h1 ht⟩

/-- The two writes of `fcgi_send_end_req` touch the output buffer only. -/
theorem fcgi_send_end_req_frame (f : fcgi) (id : Nat) (as ps : Int) :
    ((fcgi_send_end_req f id as ps).1 = 0 ∨ (fcgi_send_end_req f id as ps).1 = -1) ∧
    same_decoder f (fcgi_send_end_req f id as ps).2 ∧
    (fcgi_send_end_req f id as ps).2.fcg_freed = f.fcg_freed ∧
    (fcgi_send_end_req f id as ps).2.fcg_clients = f.fcg_clients ∧
    (fcgi_send_end_req f id as ps).2.fcg_done = f.fcg_done ∧
    (fcgi_send_end_req f id as ps).2.fcg_env = f.fcg_env := by
  unfold fcgi_send_end_req
  simp only
  split
  · exact ⟨Or.inr rfl, ⟨rfl, by simp [bufferevent_write]; split <;> rfl, rfl, rfl, rfl, rfl,
      rfl, rfl⟩, rfl, rfl, rfl, rfl⟩
  · split
    · exact ⟨Or.inr rfl, ⟨rfl, by simp [bufferevent_write]; split <;> split <;> rfl, rfl, rfl,
        rfl, rfl, rfl, rfl⟩, rfl, rfl, rfl, rfl⟩
    · exact ⟨Or.inl rfl, ⟨rfl, by simp [bufferevent_write]; split <;> split <;> rfl, rfl, rfl,
        rfl, rfl, rfl, rfl⟩, rfl, rfl, rfl, rfl⟩

theorem torn_down_fcgi_error (f f1 : fcgi) (hd : same_decoder f f1) (hdone : f1.fcg_done = f.fcg_done)
    (henv : f1.fcg_env.fcgi_inflight = f.fcg_env.fcgi_inflight) : torn_down f (fcgi_error f1) :=
  ⟨hd, rfl, rfl, hdone, by simp [fcgi_error, henv]⟩

/-- The function `end_request` returns 0, or -1 after tearing the connection down. -/
theorem end_request_failed (f : fcgi) (clt : client) (status proto_status : Int)
    (hok : buf_ok clt) :
    (end_request f clt status proto_status).1 = 0 ∨
    ((end_request f clt status proto_status).1 = -1 ∧
      torn_down f (end_request f clt status proto_status).2) := by
  have hlen : clt.clt_buflen ≤ clt.clt_buf.length := by rw [hok.1]; exact hok.2
  have hex := (clt_flush_exact f clt hlen).2
  have hfail := clt_flush_failed f clt
  rcases hz : clt_flush f clt with ⟨r, f1, clt1⟩
  rw [hz] at hex hfail
  simp only at hex hfail
  simp only [end_request, hz]
  by_cases hr : r = -1
  · rw [if_pos hr]
    exact Or.inr ⟨by simp, (hfail hr).1⟩
  · rw [if_neg hr]
    have hr0 : r = 0 := by
      have := clt_flush_zero_or_neg f clt
      rw [hz] at this
      rcases this with h | h
      · exact h
      · exact absurd h hr
    obtain ⟨w, _, hf1, _⟩ := hex hr0
    have hfr := fcgi_send_end_req_frame f1 clt1.clt_id status proto_status
    by_cases hs : (fcgi_send_end_req f1 clt1.clt_id status proto_status).1 = -1
    · simp only [hs, if_true]
      refine Or.inr ⟨by simp, torn_down_fcgi_error _ _ ?_ ?_ ?_⟩
      · refine same_decoder_trans f f1 _ ?_ hfr.2.1
        rw [hf1]
        exact ⟨rfl, rfl, rfl, rfl, rfl, rfl, rfl, rfl⟩
      · rw [hfr.2.2.2.2.1, hf1]; rfl
      · rw [hfr.2.2.2.2.2, hf1]; rfl
    · simp only [hs, if_false]
      left
      split <;> rfl

/-- The function `fcgi_end_request` on a request whose buffer is sound. -/
theorem fcgi_end_request_handled (f : fcgi) (clt : client) (status : Int) (hok : buf_ok clt) :
    handled f clt (fcgi_end_request f clt status).1 (fcgi_end_request f clt status).2 := by
  have hlen : clt.clt_buflen ≤ clt.clt_buf.length := by rw [hok.1]; exact hok.2
  unfold fcgi_end_request
  rcases end_request_failed f clt status FCGI_REQUEST_COMPLETE hok with h0 | ⟨h1, ht⟩
  · obtain ⟨w, hw, he⟩ := (end_request_exact f clt status FCGI_REQUEST_COMPLETE hlen).2 h0
    refine Or.inl ⟨h0, ?_⟩
    rw [he]
    refine ⟨⟨rfl, rfl, rfl, rfl, rfl, rfl, rfl, rfl⟩, rfl, rfl, rfl, rfl, hw,
      (if clt.clt_buflen = 0 then [] else [clt.clt_buf.take clt.clt_buflen]), status, ?_, ?_⟩
    · by_cases hb : clt.clt_buflen = 0
      · simp [hb, with_out, FCGI_REQUEST_COMPLETE]
      · simp [hb, with_out, FCGI_REQUEST_COMPLETE]
    · intro p hp
      by_cases hb : clt.clt_buflen = 0
      · simp [hb] at hp
      · simp only [hb, if_false, List.mem_singleton] at hp
        subst hp
        have h2 := hok.2
        rw [List.length_take, hok.1]
        omega
  · exact Or.inr ⟨h1, ht⟩

theorem handler_ok_undefined (f : fcgi) (clt : client) : handler_ok f clt .undefined := by
  intro rr f1 h
  cases h

theorem handler_ok_nofuel (f : fcgi) (clt : client) : handler_ok f clt .nofuel := by
  intro rr f1 h
  cases h

/-- The last step of a handler: `return (fcgi_end_request(clt, status))`. -/
theorem handler_ok_end (f0 f : fcgi) (clt0 clt : client) (status : Int)
    (hw : wrote f0 clt0 f clt) : handler_ok f0 clt0 (.ok (fcgi_end_request f clt status)) := by
  intro rr f1 h
  have hh := fcgi_end_request_handled f clt status hw.2.2.2.2.2.2.2.1
  have e : fcgi_end_request f clt status = (rr, f1) := by
    injection h
  rw [e] at hh
  exact handled_after_wrote _ _ _ _ _ _ hw hh

/-- The exit of a handler after a failed write. -/
theorem handler_ok_err (f0 f : fcgi) (clt0 : client) (ht : torn_down f0 f) :
    handler_ok f0 clt0 (.ok (-1, f)) := by
  intro rr f1 h
  injection h with h
  injection h with h1 h2
  subst h1
  subst h2
  exact Or.inr ⟨rfl, ht⟩

theorem handler_ok_on_ok (f0 f : fcgi) (clt0 clt : client) (r : res (Int × fcgi × client))
    (k : fcgi → client → res (Int × fcgi))
    (hw : wrote f0 clt0 f clt) (hr : writer_ok f clt r)
    (hk : ∀ f1 clt1, wrote f0 clt0 f1 clt1 → handler_ok f0 clt0 (k f1 clt1)) :
    handler_ok f0 clt0 (on_ok r k) := by
  rcases r with ⟨rc, f1, clt1⟩ | _ | _
  · have hs := stepped_after_wrote _ _ _ _ _ _ _ hw (hr rc f1 clt1 rfl)
    simp only [on_ok]
    rcases hs with ⟨h0, hw1⟩ | ⟨h1, ht, _⟩
    · have : ¬ rc = -1 := by omega
      rw [if_neg this]
      exact hk f1 clt1 hw1
    · rw [if_pos h1]
      exact handler_ok_err _ _ _ ht
  · exact handler_ok_undefined _ _
  · exact handler_ok_nofuel _ _

theorem handler_ok_on_ok_else (f0 f : fcgi) (clt0 clt : client)
    (r : res (Int × fcgi × client)) (err : fcgi → res (Int × fcgi))
    (k : fcgi → client → res (Int × fcgi))
    (hw : wrote f0 clt0 f clt) (hr : writer_ok f clt r)
    (herr : ∀ f1, torn_down f0 f1 → handler_ok f0 clt0 (err f1))
    (hk : ∀ f1 clt1, wrote f0 clt0 f1 clt1 → handler_ok f0 clt0 (k f1 clt1)) :
    handler_ok f0 clt0 (on_ok_else r err k) := by
  rcases r with ⟨rc, f1, clt1⟩ | _ | _
  · have hs := stepped_after_wrote _ _ _ _ _ _ _ hw (hr rc f1 clt1 rfl)
    simp only [on_ok_else]
    rcases hs with ⟨h0, hw1⟩ | ⟨h1, ht, _⟩
    · have : ¬ rc = -1 := by omega
      rw [if_neg this]
      exact hk f1 clt1 hw1
    · rw [if_pos h1]
      exact herr f1 ht
  · exact handler_ok_undefined _ _
  · exact handler_ok_nofuel _ _

theorem writer_ok_clt_write (f0 f : fcgi) (clt0 clt : client) (buf : List Nat)
    (hw : wrote f0 clt0 f clt) : writer_ok f clt (clt_write f clt buf) :=
  fun rc f1 clt1 h => clt_write_stepped f clt buf hw.2.2.2.2.2.2.2.1 rc f1 clt1 h

theorem handler_ok_write (f0 f : fcgi) (clt0 clt : client) (buf : List Nat)
    (k : fcgi → client → res (Int × fcgi))
    (hw : wrote f0 clt0 f clt)
    (hk : ∀ f1 clt1, wrote f0 clt0 f1 clt1 → handler_ok f0 clt0 (k f1 clt1)) :
    handler_ok f0 clt0 (on_ok (clt_write f clt buf) k) :=
  handler_ok_on_ok f0 f clt0 clt _ k hw (writer_ok_clt_write f0 f clt0 clt buf hw) hk

theorem handler_ok_write_else (f0 f : fcgi) (clt0 clt : client) (buf : List Nat)
    (err : fcgi → res (Int × fcgi)) (k : fcgi → client → res (Int × fcgi))
    (hw : wrote f0 clt0 f clt)
    (herr : ∀ f1, torn_down f0 f1 → handler_ok f0 clt0 (err f1))
    (hk : ∀ f1 clt1, wrote f0 clt0 f1 clt1 → handler_ok f0 clt0 (k f1 clt1)) :
    handler_ok f0 clt0 (on_ok_else (clt_write f clt buf) err k) :=
  handler_ok_on_ok_else f0 f clt0 clt _ err k hw (writer_ok_clt_write f0 f clt0 clt buf hw) herr hk

/-- The handler `route_home`. -/
theorem route_home_ok (f0 f : fcgi) (clt0 clt : client) (hw : wrote f0 clt0 f clt) :
    handler_ok f0 clt0 (route_home f clt) := by
  simp only [route_home, server_reply, clt_printf]
  repeat (refine handler_ok_write _ _ _ _ _ _ (by assumption) ?_; intro _ _ _)
  split
  · exact handler_ok_undefined _ _
  · repeat (refine handler_ok_write _ _ _ _ _ _ (by assumption) ?_; intro _ _ _)
    exact handler_ok_end _ _ _ _ _ (by assumption)

/-- A printed row followed by the rest of a row loop. -/
theorem stepped_row (f0 f f2 f1 : fcgi) (clt clt2 clt1 : client) (r0 r : Int) (buf : List Nat)
    (hw : wrote f0 clt f clt)
    (hp : clt_printf f clt buf = .ok (r0, f2, clt2))
    (hrest : buf_ok clt2 → (if r0 = -1 then (r = -1 ∧ f1 = f2 ∧ clt1 = clt2)
      else stepped f2 clt2 r f1 clt1)) :
    stepped f0 clt r f1 clt1 := by
  have hs := clt_write_stepped f clt buf hw.2.2.2.2.2.2.2.1 r0 f2 clt2 hp
  have hb := stepped_buf_ok _ _ _ _ _ hs
  have hs0 := stepped_after_wrote _ _ _ _ _ _ _ hw hs
  have h := hrest hb
  rcases hs0 with ⟨h0, hw0⟩ | ⟨h1, ht, _⟩
  · have : ¬ r0 = -1 := by omega
    rw [if_neg this] at h
    exact stepped_after_wrote _ _ _ _ _ _ _ hw0 h
  · rw [if_pos h1] at h
    obtain ⟨e1, e2, e3⟩ := h
    subst e1; subst e2; subst e3
    exact Or.inr ⟨rfl, ht, hb⟩

theorem route_categories_loop_stepped (fuel : Nat) :
    ∀ (f : fcgi) (clt : client), buf_ok clt →
    ∀ (r : Int) (f1 : fcgi) (clt1 : client),
      route_categories_loop fuel f clt = .ok (r, f1, clt1) → stepped f clt r f1 clt1 := by
  induction fuel with
  | zero =>
    intro f clt _ r f1 clt1 h
    simp [route_categories_loop] at h
  | succ n ih =>
    intro f clt hok r f1 clt1 h
    have hw : wrote f clt (set_qcats f (sqlite3_step f.fcg_env.env_qcats).2) clt :=
      wrote_set_env _ _ _ _ _ (wrote_refl f clt hok) rfl
    simp only [route_categories_loop] at h
    split at h
    · simp only [res.ok.injEq, Prod.mk.injEq] at h
      obtain ⟨e1, e2, e3⟩ := h
      subst e1; subst e2; subst e3
      exact Or.inl ⟨rfl, hw⟩
    · simp only [res.ok.injEq, Prod.mk.injEq] at h
      obtain ⟨e1, e2, e3⟩ := h
      subst e1; subst e2; subst e3
      exact Or.inl ⟨rfl, hw⟩
    · split at h
      · split at h
        · rename_i r0 f2 clt2 hp
          refine stepped_row f _ f2 f1 clt clt2 clt1 r0 r _ hw hp ?_
          intro hb
          by_cases h1 : r0 = -1
          · rw [if_pos h1] at h ⊢
            simp only [res.ok.injEq, Prod.mk.injEq] at h
            exact ⟨h.1.symm, h.2.1.symm, h.2.2.symm⟩
          · rw [if_neg h1] at h ⊢
            exact ih f2 clt2 hb r f1 clt1 h
        · cases h
        · cases h
      · cases h

theorem route_listing_loop_stepped (fuel : Nat) :
    ∀ (f : fcgi) (clt : client), buf_ok clt →
    ∀ (r : Int) (f1 : fcgi) (clt1 : client),
      route_listing_loop fuel f clt = .ok (r, f1, clt1) → stepped f clt r f1 clt1 := by
  induction fuel with
  | zero =>
    intro f clt _ r f1 clt1 h
    simp [route_listing_loop] at h
  | succ n ih =>
    intro f clt hok r f1 clt1 h
    have hw : wrote f clt (set_qbycat f (sqlite3_step f.fcg_env.env_qbycat).2) clt :=
      wrote_set_env _ _ _ _ _ (wrote_refl f clt hok) rfl
    simp only [route_listing_loop] at h
    split at h
    · simp only [res.ok.injEq, Prod.mk.injEq] at h
      obtain ⟨e1, e2, e3⟩ := h
      subst e1; subst e2; subst e3
      exact Or.inl ⟨rfl, hw⟩
    · simp only [res.ok.injEq, Prod.mk.injEq] at h
      obtain ⟨e1, e2, e3⟩ := h
      subst e1; subst e2; subst e3
      exact Or.inl ⟨rfl, hw⟩
    · split at h
      · split at h
        · rename_i r0 f2 clt2 hp
          refine stepped_row f _ f2 f1 clt clt2 clt1 r0 r _ hw hp ?_
          intro hb
          by_cases h1 : r0 = -1
          · rw [if_pos h1] at h ⊢
            simp only [res.ok.injEq, Prod.mk.injEq] at h
            exact ⟨h.1.symm, h.2.1.symm, h.2.2.symm⟩
          · rw [if_neg h1] at h ⊢
            exact ih f2 clt2 hb r f1 clt1 h
        · cases h
        · cases h
      · cases h

theorem route_search_loop_stepped (fuel : Nat) :
    ∀ (f : fcgi) (clt : client) (found : Bool), buf_ok clt →
    ∀ (r : Int) (f1 : fcgi) (clt1 : client) (found1 : Bool),
      route_search_loop fuel f clt found = .ok (r, f1, clt1, found1) →
      stepped f clt r f1 clt1 := by
  induction fuel with
  | zero =>
    intro f clt found _ r f1 clt1 found1 h
    simp [route_search_loop] at h
  | succ n ih =>
    intro f clt found hok r f1 clt1 found1 h
    have hw : wrote f clt (set_qsearch f (sqlite3_step f.fcg_env.env_qsearch).2) clt :=
      wrote_set_env _ _ _ _ _ (wrote_refl f clt hok) rfl
    simp only [route_search_loop] at h
    split at h
    · simp only [res.ok.injEq, Prod.mk.injEq] at h
      obtain ⟨e1, e2, e3, _⟩ := h
      subst e1; subst e2; subst e3
      exact Or.inl ⟨rfl, hw⟩
    · simp only [res.ok.injEq, Prod.mk.injEq] at h
      obtain ⟨e1, e2, e3, _⟩ := h
      subst e1; subst e2; subst e3
      exact Or.inl ⟨rfl, hw⟩
    · split at h
      · split at h
        · rename_i r0 f2 clt2 hp
          refine stepped_row f _ f2 f1 clt clt2 clt1 r0 r _ hw hp ?_
          intro hb
          by_cases h1 : r0 = -1
          · rw [if_pos h1] at h ⊢
            simp only [res.ok.injEq, Prod.mk.injEq] at h
            exact ⟨h.1.symm, h.2.1.symm, h.2.2.1.symm⟩
          · rw [if_neg h1] at h ⊢
            exact ih f2 clt2 true hb r f1 clt1 found1 h
        · cases h
        · cases h
      · cases h

/-- The function `print_maintainer` is a sequence of appends. -/
theorem print_maintainer_stepped (mail : List Nat) :
    ∀ (in_addr : Bool) (f : fcgi) (clt : client), buf_ok clt →
    ∀ (r : Int) (f1 : fcgi) (clt1 : client),
      print_maintainer mail in_addr f clt = .ok (r, f1, clt1) → stepped f clt r f1 clt1 := by
  induction mail with
  | nil =>
    intro in_addr f clt hok r f1 clt1 h
    simp only [print_maintainer, res.ok.injEq, Prod.mk.injEq] at h
    obtain ⟨e1, e2, e3⟩ := h
    subst e1; subst e2; subst e3
    exact Or.inl ⟨rfl, wrote_refl _ _ hok⟩
  | cons c mail ih =>
    intro in_addr f clt hok r f1 clt1 h
    have hw := wrote_refl f clt hok
    simp only [print_maintainer] at h
    split at h
    · split at h
      · rename_i r0 f2 clt2 hp
        refine stepped_row f f f2 f1 clt clt2 clt1 r0 r [c] hw hp ?_
        intro hb
        by_cases h1 : r0 = -1
        · rw [if_pos h1] at h ⊢
          simp only [res.ok.injEq, Prod.mk.injEq] at h
          exact ⟨h.1.symm, h.2.1.symm, h.2.2.symm⟩
        · rw [if_neg h1] at h ⊢
          exact ih _ f2 clt2 hb r f1 clt1 h
      · cases h
      · cases h
    · split at h
      · rename_i r0 f2 clt2 hp
        have hp2 : ∃ buf, clt_printf f clt buf = .ok (r0, f2, clt2) := by
          by_cases c1 : (c == 64) = true
          · rw [if_pos c1] at hp
            exact ⟨_, hp⟩
          · rw [if_neg c1] at hp
            by_cases c2 : (c == 46) = true
            · rw [if_pos c2] at hp
              exact ⟨_, hp⟩
            · rw [if_neg c2] at hp
              exact ⟨_, hp⟩
        obtain ⟨buf, hp3⟩ := hp2
        refine stepped_row f f f2 f1 clt clt2 clt1 r0 r buf hw hp3 ?_
        intro hb
        by_cases h1 : r0 = -1
        · rw [if_pos h1] at h ⊢
          simp only [res.ok.injEq, Prod.mk.injEq] at h
          exact ⟨h.1.symm, h.2.1.symm, h.2.2.symm⟩
        · rw [if_neg h1] at h ⊢
          exact ih _ f2 clt2 hb r f1 clt1 h
      · cases h
      · cases h

/-- The exit of a handler after its row loop: the statement is reset, and the
request is ended unless a write failed. -/
theorem handler_ok_after (f0 f : fcgi) (clt0 clt : client) (r : Int) (e : env) (status : Int)
    (hs : stepped f0 clt0 r f clt) (he : e.fcgi_inflight = f.fcg_env.fcgi_inflight) :
    handler_ok f0 clt0 (if r = -1 then .ok (-1, { f with fcg_env := e })
      else .ok (fcgi_end_request { f with fcg_env := e } clt status)) := by
  rcases hs with ⟨h0, hw⟩ | ⟨h1, ht, _⟩
  · have : ¬ r = -1 := by omega
    rw [if_neg this]
    exact handler_ok_end _ _ _ _ _ (wrote_set_env _ _ _ _ _ hw he)
  · rw [if_pos h1]
    exact handler_ok_err _ _ _ (torn_down_set_env _ _ _ ht he)

/-- The handler `route_categories`. -/
theorem route_categories_ok (f0 f : fcgi) (clt0 clt : client) (hw : wrote f0 clt0 f clt) :
    handler_ok f0 clt0 (route_categories f clt) := by
  simp only [route_categories, server_reply, clt_printf, clt_puts]
  repeat (refine handler_ok_write _ _ _ _ _ _ (by assumption) ?_; intro _ _ _)
  rename_i f3 clt3 hw3
  split
  · exact handler_ok_undefined _ _
  · exact handler_ok_nofuel _ _
  · rename_i r f4 clt4 hl
    have hs := stepped_after_wrote _ _ _ _ _ _ _ hw3
      (route_categories_loop_stepped _ _ _ hw3.2.2.2.2.2.2.2.1 _ _ _ hl)
    exact handler_ok_after f0 f4 clt0 clt4 r _ 0 hs rfl

/-- The handler `route_listing`. -/
theorem route_listing_ok (f0 f : fcgi) (clt0 clt : client) (hw : wrote f0 clt0 f clt) :
    handler_ok f0 clt0 (route_listing f clt) := by
  have hq : ∀ s, wrote f0 clt0 (set_qbycat f s) clt := fun s => wrote_set_env _ _ _ _ _ hw rfl
  have herr : ∀ f1, torn_down f0 f1 → handler_ok f0 clt0
      (.ok (-1, set_qbycat f1 (sqlite3_reset f1.fcg_env.env_qbycat))) :=
    fun f1 ht => handler_ok_err _ _ _ (torn_down_set_env _ _ _ ht rfl)
  simp only [route_listing, server_reply, clt_printf]
  split
  · exact handler_ok_undefined _ _
  · split
    · exact handler_ok_undefined _ _
    · exact handler_ok_nofuel _ _
    · split
      · refine handler_ok_write _ _ _ _ _ _ (hq _) ?_
        intro f1 clt1 hw1
        exact handler_ok_end _ _ _ _ _ hw1
      · refine handler_ok_write_else _ _ _ _ _ _ _ (hq _) herr ?_
        intro f1 clt1 hw1
        refine handler_ok_write_else _ _ _ _ _ _ _ hw1 herr ?_
        intro f2 clt2 hw2
        split
        · exact handler_ok_undefined _ _
        · exact handler_ok_nofuel _ _
        · rename_i r f4 clt4 hl
          have hs := stepped_after_wrote _ _ _ _ _ _ _ hw2
            (route_listing_loop_stepped _ _ _ hw2.2.2.2.2.2.2.2.1 _ _ _ hl)
          exact handler_ok_after f0 f4 clt0 clt4 r _ 0 hs rfl

/-- The handler `route_search`. -/
theorem route_search_ok (f0 f : fcgi) (clt0 clt : client) (hw : wrote f0 clt0 f clt) :
    handler_ok f0 clt0 (route_search f clt) := by
  have hq : ∀ s q, wrote f0 clt0
      { set_qsearch f s with fcg_replies := (set_qsearch f s).fcg_replies + 1 }
      { clt with clt_query := q } := by
    intro s q
    obtain ⟨a1, a2, a3, a4, a5, a6, a7, a8, ps, a9, a10⟩ := hw
    exact ⟨a1, a2, a3, a4, a5, a6, a7, a8, ps, a9, a10⟩
  have hc : ∀ q, wrote f0 clt0 { f with fcg_replies := f.fcg_replies + 1 }
      { clt with clt_query := q } := by
    intro q
    obtain ⟨a1, a2, a3, a4, a5, a6, a7, a8, ps, a9, a10⟩ := hw
    exact ⟨a1, a2, a3, a4, a5, a6, a7, a8, ps, a9, a10⟩
  have hw0 : wrote f0 clt0 { f with fcg_replies := f.fcg_replies + 1 } clt := by
    obtain ⟨a1, a2, a3, a4, a5, a6, a7, a8, ps, a9, a10⟩ := hw
    exact ⟨a1, a2, a3, a4, a5, a6, a7, a8, ps, a9, a10⟩
  have herr : ∀ f1, torn_down f0 f1 → handler_ok f0 clt0
      (.ok (-1, set_qsearch f1 (sqlite3_reset f1.fcg_env.env_qsearch))) :=
    fun f1 ht => handler_ok_err _ _ _ (torn_down_set_env _ _ _ ht rfl)
  have hbad : ∀ q, handler_ok f0 clt0
      (on_ok (clt_write { f with fcg_replies := f.fcg_replies + 1 }
          { clt with clt_query := q }
        (fmt_02d 59 ++ [32] ++ cstr (bytes "bad request") ++ [13, 10])) fun f clt =>
        .ok (fcgi_end_request f clt 1)) := by
    intro q
    refine handler_ok_write _ _ _ _ _ _ (hc q) ?_
    intro f1 clt1 hw1
    exact handler_ok_end _ _ _ _ _ hw1
  simp only [route_search, server_reply, clt_printf]
  split
  · refine handler_ok_write _ _ _ _ _ _ hw0 ?_
    intro f1 clt1 hw1
    exact handler_ok_end _ _ _ _ _ hw1
  · split
    · exact hbad _
    · split
      · exact handler_ok_undefined _ _
      · exact handler_ok_nofuel _ _
      · split
        · exact hbad _
        · split
          · refine handler_ok_write _ _ _ _ _ _ (hq _ _) ?_
            intro f1 clt1 hw1
            exact handler_ok_end _ _ _ _ _ hw1
          · refine handler_ok_write_else _ _ _ _ _ _ _ (hq _ _) herr ?_
            intro f1 clt1 hw1
            refine handler_ok_write_else _ _ _ _ _ _ _ hw1 herr ?_
            intro f2 clt2 hw2
            split
            · exact handler_ok_undefined _ _
            · exact handler_ok_nofuel _ _
            · rename_i r f4 clt4 found hl
              have hs := stepped_after_wrote _ _ _ _ _ _ _ hw2
                (route_search_loop_stepped _ _ _ _ hw2.2.2.2.2.2.2.2.1 _ _ _ _ hl)
              rcases hs with ⟨h0, hw4⟩ | ⟨h1, ht, _⟩
              · have : ¬ r = -1 := by omega
                rw [if_neg this]
                have hw5 : wrote f0 clt0
                    (set_qsearch f4 (sqlite3_reset f4.fcg_env.env_qsearch)) clt4 :=
                  wrote_set_env _ _ _ _ _ hw4 rfl
                split
                · refine handler_ok_write _ _ _ _ _ _ hw5 ?_
                  intro f5 clt5 hw6
                  exact handler_ok_end _ _ _ _ _ hw6
                · exact handler_ok_end _ _ _ _ _ hw5
              · rw [if_pos h1]
                exact herr _ ht


theorem writer_ok_print_maintainer (f0 f : fcgi) (clt0 clt : client) (mail : List Nat)
    (in_addr : Bool) (hw : wrote f0 clt0 f clt) :
    writer_ok f clt (print_maintainer mail in_addr f clt) :=
  fun rc f1 clt1 h => print_maintainer_stepped mail in_addr f clt hw.2.2.2.2.2.2.2.1 rc f1 clt1 h

/-- The handler `route_port`. -/
theorem route_port_ok (f0 f : fcgi) (clt0 clt : client) (hw : wrote f0 clt0 f clt) :
    handler_ok f0 clt0 (route_port f clt) := by
  have hq : ∀ s, wrote f0 clt0 (set_qfullpkgpath f s) clt :=
    fun s => wrote_set_env _ _ _ _ _ hw rfl
  have hq2 : ∀ s t, wrote f0 clt0 (set_qfullpkgpath (set_qfullpkgpath f s) t) clt :=
    fun s t => wrote_set_env _ _ _ _ _ (hq s) rfl
  have herr : ∀ f1, torn_down f0 f1 → handler_ok f0 clt0
      (.ok (-1, set_qfullpkgpath f1 (sqlite3_reset f1.fcg_env.env_qfullpkgpath))) :=
    fun f1 ht => handler_ok_err _ _ _ (torn_down_set_env _ _ _ ht rfl)
  have hdone : ∀ f1 clt1, wrote f0 clt0 f1 clt1 → handler_ok f0 clt0
      (.ok (fcgi_end_request
        (set_qfullpkgpath f1 (sqlite3_reset f1.fcg_env.env_qfullpkgpath)) clt1 0)) :=
    fun f1 clt1 h => handler_ok_end _ _ _ _ _ (wrote_set_env _ _ _ _ _ h rfl)
  simp only [route_port, server_reply, clt_printf, clt_puts]
  split
  · exact handler_ok_undefined _ _
  · split
    · refine handler_ok_write _ _ _ _ _ _ (hq _) ?_
      intro f1 clt1 hw1
      exact handler_ok_end _ _ _ _ _ hw1
    · split
      · exact route_listing_ok _ _ _ _ (hq2 _ _)
      · exact handler_ok_write_else _ _ _ _ _ _ _ (hq _) herr hdone
      · split
        · exact handler_ok_undefined _ _
        · refine handler_ok_write_else _ _ _ _ _ _ _ (hq _) herr ?_
          intro _ _ _
          repeat (first
            | exact handler_ok_undefined _ _
            | exact hdone _ _ (by assumption)
            | exact handler_ok_write_else _ _ _ _ _ _ _ (by assumption) herr hdone
            | (refine handler_ok_write_else _ _ _ _ _ _ _ (by assumption) herr ?_; intro _ _ _)
            | (refine handler_ok_on_ok_else _ _ _ _ _ _ _ (by assumption)
                (writer_ok_print_maintainer _ _ _ _ _ _ (by assumption)) herr ?_; intro _ _ _)
            | split)

/-- Every handler of the routing table, and the reply 51 when no pattern
matches: whenever `server_handle` returns, the request was handled. -/
theorem server_handle_handled (f : fcgi) (clt : client) (hok : buf_ok clt) :
    handler_ok f clt (server_handle f clt) := by
  have hw := wrote_refl f clt hok
  simp only [server_handle, route_dispatch]
  split
  · exact handler_ok_undefined _ _
  · simp only [routes, route_dispatch_loop, server_reply, clt_printf]
    split
    · exact route_home_ok _ _ _ _ hw
    · split
      · exact route_search_ok _ _ _ _ hw
      · split
        · exact route_categories_ok _ _ _ _ hw
        · split
          · exact route_port_ok _ _ _ _ hw
          · refine handler_ok_write _ _ _ _ _ _ hw ?_
            intro f1 clt1 hw1
            exact handler_ok_end _ _ _ _ _ hw1


/-! ## The response of a dispatched request -/

/-- The step of `fcgi_read` on the empty `PARAMS` record of the active request
`c`: the whole response of `c` is appended to the output, or the connection is
torn down. -/
theorem fcgi_read_body_dispatch (f : fcgi) (c : client) (go : Bool) (f1 : fcgi)
    (hok : buf_ok c)
    (htype : f.fcg_type = FCGI_PARAMS) (hlen : f.fcg_toread = 0)
    (hfind : SPLAY_FIND f.fcg_clients { client_zero with clt_id := f.fcg_rec_id } = some c)
    (h : fcgi_read_body f = .ok (go, f1)) :
    (go = true ∧ f1.fcg_freed = f.fcg_freed ∧
      f1.fcg_clients = SPLAY_REMOVE f.fcg_clients c ∧
      ∃ (ps : List (List Nat)) (status : Int),
        f1.fcg_bev.output = f.fcg_bev.output ++ (ps.map (stdout_record c.clt_id)).flatten ++
          end_record c.clt_id status 0 ∧
        ∀ p ∈ ps, 0 < p.length ∧ p.length ≤ CLT_BUF_SIZE) ∨
    (go = false ∧ f1.fcg_freed = true ∧ f1.fcg_clients = []) := by
  have hne : ¬ (FCGI_PARAMS = FCGI_BEGIN_REQUEST) := by decide
  simp only [fcgi_read_body, htype, hne, if_false, if_true, hfind, hlen] at h
  split at h
  · cases h
  · cases h
  · rename_i r f2 hs
    have hh := server_handle_handled _ c hok r f2 hs
    rcases hh with ⟨h0, _, b2, b3, _, _, _, ps, status, b9, b10⟩ | ⟨h1, ht⟩
    · have hr : ¬ r = -1 := by omega
      rw [if_neg hr] at h
      simp only [res.ok.injEq, Prod.mk.injEq] at h
      obtain ⟨e1, e2⟩ := h
      subst e1; subst e2
      exact Or.inl ⟨rfl, b2, b3, ps, status, b9, b10⟩
    · rw [if_pos h1] at h
      simp only [res.ok.injEq, Prod.mk.injEq] at h
      obtain ⟨e1, e2⟩ := h
      subst e1; subst e2
      exact Or.inr ⟨rfl, ht.2.1, ht.2.2.1⟩

set_option maxRecDepth 1000000 in
/-- C12: when the empty `PARAMS` record of the active request `c` is delivered
to a connection that waits for a record, the whole response of `c`, its
`STDOUT` records followed by its `END_REQUEST`, is appended to the output
during that one call of `fcgi_read` (or the connection is torn down): it is
contiguous, and responses lie in the output in the order in which the empty
`PARAMS` records arrive.  The same holds of the body step of `fcgi_read` in
any state, whatever is buffered behind the record.  In the scenario where requests 1 and 2 are begun
with keep-conn and the parameters of request 2 are completed first, the
response of request 2 precedes the response of request 1 and both end with
application status 0. -/
theorem dispatch_contiguous (f : fcgi) (id : Nat) (padding : List Nat) (c : client) (f1 : fcgi)
    (hidle : idle f) (hok : buf_ok c) (hpad : padding.length < 256)
    (hfind : SPLAY_FIND f.fcg_clients { client_zero with clt_id := id } = some c)
    (h : bufferevent_readcb f (fcgi_record FCGI_PARAMS id [] padding) = .ok f1) :
    ((idle f1 ∧ f1.fcg_clients = SPLAY_REMOVE f.fcg_clients c ∧
        ∃ (ps : List (List Nat)) (status : Int),
          f1.fcg_bev.output = f.fcg_bev.output ++ (ps.map (stdout_record c.clt_id)).flatten ++
            end_record c.clt_id status 0 ∧
          ∀ p ∈ ps, 0 < p.length ∧ p.length ≤ CLT_BUF_SIZE) ∨
      (f1.fcg_freed = true ∧ f1.fcg_clients = [])) ∧
    (∀ (g : fcgi) (c2 : client) (go : Bool) (g1 : fcgi), buf_ok c2 →
      g.fcg_type = FCGI_PARAMS → g.fcg_toread = 0 →
      SPLAY_FIND g.fcg_clients { client_zero with clt_id := g.fcg_rec_id } = some c2 →
      fcgi_read_body g = .ok (go, g1) →
      (go = true ∧ g1.fcg_freed = g.fcg_freed ∧
        g1.fcg_clients = SPLAY_REMOVE g.fcg_clients c2 ∧
        ∃ (ps : List (List Nat)) (status : Int),
          g1.fcg_bev.output = g.fcg_bev.output ++ (ps.map (stdout_record c2.clt_id)).flatten ++
            end_record c2.clt_id status 0 ∧
          ∀ p ∈ ps, 0 < p.length ∧ p.length ≤ CLT_BUF_SIZE) ∨
      (go = false ∧ g1.fcg_freed = true ∧ g1.fcg_clients = [])) ∧
    (match deliver (fcgi_new 1 env_empty none)
        [fcgi_record FCGI_BEGIN_REQUEST 1 (begin_body 1 1) [],
          fcgi_record FCGI_BEGIN_REQUEST 2 (begin_body 1 1) [],
          fcgi_record FCGI_PARAMS 1 (nv_pair (bytes "SCRIPT_NAME") (bytes "/app") ++
            nv_pair (bytes "GEMINI_URL_PATH") (bytes "/all")) [],
          fcgi_record FCGI_PARAMS 2 (nv_pair (bytes "SCRIPT_NAME") (bytes "/app") ++
            nv_pair (bytes "GEMINI_URL_PATH") (bytes "/search")) [],
          fcgi_record FCGI_PARAMS 2 [] [],
          fcgi_record FCGI_PARAMS 1 [] []] with
      | .ok g => (g.fcg_freed, g.fcg_clients, g.fcg_bev.output)
      | _ => (true, [], [])) =
      (false, [],
        stdout_record 2 (bytes "10 search for a package\r\n") ++ end_record 2 0 0 ++
        stdout_record 1 (bytes "20 text/gemini\r\n# list of all categories\n\n") ++
        end_record 1 0 0) := by
  refine ⟨?_, fun g c2 go g1 h1 h2 h3 h4 h5 => fcgi_read_body_dispatch g c2 go g1 h1 h2 h3 h4 h5,
    by decide⟩
  rw [readcb_params_empty f id padding c hidle hfind] at h
  split at h
  · cases h
  · cases h
  · rename_i r f2 hs
    have hh := server_handle_handled _ c hok r f2 hs
    rcases hh with ⟨h0, b1, b2, b3, _, _, _, ps, status, b9, b10⟩ | ⟨h1, ht⟩
    · have hr : ¬ r = -1 := by omega
      rw [if_neg hr] at h
      have hin : f2.fcg_bev.input = padding := b1.2.1
      have hp : f2.fcg_padding = (padding.length : Int) := b1.2.2.2.2.1
      rw [next_record_padding f2 padding hpad hin hp,
        fcgi_read_loop_wait _ _ (by simp [EVBUFFER_LENGTH, to_size_t])] at h
      simp only [res.ok.injEq] at h
      subst h
      refine Or.inl ⟨⟨?_, rfl, rfl, rfl⟩, b3, ps, status, b9, b10⟩
      exact b2.trans hidle.1
    · rw [if_pos h1] at h
      simp only [res.ok.injEq] at h
      subst h
      exact Or.inr ⟨ht.2.1, ht.2.2.1⟩

set_option maxRecDepth 1000000 in
theorem dispatch_contiguous_witness :
    ∃ f1 : fcgi,
      bufferevent_readcb
        { fcgi_new 1 env_empty none with
          fcg_clients := [{ client_calloc 7 with clt_path_info := some (bytes "/search") }] }
        (fcgi_record FCGI_PARAMS 7 [] []) = .ok f1 ∧
      ((idle f1 ∧
        f1.fcg_clients = SPLAY_REMOVE
          [{ client_calloc 7 with clt_path_info := some (bytes "/search") }]
          { client_calloc 7 with clt_path_info := some (bytes "/search") } ∧
        ∃ (ps : List (List Nat)) (status : Int),
          f1.fcg_bev.output = [] ++ (ps.map (stdout_record 7)).flatten ++
            end_record 7 status 0 ∧
          ∀ p ∈ ps, 0 < p.length ∧ p.length ≤ CLT_BUF_SIZE) ∨
      (f1.fcg_freed = true ∧ f1.fcg_clients = [])) :=
  ⟨_, rfl, (dispatch_contiguous
    { fcgi_new 1 env_empty none with
      fcg_clients := [{ client_calloc 7 with clt_path_info := some (bytes "/search") }] }
    7 [] { client_calloc 7 with clt_path_info := some (bytes "/search") } _
    ⟨rfl, rfl, rfl, rfl⟩ ⟨by decide, by decide⟩ (by decide) (by decide) rfl).1⟩

/-! ## The request table -/

theorem consumed_refl (f : fcgi) : consumed f f :=
  ⟨rfl, rfl, rfl, rfl, rfl, rfl, rfl, rfl, rfl, rfl, rfl, rfl, 0, by simp⟩

theorem consumed_trans (f f1 f2 : fcgi) (h1 : consumed f f1) (h2 : consumed f1 f2) :
    consumed f f2 := by
  obtain ⟨a1, a2, a3, a4, a5, a6, a7, a8, a9, a10, a11, a12, k1, a13⟩ := h1
  obtain ⟨b1, b2, b3, b4, b5, b6, b7, b8, b9, b10, b11, b12, k2, b13⟩ := h2
  refine ⟨b1.trans a1, b2.trans a2, b3.trans a3, b4.trans a4, b5.trans a5, b6.trans a6,
    b7.trans a7, b8.trans a8, b9.trans a9, b10.trans a10, b11.trans a11, b12.trans a12,
    k1 + k2, ?_⟩
  rw [b13, a13, List.drop_drop, Nat.add_comm]

/-- An assignment to `fcg_toread` and a drain of the input buffer. -/
theorem consumed_drain (f : fcgi) (t : Int) (k : Nat) :
    consumed f { f with
      fcg_toread := t
      fcg_bev := { f.fcg_bev with input := evbuffer_drain f.fcg_bev.input k } } :=
  ⟨rfl, rfl, rfl, rfl, rfl, rfl, rfl, rfl, rfl, rfl, rfl, rfl, k, rfl⟩

theorem parse_len_consumed (f f1 : fcgi) (n : Int) (h : parse_len f = .ok (n, f1)) :
    consumed f f1 := by
  unfold parse_len at h
  split at h
  · cases h
  · rename_i c src1 hin
    simp only at h
    split at h
    · simp only [res.ok.injEq, Prod.mk.injEq] at h
      rw [← h.2]
      exact ⟨rfl, rfl, rfl, rfl, rfl, rfl, rfl, rfl, rfl, rfl, rfl, rfl, 1, by simp [hin]⟩
    · split at h
      · simp only [res.ok.injEq, Prod.mk.injEq] at h
        rw [← h.2]
        exact ⟨rfl, rfl, rfl, rfl, rfl, rfl, rfl, rfl, rfl, rfl, rfl, rfl, 1, by simp [hin]⟩
      · split at h
        · simp only [res.ok.injEq, Prod.mk.injEq] at h
          rw [← h.2]
          exact ⟨rfl, rfl, rfl, rfl, rfl, rfl, rfl, rfl, rfl, rfl, rfl, rfl, 4, by simp [hin]⟩
        · cases h

theorem take_field_consumed (f f1 : fcgi) (n : Int) (x : List Nat)
    (h : take_field f n = some (x, f1)) : consumed f f1 := by
  unfold take_field at h
  split at h
  · cases h
  · simp only [Option.some.injEq, Prod.mk.injEq] at h
    rw [← h.2]
    exact consumed_drain f _ _

theorem same_request_refl (c : client) : same_request c c := ⟨rfl, rfl, rfl, rfl⟩

theorem same_request_trans (c c1 c2 : client) (h1 : same_request c c1)
    (h2 : same_request c1 c2) : same_request c c2 :=
  ⟨h2.1.trans h1.1, h2.2.1.trans h1.2.1, h2.2.2.1.trans h1.2.2.1, h2.2.2.2.trans h1.2.2.2⟩

/-- The value part of an iteration of `fcgi_parse_params` keeps the frame when
the rest of the loop does. -/
theorem params_value_consumed (fuel : Nat)
    (ih : ∀ (f : fcgi) (clt : client) (r : Int) (f1 : fcgi) (c1 : client),
      fcgi_parse_params_loop fuel f clt = .ok (r, f1, c1) → consumed f f1 ∧ same_request clt c1)
    (pname : List Nat) (vlen : Int) (f3 : fcgi) (clt : client)
    (r : Int) (f1 : fcgi) (c1 : client)
    (h : params_value fuel pname vlen f3 clt = .ok (r, f1, c1)) :
    consumed f3 f1 ∧ same_request clt c1 := by
  have key : ∀ (f4 : fcgi) (clt4 : client),
      fcgi_parse_params_loop fuel f4 clt4 = .ok (r, f1, c1) →
      consumed f3 f4 → same_request clt clt4 →
      consumed f3 f1 ∧ same_request clt c1 := by
    intro f4 clt4 hl hc hs
    obtain ⟨i1, i2⟩ := ih f4 clt4 r f1 c1 hl
    exact ⟨consumed_trans _ _ _ hc i1, same_request_trans _ _ _ hs i2⟩
  unfold params_value at h
  split at h
  · split at h
    · cases h
    · rename_i x f4 ht
      exact key _ _ h (take_field_consumed _ _ _ _ ht) ⟨rfl, rfl, rfl, rfl⟩
  · split at h
    · split at h
      · cases h
      · rename_i x f4 ht
        split at h
        · exact key _ _ h (take_field_consumed _ _ _ _ ht) ⟨rfl, rfl, rfl, rfl⟩
        · exact key _ _ h (take_field_consumed _ _ _ _ ht) ⟨rfl, rfl, rfl, rfl⟩
    · split at h
      · split at h
        · cases h
        · rename_i x f4 ht
          split at h
          · exact key _ _ h (take_field_consumed _ _ _ _ ht) ⟨rfl, rfl, rfl, rfl⟩
          · exact key _ _ h (take_field_consumed _ _ _ _ ht) ⟨rfl, rfl, rfl, rfl⟩
      · split at h
        · split at h
          · cases h
          · rename_i x f4 ht
            exact key _ _ h (take_field_consumed _ _ _ _ ht) ⟨rfl, rfl, rfl, rfl⟩
        · split at h
          · split at h
            · cases h
            · rename_i x f4 ht
              exact key _ _ h (take_field_consumed _ _ _ _ ht) ⟨rfl, rfl, rfl, rfl⟩
          · exact key _ _ h (consumed_drain _ _ _) ⟨rfl, rfl, rfl, rfl⟩

/-- The function `fcgi_parse_params` only takes bytes from the input buffer
and only sets parameters of the request. -/
theorem fcgi_parse_params_loop_consumed (fuel : Nat) :
    ∀ (f : fcgi) (clt : client) (r : Int) (f1 : fcgi) (c1 : client),
      fcgi_parse_params_loop fuel f clt = .ok (r, f1, c1) →
      consumed f f1 ∧ same_request clt c1 := by
  induction fuel with
  | zero =>
    intro f clt r f1 c1 h
    simp [fcgi_parse_params_loop] at h
  | succ n ih =>
    intro f clt r f1 c1 h
    have hu : fcgi_parse_params_loop (n + 1) f clt =
        if f.fcg_toread > 0 then
          match parse_len f with
          | .undefined => .undefined
          | .nofuel => .nofuel
          | .ok (nlen, f1) =>
            if nlen < 0 then .ok (-1, f1, clt)
            else
              match parse_len f1 with
              | .undefined => .undefined
              | .nofuel => .nofuel
              | .ok (vlen, f2) =>
                if vlen < 0 then .ok (-1, f2, clt)
                else if f2.fcg_toread < wrap32 (nlen + vlen) then .ok (-1, f2, clt)
                else if to_size_t nlen > 32 - 1 then
                  fcgi_parse_params_loop n
                    { f2 with
                      fcg_toread := wrap32 (f2.fcg_toread - wrap32 (nlen - vlen))
                      fcg_bev := { f2.fcg_bev with
                        input := evbuffer_drain f2.fcg_bev.input
                          (to_size_t (wrap32 (nlen + vlen))) } }
                    clt
                else
                  match take_field f2 nlen with
                  | none => .undefined
                  | some (pname, f3) => params_value n pname vlen f3 clt
        else .ok (0, f, clt) := by
      simp only [fcgi_parse_params_loop, params_value]
    rw [hu] at h
    split at h
    · split at h
      · cases h
      · cases h
      · rename_i nlen f2 h1
        have c1 := parse_len_consumed _ _ _ h1
        split at h
        · simp only [res.ok.injEq, Prod.mk.injEq] at h
          obtain ⟨_, e2, e3⟩ := h
          subst e2; subst e3
          exact ⟨c1, same_request_refl _⟩
        · split at h
          · cases h
          · cases h
          · rename_i vlen f3 h2
            have c2 := consumed_trans _ _ _ c1 (parse_len_consumed _ _ _ h2)
            split at h
            · simp only [res.ok.injEq, Prod.mk.injEq] at h
              obtain ⟨_, e2, e3⟩ := h
              subst e2; subst e3
              exact ⟨c2, same_request_refl _⟩
            · split at h
              · simp only [res.ok.injEq, Prod.mk.injEq] at h
                obtain ⟨_, e2, e3⟩ := h
                subst e2; subst e3
                exact ⟨c2, same_request_refl _⟩
              · split at h
                · obtain ⟨i1, i2⟩ := ih _ _ _ _ _ h
                  exact ⟨consumed_trans _ _ _ (consumed_trans _ _ _ c2 (consumed_drain _ _ _)) i1,
                    i2⟩
                · split at h
                  · cases h
                  · rename_i pname f4 h3
                    obtain ⟨i1, i2⟩ := params_value_consumed n ih pname vlen f4 clt r f1 _ h
                    exact ⟨consumed_trans _ _ _
                      (consumed_trans _ _ _ c2 (take_field_consumed _ _ _ _ h3)) i1, i2⟩
    · simp only [res.ok.injEq, Prod.mk.injEq] at h
      obtain ⟨_, e2, e3⟩ := h
      subst e2; subst e3
      exact ⟨consumed_refl _, same_request_refl _⟩


theorem fcgi_client_cmp_small (a b : client) (ha : a.clt_id < 65536) (hb : b.clt_id < 65536) :
    fcgi_client_cmp a b = (a.clt_id : Int) - (b.clt_id : Int) := by
  unfold fcgi_client_cmp
  exact wrap32_of_range _ (by omega) (by omega)

theorem SPLAY_FIND_mem (t : List client) (q c : client) (h : SPLAY_FIND t q = some c) :
    c ∈ t ∧ fcgi_client_cmp q c = 0 := by
  unfold SPLAY_FIND at h
  refine ⟨List.mem_of_find?_eq_some h, ?_⟩
  have := List.find?_some h
  simpa using this

theorem SPLAY_FIND_fresh (t : List client) (q : client) (h : SPLAY_FIND t q = none) :
    ∀ c ∈ t, ¬ fcgi_client_cmp q c = 0 := by
  unfold SPLAY_FIND at h
  intro c hc
  have := List.find?_eq_none.mp h c hc
  simpa using this

theorem SPLAY_INSERT_perm (t : List client) (e : client) (he : e.clt_id < 65536)
    (ht : ∀ c ∈ t, c.clt_id < 65536) (hfresh : ∀ c ∈ t, c.clt_id ≠ e.clt_id) :
    List.Perm (SPLAY_INSERT t e) (e :: t) := by
  induction t with
  | nil => exact List.Perm.refl _
  | cons c t ih =>
    have hc := ht c (List.mem_cons_self _ _)
    have hne := hfresh c (List.mem_cons_self _ _)
    have hcmp := fcgi_client_cmp_small e c he hc
    have h0 : ¬ fcgi_client_cmp e c = 0 := by rw [hcmp]; omega
    simp only [SPLAY_INSERT, beq_iff_eq, h0, if_false]
    split
    · exact List.Perm.refl _
    · exact (List.Perm.cons c (ih (fun x hx => ht x (List.mem_cons_of_mem _ hx))
        (fun x hx => hfresh x (List.mem_cons_of_mem _ hx)))).trans (List.Perm.swap e c t)

theorem table_ok_nil : table_ok [] := ⟨by simp, by simp⟩

theorem table_ok_insert (t : List client) (e : client) (ht : table_ok t)
    (he : e.clt_id < 65536) (hb : buf_ok e) (hfresh : ∀ c ∈ t, c.clt_id ≠ e.clt_id) :
    table_ok (SPLAY_INSERT t e) := by
  have hp := SPLAY_INSERT_perm t e he (fun c hc => (ht.2 c hc).1) hfresh
  refine ⟨?_, ?_⟩
  · rw [(hp.map (fun c => c.clt_id)).nodup_iff]
    simp only [List.map_cons, List.nodup_cons]
    refine ⟨?_, ht.1⟩
    intro hm
    obtain ⟨c, hc, hid⟩ := List.mem_map.mp hm
    exact hfresh c hc hid
  · intro c hc
    rcases List.mem_cons.mp (hp.mem_iff.mp hc) with h | h
    · rw [h]; exact ⟨he, hb⟩
    · exact ht.2 c h

theorem table_ok_remove (t : List client) (e : client) (ht : table_ok t) :
    table_ok (SPLAY_REMOVE t e) := by
  unfold SPLAY_REMOVE
  refine ⟨?_, ?_⟩
  · exact List.Nodup.sublist (List.Sublist.map _ (List.filter_sublist _)) ht.1
  · intro c hc
    exact ht.2 c (List.mem_of_mem_filter hc)

theorem client_store_ids (t : List client) (e : client) (he : e.clt_id < 65536)
    (ht : ∀ c ∈ t, c.clt_id < 65536) :
    (client_store t e).map (fun c => c.clt_id) = t.map (fun c => c.clt_id) := by
  unfold client_store
  rw [List.map_map]
  apply List.map_congr_left
  intro c hc
  simp only [Function.comp]
  split
  · rename_i h
    have hcmp := fcgi_client_cmp_small e c he (ht c hc)
    have h0 : fcgi_client_cmp e c = 0 := by simpa using h
    rw [hcmp] at h0
    omega
  · rfl

theorem table_ok_store (t : List client) (e : client) (ht : table_ok t)
    (he : e.clt_id < 65536) (hb : buf_ok e) : table_ok (client_store t e) := by
  refine ⟨?_, ?_⟩
  · rw [client_store_ids t e he (fun c hc => (ht.2 c hc).1)]
    exact ht.1
  · intro c hc
    unfold client_store at hc
    obtain ⟨c0, hc0, hx⟩ := List.mem_map.mp hc
    split at hx
    · rw [← hx]; exact ⟨he, hb⟩
    · rw [← hx]; exact ht.2 c0 hc0


theorem kept_refl (f : fcgi) (h : table_ok f.fcg_clients) : kept f f :=
  ⟨h, fun c hc => ⟨c, hc, rfl⟩, fun _ hb => hb, rfl⟩

/-- A step that leaves in the table a part of what it held. -/
theorem kept_step (f0 f f1 : fcgi) (h : kept f0 f)
    (ht : table_ok f1.fcg_clients)
    (hsub : ∀ c ∈ f1.fcg_clients, ∃ c0 ∈ f.fcg_clients, c0.clt_id = c.clt_id)
    (hin : ∀ b ∈ f1.fcg_bev.input, b ∈ f.fcg_bev.input)
    (hrec : f1.fcg_rec_id = f.fcg_rec_id) : kept f0 f1 := by
  obtain ⟨_, a2, a3, a4⟩ := h
  refine ⟨ht, ?_, fun b hb => a3 b (hin b hb), hrec.trans a4⟩
  intro c hc
  obtain ⟨c1, hc1, e1⟩ := hsub c hc
  obtain ⟨c0, hc0, e0⟩ := a2 c1 hc1
  exact ⟨c0, hc0, e0.trans e1⟩

theorem kept_same (f0 f f1 : fcgi) (h : kept f0 f) (hc : f1.fcg_clients = f.fcg_clients)
    (hin : ∀ b ∈ f1.fcg_bev.input, b ∈ f.fcg_bev.input)
    (hrec : f1.fcg_rec_id = f.fcg_rec_id) : kept f0 f1 :=
  kept_step f0 f f1 h (by rw [hc]; exact h.1) (by rw [hc]; exact fun c hc => ⟨c, hc, rfl⟩)
    hin hrec

theorem kept_empty (f0 f f1 : fcgi) (h : kept f0 f) (hc : f1.fcg_clients = [])
    (hin : ∀ b ∈ f1.fcg_bev.input, b ∈ f.fcg_bev.input)
    (hrec : f1.fcg_rec_id = f.fcg_rec_id) : kept f0 f1 :=
  kept_step f0 f f1 h (by rw [hc]; exact table_ok_nil) (by rw [hc]; simp) hin hrec

theorem kept_fcgi_error (f0 f : fcgi) (h : kept f0 f) : kept f0 (fcgi_error f) :=
  kept_empty f0 f _ h rfl (fun _ hb => hb) rfl

theorem kept_set_input (f0 f : fcgi) (k : Nat) (h : kept f0 f) :
    kept f0 (set_input f (f.fcg_bev.input.drop k)) :=
  kept_same f0 f _ h rfl (fun _ hb => List.mem_of_mem_drop hb) rfl

theorem kept_next_record (f0 f : fcgi) (h : kept f0 f) : kept f0 (next_record f) :=
  kept_same f0 f _ h rfl (fun _ hb => List.mem_of_mem_drop hb) rfl

theorem kept_send_end_req (f0 f : fcgi) (id : Nat) (as ps : Int) (h : kept f0 f) :
    kept f0 (fcgi_send_end_req f id as ps).2 := by
  have hfr := fcgi_send_end_req_frame f id as ps
  refine kept_same f0 f _ h hfr.2.2.2.1 ?_ hfr.2.1.2.2.2.2.2.2.1
  rw [hfr.2.1.2.1]
  exact fun _ hb => hb

theorem kept_handled (f0 f f1 : fcgi) (c : client) (r : Int) (h : kept f0 f)
    (hh : handled f c r f1) : kept f0 f1 := by
  rcases hh with ⟨_, b1, _, b3, _⟩ | ⟨_, ht⟩
  · refine kept_step f0 f f1 h ?_ ?_ ?_ b1.2.2.2.2.2.2.1
    · rw [b3]; exact table_ok_remove _ _ h.1
    · rw [b3]
      intro x hx
      exact ⟨x, List.mem_of_mem_filter hx, rfl⟩
    · rw [b1.2.1]
      exact fun _ hb => hb
  · refine kept_empty f0 f f1 h ht.2.2.1 ?_ ht.1.2.2.2.2.2.2.1
    rw [ht.1.2.1]
    exact fun _ hb => hb

theorem kept_store (f0 f f1 : fcgi) (c c1 : client) (h : kept f0 f) (hc : c ∈ f.fcg_clients)
    (hf : consumed f f1) (hs : same_request c c1) :
    kept f0 { f1 with fcg_clients := client_store f1.fcg_clients c1 } := by
  obtain ⟨_, a2, _, _, _, _, _, a8, _, _, _, _, k, a13⟩ := hf
  have hcok := h.1.2 c hc
  have he : c1.clt_id < 65536 := by rw [hs.1]; exact hcok.1
  have hb : buf_ok c1 := by
    unfold buf_ok
    rw [hs.2.2.1, hs.2.2.2]
    exact hcok.2
  refine kept_step f0 f _ h ?_ ?_ ?_ a8
  · simp only [a2]
    exact table_ok_store _ _ h.1 he hb
  · simp only [a2]
    intro x hx
    have hids := client_store_ids f.fcg_clients c1 he (fun y hy => (h.1.2 y hy).1)
    have hm : x.clt_id ∈ (client_store f.fcg_clients c1).map (fun y => y.clt_id) :=
      List.mem_map.mpr ⟨x, hx, rfl⟩
    rw [hids] at hm
    obtain ⟨y, hy, e⟩ := List.mem_map.mp hm
    exact ⟨y, hy, e⟩
  · simp only [a13]
    exact fun _ hb => List.mem_of_mem_drop hb

theorem conn_ok_of_kept (f f1 : fcgi) (hok : conn_ok f) (h : kept f f1) : conn_ok f1 :=
  ⟨h.1, fun b hb => hok.2.1 b (h.2.2.1 b hb), by rw [h.2.2.2]; exact hok.2.2⟩


theorem buf_ok_client_calloc (id : Nat) : buf_ok (client_calloc id) :=
  ⟨by simp [client_calloc, client_zero], by simp [client_calloc, client_zero]⟩

/-- The body step of `fcgi_read` keeps the connection sound; a request it
leaves in the table was there before under the same id, or it is the request
that a `BEGIN_REQUEST` record creates with the id of that record. -/
theorem fcgi_read_body_kept (f : fcgi) (go : Bool) (f1 : fcgi) (hok : conn_ok f)
    (h : fcgi_read_body f = .ok (go, f1)) :
    conn_ok f1 ∧ ∀ c ∈ f1.fcg_clients,
      (∃ c0 ∈ f.fcg_clients, c0.clt_id = c.clt_id) ∨
      (f.fcg_type = FCGI_BEGIN_REQUEST ∧ c = client_calloc f.fcg_rec_id) := by
  have hk := kept_refl f hok.1
  have fin : ∀ (b : Bool) (g : fcgi), kept f g → res.ok (b, g) = res.ok (go, f1) →
      conn_ok f1 ∧ ∀ c ∈ f1.fcg_clients,
        (∃ c0 ∈ f.fcg_clients, c0.clt_id = c.clt_id) ∨
        (f.fcg_type = FCGI_BEGIN_REQUEST ∧ c = client_calloc f.fcg_rec_id) := by
    intro b g hg he
    simp only [res.ok.injEq, Prod.mk.injEq] at he
    obtain ⟨_, e⟩ := he
    subst e
    exact ⟨conn_ok_of_kept _ _ hok hg, fun c hc => Or.inl (hg.2.1 c hc)⟩
  have hbuf : ∀ c, SPLAY_FIND f.fcg_clients { client_zero with clt_id := f.fcg_rec_id } = some c →
      c ∈ f.fcg_clients ∧ buf_ok c := by
    intro c hc
    have hm := (SPLAY_FIND_mem _ _ _ hc).1
    exact ⟨hm, (hok.1.2 c hm).2⟩
  simp only [fcgi_read_body] at h
  split at h
  · rename_i htype
    split at h
    · exact fin _ _ (kept_fcgi_error _ _ hk) h
    · split at h
      · split at h
        · exact fin _ _ (kept_fcgi_error _ _ (kept_send_end_req _ _ _ _ _
            (kept_set_input _ _ 8 hk))) h
        · exact fin _ _ (kept_next_record _ _ (kept_send_end_req _ _ _ _ _
            (kept_set_input _ _ 8 hk))) h
      · split at h
        · exact fin _ _ (kept_fcgi_error _ _ (kept_set_input _ _ 8 hk)) h
        · split at h
          · refine fin _ _ (kept_next_record _ _ ?_) h
            exact kept_same f _ _ (kept_set_input _ _ 8 hk) rfl (fun _ hb => hb) rfl
          · rename_i hfind
            simp only [res.ok.injEq, Prod.mk.injEq] at h
            obtain ⟨_, e⟩ := h
            subst e
            have hfresh : ∀ c ∈ f.fcg_clients, c.clt_id ≠ (client_calloc f.fcg_rec_id).clt_id := by
              intro c hc hid
              have h0 := SPLAY_FIND_fresh _ _ hfind c hc
              rw [fcgi_client_cmp_small _ _ hok.2.2 (hok.1.2 c hc).1] at h0
              have : c.clt_id = f.fcg_rec_id := hid
              simp only [this] at h0
              omega
            have hins := table_ok_insert f.fcg_clients (client_calloc f.fcg_rec_id) hok.1
              hok.2.2 (buf_ok_client_calloc _) hfresh
            refine ⟨⟨hins, ?_, hok.2.2⟩, ?_⟩
            · intro b hb
              exact hok.2.1 b (List.mem_of_mem_drop (List.mem_of_mem_drop hb))
            · intro c hc
              have hp := SPLAY_INSERT_perm f.fcg_clients (client_calloc f.fcg_rec_id) hok.2.2
                (fun c hc => (hok.1.2 c hc).1) hfresh
              rcases List.mem_cons.mp (hp.mem_iff.mp hc) with e | hm
              · exact Or.inr ⟨htype, e⟩
              · exact Or.inl ⟨c, hm, rfl⟩
  · split at h
    · split at h
      · exact fin _ _ (kept_next_record _ _ (kept_set_input _ _ _ hk)) h
      · rename_i c hfind
        obtain ⟨hm, hb⟩ := hbuf c hfind
        split at h
        · split at h
          · cases h
          · cases h
          · rename_i r f2 hs
            have hh := kept_handled f _ f2 c r (kept_set_input _ _ _ hk)
              (server_handle_handled _ c hb r f2 hs)
            split at h
            · exact fin _ _ hh h
            · exact fin _ _ (kept_next_record _ _ hh) h
        · split at h
          · cases h
          · cases h
          · rename_i r f2 c1 hp
            obtain ⟨hf, hs⟩ := fcgi_parse_params_loop_consumed _ _ _ _ _ _ hp
            have hst := kept_store f f f2 c c1 hk hm hf hs
            split at h
            · exact fin _ _ (kept_fcgi_error _ _ hst) h
            · exact fin _ _ (kept_next_record _ _ hst) h
    · split at h
      · exact fin _ _ (kept_next_record _ _ (kept_set_input _ _ _ hk)) h
      · split at h
        · split at h
          · exact fin _ _ (kept_next_record _ _ (kept_set_input _ _ _ hk)) h
          · rename_i c hfind
            obtain ⟨hm, hb⟩ := hbuf c hfind
            have hh := kept_handled f f _ c _ hk (fcgi_end_request_handled f c 1 hb)
            split at h
            · exact fin _ _ hh h
            · exact fin _ _ (kept_next_record _ _ hh) h
        · exact fin _ _ (kept_next_record _ _ (kept_set_input _ _ _ hk)) h


theorem getD_byte (l : List Nat) (h : ∀ b ∈ l, b < 256) (i : Nat) : l.getD i 0 < 256 := by
  rw [List.getD_eq_getElem?_getD]
  rcases hx : l[i]? with _ | x
  · simp
  · simp only [Option.getD_some]
    exact h x (List.getElem?_mem hx)

theorem CAT_lt (a b : Nat) (ha : a < 256) (hb : b < 256) : CAT a b < 65536 := by
  unfold CAT
  rw [Nat.shiftLeft_eq]
  omega

/-- The header step of `fcgi_read` keeps the connection sound and leaves the
request table alone, or empties it on a protocol error. -/
theorem fcgi_read_header_kept (f : fcgi) (hok : conn_ok f) :
    conn_ok (fcgi_read_header f).2 ∧
    ((fcgi_read_header f).2.fcg_clients = f.fcg_clients ∨
      (fcgi_read_header f).2.fcg_clients = []) := by
  have hin : ∀ b ∈ f.fcg_bev.input.drop FCGI_HEADER_LEN, b < 256 :=
    fun b hb => hok.2.1 b (List.mem_of_mem_drop hb)
  have hhdr : ∀ i, (f.fcg_bev.input.take FCGI_HEADER_LEN).getD i 0 < 256 :=
    fun i => getD_byte _ (fun b hb => hok.2.1 b (List.mem_of_mem_take hb)) i
  simp only [fcgi_read_header]
  split
  · exact ⟨⟨table_ok_nil, hin, hok.2.2⟩, Or.inr rfl⟩
  · split
    · exact ⟨⟨table_ok_nil, hin, hok.2.2⟩, Or.inr rfl⟩
    · split
      · exact ⟨⟨table_ok_nil, hin, hok.2.2⟩, Or.inr rfl⟩
      · exact ⟨⟨hok.1, hin, CAT_lt _ _ (hhdr 3) (hhdr 2)⟩, Or.inl rfl⟩

theorem fcgi_read_loop_conn_ok (fuel : Nat) :
    ∀ (f f1 : fcgi), conn_ok f → fcgi_read_loop fuel f = .ok f1 → conn_ok f1 := by
  induction fuel with
  | zero =>
    intro f f1 _ h
    simp [fcgi_read_loop] at h
  | succ n ih =>
    intro f f1 hok h
    simp only [fcgi_read_loop] at h
    split at h
    · simp only [res.ok.injEq] at h
      rw [← h]; exact hok
    · split at h
      · have hh := (fcgi_read_header_kept f hok).1
        split at h
        · rename_i g heq
          rw [heq] at hh
          exact ih g f1 hh h
        · rename_i g heq
          rw [heq] at hh
          simp only [res.ok.injEq] at h
          rw [← h]; exact hh
      · split at h
        · cases h
        · cases h
        · rename_i g heq
          exact ih g f1 (fcgi_read_body_kept f _ g hok heq).1 h
        · rename_i g heq
          simp only [res.ok.injEq] at h
          rw [← h]
          exact (fcgi_read_body_kept f _ g hok heq).1

/-- The read callback keeps the connection sound. -/
theorem bufferevent_readcb_conn_ok (f f1 : fcgi) (chunk : List Nat) (hok : conn_ok f)
    (hb : ∀ b ∈ chunk, b < 256) (h : bufferevent_readcb f chunk = .ok f1) : conn_ok f1 := by
  unfold bufferevent_readcb at h
  split at h
  · simp only [res.ok.injEq] at h
    rw [← h]; exact hok
  · refine fcgi_read_loop_conn_ok _ _ f1 ?_ h
    refine ⟨hok.1, ?_, hok.2.2⟩
    intro b hm
    rcases List.mem_append.mp hm with h1 | h1
    · exact hok.2.1 b h1
    · exact hb b h1

/-- The write callback keeps the connection sound. -/
theorem bufferevent_writecb_conn_ok (f : fcgi) (hok : conn_ok f) :
    conn_ok (bufferevent_writecb f) := by
  unfold bufferevent_writecb
  split
  · exact hok
  · unfold fcgi_write
    split
    · exact ⟨table_ok_nil, hok.2.1, hok.2.2⟩
    · exact hok

theorem deliver_conn_ok (chunks : List (List Nat)) :
    ∀ (f f1 : fcgi), conn_ok f → (∀ chunk ∈ chunks, ∀ b ∈ chunk, b < 256) →
      deliver f chunks = .ok f1 → conn_ok f1 := by
  induction chunks with
  | nil =>
    intro f f1 hok _ h
    simp only [deliver, res.ok.injEq] at h
    rw [← h]; exact hok
  | cons chunk rest ih =>
    intro f f1 hok hb h
    simp only [deliver] at h
    split at h
    · rename_i g heq
      exact ih g f1
        (bufferevent_readcb_conn_ok f g chunk hok (hb chunk (List.mem_cons_self _ _)) heq)
        (fun c hc => hb c (List.mem_cons_of_mem _ hc)) h
    · cases h
    · cases h

theorem conn_ok_fcgi_new (id : Nat) (e : env) (wfail : Option Nat) :
    conn_ok (fcgi_new id e wfail) :=
  ⟨table_ok_nil, by simp [fcgi_new], by simp [fcgi_new]⟩


/-- C11: in every state that the delivery of input bytes to a new connection
reaches, no two requests of the request table have the same id and every id
fits 16 bits.  The invariant `conn_ok` holds there and every step keeps it: the
read callback on any chunk, the header step, the body step and the write
callback.  A request that a body step leaves in the table was in the table
before under the same id, or the record is a `BEGIN_REQUEST` and the request
is the one `fcgi_read` creates with the id of that record; the header step
leaves the table alone or empties it. -/
theorem request_table_unique (id : Nat) (e : env) (wfail : Option Nat)
    (chunks : List (List Nat)) (f : fcgi)
    (hb : ∀ chunk ∈ chunks, ∀ b ∈ chunk, b < 256)
    (h : deliver (fcgi_new id e wfail) chunks = .ok f) :
    (f.fcg_clients.map (fun c => c.clt_id)).Nodup ∧
    (∀ c ∈ f.fcg_clients, c.clt_id < 65536) ∧
    conn_ok f ∧
    (∀ (g g1 : fcgi) (chunk : List Nat), conn_ok g → (∀ b ∈ chunk, b < 256) →
      bufferevent_readcb g chunk = .ok g1 → conn_ok g1) ∧
    (∀ (g : fcgi), conn_ok g →
      conn_ok (fcgi_read_header g).2 ∧
      ((fcgi_read_header g).2.fcg_clients = g.fcg_clients ∨
        (fcgi_read_header g).2.fcg_clients = [])) ∧
    (∀ (g : fcgi) (go : Bool) (g1 : fcgi), conn_ok g → fcgi_read_body g = .ok (go, g1) →
      conn_ok g1 ∧ ∀ c ∈ g1.fcg_clients,
        (∃ c0 ∈ g.fcg_clients, c0.clt_id = c.clt_id) ∨
        (g.fcg_type = FCGI_BEGIN_REQUEST ∧ c = client_calloc g.fcg_rec_id)) ∧
    (∀ (g : fcgi), conn_ok g → conn_ok (bufferevent_writecb g)) := by
  have hok := deliver_conn_ok chunks _ f (conn_ok_fcgi_new id e wfail) hb h
  exact ⟨hok.1.1, fun c hc => (hok.1.2 c hc).1, hok,
    fun g g1 chunk hg hc hr => bufferevent_readcb_conn_ok g g1 chunk hg hc hr,
    fun g hg => fcgi_read_header_kept g hg,
    fun g go g1 hg hr => fcgi_read_body_kept g go g1 hg hr,
    fun g hg => bufferevent_writecb_conn_ok g hg⟩

set_option maxRecDepth 1000000 in
theorem request_table_unique_witness :
    ∃ f : fcgi,
      deliver (fcgi_new 1 env_empty none)
        [fcgi_record FCGI_BEGIN_REQUEST 2 (begin_body 1 1) [],
          fcgi_record FCGI_BEGIN_REQUEST 1 (begin_body 1 1) [],
          fcgi_record FCGI_BEGIN_REQUEST 2 (begin_body 1 1) []] = .ok f ∧
      f.fcg_clients.map (fun c => c.clt_id) = [1, 2] ∧
      (f.fcg_clients.map (fun c => c.clt_id)).Nodup :=
  ⟨_, rfl, by decide,
    (request_table_unique 1 env_empty none
      [fcgi_record FCGI_BEGIN_REQUEST 2 (begin_body 1 1) [],
        fcgi_record FCGI_BEGIN_REQUEST 1 (begin_body 1 1) [],
        fcgi_record FCGI_BEGIN_REQUEST 2 (begin_body 1 1) []] _ (by decide) rfl).1⟩

/-! ## The category of a listing (`route_listing`) -/

theorem takeWhile_append_stop (p : Nat → Bool) (a r : List Nat) (x : Nat) (hx : p x = false) :
    (a ++ x :: r).takeWhile p = a.takeWhile p := by
  induction a with
  | nil => simp [List.takeWhile, hx]
  | cons y a ih =>
    simp only [List.cons_append, List.takeWhile_cons]
    split
    · rw [ih]
    · rfl

theorem strrchr_none (s : List Nat) (c : Nat) (h : strrchr s c = none) : c ∉ s := by
  unfold strrchr at h
  split at h
  · rename_i hn
    intro hm
    have := List.indexOf?_eq_none_iff.mp hn (c) (List.mem_reverse.mpr hm)
    simp at this
  · cases h

theorem strrchr_some (s : List Nat) (c i : Nat) (h : strrchr s c = some i) :
    ∃ r, s = s.take i ++ c :: r ∧ i < s.length := by
  unfold strrchr at h
  split at h
  · cases h
  · rename_i j hj
    simp only [Option.some.injEq] at h
    unfold List.indexOf? at hj
    obtain ⟨hlt, hp, _⟩ := List.findIdx?_eq_some_iff_getElem.mp hj
    rw [List.length_reverse] at hlt
    have hi : i < s.length := by omega
    have hget : s[i] = c := by
      rw [List.getElem_reverse] at hp
      have e : s.length - 1 - j = i := h
      simp only [e] at hp
      simpa using hp
    refine ⟨s.drop (i + 1), ?_, hi⟩
    rw [← hget, List.getElem_cons_drop, List.take_append_drop]

/-- The loop of `route_listing` over `strrchr` ends, with the bytes of `buf`
before its first `/`. -/
theorem listing_cut_first (fuel : Nat) :
    ∀ buf : List Nat, buf.length < fuel →
      listing_cut fuel buf = .ok (buf.takeWhile (fun b => b != 47)) := by
  induction fuel with
  | zero => intro buf h; omega
  | succ n ih =>
    intro buf hlen
    simp only [listing_cut]
    split
    · rename_i hn
      have hno := strrchr_none _ _ hn
      congr 1
      symm
      rw [List.takeWhile_eq_self_iff]
      intro b hb
      have : b ≠ 47 := fun e => hno (e ▸ hb)
      simpa using this
    · rename_i i hs
      obtain ⟨r, hsplit, hi⟩ := strrchr_some _ _ _ hs
      rw [ih (buf.take i) (by rw [List.length_take]; omega)]
      congr 1
      conv_rhs => rw [hsplit]
      rw [takeWhile_append_stop _ _ _ _ (by decide)]

/-! ## Full-text escaping (`fts_escape`) -/

theorem fts_quote_cons (c : Nat) (w : List Nat) :
    fts_quote (c :: w) = fts_quote [c] ++ fts_quote w := by
  simp [fts_quote, List.flatMap_cons]

/-- The scan computes the reference escaping. -/
theorem fts_scan_reference (s : List Nat) :
    (∀ h t, s.splitOnP isspace = h :: t →
      fts_scan true s = fts_quote h ++ [34, 32] ++
        (t.filter (fun w => !w.isEmpty)).flatMap (fun w => [34] ++ fts_quote w ++ [34, 32])) ∧
    fts_scan false s = fts_reference s := by
  induction s with
  | nil =>
    refine ⟨?_, ?_⟩
    · intro h t e
      simp only [List.splitOnP_nil, List.cons.injEq] at e
      obtain ⟨e1, e2⟩ := e
      subst e1; subst e2
      simp [fts_scan, fts_quote]
    · simp [fts_scan, fts_reference]
  | cons c s ih =>
    obtain ⟨ih1, ih2⟩ := ih
    rcases hL : s.splitOnP isspace with _ | ⟨h0, t0⟩
    · exact absurd hL (List.splitOnP_ne_nil _ _)
    have ht := ih1 h0 t0 hL
    have hf : fts_scan false s =
        (if h0.isEmpty then [] else [34] ++ fts_quote h0 ++ [34, 32]) ++
        (t0.filter (fun w => !w.isEmpty)).flatMap
          (fun w => [34] ++ fts_quote w ++ [34, 32]) := by
      rw [ih2, fts_reference, hL, List.filter_cons]
      by_cases he : h0.isEmpty = true
      · simp [he]
      · simp [he]
    by_cases hc : isspace c = true
    · have hsplit : (c :: s).splitOnP isspace = [] :: h0 :: t0 := by
        rw [List.splitOnP_cons, if_pos hc, hL]
      refine ⟨?_, ?_⟩
      · intro h t e
        rw [hsplit] at e
        simp only [List.cons.injEq] at e
        obtain ⟨e1, e2⟩ := e
        subst e1; subst e2
        simp only [fts_scan, hc, if_true, hf, List.filter_cons]
        by_cases he : h0.isEmpty = true
        · simp [he, fts_quote]
        · simp [he, fts_quote]
      · simp only [fts_scan, hc, if_true, ih2]
        simp only [fts_reference, hsplit, hL, List.filter_cons]
        simp
    · have hsplit : (c :: s).splitOnP isspace = (c :: h0) :: t0 := by
        rw [List.splitOnP_cons, if_neg hc, hL]
        rfl
      refine ⟨?_, ?_⟩
      · intro h t e
        rw [hsplit] at e
        simp only [List.cons.injEq] at e
        obtain ⟨e1, e2⟩ := e
        subst e1; subst e2
        simp only [fts_scan, hc, Bool.false_eq_true, if_false, ht]
        rw [fts_quote_cons c h0]
        simp [List.append_assoc]
      · simp only [fts_scan, hc, Bool.false_eq_true, if_false, ht]
        simp only [fts_reference, hsplit, List.filter_cons]
        have hne : (!(c :: h0).isEmpty) = true := rfl
        rw [if_pos hne, List.flatMap_cons, fts_quote_cons c h0]
        simp [List.append_assoc]

theorem fts_quote_single_length (c : Nat) :
    fts_quote [c] = (if c == 34 then [34, 34] else [c]) := by
  simp [fts_quote]

/-- The inner loop of `fts_escape` on a word that fits: it stores the word,
quotes doubled, and stops at the whitespace or at the end of the input. -/
theorem fts_escape_word_scan (p : List Nat) :
    ∀ (out : List Nat) (b : Nat), (fts_scan true p).length + 1 ≤ b →
    ∃ (w p2 : List Nat),
      fts_escape_word p out b = (p2, out ++ w, b - w.length) ∧
      fts_scan true p = w ++ [34, 32] ++ fts_scan false p2 ∧
      p2.length ≤ p.length ∧
      (∀ c s, p = c :: s → isspace c = false → p2.length ≤ s.length) := by
  induction p with
  | nil =>
    intro out b _
    exact ⟨[], [], by simp [fts_escape_word], by simp [fts_scan], Nat.le_refl _,
      fun c s h => by cases h⟩
  | cons c s ih =>
    intro out b hb
    by_cases hc : isspace c = true
    · refine ⟨[], c :: s, by simp [fts_escape_word, hc], by simp [fts_scan, hc],
        Nat.le_refl _, ?_⟩
      intro c1 s1 e hn
      simp only [List.cons.injEq] at e
      rw [← e.1, hc] at hn
      cases hn
    · have hcf : isspace c = false := by simpa using hc
      have hs : fts_scan true (c :: s) = fts_quote [c] ++ fts_scan true s := by
        simp [fts_scan, hcf]
      rw [hs, fts_quote_single_length] at hb
      by_cases hq : (c == 34) = true
      · rw [if_pos hq] at hb
        simp only [List.length_append, List.length_cons, List.length_nil] at hb
        obtain ⟨w, p2, e1, e2, e3, _⟩ := ih (out ++ [34, c]) (b - 1 - 1) (by omega)
        have hb0 : (b != 0) = true := by simp; omega
        have hb1 : (b - 1 == 0) = false := by simp; omega
        refine ⟨[34, c] ++ w, p2, ?_, ?_, by simp only [List.length_cons]; omega, ?_⟩
        · simp only [fts_escape_word, hcf, hb0, hq, hb1, Bool.not_false, Bool.and_self, if_true,
            Bool.false_eq_true, if_false, e1]
          simp only [List.append_assoc, List.length_append, List.length_cons, List.length_nil,
            Prod.mk.injEq, true_and]
          omega
        · rw [hs, fts_quote_single_length, if_pos hq, e2]
          have : c = 34 := by simpa using hq
          simp [this]
        · intro c1 s1 e _
          simp only [List.cons.injEq] at e
          rw [← e.2]
          exact e3
      · rw [if_neg hq] at hb
        simp only [List.length_append, List.length_cons, List.length_nil] at hb
        obtain ⟨w, p2, e1, e2, e3, _⟩ := ih (out ++ [c]) (b - 1) (by omega)
        have hb0 : (b != 0) = true := by simp; omega
        have hqf : (c == 34) = false := by simpa using hq
        refine ⟨[c] ++ w, p2, ?_, ?_, by simp only [List.length_cons]; omega, ?_⟩
        · simp only [fts_escape_word, hcf, hb0, hqf, Bool.not_false, Bool.and_self, if_true,
            Bool.false_eq_true, if_false, e1]
          simp only [List.append_assoc, List.length_append, List.length_cons, List.length_nil,
            Prod.mk.injEq, true_and]
          omega
        · rw [hs, fts_quote_single_length, if_neg hq, e2]
          simp
        · intro c1 s1 e _
          simp only [List.cons.injEq] at e
          rw [← e.2]
          exact e3

theorem fts_scan_dropWhile (p : List Nat) :
    fts_scan false p = fts_scan false (p.dropWhile isspace) := by
  induction p with
  | nil => rfl
  | cons c s ih =>
    by_cases hc : isspace c = true
    · simp only [fts_scan, hc, if_true, List.dropWhile_cons]
      exact ih
    · simp only [List.dropWhile_cons, hc, if_false]; rfl

theorem dropWhile_head (q : Nat → Bool) (p : List Nat) (c : Nat) (s : List Nat)
    (h : p.dropWhile q = c :: s) : q c = false := by
  induction p with
  | nil => cases h
  | cons a p ih =>
    by_cases ha : q a = true
    · simp only [List.dropWhile_cons, ha, if_true] at h
      exact ih h
    · have haf : q a = false := by simpa using ha
      simp only [List.dropWhile_cons, haf, Bool.false_eq_true, if_false, List.cons.injEq] at h
      rw [← h.1]
      exact haf

/-- The outer loop of `fts_escape` on an input whose escaping fits, with one
byte to spare. -/
theorem fts_escape_loop_scan (fuel : Nat) :
    ∀ (p out : List Nat) (b : Nat), p.length < fuel → (fts_scan false p).length + 1 ≤ b →
      fts_escape_loop fuel p out b =
        .ok ([], out ++ fts_scan false p, b - (fts_scan false p).length) := by
  induction fuel with
  | zero => intro p out b h; omega
  | succ n ih =>
    intro p out b hlen hb
    have hb0 : (b != 0) = true := by simp; omega
    have hdw := fts_scan_dropWhile p
    have hdl : (p.dropWhile isspace).length ≤ p.length :=
      (List.dropWhile_sublist isspace).length_le
    simp only [fts_escape_loop, hb0, if_true]
    rcases hp1 : p.dropWhile isspace with _ | ⟨c, s⟩
    · rw [hp1] at hdw
      simp [hdw, fts_scan]
    · rw [hp1] at hdw hdl
      have hcf := dropWhile_head _ _ _ _ hp1
      have hs : fts_scan false (c :: s) = [34] ++ fts_scan true (c :: s) := by
        simp [fts_scan, hcf]
      rw [hdw, hs] at hb ⊢
      simp only [List.length_append, List.length_cons, List.length_nil] at hb
      obtain ⟨w, p2, e1, e2, _, e4⟩ := fts_escape_word_scan (c :: s) (out ++ [34]) (b - 1)
        (by omega)
      have hp2 := e4 c s rfl hcf
      have hl2 : (fts_scan true (c :: s)).length = w.length + 2 + (fts_scan false p2).length := by
        rw [e2]; simp only [List.length_append, List.length_cons, List.length_nil]
      simp only [List.length_cons] at hdl
      have hnot : ¬ (b - 1 - w.length < 2) := by omega
      simp only [List.isEmpty_cons, Bool.false_eq_true, if_false, e1, hnot]
      rw [ih p2 _ _ (by omega) (by omega), e2]
      simp only [List.append_assoc, List.length_append, List.length_cons, List.length_nil,
        List.cons_append, List.nil_append, res.ok.injEq, Prod.mk.injEq, true_and]
      omega

set_option maxRecDepth 100000 in
/-- C21: for every input whose reference escaping, one quoted word and one
space for each maximal run of non-whitespace bytes, leaves room for the
terminator in a buffer of `bufsize` bytes, `fts_escape` returns 0 and the
buffer holds exactly that escaping followed by the NUL byte.  For the input
`C++ "framework"` this is `"C++" """framework"""` followed by one space. -/
theorem fts_escape_reference (p : List Nat) (bufsize : Nat)
    (hfit : (fts_reference (cstr p)).length + 1 ≤ bufsize) :
    fts_escape p bufsize = .ok (0, fts_reference (cstr p) ++ [0]) ∧
    fts_reference (bytes "C++ \"framework\"") = bytes "\"C++\" \"\"\"framework\"\"\" " := by
  refine ⟨?_, by decide⟩
  have hs := (fts_scan_reference (cstr p)).2
  rw [← hs] at hfit ⊢
  have hl := fts_escape_loop_scan ((cstr p).length + 1) (cstr p) [] bufsize (by omega) hfit
  have hb : (bufsize - (fts_scan false (cstr p)).length != 0) = true := by simp; omega
  simp only [fts_escape, hl, List.isEmpty_nil, hb, Bool.and_self, if_true, List.nil_append]

set_option maxRecDepth 100000 in
theorem fts_escape_reference_witness :
    fts_escape (bytes "C++ \"framework\"") 1024 =
      .ok (0, bytes "\"C++\" \"\"\"framework\"\"\" " ++ [0]) :=
  (fts_escape_reference (bytes "C++ \"framework\"") 1024 (by decide)).1

set_option maxRecDepth 1000000 in
/-- C22 fails on the code: when one byte of the buffer is left after the last
byte of the last word, `fts_escape` leaves the outer loop on `bufsize < 2` and
then returns 0, since the input is used up and `bufsize` is not 0.  For the
query made of 1022 letters `a` the escaped form has 1025 bytes and needs 1026
with the terminator; `fts_escape` with the buffer of 1024 bytes returns 0 and
leaves the opening quote and the word, without the closing quote.
`route_search` binds that text and answers 20.  With 1021 or 1023 letters the
function returns -1. -/
theorem fts_escape_truncates :
    fts_escape (List.replicate 1022 97) 1024 =
      .ok (0, 34 :: List.replicate 1022 97 ++ [0]) ∧
    (fts_reference (List.replicate 1022 97)).length + 1 = 1026 ∧
    (match route_search (fcgi_new 1 env_empty none)
        { client_calloc 1 with
          clt_script_name := some (bytes "/app/")
          clt_query := some (List.replicate 1022 97) } with
      | .ok (r, f1) =>
        (r, f1.fcg_env.env_qsearch.bound, (f1.fcg_bev.output.drop 8).take 16)
      | _ => (-1, [], [])) =
      (0, 34 :: List.replicate 1022 97, bytes "20 text/gemini\r\n") ∧
    (match fts_escape (List.replicate 1021 97) 1024 with
      | .ok (r, _) => r
      | _ => 0) = -1 ∧
    (match fts_escape (List.replicate 1023 97) 1024 with
      | .ok (r, _) => r
      | _ => 0) = -1 := by
  refine ⟨by rfl, by rfl, by rfl, by rfl, by rfl⟩

/-! ## The maintainer line (`print_maintainer`) -/

/-- A write followed by the rest of `print_maintainer`. -/
theorem print_maintainer_step (f : fcgi) (clt : client) (buf rest : List Nat)
    (k : fcgi → client → res (Int × fcgi × client)) (hok : buf_ok clt)
    (hk : ∀ f1 clt1, buf_ok clt1 →
      ∃ (r : Int) (f2 : fcgi) (clt2 : client),
        k f1 clt1 = .ok (r, f2, clt2) ∧ (r = 0 ∨ r = -1) ∧
        (f1.fcg_bev.wfail = none → r = 0) ∧ (r = 0 → emitted f1 clt1 f2 clt2 rest)) :
    ∃ (r : Int) (f2 : fcgi) (clt2 : client),
      (match clt_write f clt buf with
        | res.ok (r, f1, clt1) => if r = -1 then res.ok (-1, f1, clt1) else k f1 clt1
        | res.undefined => res.undefined
        | res.nofuel => res.nofuel) = res.ok (r, f2, clt2) ∧ (r = 0 ∨ r = -1) ∧
      (f.fcg_bev.wfail = none → r = 0) ∧ (r = 0 → emitted f clt f2 clt2 (buf ++ rest)) := by
  obtain ⟨r0, f1, clt1, hw, hr, hnone, hem⟩ := clt_write_emitted f clt buf hok
  rw [hw]
  rcases hr with h0 | h1
  · have hne : ¬ r0 = -1 := by omega
    simp only [hne, if_false]
    have he := hem h0
    obtain ⟨r, f2, clt2, e1, e2, e3, e4⟩ := hk f1 clt1 (emitted_buf_ok _ _ _ _ _ he)
    exact ⟨r, f2, clt2, e1, e2, fun hn => e3 (emitted_wfail _ _ _ _ _ he hn),
      fun hr0 => emitted_trans _ _ _ _ _ _ _ _ he (e4 hr0)⟩
  · simp only [h1, if_true]
    refine ⟨-1, f1, clt1, rfl, Or.inr rfl, ?_, ?_⟩
    · intro hn
      have := hnone hn
      omega
    · intro h
      omega

/-- The function `print_maintainer` writes the obfuscation of `mail`, from
either state of the scan. -/
theorem print_maintainer_emitted (mail : List Nat) :
    ∀ (in_addr : Bool) (f : fcgi) (clt : client), buf_ok clt →
    ∃ (r : Int) (f1 : fcgi) (clt1 : client),
      print_maintainer mail in_addr f clt = .ok (r, f1, clt1) ∧ (r = 0 ∨ r = -1) ∧
      (f.fcg_bev.wfail = none → r = 0) ∧
      (r = 0 → emitted f clt f1 clt1 (obfuscate in_addr mail)) := by
  induction mail with
  | nil =>
    intro in_addr f clt hok
    refine ⟨0, f, clt, by simp [print_maintainer], Or.inl rfl, fun _ => rfl, fun _ => ?_⟩
    cases in_addr <;> exact emitted_refl f clt hok
  | cons c mail ih =>
    intro in_addr f clt hok
    cases in_addr with
    | false =>
      have h := print_maintainer_step f clt [c] (obfuscate (c == 60) mail)
        (fun f1 clt1 => print_maintainer mail (c == 60) f1 clt1) hok
        (fun f1 clt1 hb => ih (c == 60) f1 clt1 hb)
      simpa [print_maintainer, clt_putc, obfuscate] using h
    | true =>
      by_cases h64 : (c == 64) = true
      · have h := print_maintainer_step f clt (bytes " at ") (obfuscate true mail)
          (fun f1 clt1 => print_maintainer mail true f1 clt1) hok
          (fun f1 clt1 hb => ih true f1 clt1 hb)
        have hc : c = 64 := by simpa using h64
        subst hc
        have hcs : cstr (bytes " at ") = bytes " at " := by decide
        simpa [print_maintainer, clt_puts, obfuscate, hcs] using h
      · by_cases h46 : (c == 46) = true
        · have h := print_maintainer_step f clt (bytes " dot ") (obfuscate true mail)
            (fun f1 clt1 => print_maintainer mail true f1 clt1) hok
            (fun f1 clt1 hb => ih true f1 clt1 hb)
          have hc : c = 46 := by simpa using h46
          subst hc
          have hcs : cstr (bytes " dot ") = bytes " dot " := by decide
          simpa [print_maintainer, clt_puts, obfuscate, hcs] using h
        · by_cases h62 : (c == 62) = true
          · have h := print_maintainer_step f clt [c] (obfuscate false mail)
              (fun f1 clt1 => print_maintainer mail false f1 clt1) hok
              (fun f1 clt1 hb => ih false f1 clt1 hb)
            have hc : c = 62 := by simpa using h62
            subst hc
            simpa [print_maintainer, clt_putc, obfuscate] using h
          · have h := print_maintainer_step f clt [c] (obfuscate true mail)
              (fun f1 clt1 => print_maintainer mail true f1 clt1) hok
              (fun f1 clt1 hb => ih true f1 clt1 hb)
            have e64 : ¬ c = 64 := by simpa using h64
            have e46 : ¬ c = 46 := by simpa using h46
            have e62 : ¬ c = 62 := by simpa using h62
            have b62 : (c == 62) = false := by simpa using h62
            simpa [print_maintainer, clt_putc, obfuscate, e64, e46, e62, b62] using h

theorem obfuscate_outside (mail : List Nat) (h : 60 ∉ mail) : obfuscate false mail = mail := by
  induction mail with
  | nil => rfl
  | cons c s ih =>
    have hc : (c == 60) = false := by
      have : c ≠ 60 := fun e => h (e ▸ List.mem_cons_self _ _)
      simpa using this
    simp only [obfuscate, hc]
    rw [ih (fun hm => h (List.mem_cons_of_mem _ hm))]

/-- C27: `print_maintainer` returns 0 or -1, and 0 when no write fails; when
it returns 0 the bytes it wrote are the obfuscation of `mail`, the two-state
scan of the spec started outside a `<...>` pair.  `John <a.b@c.org>` gives
`John <a dot b at c dot org>`, and an input without `<` is written as it is. -/
theorem print_maintainer_obfuscates (f : fcgi) (clt : client) (mail : List Nat)
    (hok : buf_ok clt) :
    (∃ (r : Int) (f1 : fcgi) (clt1 : client),
      print_maintainer mail false f clt = .ok (r, f1, clt1) ∧ (r = 0 ∨ r = -1) ∧
      (f.fcg_bev.wfail = none → r = 0) ∧
      (r = 0 → emitted f clt f1 clt1 (obfuscate false mail))) ∧
    obfuscate false (bytes "John <a.b@c.org>") = bytes "John <a dot b at c dot org>" ∧
    (60 ∉ mail → obfuscate false mail = mail) :=
  ⟨print_maintainer_emitted mail false f clt hok, by decide, obfuscate_outside mail⟩

theorem print_maintainer_obfuscates_witness :
    ∃ (r : Int) (f1 : fcgi) (clt1 : client),
      print_maintainer (bytes "John <a.b@c.org>") false (fcgi_new 1 env_empty none)
        (client_calloc 1) = .ok (r, f1, clt1) ∧ (r = 0 ∨ r = -1) ∧
      ((fcgi_new 1 env_empty none).fcg_bev.wfail = none → r = 0) ∧
      (r = 0 → emitted (fcgi_new 1 env_empty none) (client_calloc 1) f1 clt1
        (obfuscate false (bytes "John <a.b@c.org>"))) :=
  (print_maintainer_obfuscates (fcgi_new 1 env_empty none) (client_calloc 1)
    (bytes "John <a.b@c.org>") (buf_ok_client_calloc 1)).1

/-! ## What a handler says when no write fails -/

theorem said_refl (f : fcgi) (clt : client) (hw : f.fcg_bev.wfail = none) (hok : buf_ok clt) :
    said f clt f clt [] 0 :=
  ⟨same_decoder_refl f, rfl, rfl, rfl, hw, rfl, rfl, hok, [], by simp, by simp, by simp⟩

theorem said_trans (f f1 f2 : fcgi) (clt clt1 clt2 : client) (d1 d2 : List Nat) (n1 n2 : Nat)
    (h1 : said f clt f1 clt1 d1 n1) (h2 : said f1 clt1 f2 clt2 d2 n2) :
    said f clt f2 clt2 (d1 ++ d2) (n1 + n2) := by
  obtain ⟨a1, a2, a3, a4, _, a6, a7, _, ps1, a9, a10, a11⟩ := h1
  obtain ⟨b1, b2, b3, b4, b5, b6, b7, b8, ps2, b9, b10, b11⟩ := h2
  refine ⟨same_decoder_trans _ _ _ a1 b1, b2.trans a2, b3.trans a3, b4.trans a4, b5,
    by rw [b6, a6]; omega, b7.trans a7, b8, ps1 ++ ps2, ?_, ?_, ?_⟩
  · rw [b9, a9, a7]
    simp [List.append_assoc]
  · rw [List.flatten_append, List.append_assoc, b10, ← List.append_assoc, a10,
      List.append_assoc]
  · intro p hp
    rcases List.mem_append.mp hp with h | h
    · exact a11 p h
    · exact b11 p h

theorem said_of_emitted (f f1 : fcgi) (clt clt1 : client) (d : List Nat)
    (hw : f.fcg_bev.wfail = none) (h : emitted f clt f1 clt1 d) : said f clt f1 clt1 d 0 := by
  obtain ⟨ps, w, b1, n1, hf1, hc1, hb, hn, hwn, hd, hp⟩ := h
  have hw1 := hwn hw
  subst hf1
  subst hc1
  subst hw1
  exact ⟨⟨rfl, rfl, rfl, rfl, rfl, rfl, rfl, rfl⟩, rfl, rfl, rfl, rfl, rfl, rfl, ⟨hb, hn⟩,
    ps, rfl, hd, hp⟩

/-- An assignment to the environment or to the reply counter of the state
reached is seen by `said` through the counter only. -/
theorem said_set (f0 f : fcgi) (clt0 clt : client) (d : List Nat) (n m : Nat) (e : env)
    (h : said f0 clt0 f clt d n) :
    said f0 clt0 { f with fcg_env := e, fcg_replies := f.fcg_replies + m } clt d (n + m) := by
  obtain ⟨a1, a2, a3, a4, a5, a6, a7, a8, ps, a9, a10, a11⟩ := h
  exact ⟨a1, a2, a3, a4, a5, by simp only [a6]; omega, a7, a8, ps, a9, a10, a11⟩

theorem said_set_env (f0 f : fcgi) (clt0 clt : client) (d : List Nat) (n : Nat) (e : env)
    (h : said f0 clt0 f clt d n) : said f0 clt0 { f with fcg_env := e } clt d n := by
  obtain ⟨a1, a2, a3, a4, a5, a6, a7, a8, ps, a9, a10, a11⟩ := h
  exact ⟨a1, a2, a3, a4, a5, a6, a7, a8, ps, a9, a10, a11⟩

/-- The call `clt_write` when no write fails. -/
theorem clt_write_said (f0 f : fcgi) (clt0 clt : client) (d buf : List Nat) (n : Nat)
    (h : said f0 clt0 f clt d n) :
    ∃ (f1 : fcgi) (clt1 : client),
      clt_write f clt buf = .ok (0, f1, clt1) ∧ said f0 clt0 f1 clt1 (d ++ buf) n ∧
      f1.fcg_env = f.fcg_env := by
  obtain ⟨r, f1, clt1, hw, _, hnone, hem⟩ := clt_write_emitted f clt buf h.2.2.2.2.2.2.2.1
  have hr := hnone h.2.2.2.2.1
  subst hr
  refine ⟨f1, clt1, hw, said_trans _ _ _ _ _ _ _ _ _ _ h
    (said_of_emitted _ _ _ _ _ h.2.2.2.2.1 (hem rfl)), ?_⟩
  obtain ⟨ps, w, b1, n1, hf1, _⟩ := hem rfl
  rw [hf1]
  rfl

/-- The call `server_reply` when no write fails. -/
theorem server_reply_said (f0 f : fcgi) (clt0 clt : client) (d : List Nat) (n : Nat)
    (status : Nat) (ctype : List Nat) (h : said f0 clt0 f clt d n) :
    ∃ (f1 : fcgi) (clt1 : client),
      server_reply f clt status ctype = .ok (0, f1, clt1) ∧
      said f0 clt0 f1 clt1 (d ++ status_line status ctype) (n + 1) ∧
      f1.fcg_env = f.fcg_env := by
  have h1 : said f0 clt0 { f with fcg_replies := f.fcg_replies + 1 } clt d (n + 1) := by
    obtain ⟨a1, a2, a3, a4, a5, a6, a7, a8, ps, a9, a10, a11⟩ := h
    exact ⟨a1, a2, a3, a4, a5, by simp only [a6]; omega, a7, a8, ps, a9, a10, a11⟩
  exact clt_write_said f0 _ clt0 clt d _ (n + 1) h1

/-- The call `fcgi_end_request` when no write fails. -/
theorem fcgi_end_request_said (f0 f : fcgi) (clt0 clt : client) (d : List Nat) (n : Nat)
    (status : Int) (h : said f0 clt0 f clt d n) :
    ∃ f1 : fcgi, fcgi_end_request f clt status = (0, f1) ∧ replied f0 clt0 f1 d n status ∧
      f1.fcg_env = f.fcg_env := by
  obtain ⟨a1, a2, a3, a4, a5, a6, a7, a8, ps, a9, a10, a11⟩ := h
  have hlen : clt.clt_buflen ≤ clt.clt_buf.length := by rw [a8.1]; exact a8.2
  have he := end_request_none f clt status FCGI_REQUEST_COMPLETE hlen a5
  refine ⟨_, he, ?_, rfl⟩
  refine ⟨a1, a2, ?_, ?_, rfl, a6,
    ps ++ (if clt.clt_buflen = 0 then [] else [clt.clt_buf.take clt.clt_buflen]), ?_, ?_, ?_⟩
  · simp only [with_out, a3]
    exact SPLAY_REMOVE_id _ _ _ a7
  · simp only [with_out, a4, a1.2.2.2.2.2.2.2]
  · by_cases hb : clt.clt_buflen = 0
    · simp [hb, with_out, a9, a7, FCGI_REQUEST_COMPLETE, List.append_assoc]
    · simp [hb, with_out, a9, a7, FCGI_REQUEST_COMPLETE, List.append_assoc]
  · by_cases hb : clt.clt_buflen = 0
    · simp only [hb, if_true, List.append_nil]
      rw [← a10, hb]
      simp
    · simp only [hb, if_false, List.flatten_append, List.flatten_cons, List.flatten_nil,
        List.append_nil]
      exact a10
  · intro p hp
    rcases List.mem_append.mp hp with h1 | h1
    · exact a11 p h1
    · by_cases hb : clt.clt_buflen = 0
      · simp [hb] at h1
      · simp only [hb, if_false, List.mem_singleton] at h1
        subst h1
        have h2 := a8.2
        rw [List.length_take, a8.1]
        omega

theorem handler_says_undefined (f : fcgi) (clt : client) (Q : List Nat → Nat → Int → Prop) :
    handler_says f clt Q .undefined := Or.inl rfl

/-- The last step of a handler: `return (fcgi_end_request(clt, status))`. -/
theorem handler_says_end (f0 f : fcgi) (clt0 clt : client) (Q : List Nat → Nat → Int → Prop)
    (d : List Nat) (n : Nat) (status : Int) (h : said f0 clt0 f clt d n) (hq : Q d n status) :
    handler_says f0 clt0 Q (.ok (fcgi_end_request f clt status)) := by
  obtain ⟨f1, e, hr, _⟩ := fcgi_end_request_said f0 f clt0 clt d n status h
  exact Or.inr ⟨f1, d, n, status, by rw [e], hr, hq⟩

/-- A call of `clt_write` followed by the rest `k` of the handler. -/
theorem handler_says_write (f0 f : fcgi) (clt0 clt : client) (Q : List Nat → Nat → Int → Prop)
    (d buf : List Nat) (n : Nat) (k : fcgi → client → res (Int × fcgi))
    (h : said f0 clt0 f clt d n)
    (hk : ∀ f1 clt1, said f0 clt0 f1 clt1 (d ++ buf) n → handler_says f0 clt0 Q (k f1 clt1)) :
    handler_says f0 clt0 Q (on_ok (clt_write f clt buf) k) := by
  obtain ⟨f1, clt1, e, hs, _⟩ := clt_write_said f0 f clt0 clt d buf n h
  rw [e]
  simp only [on_ok]
  exact hk f1 clt1 hs

theorem handler_says_write_else (f0 f : fcgi) (clt0 clt : client)
    (Q : List Nat → Nat → Int → Prop) (d buf : List Nat) (n : Nat)
    (err : fcgi → res (Int × fcgi)) (k : fcgi → client → res (Int × fcgi))
    (h : said f0 clt0 f clt d n)
    (hk : ∀ f1 clt1, said f0 clt0 f1 clt1 (d ++ buf) n → handler_says f0 clt0 Q (k f1 clt1)) :
    handler_says f0 clt0 Q (on_ok_else (clt_write f clt buf) err k) := by
  obtain ⟨f1, clt1, e, hs, _⟩ := clt_write_said f0 f clt0 clt d buf n h
  rw [e]
  simp only [on_ok_else]
  exact hk f1 clt1 hs

/-- A call of `server_reply` followed by the rest `k` of the handler. -/
theorem handler_says_reply (f0 f : fcgi) (clt0 clt : client) (Q : List Nat → Nat → Int → Prop)
    (d : List Nat) (n status : Nat) (ctype : List Nat) (k : fcgi → client → res (Int × fcgi))
    (h : said f0 clt0 f clt d n)
    (hk : ∀ f1 clt1, said f0 clt0 f1 clt1 (d ++ status_line status ctype) (n + 1) →
      handler_says f0 clt0 Q (k f1 clt1)) :
    handler_says f0 clt0 Q (on_ok (server_reply f clt status ctype) k) := by
  obtain ⟨f1, clt1, e, hs, _⟩ := server_reply_said f0 f clt0 clt d n status ctype h
  rw [e]
  simp only [on_ok]
  exact hk f1 clt1 hs

theorem handler_says_reply_else (f0 f : fcgi) (clt0 clt : client)
    (Q : List Nat → Nat → Int → Prop) (d : List Nat) (n status : Nat) (ctype : List Nat)
    (err : fcgi → res (Int × fcgi)) (k : fcgi → client → res (Int × fcgi))
    (h : said f0 clt0 f clt d n)
    (hk : ∀ f1 clt1, said f0 clt0 f1 clt1 (d ++ status_line status ctype) (n + 1) →
      handler_says f0 clt0 Q (k f1 clt1)) :
    handler_says f0 clt0 Q (on_ok_else (server_reply f clt status ctype) err k) := by
  obtain ⟨f1, clt1, e, hs, _⟩ := server_reply_said f0 f clt0 clt d n status ctype h
  rw [e]
  simp only [on_ok_else]
  exact hk f1 clt1 hs

theorem so_far_of_said (P : List Nat → Prop) (f0 f : fcgi) (clt0 clt : client) (d : List Nat)
    (n : Nat) (h : said f0 clt0 f clt d n) (hp : P d) : so_far P f0 clt0 f clt n :=
  ⟨d, h, hp⟩

theorem so_far_set_env (P : List Nat → Prop) (f0 f : fcgi) (clt0 clt : client) (n : Nat)
    (e : env) (h : so_far P f0 clt0 f clt n) : so_far P f0 clt0 { f with fcg_env := e } clt n := by
  obtain ⟨d, hs, hp⟩ := h
  exact ⟨d, said_set_env _ _ _ _ _ _ e hs, hp⟩

theorem so_far_write (P : List Nat → Prop) (hP : ∀ d b, P d → P (d ++ b)) (f0 f : fcgi)
    (clt0 clt : client) (n : Nat) (buf : List Nat) (h : so_far P f0 clt0 f clt n) :
    ∃ (f1 : fcgi) (clt1 : client),
      clt_write f clt buf = .ok (0, f1, clt1) ∧ so_far P f0 clt0 f1 clt1 n ∧
      f1.fcg_env = f.fcg_env := by
  obtain ⟨d, hs, hp⟩ := h
  obtain ⟨f1, clt1, e, hs1, he⟩ := clt_write_said f0 f clt0 clt d buf n hs
  exact ⟨f1, clt1, e, ⟨d ++ buf, hs1, hP d buf hp⟩, he⟩

theorem keeps_write (P : List Nat → Prop) (hP : ∀ d b, P d → P (d ++ b)) (f0 f : fcgi)
    (clt0 clt : client) (Q : List Nat → Nat → Int → Prop) (n : Nat) (buf : List Nat)
    (k : fcgi → client → res (Int × fcgi)) (h : so_far P f0 clt0 f clt n)
    (hk : ∀ f1 clt1, so_far P f0 clt0 f1 clt1 n → handler_says f0 clt0 Q (k f1 clt1)) :
    handler_says f0 clt0 Q (on_ok (clt_write f clt buf) k) := by
  obtain ⟨f1, clt1, e, hs, _⟩ := so_far_write P hP f0 f clt0 clt n buf h
  rw [e]
  simp only [on_ok]
  exact hk f1 clt1 hs

theorem keeps_write_else (P : List Nat → Prop) (hP : ∀ d b, P d → P (d ++ b)) (f0 f : fcgi)
    (clt0 clt : client) (Q : List Nat → Nat → Int → Prop) (n : Nat) (buf : List Nat)
    (err : fcgi → res (Int × fcgi)) (k : fcgi → client → res (Int × fcgi))
    (h : so_far P f0 clt0 f clt n)
    (hk : ∀ f1 clt1, so_far P f0 clt0 f1 clt1 n → handler_says f0 clt0 Q (k f1 clt1)) :
    handler_says f0 clt0 Q (on_ok_else (clt_write f clt buf) err k) := by
  obtain ⟨f1, clt1, e, hs, _⟩ := so_far_write P hP f0 f clt0 clt n buf h
  rw [e]
  simp only [on_ok_else]
  exact hk f1 clt1 hs

/-- A call that appends, such as `print_maintainer`, followed by the rest. -/
theorem keeps_writer_else (P : List Nat → Prop) (f0 : fcgi) (clt0 : client)
    (Q : List Nat → Nat → Int → Prop) (n : Nat) (r : res (Int × fcgi × client))
    (err : fcgi → res (Int × fcgi)) (k : fcgi → client → res (Int × fcgi))
    (hr : writer_says P f0 clt0 n r)
    (hk : ∀ f1 clt1, so_far P f0 clt0 f1 clt1 n → handler_says f0 clt0 Q (k f1 clt1)) :
    handler_says f0 clt0 Q (on_ok_else r err k) := by
  rcases hr with h | ⟨f1, clt1, e, hs⟩
  · rw [h]
    exact Or.inl rfl
  · rw [e]
    simp only [on_ok_else]
    exact hk f1 clt1 hs

theorem keeps_end (P : List Nat → Prop) (f0 f : fcgi) (clt0 clt : client)
    (Q : List Nat → Nat → Int → Prop) (n : Nat) (status : Int)
    (h : so_far P f0 clt0 f clt n) (hq : ∀ d, P d → Q d n status) :
    handler_says f0 clt0 Q (.ok (fcgi_end_request f clt status)) := by
  obtain ⟨d, hs, hp⟩ := h
  exact handler_says_end f0 f clt0 clt Q d n status hs (hq d hp)

theorem rows_left_step (s : sqlite3_stmt) (cols : List (Option (List Nat)))
    (h : (sqlite3_step s).1 = .row cols) : rows_left (sqlite3_step s).2 + 1 = rows_left s := by
  unfold sqlite3_step at h
  simp only at h
  have hlt : s.pos < ((s.rows.lookup s.bound).getD []).length := by
    by_contra hge
    rw [List.getD_eq_default _ _ (by omega)] at h
    cases h
  simp only [rows_left, sqlite3_step]
  omega

theorem print_maintainer_says (P : List Nat → Prop) (hP : ∀ d b, P d → P (d ++ b))
    (f0 f : fcgi) (clt0 clt : client) (n : Nat) (mail : List Nat) (in_addr : Bool)
    (h : so_far P f0 clt0 f clt n) :
    writer_says P f0 clt0 n (print_maintainer mail in_addr f clt) := by
  obtain ⟨d, hs, hp⟩ := h
  obtain ⟨r, f1, clt1, e, _, hnone, hem⟩ :=
    print_maintainer_emitted mail in_addr f clt hs.2.2.2.2.2.2.2.1
  have hr := hnone hs.2.2.2.2.1
  subst hr
  exact Or.inr ⟨f1, clt1, e, d ++ obfuscate in_addr mail,
    said_trans _ _ _ _ _ _ _ _ _ _ hs (said_of_emitted _ _ _ _ _ hs.2.2.2.2.1 (hem rfl)),
    hP _ _ hp⟩

theorem route_categories_loop_says (P : List Nat → Prop) (hP : ∀ d b, P d → P (d ++ b))
    (f0 : fcgi) (clt0 : client) (n : Nat) (fuel : Nat) :
    ∀ (f : fcgi) (clt : client), so_far P f0 clt0 f clt n →
      rows_left f.fcg_env.env_qcats < fuel →
      writer_says P f0 clt0 n (route_categories_loop fuel f clt) := by
  induction fuel with
  | zero => intro f clt _ h; omega
  | succ m ih =>
    intro f clt hs hfuel
    have hs1 : so_far P f0 clt0 (set_qcats f (sqlite3_step f.fcg_env.env_qcats).2) clt n :=
      so_far_set_env P f0 f clt0 clt n _ hs
    simp only [route_categories_loop, clt_printf]
    split
    · exact Or.inr ⟨_, _, rfl, hs1⟩
    · exact Or.inr ⟨_, _, rfl, hs1⟩
    · rename_i cols hrow
      have hleft := rows_left_step _ cols hrow
      split
      · rename_i script fullpkgpath _ _
        obtain ⟨f2, clt2, e, hs2, henv⟩ := so_far_write P hP f0 _ clt0 clt n
          (bytes "=> " ++ cstr script ++ [47] ++ fullpkgpath ++ [32] ++ fullpkgpath ++ [10]) hs1
        rw [e]
        simp only [Int.reduceNeg, OfNat.zero_ne_ofNat, if_false]
        refine ih f2 clt2 hs2 ?_
        rw [henv]
        simp only [set_qcats]
        omega
      · exact Or.inl rfl

theorem route_listing_loop_says (P : List Nat → Prop) (hP : ∀ d b, P d → P (d ++ b))
    (f0 : fcgi) (clt0 : client) (n : Nat) (fuel : Nat) :
    ∀ (f : fcgi) (clt : client), so_far P f0 clt0 f clt n →
      rows_left f.fcg_env.env_qbycat < fuel →
      writer_says P f0 clt0 n (route_listing_loop fuel f clt) := by
  induction fuel with
  | zero => intro f clt _ h; omega
  | succ m ih =>
    intro f clt hs hfuel
    have hs1 : so_far P f0 clt0 (set_qbycat f (sqlite3_step f.fcg_env.env_qbycat).2) clt n :=
      so_far_set_env P f0 f clt0 clt n _ hs
    simp only [route_listing_loop, clt_printf]
    split
    · exact Or.inr ⟨_, _, rfl, hs1⟩
    · exact Or.inr ⟨_, _, rfl, hs1⟩
    · rename_i cols hrow
      have hleft := rows_left_step _ cols hrow
      split
      · rename_i script fullpkgpath _ _
        obtain ⟨f2, clt2, e, hs2, henv⟩ := so_far_write P hP f0 _ clt0 clt n
          (bytes "=> " ++ cstr script ++ [47] ++ fullpkgpath ++ [32] ++ fullpkgpath ++ [10]) hs1
        rw [e]
        simp only [Int.reduceNeg, OfNat.zero_ne_ofNat, if_false]
        refine ih f2 clt2 hs2 ?_
        rw [henv]
        simp only [set_qbycat]
        omega
      · exact Or.inl rfl

theorem route_search_loop_says (P : List Nat → Prop) (hP : ∀ d b, P d → P (d ++ b))
    (f0 : fcgi) (clt0 : client) (n : Nat) (fuel : Nat) :
    ∀ (f : fcgi) (clt : client) (found : Bool), so_far P f0 clt0 f clt n →
      rows_left f.fcg_env.env_qsearch < fuel →
      route_search_loop fuel f clt found = .undefined ∨
      ∃ (f1 : fcgi) (clt1 : client) (found1 : Bool),
        route_search_loop fuel f clt found = .ok (0, f1, clt1, found1) ∧
        so_far P f0 clt0 f1 clt1 n := by
  induction fuel with
  | zero => intro f clt _ _ h; omega
  | succ m ih =>
    intro f clt found hs hfuel
    have hs1 : so_far P f0 clt0 (set_qsearch f (sqlite3_step f.fcg_env.env_qsearch).2) clt n :=
      so_far_set_env P f0 f clt0 clt n _ hs
    simp only [route_search_loop, clt_printf]
    split
    · exact Or.inr ⟨_, _, _, rfl, hs1⟩
    · exact Or.inr ⟨_, _, _, rfl, hs1⟩
    · rename_i cols hrow
      have hleft := rows_left_step _ cols hrow
      split
      · rename_i script fullpkgpath stem comment _ _ _ _
        obtain ⟨f2, clt2, e, hs2, henv⟩ := so_far_write P hP f0 _ clt0 clt n
          (bytes "=> " ++ cstr script ++ [47] ++ fullpkgpath ++ [32] ++ stem ++ bytes ": " ++
            comment ++ [10]) hs1
        rw [e]
        simp only [Int.reduceNeg, OfNat.zero_ne_ofNat, if_false]
        refine ih f2 clt2 true hs2 ?_
        rw [henv]
        simp only [set_qsearch]
        omega
      · exact Or.inl rfl

/-- The inner loop of `fts_escape` never lengthens the input, and it takes the
first byte of a word unless it leaves no room in the buffer. -/
theorem fts_escape_word_shrinks (p : List Nat) :
    ∀ (out : List Nat) (b : Nat),
      (fts_escape_word p out b).1.length ≤ p.length ∧
      (∀ c s, p = c :: s → isspace c = false → (fts_escape_word p out b).2.2 ≠ 0 →
        (fts_escape_word p out b).1.length ≤ s.length) := by
  induction p with
  | nil =>
    intro out b
    exact ⟨by simp [fts_escape_word], fun c s h => by cases h⟩
  | cons c s ih =>
    intro out b
    by_cases hg : (!isspace c && b != 0) = true
    · by_cases hq : (c == 34) = true
      · by_cases h1 : (b - 1 == 0) = true
        · have e : fts_escape_word (c :: s) out b = (c :: s, out ++ [34], b - 1) := by
            simp only [fts_escape_word, hg, hq, h1, if_true]
          rw [e]
          refine ⟨Nat.le_refl _, ?_⟩
          intro c1 s1 _ _ hne
          have : b - 1 = 0 := by simpa using h1
          exact absurd this hne
        · have e : fts_escape_word (c :: s) out b =
              fts_escape_word s (out ++ [34, c]) (b - 1 - 1) := by
            simp only [fts_escape_word, hg, hq, h1, if_true, Bool.false_eq_true, if_false]
          rw [e]
          have h := (ih (out ++ [34, c]) (b - 1 - 1)).1
          refine ⟨by simp only [List.length_cons]; omega, ?_⟩
          intro c1 s1 hcs _ _
          simp only [List.cons.injEq] at hcs
          rw [← hcs.2]
          exact h
      · have e : fts_escape_word (c :: s) out b = fts_escape_word s (out ++ [c]) (b - 1) := by
          simp only [fts_escape_word, hg, hq, if_true, Bool.false_eq_true, if_false]
        rw [e]
        have h := (ih (out ++ [c]) (b - 1)).1
        refine ⟨by simp only [List.length_cons]; omega, ?_⟩
        intro c1 s1 hcs _ _
        simp only [List.cons.injEq] at hcs
        rw [← hcs.2]
        exact h
    · have e : fts_escape_word (c :: s) out b = (c :: s, out, b) := by
        simp only [fts_escape_word, hg, Bool.false_eq_true, if_false]
      rw [e]
      refine ⟨Nat.le_refl _, ?_⟩
      intro c1 s1 hcs hsp hne
      simp only [List.cons.injEq] at hcs
      rw [← hcs.1] at hsp
      have hb : (b != 0) = true := by simpa using hne
      simp [hsp, hb] at hg

/-- The outer loop of `fts_escape` ends within the fuel `fts_escape` gives it. -/
theorem fts_escape_loop_returns (fuel : Nat) :
    ∀ (p out : List Nat) (b : Nat), p.length < fuel →
      ∃ x, fts_escape_loop fuel p out b = .ok x := by
  induction fuel with
  | zero => intro p out b h; omega
  | succ n ih =>
    intro p out b hlen
    have hdl : (p.dropWhile isspace).length ≤ p.length :=
      (List.dropWhile_sublist isspace).length_le
    simp only [fts_escape_loop]
    split
    · rcases hp1 : p.dropWhile isspace with _ | ⟨c, s⟩
      · exact ⟨([], out, b), by simp⟩
      · rw [hp1] at hdl
        have hcf := dropWhile_head _ _ _ _ hp1
        simp only [List.isEmpty_cons, Bool.false_eq_true, if_false]
        have hw := (fts_escape_word_shrinks (c :: s) (out ++ [34]) (b - 1)).2 c s rfl hcf
        rcases hres : fts_escape_word (c :: s) (out ++ [34]) (b - 1) with ⟨p2, out2, b2⟩
        rw [hres] at hw
        simp only at hw ⊢
        split
        · exact ⟨_, rfl⟩
        · rename_i hb2
          have hp2 := hw (by omega)
          simp only [List.length_cons] at hdl
          exact ih p2 _ _ (by omega)
    · exact ⟨_, rfl⟩

/-- The function `fts_escape` returns 0 or -1. -/
theorem fts_escape_returns (p : List Nat) (bufsize : Nat) :
    ∃ (r : Int) (out : List Nat), fts_escape p bufsize = .ok (r, out) ∧ (r = 0 ∨ r = -1) := by
  obtain ⟨x, hx⟩ := fts_escape_loop_returns ((cstr p).length + 1) (cstr p) [] bufsize (by omega)
  simp only [fts_escape, hx]
  split
  · exact ⟨_, _, rfl, Or.inl rfl⟩
  · exact ⟨_, _, rfl, Or.inr rfl⟩

/-! ## The status line of a response -/

theorem status_first_append (d b : List Nat) (h : status_first d) : status_first (d ++ b) := by
  obtain ⟨code, ctype, body, h1, h2, h3⟩ := h
  exact ⟨code, ctype, body ++ b, h1, h2, by rw [h3, List.append_assoc]⟩

/-- The first write of a handler is its status line. -/
theorem reply_first (f0 f : fcgi) (clt0 clt : client) (Q : List Nat → Nat → Int → Prop)
    (code : Nat) (ctype : List Nat) (k : fcgi → client → res (Int × fcgi))
    (h : said f0 clt0 f clt [] 0)
    (hcode : code ∈ [10, 20, 42, 51, 59])
    (hctype : ctype ∈ [bytes "search for a package", bytes "text/gemini",
      bytes "internal error", bytes "not found", bytes "bad request"])
    (hk : ∀ f1 clt1, so_far status_first f0 clt0 f1 clt1 1 →
      handler_says f0 clt0 Q (k f1 clt1)) :
    handler_says f0 clt0 Q (on_ok (server_reply f clt code ctype) k) := by
  refine handler_says_reply f0 f clt0 clt Q [] 0 code ctype k h ?_
  intro f1 clt1 hs
  exact hk f1 clt1 ⟨_, hs, code, ctype, [], hcode, hctype, by simp⟩

theorem reply_first_else (f0 f : fcgi) (clt0 clt : client) (Q : List Nat → Nat → Int → Prop)
    (code : Nat) (ctype : List Nat) (err : fcgi → res (Int × fcgi))
    (k : fcgi → client → res (Int × fcgi))
    (h : said f0 clt0 f clt [] 0)
    (hcode : code ∈ [10, 20, 42, 51, 59])
    (hctype : ctype ∈ [bytes "search for a package", bytes "text/gemini",
      bytes "internal error", bytes "not found", bytes "bad request"])
    (hk : ∀ f1 clt1, so_far status_first f0 clt0 f1 clt1 1 →
      handler_says f0 clt0 Q (k f1 clt1)) :
    handler_says f0 clt0 Q (on_ok_else (server_reply f clt code ctype) err k) := by
  refine handler_says_reply_else f0 f clt0 clt Q [] 0 code ctype err k h ?_
  intro f1 clt1 hs
  exact hk f1 clt1 ⟨_, hs, code, ctype, [], hcode, hctype, by simp⟩

/-- A status line followed by the end of the request. -/
theorem reply_and_end (f0 f : fcgi) (clt0 clt : client) (code : Nat) (ctype : List Nat)
    (status : Int) (h : said f0 clt0 f clt [] 0)
    (hcode : code ∈ [10, 20, 42, 51, 59])
    (hctype : ctype ∈ [bytes "search for a package", bytes "text/gemini",
      bytes "internal error", bytes "not found", bytes "bad request"]) :
    handler_says f0 clt0 (fun d n _ => n = 1 ∧ status_first d)
      (on_ok (server_reply f clt code ctype) fun f clt => .ok (fcgi_end_request f clt status)) :=
  reply_first f0 f clt0 clt _ code ctype _ h hcode hctype
    (fun f1 clt1 hs => keeps_end status_first f0 f1 clt0 clt1 _ 1 status hs (fun _ hd => ⟨rfl, hd⟩))

theorem rows_left_lt_stmt_fuel (s : sqlite3_stmt) : rows_left s < stmt_fuel s := by
  unfold rows_left stmt_fuel
  omega

/-- The handler `route_home` writes one status line, first. -/
theorem route_home_status (f : fcgi) (clt : client) (h : said f clt f clt [] 0) :
    handler_says f clt (fun d n _ => n = 1 ∧ status_first d) (route_home f clt) := by
  have hP := status_first_append
  simp only [route_home, clt_printf]
  refine reply_first _ _ _ _ _ _ _ _ h (by decide) (by decide) ?_
  intro _ _ _
  repeat (refine keeps_write _ hP _ _ _ _ _ _ _ _ (by assumption) ?_; intro _ _ _)
  split
  · exact handler_says_undefined _ _ _
  · repeat (refine keeps_write _ hP _ _ _ _ _ _ _ _ (by assumption) ?_; intro _ _ _)
    exact keeps_end _ _ _ _ _ _ _ _ (by assumption) (fun _ hd => ⟨rfl, hd⟩)

/-- The handler `route_categories` writes one status line, first. -/
theorem route_categories_status (f : fcgi) (clt : client) (h : said f clt f clt [] 0) :
    handler_says f clt (fun d n _ => n = 1 ∧ status_first d) (route_categories f clt) := by
  have hP := status_first_append
  simp only [route_categories, clt_printf, clt_puts]
  refine reply_first _ _ _ _ _ _ _ _ h (by decide) (by decide) ?_
  intro _ _ _
  repeat (refine keeps_write _ hP _ _ _ _ _ _ _ _ (by assumption) ?_; intro _ _ _)
  rename_i f3 clt3 hs3
  rcases route_categories_loop_says _ hP f clt 1 _ f3 clt3 hs3 (rows_left_lt_stmt_fuel _)
    with e | ⟨f4, clt4, e, hs4⟩
  · rw [e]
    exact handler_says_undefined _ _ _
  · rw [e]
    simp only [Int.reduceNeg, OfNat.zero_ne_ofNat, if_false]
    exact keeps_end _ _ _ _ _ _ _ _ (so_far_set_env _ _ _ _ _ _ _ hs4) (fun _ hd => ⟨rfl, hd⟩)

/-- The handler `route_listing` writes one status line, first. -/
theorem route_listing_status (f0 f : fcgi) (clt0 clt : client) (h : said f0 clt0 f clt [] 0) :
    handler_says f0 clt0 (fun d n _ => n = 1 ∧ status_first d) (route_listing f clt) := by
  have hP := status_first_append
  have hq : ∀ s, said f0 clt0 (set_qbycat f s) clt [] 0 :=
    fun s => said_set_env _ _ _ _ _ _ _ h
  simp only [route_listing, clt_printf]
  split
  · exact handler_says_undefined _ _ _
  · rename_i path_info _
    rw [listing_cut_first _ _ (by rw [List.length_take]; omega)]
    simp only
    split
    · exact reply_and_end _ _ _ _ _ _ _ (hq _) (by decide) (by decide)
    · refine reply_first_else _ _ _ _ _ _ _ _ _ (hq _) (by decide) (by decide) ?_
      intro f1 clt1 hs1
      refine keeps_write_else _ hP _ _ _ _ _ _ _ _ _ hs1 ?_
      intro f2 clt2 hs2
      rcases route_listing_loop_says _ hP f0 clt0 1 _ f2 clt2 hs2 (rows_left_lt_stmt_fuel _)
        with e | ⟨f4, clt4, e, hs4⟩
      · rw [e]
        exact handler_says_undefined _ _ _
      · rw [e]
        simp only [Int.reduceNeg, OfNat.zero_ne_ofNat, if_false]
        exact keeps_end _ _ _ _ _ _ _ _ (so_far_set_env _ _ _ _ _ _ _ hs4)
          (fun _ hd => ⟨rfl, hd⟩)

/-- The handler `route_search` writes one status line, first. -/
theorem route_search_status (f : fcgi) (clt : client) (h : said f clt f clt [] 0) :
    handler_says f clt (fun d n _ => n = 1 ∧ status_first d) (route_search f clt) := by
  have hP := status_first_append
  have hq : ∀ s q, said f clt (set_qsearch f s) { clt with clt_query := q } [] 0 := by
    intro s q
    obtain ⟨a1, a2, a3, a4, a5, a6, a7, a8, ps, a9, a10, a11⟩ := h
    exact ⟨a1, a2, a3, a4, a5, a6, a7, a8, ps, a9, a10, a11⟩
  have hc : ∀ q, said f clt f { clt with clt_query := q } [] 0 := by
    intro q
    obtain ⟨a1, a2, a3, a4, a5, a6, a7, a8, ps, a9, a10, a11⟩ := h
    exact ⟨a1, a2, a3, a4, a5, a6, a7, a8, ps, a9, a10, a11⟩
  simp only [route_search, clt_printf]
  split
  · exact reply_and_end _ _ _ _ _ _ _ h (by decide) (by decide)
  · split
    · exact reply_and_end _ _ _ _ _ _ _ (hc _) (by decide) (by decide)
    · obtain ⟨r, out, e, hr⟩ := fts_escape_returns (unquote (clt.clt_query.getD [])).2 1024
      rw [e]
      simp only
      split
      · exact reply_and_end _ _ _ _ _ _ _ (hc _) (by decide) (by decide)
      · split
        · exact reply_and_end _ _ _ _ _ _ _ (hq _ _) (by decide) (by decide)
        · refine reply_first_else _ _ _ _ _ _ _ _ _ (hq _ _) (by decide) (by decide) ?_
          intro f1 clt1 hs1
          refine keeps_write_else _ hP _ _ _ _ _ _ _ _ _ hs1 ?_
          intro f2 clt2 hs2
          rcases route_search_loop_says _ hP f clt 1 _ f2 clt2 false hs2
            (rows_left_lt_stmt_fuel _) with e2 | ⟨f4, clt4, found, e2, hs4⟩
          · rw [e2]
            exact handler_says_undefined _ _ _
          · rw [e2]
            have h01 : ¬ ((0 : Int) = -1) := by decide
            simp only [h01, if_false]
            have hs5 := so_far_set_env _ _ _ _ _ 1
              (set_qsearch f4 (sqlite3_reset f4.fcg_env.env_qsearch)).fcg_env hs4
            split
            · refine keeps_write _ hP _ _ _ _ _ _ _ _ hs5 ?_
              intro f6 clt6 hs6
              exact keeps_end _ _ _ _ _ _ _ _ hs6 (fun _ hd => ⟨rfl, hd⟩)
            · exact keeps_end _ _ _ _ _ _ _ _ hs5 (fun _ hd => ⟨rfl, hd⟩)

theorem keeps_skip_else (f0 f : fcgi) (clt0 clt : client) (Q : List Nat → Nat → Int → Prop)
    (err : fcgi → res (Int × fcgi)) (k : fcgi → client → res (Int × fcgi))
    (hk : handler_says f0 clt0 Q (k f clt)) :
    handler_says f0 clt0 Q (on_ok_else (.ok (0, f, clt)) err k) := by
  have h01 : ¬ ((0 : Int) = -1) := by decide
  simpa only [on_ok_else, h01, if_false] using hk

/-- The handler `route_port` writes one status line, first. -/
theorem route_port_status (f : fcgi) (clt : client) (h : said f clt f clt [] 0) :
    handler_says f clt (fun d n _ => n = 1 ∧ status_first d) (route_port f clt) := by
  have hP := status_first_append
  have hq : ∀ s, said f clt (set_qfullpkgpath f s) clt [] 0 :=
    fun s => said_set_env _ _ _ _ _ _ _ h
  have hq2 : ∀ s t, said f clt (set_qfullpkgpath (set_qfullpkgpath f s) t) clt [] 0 :=
    fun s t => said_set_env _ _ _ _ _ _ _ (hq s)
  have hdone : ∀ f1 clt1, so_far status_first f clt f1 clt1 1 →
      handler_says f clt (fun d n _ => n = 1 ∧ status_first d)
        (.ok (fcgi_end_request
          (set_qfullpkgpath f1 (sqlite3_reset f1.fcg_env.env_qfullpkgpath)) clt1 0)) :=
    fun f1 clt1 hs => keeps_end _ _ _ _ _ _ _ _ (so_far_set_env _ _ _ _ _ _ _ hs)
      (fun _ hd => ⟨rfl, hd⟩)
  simp only [route_port, clt_printf, clt_puts]
  split
  · exact handler_says_undefined _ _ _
  · split
    · exact reply_and_end _ _ _ _ _ _ _ (hq _) (by decide) (by decide)
    · split
      · exact route_listing_status _ _ _ _ (hq2 _ _)
      · exact reply_first_else _ _ _ _ _ _ _ _ _ (hq _) (by decide) (by decide) hdone
      · split
        · exact handler_says_undefined _ _ _
        · refine reply_first_else _ _ _ _ _ _ _ _ _ (hq _) (by decide) (by decide) ?_
          intro _ _ _
          repeat (first
            | exact handler_says_undefined _ _ _
            | exact hdone _ _ (by assumption)
            | exact keeps_write_else _ hP _ _ _ _ _ _ _ _ _ (by assumption) hdone
            | (refine keeps_write_else _ hP _ _ _ _ _ _ _ _ _ (by assumption) ?_; intro _ _ _)
            | (refine keeps_writer_else _ _ _ _ _ _ _ _
                (print_maintainer_says _ hP _ _ _ _ _ _ _ (by assumption)) ?_; intro _ _ _)
            | refine keeps_skip_else _ _ _ _ _ _ _ ?_
            | split)

/-- Every handler of the routing table and the reply 51: with writes that do
not fail, `server_handle` stops on a null pointer or answers the request with
bytes that begin with a status line, after exactly one call of `server_reply`. -/
theorem server_handle_status (f : fcgi) (clt : client) (hw : f.fcg_bev.wfail = none)
    (hok : buf_ok clt) :
    handler_says f clt (fun d n _ => n = 1 ∧ status_first d) (server_handle f clt) := by
  have h := said_refl f clt hw hok
  simp only [server_handle, route_dispatch]
  split
  · exact handler_says_undefined _ _ _
  · simp only [routes, route_dispatch_loop]
    split
    · exact route_home_status _ _ h
    · split
      · exact route_search_status _ _ h
      · split
        · exact route_categories_status _ _ h
        · split
          · exact route_port_status _ _ h
          · exact reply_and_end _ _ _ _ _ _ _ h (by decide) (by decide)

set_option maxRecDepth 100000 in
/-- C29: for every request handed to `server_handle`, whatever the catalog
answers, on a connection whose writes do not fail: unless the handler stops on
a null pointer, it returns 0 and the bytes sent as `STDOUT` for the request,
followed by its `END_REQUEST`, begin with a status line of `server_reply`, two
decimal digits, a space, a meta text without CR or LF, CR and LF, with a code
among 10, 20, 42, 51 and 59; `server_reply` was called exactly once, on every
path, also when `route_port` hands over to `route_listing`. -/
theorem one_status_line (f : fcgi) (clt : client) (hw : f.fcg_bev.wfail = none)
    (hok : buf_ok clt) (hempty : clt.clt_buflen = 0) :
    (server_handle f clt = .undefined ∨
      ∃ (f1 : fcgi) (ps : List (List Nat)) (status : Int) (code : Nat) (ctype body : List Nat),
        server_handle f clt = .ok (0, f1) ∧
        f1.fcg_bev.output = f.fcg_bev.output ++ (ps.map (stdout_record clt.clt_id)).flatten ++
          end_record clt.clt_id status 0 ∧
        ps.flatten = status_line code ctype ++ body ∧
        code ∈ [10, 20, 42, 51, 59] ∧
        ctype ∈ [bytes "search for a package", bytes "text/gemini", bytes "internal error",
          bytes "not found", bytes "bad request"] ∧
        f1.fcg_replies = f.fcg_replies + 1) ∧
    (∀ code ∈ [10, 20, 42, 51, 59],
      (fmt_02d code).length = 2 ∧ ∀ b ∈ fmt_02d code, 48 ≤ b ∧ b ≤ 57) ∧
    (∀ ctype ∈ [bytes "search for a package", bytes "text/gemini", bytes "internal error",
        bytes "not found", bytes "bad request"],
      cstr ctype = ctype ∧ 13 ∉ ctype ∧ 10 ∉ ctype) := by
  refine ⟨?_, by decide, by decide⟩
  rcases server_handle_status f clt hw hok with h | ⟨f1, d, n, status, e, hr, hn, hd⟩
  · exact Or.inl h
  · obtain ⟨code, ctype, body, h1, h2, h3⟩ := hd
    obtain ⟨_, _, _, _, _, b6, ps, b7, b8, _⟩ := hr
    refine Or.inr ⟨f1, ps, status, code, ctype, body, e, b7, ?_, h1, h2, by rw [b6, hn]⟩
    rw [b8, hempty, h3]
    simp

set_option maxRecDepth 100000 in
theorem one_status_line_witness :
    server_handle (fcgi_new 1 env_empty none)
        { client_calloc 1 with clt_path_info := some (bytes "/nowhere") } = .undefined ∨
      ∃ (f1 : fcgi) (ps : List (List Nat)) (status : Int) (code : Nat) (ctype body : List Nat),
        server_handle (fcgi_new 1 env_empty none)
          { client_calloc 1 with clt_path_info := some (bytes "/nowhere") } = .ok (0, f1) ∧
        f1.fcg_bev.output = [] ++ (ps.map (stdout_record 1)).flatten ++ end_record 1 status 0 ∧
        ps.flatten = status_line code ctype ++ body ∧
        code ∈ [10, 20, 42, 51, 59] ∧
        ctype ∈ [bytes "search for a package", bytes "text/gemini", bytes "internal error",
          bytes "not found", bytes "bad request"] ∧
        f1.fcg_replies = 0 + 1 :=
  (one_status_line (fcgi_new 1 env_empty none)
    { client_calloc 1 with clt_path_info := some (bytes "/nowhere") } rfl
    ⟨by decide, by decide⟩ rfl).1

/-! ## Short answers: a status line and the end of the request -/

/-- A handler path made of one `server_reply` and `fcgi_end_request`, with
writes that do not fail: the answer is the status line, and the environment is
the one the path was entered with. -/
theorem reply_end_exact (f0 f : fcgi) (clt0 clt : client) (code : Nat) (ctype : List Nat)
    (status : Int) (h : said f0 clt0 f clt [] 0) :
    ∃ f1 : fcgi,
      on_ok (server_reply f clt code ctype)
        (fun f clt => .ok (fcgi_end_request f clt status)) = .ok (0, f1) ∧
      replied f0 clt0 f1 (status_line code ctype) 1 status ∧ f1.fcg_env = f.fcg_env := by
  obtain ⟨f1, clt1, e1, hs1, he1⟩ := server_reply_said f0 f clt0 clt [] 0 code ctype h
  obtain ⟨f2, e2, hr, he2⟩ := fcgi_end_request_said f0 f1 clt0 clt1 _ _ status hs1
  refine ⟨f2, ?_, ?_, he2.trans he1⟩
  · rw [e1]
    have h01 : ¬ ((0 : Int) = -1) := by decide
    simp only [on_ok, h01, if_false, e2]
  · simpa using hr

/-- The first byte of the first `STDOUT` payload lies eight bytes into the
records. -/
theorem first_stdout_byte (id : Nat) (ps : List (List Nat)) (c : Nat) (rest tail : List Nat)
    (hp : ∀ p ∈ ps, 0 < p.length ∧ p.length ≤ CLT_BUF_SIZE) (hd : ps.flatten = c :: rest) :
    ((ps.map (stdout_record id)).flatten ++ tail).getD 8 0 = c := by
  rcases ps with _ | ⟨p, ps⟩
  · simp at hd
  · rcases p with _ | ⟨x, p⟩
    · have := (hp [] (List.mem_cons_self _ _)).1
      simp at this
    · simp only [List.flatten_cons, List.cons_append, List.cons.injEq] at hd
      rw [← hd.1]
      simp [stdout_record]

/-! ## Bad search requests -/

/-- What `route_search` does with a query that is not empty: the reply 59 when
decoding or escaping fails. -/
theorem route_search_bad (f : fcgi) (clt : client) (q : List Nat)
    (hs : said f clt f clt [] 0) (hq : clt.clt_query = some q) (hne : q ≠ [])
    (hbad : (unquote q).1 = -1 ∨ ∃ out, fts_escape (unquote q).2 1024 = .ok (-1, out)) :
    ∃ f1 : fcgi, route_search f clt = .ok (0, f1) ∧
      replied f clt f1 (status_line 59 (bytes "bad request")) 1 1 ∧ f1.fcg_env = f.fcg_env := by
  have hc : said f clt f { clt with clt_query := some (unquote q).2 } [] 0 := by
    obtain ⟨a1, a2, a3, a4, a5, a6, a7, a8, ps, a9, a10, a11⟩ := hs
    exact ⟨a1, a2, a3, a4, a5, a6, a7, a8, ps, a9, a10, a11⟩
  obtain ⟨f1, e, hr, he⟩ := reply_end_exact f f clt { clt with clt_query := some (unquote q).2 }
    59 (bytes "bad request") 1 hc
  refine ⟨f1, ?_, hr, he⟩
  have hcond : ¬ ((some q : Option (List Nat)) = none ∨ some q = some []) := by
    simp [hne]
  simp only [route_search, hq, hcond, if_false, Option.getD_some]
  rcases hbad with h1 | ⟨out, h2⟩
  · rw [if_pos h1]
    exact e
  · by_cases h1 : (unquote q).1 = -1
    · rw [if_pos h1]
      exact e
    · rw [if_neg h1, h2]
      simp only [if_true]
      exact e

/-- What `route_search` does with a query that is not empty and that is
decoded and escaped: its answer does not begin with `5`. -/
theorem route_search_good (f : fcgi) (clt : client) (q : List Nat)
    (hs : said f clt f clt [] 0) (hq : clt.clt_query = some q) (hne : q ≠ [])
    (hgood : ¬ ((unquote q).1 = -1 ∨ ∃ out, fts_escape (unquote q).2 1024 = .ok (-1, out))) :
    handler_says f clt (fun d _ _ => ∃ c rest, d = c :: rest ∧ c ≠ 53) (route_search f clt) := by
  have hP : ∀ d b : List Nat, (∃ c rest, d = c :: rest ∧ c ≠ 53) →
      ∃ c rest, d ++ b = c :: rest ∧ c ≠ 53 := by
    rintro d b ⟨c, rest, e, hc⟩
    exact ⟨c, rest ++ b, by rw [e]; rfl, hc⟩
  have hqs : ∀ s, said f clt (set_qsearch f s) { clt with clt_query := some (unquote q).2 }
      [] 0 := by
    intro s
    obtain ⟨a1, a2, a3, a4, a5, a6, a7, a8, ps, a9, a10, a11⟩ := hs
    exact ⟨a1, a2, a3, a4, a5, a6, a7, a8, ps, a9, a10, a11⟩
  have hcond : ¬ ((some q : Option (List Nat)) = none ∨ some q = some []) := by
    simp [hne]
  have h1 : ¬ (unquote q).1 = -1 := fun h => hgood (Or.inl h)
  obtain ⟨r, out, e, hr⟩ := fts_escape_returns (unquote q).2 1024
  have h2 : ¬ r = -1 := by
    intro h
    rw [h] at e
    exact hgood (Or.inr ⟨out, e⟩)
  simp only [route_search, hq, hcond, if_false, Option.getD_some, h1, e, h2, clt_printf]
  split
  · refine handler_says_reply _ _ _ _ _ _ _ _ _ _ (hqs _) ?_
    intro f1 clt1 hs1
    exact handler_says_end _ _ _ _ _ _ _ _ hs1 ⟨52, _, rfl, by decide⟩
  · refine handler_says_reply_else _ _ _ _ _ _ _ _ _ _ _ (hqs _) ?_
    intro f1 clt1 hs1
    have hs1' : so_far (fun d => ∃ c rest, d = c :: rest ∧ c ≠ 53) f clt f1 clt1 1 :=
      ⟨_, hs1, 50, _, rfl, by decide⟩
    refine keeps_write_else _ hP _ _ _ _ _ _ _ _ _ hs1' ?_
    intro f2 clt2 hs2
    rcases route_search_loop_says _ hP f clt 1 _ f2 clt2 false hs2
      (rows_left_lt_stmt_fuel _) with e2 | ⟨f4, clt4, found, e2, hs4⟩
    · rw [e2]
      exact handler_says_undefined _ _ _
    · rw [e2]
      have h01 : ¬ ((0 : Int) = -1) := by decide
      simp only [h01, if_false]
      have hs5 := so_far_set_env _ _ _ _ _ 1
        (set_qsearch f4 (sqlite3_reset f4.fcg_env.env_qsearch)).fcg_env hs4
      split
      · refine keeps_write _ hP _ _ _ _ _ _ _ _ hs5 ?_
        intro f6 clt6 hs6
        exact keeps_end _ _ _ _ _ _ _ _ hs6 (fun _ hd => hd)
      · exact keeps_end _ _ _ _ _ _ _ _ hs5 (fun _ hd => hd)

set_option maxRecDepth 1000000 in
/-- C23: for a search request whose query `q` is not empty, on a connection
whose writes do not fail, the response is the status line `59 bad request`
followed by `END_REQUEST` with application status 1 exactly when `unquote`
fails on `q` or `fts_escape` fails on the decoded query.  In that case the
environment is left as it was, so that the search statement is neither bound
nor stepped, and `server_reply` is called once.  The request with
`QUERY_STRING=%ZZ` is answered so. -/
theorem search_bad_request (f : fcgi) (clt : client) (q : List Nat)
    (hw : f.fcg_bev.wfail = none) (hok : buf_ok clt) (hempty : clt.clt_buflen = 0)
    (hq : clt.clt_query = some q) (hne : q ≠ []) :
    ((∃ (f1 : fcgi) (ps : List (List Nat)),
        route_search f clt = .ok (0, f1) ∧
        f1.fcg_bev.output = f.fcg_bev.output ++ (ps.map (stdout_record clt.clt_id)).flatten ++
          end_record clt.clt_id 1 0 ∧
        ps.flatten = bytes "59 bad request\r\n" ∧
        ∀ p ∈ ps, 0 < p.length ∧ p.length ≤ CLT_BUF_SIZE) ↔
      ((unquote q).1 = -1 ∨ ∃ out, fts_escape (unquote q).2 1024 = .ok (-1, out))) ∧
    (((unquote q).1 = -1 ∨ ∃ out, fts_escape (unquote q).2 1024 = .ok (-1, out)) →
      ∃ f1 : fcgi, route_search f clt = .ok (0, f1) ∧ f1.fcg_env = f.fcg_env ∧
        f1.fcg_replies = f.fcg_replies + 1) ∧
    (unquote (bytes "%ZZ")).1 = -1 ∧
    (match deliver (fcgi_new 1 env_empty none)
        [fcgi_record FCGI_BEGIN_REQUEST 1 (begin_body 1 1) [],
          fcgi_record FCGI_PARAMS 1 (nv_pair (bytes "SCRIPT_NAME") (bytes "/app") ++
            nv_pair (bytes "GEMINI_URL_PATH") (bytes "/search") ++
            nv_pair (bytes "QUERY_STRING") (bytes "%ZZ")) [],
          fcgi_record FCGI_PARAMS 1 [] []] with
      | .ok g => (g.fcg_bev.output, g.fcg_env == env_empty)
      | _ => ([], false)) =
      (stdout_record 1 (bytes "59 bad request\r\n") ++ end_record 1 1 0, true) := by
  have hs := said_refl f clt hw hok
  have hbadp : ((unquote q).1 = -1 ∨ ∃ out, fts_escape (unquote q).2 1024 = .ok (-1, out)) →
      ∃ (f1 : fcgi) (ps : List (List Nat)),
        route_search f clt = .ok (0, f1) ∧
        f1.fcg_bev.output = f.fcg_bev.output ++ (ps.map (stdout_record clt.clt_id)).flatten ++
          end_record clt.clt_id 1 0 ∧
        ps.flatten = bytes "59 bad request\r\n" ∧
        (∀ p ∈ ps, 0 < p.length ∧ p.length ≤ CLT_BUF_SIZE) ∧
        f1.fcg_env = f.fcg_env ∧ f1.fcg_replies = f.fcg_replies + 1 := by
    intro hbad
    obtain ⟨f1, e, hr, he⟩ := route_search_bad f clt q hs hq hne hbad
    obtain ⟨_, _, _, _, _, b6, ps, b7, b8, b9⟩ := hr
    refine ⟨f1, ps, e, b7, ?_, b9, he, b6⟩
    rw [b8, hempty, List.take_zero, List.nil_append]
    decide
  refine ⟨⟨?_, ?_⟩, ?_, by decide, by decide⟩
  · rintro ⟨f1, ps, e, hout, hflat, hsz⟩
    by_contra hgood
    rcases route_search_good f clt q hs hq hne hgood with hu | ⟨f2, d, n, status, e2, hr, c, rest, hd, hc⟩
    · rw [hu] at e
      cases e
    · rw [e2] at e
      simp only [res.ok.injEq, Prod.mk.injEq, true_and] at e
      subst e
      obtain ⟨_, _, _, _, _, _, qs, b7, b8, b9⟩ := hr
      rw [hempty, hd] at b8
      simp only [List.take_zero, List.nil_append] at b8
      have hb1 := first_stdout_byte clt.clt_id qs c rest (end_record clt.clt_id status 0) b9 b8
      have hflat2 : ps.flatten = 53 :: bytes "9 bad request\r\n" := by rw [hflat]; decide
      have hb2 := first_stdout_byte clt.clt_id ps 53 _ (end_record clt.clt_id 1 0) hsz hflat2
      rw [b7, List.append_assoc, List.append_assoc] at hout
      have hcancel := List.append_cancel_left hout
      rw [hcancel] at hb1
      rw [hb1] at hb2
      exact hc hb2
  · intro hbad
    obtain ⟨f1, ps, e, h1, h2, h3, _⟩ := hbadp hbad
    exact ⟨f1, ps, e, h1, h2, h3⟩
  · intro hbad
    obtain ⟨f1, ps, e, _, _, _, h4, h5⟩ := hbadp hbad
    exact ⟨f1, e, h4, h5⟩

set_option maxRecDepth 1000000 in
theorem search_bad_request_witness :
    ∃ f1 : fcgi,
      route_search (fcgi_new 1 env_empty none)
        { client_calloc 1 with clt_query := some (bytes "%ZZ") } = .ok (0, f1) ∧
      f1.fcg_env = (fcgi_new 1 env_empty none).fcg_env ∧
      f1.fcg_replies = (fcgi_new 1 env_empty none).fcg_replies + 1 :=
  (search_bad_request (fcgi_new 1 env_empty none)
    { client_calloc 1 with clt_query := some (bytes "%ZZ") } (bytes "%ZZ") rfl
    ⟨by decide, by decide⟩ rfl rfl (by decide)).2.1 (Or.inl (by decide))

/-! ## Errors of the catalog -/

theorem begins_20_append (d b : List Nat) (h : begins_20 d) : begins_20 (d ++ b) := by
  obtain ⟨body, e⟩ := h
  exact ⟨body ++ b, by rw [e, List.append_assoc]⟩

/-- The reply 20 as the first write of a handler. -/
theorem reply_20_else (f0 f : fcgi) (clt0 clt : client) (Q : List Nat → Nat → Int → Prop)
    (err : fcgi → res (Int × fcgi)) (k : fcgi → client → res (Int × fcgi))
    (h : said f0 clt0 f clt [] 0)
    (hk : ∀ f1 clt1, so_far begins_20 f0 clt0 f1 clt1 1 → handler_says f0 clt0 Q (k f1 clt1)) :
    handler_says f0 clt0 Q
      (on_ok_else (server_reply f clt 20 (bytes "text/gemini")) err k) := by
  refine handler_says_reply_else f0 f clt0 clt Q [] 0 20 _ err k h ?_
  intro f1 clt1 hs
  exact hk f1 clt1 ⟨_, hs, [], by simp⟩

/-- Whatever the steps of `env_qcats` answer, rows, end of rows or errors,
`route_categories` answers 20 and ends the request with status 0. -/
theorem route_categories_20 (f : fcgi) (clt : client) (h : said f clt f clt [] 0) :
    handler_says f clt (fun d n s => n = 1 ∧ s = 0 ∧ begins_20 d) (route_categories f clt) := by
  have hP := begins_20_append
  simp only [route_categories, clt_printf, clt_puts]
  refine handler_says_reply _ _ _ _ _ _ _ _ _ _ h ?_
  intro f1 clt1 hs1
  have hs1' : so_far begins_20 f clt f1 clt1 1 := ⟨_, hs1, [], by simp⟩
  refine keeps_write _ hP _ _ _ _ _ _ _ _ hs1' ?_
  intro _ _ _
  refine keeps_write _ hP _ _ _ _ _ _ _ _ (by assumption) ?_
  intro f3 clt3 hs3
  rcases route_categories_loop_says _ hP f clt 1 _ f3 clt3 hs3 (rows_left_lt_stmt_fuel _)
    with e | ⟨f4, clt4, e, hs4⟩
  · rw [e]
    exact handler_says_undefined _ _ _
  · rw [e]
    have h01 : ¬ ((0 : Int) = -1) := by decide
    simp only [h01, if_false]
    exact keeps_end _ _ _ _ _ _ _ _ (so_far_set_env _ _ _ _ _ _ _ hs4)
      (fun _ hd => ⟨rfl, rfl, hd⟩)

/-- Once the bind succeeded, whatever the steps of `env_qbycat` answer,
`route_listing` answers 20 and ends the request with status 0. -/
theorem route_listing_20 (f0 f : fcgi) (clt0 clt : client) (pi : List Nat)
    (h : said f0 clt0 f clt [] 0) (hpi : clt.clt_path_info = some pi)
    (hbind : (sqlite3_bind_text f.fcg_env.env_qbycat
      ((((cstr pi).drop 1).take 127).takeWhile (fun b => b != 47))).1 = SQLITE_OK) :
    handler_says f0 clt0 (fun d n s => n = 1 ∧ s = 0 ∧ begins_20 d) (route_listing f clt) := by
  have hP := begins_20_append
  have hq : ∀ s, said f0 clt0 (set_qbycat f s) clt [] 0 :=
    fun s => said_set_env _ _ _ _ _ _ _ h
  have hb : ¬ ((sqlite3_bind_text f.fcg_env.env_qbycat
      ((((cstr pi).drop 1).take 127).takeWhile (fun b => b != 47))).1 ≠ SQLITE_OK) :=
    fun hx => hx hbind
  simp only [route_listing, hpi, clt_printf]
  rw [listing_cut_first _ _ (by rw [List.length_take]; omega)]
  simp only [hb, if_false]
  refine reply_20_else _ _ _ _ _ _ _ (hq _) ?_
  intro f1 clt1 hs1
  refine keeps_write_else _ hP _ _ _ _ _ _ _ _ _ hs1 ?_
  intro f2 clt2 hs2
  rcases route_listing_loop_says _ hP f0 clt0 1 _ f2 clt2 hs2 (rows_left_lt_stmt_fuel _)
    with e | ⟨f4, clt4, e, hs4⟩
  · rw [e]
    exact handler_says_undefined _ _ _
  · rw [e]
    have h01 : ¬ ((0 : Int) = -1) := by decide
    simp only [h01, if_false]
    exact keeps_end _ _ _ _ _ _ _ _ (so_far_set_env _ _ _ _ _ _ _ hs4)
      (fun _ hd => ⟨rfl, rfl, hd⟩)

/-- Once the query is decoded, escaped and bound, whatever the steps of
`env_qsearch` answer, `route_search` answers 20 and ends the request with
status 0. -/
theorem route_search_20 (f : fcgi) (clt : client) (q equery : List Nat)
    (h : said f clt f clt [] 0) (hq : clt.clt_query = some q) (hne : q ≠ [])
    (hdec : (unquote q).1 ≠ -1) (hesc : fts_escape (unquote q).2 1024 = .ok (0, equery))
    (hbind : (sqlite3_bind_text f.fcg_env.env_qsearch equery).1 = SQLITE_OK) :
    handler_says f clt (fun d n s => n = 1 ∧ s = 0 ∧ begins_20 d) (route_search f clt) := by
  have hP := begins_20_append
  have hqs : ∀ s, said f clt (set_qsearch f s) { clt with clt_query := some (unquote q).2 }
      [] 0 := by
    intro s
    obtain ⟨a1, a2, a3, a4, a5, a6, a7, a8, ps, a9, a10, a11⟩ := h
    exact ⟨a1, a2, a3, a4, a5, a6, a7, a8, ps, a9, a10, a11⟩
  have hcond : ¬ ((some q : Option (List Nat)) = none ∨ some q = some []) := by
    simp [hne]
  have h0 : ¬ ((0 : Int) = -1) := by decide
  have hb : ¬ ((sqlite3_bind_text f.fcg_env.env_qsearch equery).1 ≠ SQLITE_OK) :=
    fun hx => hx hbind
  simp only [route_search, hq, hcond, if_false, Option.getD_some, hdec, hesc, h0, hb, clt_printf]
  refine reply_20_else _ _ _ _ _ _ _ (hqs _) ?_
  intro f1 clt1 hs1
  refine keeps_write_else _ hP _ _ _ _ _ _ _ _ _ hs1 ?_
  intro f2 clt2 hs2
  rcases route_search_loop_says _ hP f clt 1 _ f2 clt2 false hs2
    (rows_left_lt_stmt_fuel _) with e2 | ⟨f4, clt4, found, e2, hs4⟩
  · rw [e2]
    exact handler_says_undefined _ _ _
  · rw [e2]
    simp only [h0, if_false]
    have hs5 := so_far_set_env _ _ _ _ _ 1
      (set_qsearch f4 (sqlite3_reset f4.fcg_env.env_qsearch)).fcg_env hs4
    split
    · refine keeps_write _ hP _ _ _ _ _ _ _ _ hs5 ?_
      intro f6 clt6 hs6
      exact keeps_end _ _ _ _ _ _ _ _ hs6 (fun _ hd => ⟨rfl, rfl, hd⟩)
    · exact keeps_end _ _ _ _ _ _ _ _ hs5 (fun _ hd => ⟨rfl, rfl, hd⟩)

/-- A failed bind in `route_search`. -/
theorem route_search_bind_error (f : fcgi) (clt : client) (q equery : List Nat)
    (h : said f clt f clt [] 0) (hq : clt.clt_query = some q) (hne : q ≠ [])
    (hdec : (unquote q).1 ≠ -1) (hesc : fts_escape (unquote q).2 1024 = .ok (0, equery))
    (hbind : (sqlite3_bind_text f.fcg_env.env_qsearch equery).1 ≠ SQLITE_OK) :
    ∃ f1 : fcgi, route_search f clt = .ok (0, f1) ∧
      replied f clt f1 (status_line 42 (bytes "internal error")) 1 1 := by
  have hqs : ∀ s, said f clt (set_qsearch f s) { clt with clt_query := some (unquote q).2 }
      [] 0 := by
    intro s
    obtain ⟨a1, a2, a3, a4, a5, a6, a7, a8, ps, a9, a10, a11⟩ := h
    exact ⟨a1, a2, a3, a4, a5, a6, a7, a8, ps, a9, a10, a11⟩
  have hcond : ¬ ((some q : Option (List Nat)) = none ∨ some q = some []) := by
    simp [hne]
  have h0 : ¬ ((0 : Int) = -1) := by decide
  obtain ⟨f1, e, hr, _⟩ := reply_end_exact f _ clt _ 42 (bytes "internal error") 1 (hqs
    (sqlite3_reset (sqlite3_bind_text f.fcg_env.env_qsearch equery).2))
  refine ⟨f1, ?_, hr⟩
  simp only [route_search, hq, hcond, if_false, Option.getD_some, hdec, hesc, h0, hbind, ne_eq,
    not_false_eq_true, if_true]
  exact e

/-- A failed bind in `route_listing`. -/
theorem route_listing_bind_error (f0 f : fcgi) (clt0 clt : client) (pi : List Nat)
    (h : said f0 clt0 f clt [] 0) (hpi : clt.clt_path_info = some pi)
    (hbind : (sqlite3_bind_text f.fcg_env.env_qbycat
      ((((cstr pi).drop 1).take 127).takeWhile (fun b => b != 47))).1 ≠ SQLITE_OK) :
    ∃ f1 : fcgi, route_listing f clt = .ok (0, f1) ∧
      replied f0 clt0 f1 (status_line 42 (bytes "internal error")) 1 1 := by
  have hq : ∀ s, said f0 clt0 (set_qbycat f s) clt [] 0 :=
    fun s => said_set_env _ _ _ _ _ _ _ h
  obtain ⟨f1, e, hr, _⟩ := reply_end_exact f0 _ clt0 clt 42 (bytes "internal error") 1 (hq
    (sqlite3_reset (sqlite3_bind_text f.fcg_env.env_qbycat
      ((((cstr pi).drop 1).take 127).takeWhile (fun b => b != 47))).2))
  refine ⟨f1, ?_, hr⟩
  simp only [route_listing, hpi]
  rw [listing_cut_first _ _ (by rw [List.length_take]; omega)]
  simp only [hbind, ne_eq, not_false_eq_true, if_true]
  exact e

/-- A failed bind in `route_port`. -/
theorem route_port_bind_error (f : fcgi) (clt : client) (pi : List Nat)
    (h : said f clt f clt [] 0) (hpi : clt.clt_path_info = some pi)
    (hbind : (sqlite3_bind_text f.fcg_env.env_qfullpkgpath ((cstr pi).drop 1)).1 ≠ SQLITE_OK) :
    ∃ f1 : fcgi, route_port f clt = .ok (0, f1) ∧
      replied f clt f1 (status_line 42 (bytes "internal error")) 1 1 := by
  have hq : ∀ s, said f clt (set_qfullpkgpath f s) clt [] 0 :=
    fun s => said_set_env _ _ _ _ _ _ _ h
  obtain ⟨f1, e, hr, _⟩ := reply_end_exact f _ clt clt 42 (bytes "internal error") 1 (hq
    (sqlite3_reset (sqlite3_bind_text f.fcg_env.env_qfullpkgpath ((cstr pi).drop 1)).2))
  refine ⟨f1, ?_, hr⟩
  simp only [route_port, hpi, hbind, ne_eq, not_false_eq_true, if_true]
  exact e

/-- A failed step of the details statement in `route_port`: the reply is 42,
and the request is ended through the label `done`, with status 0. -/
theorem route_port_step_error (f : fcgi) (clt : client) (pi : List Nat) (c : Nat)
    (h : said f clt f clt [] 0) (hpi : clt.clt_path_info = some pi)
    (hbind : (sqlite3_bind_text f.fcg_env.env_qfullpkgpath ((cstr pi).drop 1)).1 = SQLITE_OK)
    (hstep : (sqlite3_step
      (sqlite3_bind_text f.fcg_env.env_qfullpkgpath ((cstr pi).drop 1)).2).1 = .error c) :
    ∃ f1 : fcgi, route_port f clt = .ok (0, f1) ∧
      replied f clt f1 (status_line 42 (bytes "internal error")) 1 0 := by
  have hq : ∀ s, said f clt (set_qfullpkgpath f s) clt [] 0 :=
    fun s => said_set_env _ _ _ _ _ _ _ h
  have hb : ¬ ((sqlite3_bind_text f.fcg_env.env_qfullpkgpath ((cstr pi).drop 1)).1
      ≠ SQLITE_OK) := fun hx => hx hbind
  obtain ⟨f1, clt1, e1, hs1, _⟩ := server_reply_said f _ clt clt [] 0 42
    (bytes "internal error") (hq (sqlite3_step
      (sqlite3_bind_text f.fcg_env.env_qfullpkgpath ((cstr pi).drop 1)).2).2)
  obtain ⟨f2, e2, hr, _⟩ := fcgi_end_request_said f
    (set_qfullpkgpath f1 (sqlite3_reset f1.fcg_env.env_qfullpkgpath)) clt clt1 _ _ 0
    (said_set_env _ _ _ _ _ _ _ hs1)
  refine ⟨f2, ?_, by simpa using hr⟩
  have h0 : ¬ ((0 : Int) = -1) := by decide
  simp only [route_port, hpi, hb, if_false, hstep, e1, on_ok_else, h0, e2]

set_option maxRecDepth 100000 in
/-- C30, amended: on a connection whose writes do not fail, when the bind of
the parameter fails in `route_search`, `route_listing` or `route_port`, the
response is the status line `42 internal error` and the request ends with
application status 1; when the step of the details statement fails in
`route_port`, the response is the status line `42 internal error`.  A step
that fails in the row loop of `route_search`, `route_categories` or
`route_listing` ends the loop as the end of the rows does: whatever the steps
answer, these handlers, once past the bind, begin the response with
`20 text/gemini` and end the request with application status 0. -/
theorem catalog_errors (f : fcgi) (clt : client) (hw : f.fcg_bev.wfail = none)
    (hok : buf_ok clt) :
    (∀ q equery : List Nat, clt.clt_query = some q → q ≠ [] → (unquote q).1 ≠ -1 →
      fts_escape (unquote q).2 1024 = .ok (0, equery) →
      (sqlite3_bind_text f.fcg_env.env_qsearch equery).1 ≠ SQLITE_OK →
      ∃ f1 : fcgi, route_search f clt = .ok (0, f1) ∧
        replied f clt f1 (bytes "42 internal error\r\n") 1 1) ∧
    (∀ pi : List Nat, clt.clt_path_info = some pi →
      (sqlite3_bind_text f.fcg_env.env_qbycat
        ((((cstr pi).drop 1).take 127).takeWhile (fun b => b != 47))).1 ≠ SQLITE_OK →
      ∃ f1 : fcgi, route_listing f clt = .ok (0, f1) ∧
        replied f clt f1 (bytes "42 internal error\r\n") 1 1) ∧
    (∀ pi : List Nat, clt.clt_path_info = some pi →
      (sqlite3_bind_text f.fcg_env.env_qfullpkgpath ((cstr pi).drop 1)).1 ≠ SQLITE_OK →
      ∃ f1 : fcgi, route_port f clt = .ok (0, f1) ∧
        replied f clt f1 (bytes "42 internal error\r\n") 1 1) ∧
    (∀ (pi : List Nat) (c : Nat), clt.clt_path_info = some pi →
      (sqlite3_bind_text f.fcg_env.env_qfullpkgpath ((cstr pi).drop 1)).1 = SQLITE_OK →
      (sqlite3_step
        (sqlite3_bind_text f.fcg_env.env_qfullpkgpath ((cstr pi).drop 1)).2).1 = .error c →
      ∃ (f1 : fcgi) (status : Int), route_port f clt = .ok (0, f1) ∧
        replied f clt f1 (bytes "42 internal error\r\n") 1 status) ∧
    handler_says f clt (fun d n s => n = 1 ∧ s = 0 ∧ begins_20 d) (route_categories f clt) ∧
    (∀ pi : List Nat, clt.clt_path_info = some pi →
      (sqlite3_bind_text f.fcg_env.env_qbycat
        ((((cstr pi).drop 1).take 127).takeWhile (fun b => b != 47))).1 = SQLITE_OK →
      handler_says f clt (fun d n s => n = 1 ∧ s = 0 ∧ begins_20 d) (route_listing f clt)) ∧
    (∀ q equery : List Nat, clt.clt_query = some q → q ≠ [] → (unquote q).1 ≠ -1 →
      fts_escape (unquote q).2 1024 = .ok (0, equery) →
      (sqlite3_bind_text f.fcg_env.env_qsearch equery).1 = SQLITE_OK →
      handler_says f clt (fun d n s => n = 1 ∧ s = 0 ∧ begins_20 d) (route_search f clt)) ∧
    (∀ (fuel c : Nat), (sqlite3_step f.fcg_env.env_qcats).1 = .error c →
      route_categories_loop (fuel + 1) f clt =
        .ok (0, set_qcats f (sqlite3_step f.fcg_env.env_qcats).2, clt)) ∧
    (∀ (fuel c : Nat), (sqlite3_step f.fcg_env.env_qbycat).1 = .error c →
      route_listing_loop (fuel + 1) f clt =
        .ok (0, set_qbycat f (sqlite3_step f.fcg_env.env_qbycat).2, clt)) ∧
    (∀ (fuel c : Nat) (found : Bool), (sqlite3_step f.fcg_env.env_qsearch).1 = .error c →
      route_search_loop (fuel + 1) f clt found =
        .ok (0, set_qsearch f (sqlite3_step f.fcg_env.env_qsearch).2, clt, found)) := by
  have hs := said_refl f clt hw hok
  have h42 : status_line 42 (bytes "internal error") = bytes "42 internal error\r\n" := by
    decide
  refine ⟨?_, ?_, ?_, ?_, route_categories_20 f clt hs, ?_, ?_, ?_, ?_, ?_⟩
  · intro q equery h1 h2 h3 h4 h5
    rw [← h42]
    exact route_search_bind_error f clt q equery hs h1 h2 h3 h4 h5
  · intro pi h1 h2
    rw [← h42]
    exact route_listing_bind_error f f clt clt pi hs h1 h2
  · intro pi h1 h2
    rw [← h42]
    exact route_port_bind_error f clt pi hs h1 h2
  · intro pi c h1 h2 h3
    rw [← h42]
    obtain ⟨f1, e, hr⟩ := route_port_step_error f clt pi c hs h1 h2 h3
    exact ⟨f1, 0, e, hr⟩
  · intro pi h1 h2
    exact route_listing_20 f f clt clt pi hs h1 h2
  · intro q equery h1 h2 h3 h4 h5
    exact route_search_20 f clt q equery hs h1 h2 h3 h4 h5
  · intro fuel c h
    simp only [route_categories_loop, h]
  · intro fuel c h
    simp only [route_listing_loop, h]
  · intro fuel c found h
    simp only [route_search_loop, h]

set_option maxRecDepth 100000 in
theorem catalog_errors_witness :
    ∃ f1 : fcgi,
      route_port
        (fcgi_new 1 { env_empty with
          env_qfullpkgpath := { stmt_empty with bind_rc := [(bytes "x", 1)] } } none)
        { client_calloc 1 with clt_path_info := some (bytes "/x") } = .ok (0, f1) ∧
      replied
        (fcgi_new 1 { env_empty with
          env_qfullpkgpath := { stmt_empty with bind_rc := [(bytes "x", 1)] } } none)
        { client_calloc 1 with clt_path_info := some (bytes "/x") } f1
        (bytes "42 internal error\r\n") 1 1 :=
  (catalog_errors
    (fcgi_new 1 { env_empty with
      env_qfullpkgpath := { stmt_empty with bind_rc := [(bytes "x", 1)] } } none)
    { client_calloc 1 with clt_path_info := some (bytes "/x") } rfl
    ⟨by decide, by decide⟩).2.2.1 (bytes "/x") rfl (by decide)

set_option maxRecDepth 1000000 in
/-- C30 as stated fails on step errors.  When the first step of `env_qcats`
fails, `route_categories` has sent `20 text/gemini` and its title, and it ends
the request with application status 0.  When the step of the details statement
fails, `route_port` replies `42 internal error` and ends the request with
application status 0. -/
theorem step_error_status :
    (match route_categories
        (fcgi_new 1 { env_empty with
          env_qcats := { stmt_empty with rows := [([], [step_result.error 1])] } } none)
        (client_calloc 1) with
      | .ok (r, f1) => (r, f1.fcg_bev.output)
      | _ => (-1, [])) =
      (0, stdout_record 1 (bytes "20 text/gemini\r\n# list of all categories\n\n") ++
        end_record 1 0 0) ∧
    (match route_port
        (fcgi_new 1 { env_empty with
          env_qfullpkgpath := { stmt_empty with
            rows := [(bytes "x", [step_result.error 1])] } } none)
        { client_calloc 1 with clt_path_info := some (bytes "/x") } with
      | .ok (r, f1) => (r, f1.fcg_bev.output)
      | _ => (-1, [])) =
      (0, stdout_record 1 (bytes "42 internal error\r\n") ++ end_record 1 0 0) ∧
    end_record 1 0 0 ≠ end_record 1 1 0 := by
  refine ⟨by decide, by decide, by decide⟩

/-! ## The scenarios S1 and S4 -/

set_option maxRecDepth 1000000 in
/-- C24: the request with `SCRIPT_NAME=/app` and `GEMINI_URL_PATH=/` is
answered by one `STDOUT` record that begins `20 text/gemini`, CR, LF,
`# pkg_fcgi` and an empty line, followed by `END_REQUEST` with application
status 0 and protocol status 0; but the script name is stored as `/app/` and
`route_home` appends `/search` and `/all` to it, so the two link lines read
`=> /app//search ...` and `=> /app//all ...`, and the lines
`=> /app/search Search for a package` and `=> /app/all All categories` are
not in the response. -/
theorem home_links_double_slash :
    (match deliver (fcgi_new 1 env_empty none)
        [fcgi_record FCGI_BEGIN_REQUEST 1 (begin_body 1 1) [],
          fcgi_record FCGI_PARAMS 1 (nv_pair (bytes "SCRIPT_NAME") (bytes "/app") ++
            nv_pair (bytes "GEMINI_URL_PATH") (bytes "/")) [],
          fcgi_record FCGI_PARAMS 1 [] []] with
      | .ok g => g.fcg_bev.output
      | _ => []) =
      stdout_record 1 (bytes "20 text/gemini\r\n# pkg_fcgi\n\n" ++
        bytes ("Welcome to pkg_fcgi, the Gemini interface " ++
          "for the OpenBSD ports collection.\n\n") ++
        bytes "=> /app//search Search for a package\n" ++
        bytes "=> /app//all All categories\n" ++
        bytes "\n" ++
        bytes ("What you search will be matched against the " ++
          "package name (pkgstem), comment, DESCR and maintainer.\n")) ++
      end_record 1 0 0 ∧
    ¬ (bytes "=> /app/search Search for a package\n" <:+:
      bytes "20 text/gemini\r\n# pkg_fcgi\n\n" ++
        bytes ("Welcome to pkg_fcgi, the Gemini interface " ++
          "for the OpenBSD ports collection.\n\n") ++
        bytes "=> /app//search Search for a package\n" ++
        bytes "=> /app//all All categories\n" ++
        bytes "\n" ++
        bytes ("What you search will be matched against the " ++
          "package name (pkgstem), comment, DESCR and maintainer.\n")) ∧
    ¬ (bytes "=> /app/all All categories\n" <:+:
      bytes "20 text/gemini\r\n# pkg_fcgi\n\n" ++
        bytes ("Welcome to pkg_fcgi, the Gemini interface " ++
          "for the OpenBSD ports collection.\n\n") ++
        bytes "=> /app//search Search for a package\n" ++
        bytes "=> /app//all All categories\n" ++
        bytes "\n" ++
        bytes ("What you search will be matched against the " ++
          "package name (pkgstem), comment, DESCR and maintainer.\n")) := by
  refine ⟨by rfl, by decide, by decide⟩

/-! ## The title of the detail page -/

/-- The byte `strrchr` finds is the last one: none follows it. -/
theorem strrchr_last (s : List Nat) (c i : Nat) (h : strrchr s c = some i) :
    s = s.take i ++ c :: s.drop (i + 1) ∧ c ∉ s.drop (i + 1) := by
  unfold strrchr at h
  split at h
  · cases h
  · rename_i j hj
    simp only [Option.some.injEq] at h
    unfold List.indexOf? at hj
    obtain ⟨hlt, hp, hall⟩ := List.findIdx?_eq_some_iff_getElem.mp hj
    rw [List.length_reverse] at hlt
    have hi : i < s.length := by omega
    have hget : s[i] = c := by
      rw [List.getElem_reverse] at hp
      have e : s.length - 1 - j = i := h
      simp only [e] at hp
      simpa using hp
    refine ⟨?_, ?_⟩
    · rw [← hget, List.getElem_cons_drop, List.take_append_drop]
    · intro hmem
      obtain ⟨m, hm, hmc⟩ := List.getElem_of_mem hmem
      rw [List.length_drop] at hm
      rw [List.getElem_drop] at hmc
      have hk : s.length - 1 - (i + 1 + m) < j := by omega
      have hne := hall (s.length - 1 - (i + 1 + m)) hk
      apply hne
      rw [List.getElem_reverse]
      have e : s.length - 1 - (s.length - 1 - (i + 1 + m)) = i + 1 + m := by omega
      simp only [e, hmc, beq_self_eq_true]

/-- Any property `G` of the result of a handler is carried over a reply that
does not fail. -/
theorem then_reply_else (G : res (Int × fcgi) → Prop) (f0 f : fcgi) (clt0 clt : client)
    (d : List Nat) (n status : Nat) (ctype : List Nat)
    (err : fcgi → res (Int × fcgi)) (k : fcgi → client → res (Int × fcgi))
    (h : said f0 clt0 f clt d n)
    (hk : ∀ f1 clt1, said f0 clt0 f1 clt1 (d ++ status_line status ctype) (n + 1) →
      f1.fcg_env = f.fcg_env → G (k f1 clt1)) :
    G (on_ok_else (server_reply f clt status ctype) err k) := by
  obtain ⟨f1, clt1, e, hs, he⟩ := server_reply_said f0 f clt0 clt d n status ctype h
  rw [e]
  simp only [on_ok_else]
  exact hk f1 clt1 hs he

/-- Any property `G` of the result is carried over a write that does not fail,
with the exact bytes said. -/
theorem then_said_else (G : res (Int × fcgi) → Prop) (f0 f : fcgi) (clt0 clt : client)
    (d buf : List Nat) (n : Nat)
    (err : fcgi → res (Int × fcgi)) (k : fcgi → client → res (Int × fcgi))
    (h : said f0 clt0 f clt d n)
    (hk : ∀ f1 clt1, said f0 clt0 f1 clt1 (d ++ buf) n → f1.fcg_env = f.fcg_env →
      G (k f1 clt1)) :
    G (on_ok_else (clt_write f clt buf) err k) := by
  obtain ⟨f1, clt1, e, hs, he⟩ := clt_write_said f0 f clt0 clt d buf n h
  rw [e]
  simp only [on_ok_else]
  exact hk f1 clt1 hs he

/-- Any property `G` of the result is carried over a write that does not fail. -/
theorem then_write_else (G : res (Int × fcgi) → Prop) (P : List Nat → Prop)
    (hP : ∀ d b, P d → P (d ++ b)) (f0 f : fcgi) (clt0 clt : client) (n : Nat)
    (buf : List Nat) (err : fcgi → res (Int × fcgi)) (k : fcgi → client → res (Int × fcgi))
    (h : so_far P f0 clt0 f clt n)
    (hk : ∀ f1 clt1, so_far P f0 clt0 f1 clt1 n → G (k f1 clt1)) :
    G (on_ok_else (clt_write f clt buf) err k) := by
  obtain ⟨f1, clt1, e, hs, _⟩ := so_far_write P hP f0 f clt0 clt n buf h
  rw [e]
  simp only [on_ok_else]
  exact hk f1 clt1 hs

/-- Any property `G` of the result is carried over `print_maintainer`. -/
theorem then_maintainer_else (G : res (Int × fcgi) → Prop) (P : List Nat → Prop)
    (hP : ∀ d b, P d → P (d ++ b)) (f0 f : fcgi) (clt0 clt : client) (n : Nat)
    (mail : List Nat) (in_addr : Bool)
    (err : fcgi → res (Int × fcgi)) (k : fcgi → client → res (Int × fcgi))
    (h : so_far P f0 clt0 f clt n)
    (hk : ∀ f1 clt1, so_far P f0 clt0 f1 clt1 n → G (k f1 clt1)) :
    G (on_ok_else (print_maintainer mail in_addr f clt) err k) := by
  obtain ⟨d, hs, hp⟩ := h
  obtain ⟨r, f1, clt1, e, _, hnone, hem⟩ :=
    print_maintainer_emitted mail in_addr f clt hs.2.2.2.2.2.2.2.1
  have hr := hnone hs.2.2.2.2.1
  subst hr
  rw [e]
  simp only [on_ok_else]
  exact hk f1 clt1 ⟨d ++ obfuscate in_addr mail,
    said_trans _ _ _ _ _ _ _ _ _ _ hs (said_of_emitted _ _ _ _ _ hs.2.2.2.2.1 (hem rfl)),
    hP _ _ hp⟩

/-- Any property `G` of the result is carried over a step that is skipped. -/
theorem then_skip_else (G : res (Int × fcgi) → Prop) (f : fcgi) (clt : client)
    (err : fcgi → res (Int × fcgi)) (k : fcgi → client → res (Int × fcgi))
    (hk : G (k f clt)) : G (on_ok_else (.ok (0, f, clt)) err k) := by
  have h01 : ¬ ((0 : Int) = -1) := by decide
  simpa only [on_ok_else, h01, if_false] using hk

/-- The handler `route_port` on a row of the details statement whose `pkgname`
is not NULL: what holds of the status line 20 followed by the title line, and
still holds when bytes are appended, holds of the response. -/
theorem route_port_row (P : List Nat → Prop) (hP : ∀ d b, P d → P (d ++ b))
    (f : fcgi) (clt : client) (pi pkgname : List Nat)
    (cols : List (Option (List Nat)))
    (h : said f clt f clt [] 0) (hpi : clt.clt_path_info = some pi)
    (hbind : (sqlite3_bind_text f.fcg_env.env_qfullpkgpath ((cstr pi).drop 1)).1 = SQLITE_OK)
    (hstep : (sqlite3_step
      (sqlite3_bind_text f.fcg_env.env_qfullpkgpath ((cstr pi).drop 1)).2).1 = .row cols)
    (hname : sqlite3_column_text cols 3 = some pkgname)
    (htitle : P (status_line 20 (bytes "text/gemini") ++ (bytes "# " ++ (cstr pi).drop 1 ++
        bytes " v" ++ (match strrchr pkgname 45 with
          | some i => pkgname.drop (i + 1)
          | none => bytes " unknown") ++ [10]))) :
    page_says f clt cols P (route_port f clt) := by
  generalize hG : page_says f clt cols P = G
  have hq : ∀ s, said f clt (set_qfullpkgpath f s) clt [] 0 :=
    fun s => said_set_env _ _ _ _ _ _ _ h
  have hb : ¬ ((sqlite3_bind_text f.fcg_env.env_qfullpkgpath ((cstr pi).drop 1)).1
      ≠ SQLITE_OK) := fun hx => hx hbind
  have hn : ∀ i, i ∈ [0, 1, 2, 4, 5] → sqlite3_column_text cols i = none → G .undefined := by
    intro i hi e
    rw [← hG]
    exact Or.inl ⟨⟨i, hi, e⟩, rfl⟩
  have hdone : ∀ f1 clt1, so_far P f clt f1 clt1 1 →
      G (.ok (fcgi_end_request
        (set_qfullpkgpath f1 (sqlite3_reset f1.fcg_env.env_qfullpkgpath)) clt1 0)) := by
    intro f1 clt1 hs
    obtain ⟨d, hs1, hp⟩ := so_far_set_env _ _ _ _ _ _
      { f1.fcg_env with env_qfullpkgpath := sqlite3_reset f1.fcg_env.env_qfullpkgpath } hs
    obtain ⟨f2, e2, hr, _⟩ := fcgi_end_request_said _ _ _ _ _ _ 0 hs1
    rw [← hG]
    refine Or.inr ⟨f2, d, ?_, hr, hp⟩
    simp only [set_qfullpkgpath]
    rw [e2]
  simp only [route_port, hpi, hb, if_false, hstep, hname, clt_printf, clt_puts]
  refine then_reply_else G _ _ _ _ _ _ _ _ _ _ (hq _) ?_
  intro f1 clt1 hs1 _
  refine then_said_else G _ _ _ _ _ _ _ _ _ hs1 ?_
  intro f2 clt2 hs2 _
  have hs2' : so_far P f clt f2 clt2 1 := ⟨_, hs2, by simpa using htitle⟩
  clear hs1 hs2
  repeat (first
    | exact hdone _ _ (by assumption)
    | exact hn 0 (by decide) (by assumption)
    | exact hn 1 (by decide) (by assumption)
    | exact hn 2 (by decide) (by assumption)
    | exact hn 4 (by decide) (by assumption)
    | exact hn 5 (by decide) (by assumption)
    | exact then_write_else G P hP _ _ _ _ _ _ _ _ (by assumption) hdone
    | (refine then_write_else G P hP _ _ _ _ _ _ _ _ (by assumption) ?_; intro _ _ _)
    | (refine then_maintainer_else G P hP _ _ _ _ _ _ _ _ _ (by assumption) ?_; intro _ _ _)
    | refine then_skip_else G _ _ _ _ ?_
    | split)

set_option maxRecDepth 1000000 in
/-- C28: when the details statement answers a row for the path and its
`pkgname` is not NULL, on a connection whose writes do not fail, `route_port`
returns 0 after one reply and ends the request with status 0, unless it stops
on a NULL column among 0, 1, 2, 4 and 5; the response begins with the status
line `20 text/gemini` followed by the title line `# `, `path_info` without its
first byte, ` v`, `V` and a newline, where `V` is what follows the last `-` of
`pkgname` when it has one and ` unknown` otherwise.  The `pkgname` `tmux-3.4`
gives `v3.4` and `noversion` gives `v unknown`. -/
theorem port_title (f : fcgi) (clt : client) (pi pkgname : List Nat)
    (cols : List (Option (List Nat)))
    (hw : f.fcg_bev.wfail = none) (hok : buf_ok clt) (hpi : clt.clt_path_info = some pi)
    (hbind : (sqlite3_bind_text f.fcg_env.env_qfullpkgpath ((cstr pi).drop 1)).1 = SQLITE_OK)
    (hstep : (sqlite3_step
      (sqlite3_bind_text f.fcg_env.env_qfullpkgpath ((cstr pi).drop 1)).2).1 = .row cols)
    (hname : sqlite3_column_text cols 3 = some pkgname) :
    (∃ V : List Nat,
      ((45 ∈ pkgname ∧ ∃ pre, pkgname = pre ++ 45 :: V ∧ 45 ∉ V) ∨
        (45 ∉ pkgname ∧ V = bytes " unknown")) ∧
      page_says f clt cols
        (fun d => (bytes "20 text/gemini\r\n" ++ (bytes "# " ++ (cstr pi).drop 1 ++
          bytes " v" ++ V ++ bytes "\n")) <+: d)
        (route_port f clt)) ∧
    (match deliver (fcgi_new 1 (env_port (bytes "tmux-3.4")) none)
        [fcgi_record FCGI_BEGIN_REQUEST 1 (begin_body 1 1) [],
          fcgi_record FCGI_PARAMS 1 (nv_pair (bytes "SCRIPT_NAME") (bytes "/app") ++
            nv_pair (bytes "GEMINI_URL_PATH") (bytes "/sysutils/tmux")) [],
          fcgi_record FCGI_PARAMS 1 [] []] with
      | .ok g => (g.fcg_bev.output.drop 8).take 37
      | _ => []) = bytes "20 text/gemini\r\n# sysutils/tmux v3.4\n" ∧
    (match deliver (fcgi_new 1 (env_port (bytes "noversion")) none)
        [fcgi_record FCGI_BEGIN_REQUEST 1 (begin_body 1 1) [],
          fcgi_record FCGI_PARAMS 1 (nv_pair (bytes "SCRIPT_NAME") (bytes "/app") ++
            nv_pair (bytes "GEMINI_URL_PATH") (bytes "/sysutils/tmux")) [],
          fcgi_record FCGI_PARAMS 1 [] []] with
      | .ok g => (g.fcg_bev.output.drop 8).take 42
      | _ => []) = bytes "20 text/gemini\r\n# sysutils/tmux v unknown\n" := by
  have hs := said_refl f clt hw hok
  have h20 : status_line 20 (bytes "text/gemini") = bytes "20 text/gemini\r\n" := by decide
  have hnl : bytes "\n" = [10] := by decide
  refine ⟨?_, by rfl, by rfl⟩
  cases hv : strrchr pkgname 45 with
  | none =>
    refine ⟨bytes " unknown", Or.inr ⟨strrchr_none _ _ hv, rfl⟩, ?_⟩
    refine route_port_row _ (fun d b hd => hd.trans (List.prefix_append d b)) f clt pi pkgname
      cols hs hpi hbind hstep hname ?_
    rw [hv, h20, hnl]
  | some i =>
    obtain ⟨hsplit, hlast⟩ := strrchr_last _ _ _ hv
    refine ⟨pkgname.drop (i + 1), Or.inl ⟨?_, pkgname.take i, hsplit, hlast⟩, ?_⟩
    · rw [hsplit]
      simp
    · refine route_port_row _ (fun d b hd => hd.trans (List.prefix_append d b)) f clt pi
        pkgname cols hs hpi hbind hstep hname ?_
      rw [hv, h20, hnl]

set_option maxRecDepth 1000000 in
theorem port_title_witness :
    ∃ V : List Nat,
      ((45 ∈ bytes "tmux-3.4" ∧ ∃ pre, bytes "tmux-3.4" = pre ++ 45 :: V ∧ 45 ∉ V) ∨
        (45 ∉ bytes "tmux-3.4" ∧ V = bytes " unknown")) ∧
      page_says (fcgi_new 1 (env_port (bytes "tmux-3.4")) none)
        { client_calloc 1 with clt_path_info := some (bytes "/sysutils/tmux") }
        (port_row (bytes "tmux-3.4"))
        (fun d => (bytes "20 text/gemini\r\n" ++ (bytes "# " ++
          (cstr (bytes "/sysutils/tmux")).drop 1 ++ bytes " v" ++ V ++ bytes "\n")) <+: d)
        (route_port (fcgi_new 1 (env_port (bytes "tmux-3.4")) none)
          { client_calloc 1 with clt_path_info := some (bytes "/sysutils/tmux") }) :=
  (port_title (fcgi_new 1 (env_port (bytes "tmux-3.4")) none)
    { client_calloc 1 with clt_path_info := some (bytes "/sysutils/tmux") }
    (bytes "/sysutils/tmux") (bytes "tmux-3.4") (port_row (bytes "tmux-3.4"))
    rfl ⟨by decide, by decide⟩ rfl (by decide) (by decide) (by decide)).1

/-! ## Listings -/

/-- The handler `route_listing` over a category that answers no row. -/
theorem route_listing_no_rows (f0 f : fcgi) (clt0 clt : client) (pi : List Nat)
    (h : said f0 clt0 f clt [] 0) (hpi : clt.clt_path_info = some pi)
    (hbind : (sqlite3_bind_text f.fcg_env.env_qbycat
      ((((cstr pi).drop 1).take 127).takeWhile (fun b => b != 47))).1 = SQLITE_OK)
    (hstep : (sqlite3_step (sqlite3_bind_text f.fcg_env.env_qbycat
      ((((cstr pi).drop 1).take 127).takeWhile (fun b => b != 47))).2).1 = .done) :
    ∃ f1 : fcgi, route_listing f clt = .ok (0, f1) ∧
      replied f0 clt0 f1 (status_line 20 (bytes "text/gemini") ++
        (bytes "# port(s) under " ++ (cstr pi).drop 1 ++ bytes "\n\n")) 1 0 := by
  have hb : ¬ ((sqlite3_bind_text f.fcg_env.env_qbycat
      ((((cstr pi).drop 1).take 127).takeWhile (fun b => b != 47))).1 ≠ SQLITE_OK) :=
    fun hx => hx hbind
  have h0 : ¬ ((0 : Int) = -1) := by decide
  obtain ⟨f1, clt1, e1, hs1, he1⟩ := server_reply_said f0
    (set_qbycat f (sqlite3_bind_text f.fcg_env.env_qbycat
      ((((cstr pi).drop 1).take 127).takeWhile (fun b => b != 47))).2) clt0 clt [] 0 20
    (bytes "text/gemini") (said_set_env _ _ _ _ _ _ _ h)
  obtain ⟨f2, clt2, e2, hs2, he2⟩ := clt_write_said f0 f1 clt0 clt1 _
    (bytes "# port(s) under " ++ (cstr pi).drop 1 ++ bytes "\n\n") 1 hs1
  have henv : f2.fcg_env.env_qbycat = (sqlite3_bind_text f.fcg_env.env_qbycat
      ((((cstr pi).drop 1).take 127).takeWhile (fun b => b != 47))).2 := by
    rw [he2, he1]
    rfl
  have hloop : route_listing_loop (stmt_fuel f2.fcg_env.env_qbycat) f2 clt2 =
      .ok (0, set_qbycat f2 (sqlite3_step f2.fcg_env.env_qbycat).2, clt2) := by
    have hst : (sqlite3_step f2.fcg_env.env_qbycat).1 = .done := by rw [henv]; exact hstep
    simp only [stmt_fuel, route_listing_loop, hst]
  obtain ⟨f3, e3, hr, _⟩ := fcgi_end_request_said f0
    (set_qbycat (set_qbycat f2 (sqlite3_step f2.fcg_env.env_qbycat).2)
      (sqlite3_reset (set_qbycat f2
        (sqlite3_step f2.fcg_env.env_qbycat).2).fcg_env.env_qbycat)) clt0 clt2 _ _ 0
    (said_set_env _ _ _ _ _ _ _ (said_set_env _ _ _ _ _ _ _ hs2))
  refine ⟨f3, ?_, by simpa using hr⟩
  simp only [route_listing, hpi, clt_printf]
  rw [listing_cut_first _ _ (by rw [List.length_take]; omega)]
  simp only [hb, if_false, e1, on_ok_else, h0, e2, hloop, e3]

/-- The handler `route_port` over a path that answers no row as a port and
no row as a category. -/
theorem route_port_no_rows (f : fcgi) (clt : client) (pi : List Nat)
    (h : said f clt f clt [] 0) (hpi : clt.clt_path_info = some pi)
    (hb1 : (sqlite3_bind_text f.fcg_env.env_qfullpkgpath ((cstr pi).drop 1)).1 = SQLITE_OK)
    (hs1 : (sqlite3_step
      (sqlite3_bind_text f.fcg_env.env_qfullpkgpath ((cstr pi).drop 1)).2).1 = .done)
    (hb2 : (sqlite3_bind_text f.fcg_env.env_qbycat
      ((((cstr pi).drop 1).take 127).takeWhile (fun b => b != 47))).1 = SQLITE_OK)
    (hs2 : (sqlite3_step (sqlite3_bind_text f.fcg_env.env_qbycat
      ((((cstr pi).drop 1).take 127).takeWhile (fun b => b != 47))).2).1 = .done) :
    ∃ f1 : fcgi, route_port f clt = .ok (0, f1) ∧
      replied f clt f1 (status_line 20 (bytes "text/gemini") ++
        (bytes "# port(s) under " ++ (cstr pi).drop 1 ++ bytes "\n\n")) 1 0 := by
  have hb : ¬ ((sqlite3_bind_text f.fcg_env.env_qfullpkgpath ((cstr pi).drop 1)).1
      ≠ SQLITE_OK) := fun hx => hx hb1
  obtain ⟨f1, e, hr⟩ := route_listing_no_rows f
    (set_qfullpkgpath (set_qfullpkgpath f (sqlite3_step
      (sqlite3_bind_text f.fcg_env.env_qfullpkgpath ((cstr pi).drop 1)).2).2)
      (sqlite3_reset (set_qfullpkgpath f (sqlite3_step
        (sqlite3_bind_text f.fcg_env.env_qfullpkgpath
          ((cstr pi).drop 1)).2).2).fcg_env.env_qfullpkgpath)) clt clt pi
    (said_set_env _ _ _ _ _ _ _ (said_set_env _ _ _ _ _ _ _ h)) hpi hb2 hs2
  refine ⟨f1, ?_, hr⟩
  simp only [route_port, hpi, hb, if_false, hs1]
  exact e

set_option maxRecDepth 1000000 in
/-- C25, amended: for a request whose path answers no row as a port and whose
first segment answers no row as a category, on a connection whose writes do
not fail, the bytes sent as `STDOUT` are the status line `20 text/gemini`
followed by `# port(s) under `, `path_info` without its first byte and an
empty line, and the request ends with `END_REQUEST` and application status 0;
for `GEMINI_URL_PATH=/does/not/exist` over an empty catalog the stream is
`20 text/gemini`, CR, LF, `# port(s) under does/not/exist` and an empty line. -/
theorem listing_not_found (f : fcgi) (clt : client) (pi : List Nat)
    (hw : f.fcg_bev.wfail = none) (hok : buf_ok clt) (hempty : clt.clt_buflen = 0)
    (hpi : clt.clt_path_info = some pi)
    (hb1 : (sqlite3_bind_text f.fcg_env.env_qfullpkgpath ((cstr pi).drop 1)).1 = SQLITE_OK)
    (hs1 : (sqlite3_step
      (sqlite3_bind_text f.fcg_env.env_qfullpkgpath ((cstr pi).drop 1)).2).1 = .done)
    (hb2 : (sqlite3_bind_text f.fcg_env.env_qbycat
      ((((cstr pi).drop 1).take 127).takeWhile (fun b => b != 47))).1 = SQLITE_OK)
    (hs2 : (sqlite3_step (sqlite3_bind_text f.fcg_env.env_qbycat
      ((((cstr pi).drop 1).take 127).takeWhile (fun b => b != 47))).2).1 = .done) :
    (∃ (f1 : fcgi) (ps : List (List Nat)),
      route_port f clt = .ok (0, f1) ∧
      f1.fcg_bev.output = f.fcg_bev.output ++ (ps.map (stdout_record clt.clt_id)).flatten ++
        end_record clt.clt_id 0 0 ∧
      ps.flatten = bytes "20 text/gemini\r\n# port(s) under " ++ (cstr pi).drop 1 ++
        bytes "\n\n" ∧
      ∀ p ∈ ps, 0 < p.length ∧ p.length ≤ CLT_BUF_SIZE) ∧
    (match deliver (fcgi_new 1 env_empty none)
        [fcgi_record FCGI_BEGIN_REQUEST 1 (begin_body 1 1) [],
          fcgi_record FCGI_PARAMS 1 (nv_pair (bytes "SCRIPT_NAME") (bytes "/app") ++
            nv_pair (bytes "GEMINI_URL_PATH") (bytes "/does/not/exist")) [],
          fcgi_record FCGI_PARAMS 1 [] []] with
      | .ok g => g.fcg_bev.output
      | _ => []) =
      stdout_record 1 (bytes "20 text/gemini\r\n# port(s) under does/not/exist\n\n") ++
        end_record 1 0 0 := by
  refine ⟨?_, by rfl⟩
  obtain ⟨f1, e, hr⟩ := route_port_no_rows f clt pi (said_refl f clt hw hok) hpi hb1 hs1 hb2 hs2
  obtain ⟨_, _, _, _, _, _, ps, b7, b8, b9⟩ := hr
  refine ⟨f1, ps, e, b7, ?_, b9⟩
  rw [b8, hempty, List.take_zero, List.nil_append]
  have h20 : status_line 20 (bytes "text/gemini") = bytes "20 text/gemini\r\n" := by decide
  have hsplit : bytes "20 text/gemini\r\n# port(s) under " =
      bytes "20 text/gemini\r\n" ++ bytes "# port(s) under " := by decide
  rw [h20, hsplit]
  simp only [List.append_assoc]

set_option maxRecDepth 1000000 in
theorem listing_not_found_witness :
    ∃ (f1 : fcgi) (ps : List (List Nat)),
      route_port (fcgi_new 1 env_empty none)
        { client_calloc 1 with clt_path_info := some (bytes "/does/not/exist") } = .ok (0, f1) ∧
      f1.fcg_bev.output = (fcgi_new 1 env_empty none).fcg_bev.output ++
        (ps.map (stdout_record ({ client_calloc 1 with
          clt_path_info := some (bytes "/does/not/exist") } : client).clt_id)).flatten ++
        end_record ({ client_calloc 1 with
          clt_path_info := some (bytes "/does/not/exist") } : client).clt_id 0 0 ∧
      ps.flatten = bytes "20 text/gemini\r\n# port(s) under " ++
        (cstr (bytes "/does/not/exist")).drop 1 ++ bytes "\n\n" ∧
      ∀ p ∈ ps, 0 < p.length ∧ p.length ≤ CLT_BUF_SIZE :=
  (listing_not_found (fcgi_new 1 env_empty none)
    { client_calloc 1 with clt_path_info := some (bytes "/does/not/exist") }
    (bytes "/does/not/exist") rfl ⟨by decide, by decide⟩ rfl rfl
    (by decide) (by decide) (by decide) (by decide)).1

set_option maxRecDepth 1000000 in
/-- Counterexample to C25: over an empty catalog the request with
`GEMINI_URL_PATH=/does/not/exist` is answered with the title
`# port(s) under does/not/exist`, without the leading `/`, and not with
`# port(s) under /does/not/exist`. -/
theorem listing_title_no_slash :
    (match deliver (fcgi_new 1 env_empty none)
        [fcgi_record FCGI_BEGIN_REQUEST 1 (begin_body 1 1) [],
          fcgi_record FCGI_PARAMS 1 (nv_pair (bytes "SCRIPT_NAME") (bytes "/app") ++
            nv_pair (bytes "GEMINI_URL_PATH") (bytes "/does/not/exist")) [],
          fcgi_record FCGI_PARAMS 1 [] []] with
      | .ok g => some g.fcg_bev.output
      | _ => none) =
      some (stdout_record 1 (bytes "20 text/gemini\r\n# port(s) under does/not/exist\n\n") ++
        end_record 1 0 0) ∧
    stdout_record 1 (bytes "20 text/gemini\r\n# port(s) under does/not/exist\n\n") ++
        end_record 1 0 0 ≠
      stdout_record 1 (bytes "20 text/gemini\r\n# port(s) under /does/not/exist\n\n") ++
        end_record 1 0 0 := by
  refine ⟨by rfl, by decide⟩

/-- The row loop of `route_listing` leaves the text bound to `env_qbycat` as
it is. -/
theorem route_listing_loop_bound (f0 : fcgi) (clt0 : client) (n fuel : Nat) :
    ∀ (f : fcgi) (clt : client) (d : List Nat), said f0 clt0 f clt d n →
      rows_left f.fcg_env.env_qbycat < fuel →
      route_listing_loop fuel f clt = .undefined ∨
      ∃ (f2 : fcgi) (clt2 : client) (d2 : List Nat),
        route_listing_loop fuel f clt = .ok (0, f2, clt2) ∧ said f0 clt0 f2 clt2 d2 n ∧
        f2.fcg_env.env_qbycat.bound = f.fcg_env.env_qbycat.bound := by
  induction fuel with
  | zero => intro f clt d _ h; omega
  | succ m ih =>
    intro f clt d hs hfuel
    have hs1 : said f0 clt0 (set_qbycat f (sqlite3_step f.fcg_env.env_qbycat).2) clt d n :=
      said_set_env _ _ _ _ _ _ _ hs
    simp only [route_listing_loop, clt_printf]
    split
    · exact Or.inr ⟨_, _, d, rfl, hs1, rfl⟩
    · exact Or.inr ⟨_, _, d, rfl, hs1, rfl⟩
    · rename_i cols hrow
      have hleft := rows_left_step _ cols hrow
      split
      · rename_i script fullpkgpath _ _
        obtain ⟨f2, clt2, e, hs2, henv⟩ := clt_write_said f0 _ clt0 clt d
          (bytes "=> " ++ cstr script ++ [47] ++ fullpkgpath ++ [32] ++ fullpkgpath ++ [10]) n hs1
        rw [e]
        simp only [Int.reduceNeg, OfNat.zero_ne_ofNat, if_false]
        rcases ih f2 clt2 _ hs2 (by rw [henv]; simp only [set_qbycat]; omega)
          with hu | ⟨f3, clt3, d3, e3, hs3, hb3⟩
        · exact Or.inl hu
        · refine Or.inr ⟨f3, clt3, d3, e3, hs3, ?_⟩
          rw [hb3, henv]
          rfl
      · exact Or.inl rfl

/-- The text `route_listing` leaves bound to `env_qbycat`, when the bind
succeeds. -/
theorem route_listing_bound (f0 f : fcgi) (clt0 clt : client) (pi : List Nat)
    (h : said f0 clt0 f clt [] 0) (hpi : clt.clt_path_info = some pi)
    (hbind : (sqlite3_bind_text f.fcg_env.env_qbycat
      ((((cstr pi).drop 1).take 127).takeWhile (fun b => b != 47))).1 = SQLITE_OK) :
    route_listing f clt = .undefined ∨
    ∃ f1 : fcgi, route_listing f clt = .ok (0, f1) ∧
      f1.fcg_env.env_qbycat.bound =
        (((cstr pi).drop 1).take 127).takeWhile (fun b => b != 47) := by
  have hb : ¬ ((sqlite3_bind_text f.fcg_env.env_qbycat
      ((((cstr pi).drop 1).take 127).takeWhile (fun b => b != 47))).1 ≠ SQLITE_OK) :=
    fun hx => hx hbind
  have h0 : ¬ ((0 : Int) = -1) := by decide
  have hnul : (0 : Nat) ∉ (((cstr pi).drop 1).take 127).takeWhile (fun b => b != 47) := by
    intro hm
    have h1 := (List.takeWhile_sublist _).subset hm
    have h2 := (List.take_sublist _ _).subset h1
    have h3 := (List.drop_sublist _ _).subset h2
    have h4 := List.mem_takeWhile_imp h3
    simp at h4
  have hbound : (sqlite3_bind_text f.fcg_env.env_qbycat
      ((((cstr pi).drop 1).take 127).takeWhile (fun b => b != 47))).2.bound =
      (((cstr pi).drop 1).take 127).takeWhile (fun b => b != 47) := by
    have hc := cstr_of_no_nul _ hnul
    unfold sqlite3_bind_text at hbind ⊢
    cases hl : f.fcg_env.env_qbycat.bind_rc.lookup
        (cstr ((((cstr pi).drop 1).take 127).takeWhile (fun b => b != 47))) with
    | none => exact hc
    | some rc =>
      rw [hl] at hbind
      by_cases hrc : rc = SQLITE_OK
      · simp only [hrc, if_true]
        exact hc
      · simp only [hrc, if_false] at hbind
  obtain ⟨f1, clt1, e1, hs1, he1⟩ := server_reply_said f0
    (set_qbycat f (sqlite3_bind_text f.fcg_env.env_qbycat
      ((((cstr pi).drop 1).take 127).takeWhile (fun b => b != 47))).2) clt0 clt [] 0 20
    (bytes "text/gemini") (said_set_env _ _ _ _ _ _ _ h)
  obtain ⟨f2, clt2, e2, hs2, he2⟩ := clt_write_said f0 f1 clt0 clt1 _
    (bytes "# port(s) under " ++ (cstr pi).drop 1 ++ bytes "\n\n") 1 hs1
  have henv : f2.fcg_env.env_qbycat = (sqlite3_bind_text f.fcg_env.env_qbycat
      ((((cstr pi).drop 1).take 127).takeWhile (fun b => b != 47))).2 := by
    rw [he2, he1]
    rfl
  simp only [route_listing, hpi, clt_printf]
  rw [listing_cut_first _ _ (by rw [List.length_take]; omega)]
  simp only [hb, if_false, e1, on_ok_else, h0, e2]
  rcases route_listing_loop_bound f0 clt0 1 _ f2 clt2 _ hs2 (rows_left_lt_stmt_fuel _)
    with hu | ⟨f3, clt3, d3, e3, hs3, hb3⟩
  · rw [hu]
    exact Or.inl rfl
  · rw [e3]
    simp only [h0, if_false]
    obtain ⟨f4, e4, _, he4⟩ := fcgi_end_request_said f0
      (set_qbycat f3 (sqlite3_reset f3.fcg_env.env_qbycat)) clt0 clt3 _ _ 0
      (said_set_env _ _ _ _ _ _ _ hs3)
    refine Or.inr ⟨f4, by rw [e4], ?_⟩
    rw [he4]
    simp only [set_qbycat, sqlite3_reset]
    rw [hb3, henv, hbound]

/-- The first segment is the longest prefix without `/`. -/
theorem first_segment_longest (buf p : List Nat) (hp : p <+: buf) (h47 : 47 ∉ p) :
    p <+: buf.takeWhile (fun b => b != 47) := by
  obtain ⟨t, rfl⟩ := hp
  rw [List.takeWhile_append_of_pos]
  · exact List.prefix_append _ _
  · intro b hb
    have : b ≠ 47 := fun e => h47 (e ▸ hb)
    simpa using this

set_option maxRecDepth 1000000 in
/-- C26: the loop of `route_listing` over `strrchr` ends for every buffer and
leaves the bytes before the first `/`.  For a request with `path_info`, the
text it leaves is the first segment: a prefix without `/` of `path_info`
without its first byte cut to 127 bytes, and every such prefix is a prefix of
it.  This is the text `route_listing` gives to the bind of `env_qbycat`: on a
connection whose writes do not fail, when the catalog accepts it the handler,
unless it stops on a null pointer, returns 0 and leaves it bound to
`env_qbycat`, and when the catalog refuses it the handler replies
`42 internal error`.  For `/foo/bar` the text is `foo`. -/
theorem listing_first_segment (f : fcgi) (clt : client) (pi : List Nat)
    (hw : f.fcg_bev.wfail = none) (hok : buf_ok clt) (hpi : clt.clt_path_info = some pi) :
    (∀ (fuel : Nat) (buf : List Nat), buf.length < fuel →
      listing_cut fuel buf = .ok (buf.takeWhile (fun b => b != 47))) ∧
    listing_cut (((cstr pi).drop 1).length + 1) (((cstr pi).drop 1).take 127) =
      .ok ((((cstr pi).drop 1).take 127).takeWhile (fun b => b != 47)) ∧
    (((cstr pi).drop 1).take 127).takeWhile (fun b => b != 47) <+:
      ((cstr pi).drop 1).take 127 ∧
    47 ∉ (((cstr pi).drop 1).take 127).takeWhile (fun b => b != 47) ∧
    (∀ p : List Nat, p <+: ((cstr pi).drop 1).take 127 → 47 ∉ p →
      p <+: (((cstr pi).drop 1).take 127).takeWhile (fun b => b != 47)) ∧
    ((sqlite3_bind_text f.fcg_env.env_qbycat
        ((((cstr pi).drop 1).take 127).takeWhile (fun b => b != 47))).1 = SQLITE_OK →
      route_listing f clt = .undefined ∨
      ∃ f1 : fcgi, route_listing f clt = .ok (0, f1) ∧
        f1.fcg_env.env_qbycat.bound =
          (((cstr pi).drop 1).take 127).takeWhile (fun b => b != 47)) ∧
    ((sqlite3_bind_text f.fcg_env.env_qbycat
        ((((cstr pi).drop 1).take 127).takeWhile (fun b => b != 47))).1 ≠ SQLITE_OK →
      ∃ f1 : fcgi, route_listing f clt = .ok (0, f1) ∧
        replied f clt f1 (bytes "42 internal error\r\n") 1 1) ∧
    listing_cut 8 (bytes "foo/bar") = .ok (bytes "foo") ∧
    (match route_listing (fcgi_new 1 env_empty none)
        { client_calloc 1 with clt_path_info := some (bytes "/foo/bar") } with
      | .ok (_, g) => g.fcg_env.env_qbycat.bound
      | _ => []) = bytes "foo" := by
  have hs := said_refl f clt hw hok
  have h42 : status_line 42 (bytes "internal error") = bytes "42 internal error\r\n" := by
    decide
  refine ⟨fun fuel => listing_cut_first fuel,
    listing_cut_first _ _ (by rw [List.length_take]; omega),
    List.takeWhile_prefix _, ?_, fun p hp h47 => first_segment_longest _ p hp h47,
    fun hbind => route_listing_bound f f clt clt pi hs hpi hbind, ?_, by decide, by rfl⟩
  · intro hm
    have h4 := List.mem_takeWhile_imp hm
    simp at h4
  · intro hbind
    rw [← h42]
    exact route_listing_bind_error f f clt clt pi hs hpi hbind

set_option maxRecDepth 1000000 in
theorem listing_first_segment_witness :
    route_listing (fcgi_new 1 env_empty none)
        { client_calloc 1 with clt_path_info := some (bytes "/foo/bar") } = .undefined ∨
      ∃ f1 : fcgi, route_listing (fcgi_new 1 env_empty none)
          { client_calloc 1 with clt_path_info := some (bytes "/foo/bar") } = .ok (0, f1) ∧
        f1.fcg_env.env_qbycat.bound =
          (((cstr (bytes "/foo/bar")).drop 1).take 127).takeWhile (fun b => b != 47) :=
  (listing_first_segment (fcgi_new 1 env_empty none)
    { client_calloc 1 with clt_path_info := some (bytes "/foo/bar") } (bytes "/foo/bar")
    rfl ⟨by decide, by decide⟩ rfl).2.2.2.2.2.1 (by decide)

/-! ## The bounds of `fts_escape` -/

/-- The inner loop of `fts_escape` decrements `bufsize` once per byte stored,
and stores no NUL when the input holds none. -/
theorem fts_escape_word_bound (p : List Nat) :
    ∀ (out : List Nat) (b : Nat),
      (fts_escape_word p out b).2.1.length + (fts_escape_word p out b).2.2 = out.length + b ∧
      ((∀ x ∈ p, x ≠ 0) → (∀ x ∈ out, x ≠ 0) →
        ∀ x ∈ (fts_escape_word p out b).2.1, x ≠ 0) ∧
      (∀ x ∈ (fts_escape_word p out b).1, x ∈ p) := by
  induction p with
  | nil =>
    intro out b
    simp [fts_escape_word]
  | cons c s ih =>
    intro out b
    by_cases hg : (!isspace c && b != 0) = true
    · have hb : b ≠ 0 := by
        simp only [Bool.and_eq_true, bne_iff_ne, ne_eq] at hg
        exact hg.2
      by_cases hq : (c == 34) = true
      · by_cases h1 : (b - 1 == 0) = true
        · have e : fts_escape_word (c :: s) out b = (c :: s, out ++ [34], b - 1) := by
            simp only [fts_escape_word, hg, hq, h1, if_true]
          rw [e]
          refine ⟨by simp only [List.length_append, List.length_singleton]; omega, ?_,
            fun x hx => hx⟩
          intro _ ho x hx
          rcases List.mem_append.mp hx with h | h
          · exact ho x h
          · simp only [List.mem_singleton] at h
            omega
        · have e : fts_escape_word (c :: s) out b =
              fts_escape_word s (out ++ [34, c]) (b - 1 - 1) := by
            simp only [fts_escape_word, hg, hq, h1, if_true, Bool.false_eq_true, if_false]
          rw [e]
          obtain ⟨h1', h2', h3'⟩ := ih (out ++ [34, c]) (b - 1 - 1)
          have hb1 : b - 1 ≠ 0 := by simpa using h1
          refine ⟨?_, ?_, fun x hx => List.mem_cons_of_mem _ (h3' x hx)⟩
          · rw [h1']
            simp only [List.length_append, List.length_cons, List.length_nil]
            omega
          · intro hp ho
            refine h2' (fun x hx => hp x (List.mem_cons_of_mem _ hx)) ?_
            intro x hx
            rcases List.mem_append.mp hx with h | h
            · exact ho x h
            · simp only [List.mem_cons, List.mem_singleton, List.not_mem_nil, or_false] at h
              rcases h with h | h
              · omega
              · rw [h]
                exact hp c (List.mem_cons_self _ _)
      · have e : fts_escape_word (c :: s) out b = fts_escape_word s (out ++ [c]) (b - 1) := by
          simp only [fts_escape_word, hg, hq, if_true, Bool.false_eq_true, if_false]
        rw [e]
        obtain ⟨h1', h2', h3'⟩ := ih (out ++ [c]) (b - 1)
        refine ⟨?_, ?_, fun x hx => List.mem_cons_of_mem _ (h3' x hx)⟩
        · rw [h1']
          simp only [List.length_append, List.length_singleton]
          omega
        · intro hp ho
          refine h2' (fun x hx => hp x (List.mem_cons_of_mem _ hx)) ?_
          intro x hx
          rcases List.mem_append.mp hx with h | h
          · exact ho x h
          · simp only [List.mem_singleton] at h
            rw [h]
            exact hp c (List.mem_cons_self _ _)
    · have e : fts_escape_word (c :: s) out b = (c :: s, out, b) := by
        simp only [fts_escape_word, hg, Bool.false_eq_true, if_false]
      rw [e]
      exact ⟨rfl, fun _ ho => ho, fun x hx => hx⟩

/-- The outer loop of `fts_escape` decrements `bufsize` once per byte stored. -/
theorem fts_escape_loop_bound (fuel : Nat) :
    ∀ (p out : List Nat) (b : Nat) (x : List Nat × List Nat × Nat),
      fts_escape_loop fuel p out b = .ok x →
      x.2.1.length + x.2.2 = out.length + b ∧
      ((∀ y ∈ p, y ≠ 0) → (∀ y ∈ out, y ≠ 0) → ∀ y ∈ x.2.1, y ≠ 0) := by
  induction fuel with
  | zero =>
    intro p out b x h
    simp [fts_escape_loop] at h
  | succ n ih =>
    intro p out b x h
    simp only [fts_escape_loop] at h
    by_cases hb : (b != 0) = true
    · simp only [hb, if_true] at h
      by_cases he : (p.dropWhile isspace).isEmpty = true
      · simp only [he, if_true, res.ok.injEq] at h
        subst h
        exact ⟨rfl, fun _ ho => ho⟩
      · simp only [he, Bool.false_eq_true, if_false] at h
        obtain ⟨w1, w2, w3⟩ := fts_escape_word_bound (p.dropWhile isspace) (out ++ [34]) (b - 1)
        have hb0 : b ≠ 0 := by simpa using hb
        rcases hw : fts_escape_word (p.dropWhile isspace) (out ++ [34]) (b - 1)
          with ⟨p2, out2, b2⟩
        rw [hw] at w1 w2 w3 h
        simp only at w1 w2 w3 h
        have hlen : out2.length + b2 = out.length + b := by
          rw [w1]
          simp only [List.length_append, List.length_singleton]
          omega
        have hnz : (∀ y ∈ p, y ≠ 0) → (∀ y ∈ out, y ≠ 0) → ∀ y ∈ out2, y ≠ 0 := by
          intro hp ho
          refine w2 (fun y hy => hp y ((List.dropWhile_sublist isspace).subset hy)) ?_
          intro y hy
          rcases List.mem_append.mp hy with h1 | h1
          · exact ho y h1
          · simp only [List.mem_singleton] at h1
            omega
        by_cases h2 : b2 < 2
        · simp only [h2, if_true, res.ok.injEq] at h
          subst h
          exact ⟨hlen, hnz⟩
        · simp only [h2, if_false] at h
          obtain ⟨i1, i2⟩ := ih _ _ _ x h
          simp only [List.length_append, List.length_cons, List.length_nil] at i1
          refine ⟨by omega, ?_⟩
          intro hp ho
          refine i2 ?_ ?_
          · intro y hy
            exact hp y ((List.dropWhile_sublist isspace).subset (w3 y hy))
          · intro y hy
            rcases List.mem_append.mp hy with h1 | h1
            · exact hnz hp ho y h1
            · simp only [List.mem_cons, List.mem_singleton, List.not_mem_nil,
                or_false] at h1
              omega
    · simp only [hb, Bool.false_eq_true, if_false, res.ok.injEq] at h
      subst h
      exact ⟨rfl, fun _ ho => ho⟩

/-- C37: for every input and every `bufsize`, `fts_escape` returns 0 or -1
and the bytes it stored, in the order of their indices from 0 and with the
terminating NUL, are at most `bufsize`, so that no index from `bufsize` on is
written; when it returns 0 the bytes stored are a string without NUL followed
by the terminating NUL. -/
theorem fts_escape_in_bounds (p : List Nat) (bufsize : Nat) :
    ∃ (r : Int) (out : List Nat),
      fts_escape p bufsize = .ok (r, out) ∧ (r = 0 ∨ r = -1) ∧ out.length ≤ bufsize ∧
      (r = 0 → ∃ body : List Nat, out = body ++ [0] ∧ 0 ∉ body) := by
  obtain ⟨⟨p1, out1, b1⟩, hx⟩ :=
    fts_escape_loop_returns ((cstr p).length + 1) (cstr p) [] bufsize (by omega)
  obtain ⟨h1, h2⟩ := fts_escape_loop_bound _ _ _ _ _ hx
  have hp : ∀ y ∈ cstr p, y ≠ 0 := by
    intro y hy
    have := List.mem_takeWhile_imp hy
    simpa using this
  have hnz := h2 hp (by simp)
  simp only [List.length_nil, Nat.zero_add] at h1 hnz
  simp only [fts_escape, hx]
  by_cases hc : (p1.isEmpty && b1 != 0) = true
  · simp only [hc, if_true]
    have hb : b1 ≠ 0 := by
      simp only [Bool.and_eq_true, bne_iff_ne, ne_eq] at hc
      exact hc.2
    refine ⟨0, _, rfl, Or.inl rfl, ?_, fun _ => ⟨out1, rfl, fun hm => hnz 0 hm rfl⟩⟩
    simp only [List.length_append, List.length_singleton]
    omega
  · simp only [hc, Bool.false_eq_true, if_false]
    refine ⟨-1, _, rfl, Or.inr rfl, by omega, ?_⟩
    intro h
    omega

/-! ## The fallback of `route_dispatch` -/

theorem cstr_cstr (l : List Nat) : cstr (cstr l) = cstr l := by
  unfold cstr
  rw [List.takeWhile_eq_self_iff]
  intro b hb
  exact List.mem_takeWhile_imp (p := fun b => b != 0) hb

theorem cstr_slash (l : List Nat) : cstr (47 :: l) = 47 :: cstr l := by
  simp [cstr]

/-- The value part of an iteration of `fcgi_parse_params` stores a path that
begins with `/` when the rest of the loop does. -/
theorem params_value_path (fuel : Nat)
    (ih : ∀ (f : fcgi) (clt : client) (r : Int) (f1 : fcgi) (c1 : client),
      fcgi_parse_params_loop fuel f clt = .ok (r, f1, c1) → path_ok clt → path_ok c1)
    (pname : List Nat) (vlen : Int) (f3 : fcgi) (clt : client)
    (r : Int) (f1 : fcgi) (c1 : client)
    (h : params_value fuel pname vlen f3 clt = .ok (r, f1, c1)) (hc : path_ok clt) :
    path_ok c1 := by
  have keep : ∀ clt4 : client, clt4.clt_path_info = clt.clt_path_info → path_ok clt4 := by
    intro clt4 e p hp
    exact hc p (e ▸ hp)
  unfold params_value at h
  split at h
  · split at h
    · cases h
    · exact ih _ _ _ _ _ h (keep _ rfl)
  · split at h
    · split at h
      · cases h
      · split at h
        · exact ih _ _ _ _ _ h (keep _ rfl)
        · exact ih _ _ _ _ _ h (keep _ rfl)
    · split at h
      · split at h
        · cases h
        · rename_i path f4 ht
          split at h
          · refine ih _ _ _ _ _ h ?_
            intro p hp
            simp only [Option.some.injEq] at hp
            subst hp
            exact ⟨cstr path, by rw [cstr_slash, cstr_cstr]⟩
          · rename_i hhead
            refine ih _ _ _ _ _ h ?_
            intro p hp
            simp only [Option.some.injEq] at hp
            subst hp
            have hh : path.head? = some 47 := by
              by_contra hne
              exact hhead hne
            cases path with
            | nil => simp at hh
            | cons a t =>
              simp only [List.head?_cons, Option.some.injEq] at hh
              subst hh
              exact ⟨cstr t, by rw [cstr_cstr, cstr_slash]⟩
      · split at h
        · split at h
          · cases h
          · exact ih _ _ _ _ _ h (keep _ rfl)
        · split at h
          · split at h
            · cases h
            · exact ih _ _ _ _ _ h (keep _ rfl)
          · exact ih _ _ _ _ _ h hc

/-- The function `fcgi_parse_params` only stores paths that begin with `/`. -/
theorem fcgi_parse_params_loop_path (fuel : Nat) :
    ∀ (f : fcgi) (clt : client) (r : Int) (f1 : fcgi) (c1 : client),
      fcgi_parse_params_loop fuel f clt = .ok (r, f1, c1) → path_ok clt → path_ok c1 := by
  induction fuel with
  | zero =>
    intro f clt r f1 c1 h
    simp [fcgi_parse_params_loop] at h
  | succ n ih =>
    intro f clt r f1 c1 h hc
    have hu : fcgi_parse_params_loop (n + 1) f clt =
        if f.fcg_toread > 0 then
          match parse_len f with
          | .undefined => .undefined
          | .nofuel => .nofuel
          | .ok (nlen, f1) =>
            if nlen < 0 then .ok (-1, f1, clt)
            else
              match parse_len f1 with
              | .undefined => .undefined
              | .nofuel => .nofuel
              | .ok (vlen, f2) =>
                if vlen < 0 then .ok (-1, f2, clt)
                else if f2.fcg_toread < wrap32 (nlen + vlen) then .ok (-1, f2, clt)
                else if to_size_t nlen > 32 - 1 then
                  fcgi_parse_params_loop n
                    { f2 with
                      fcg_toread := wrap32 (f2.fcg_toread - wrap32 (nlen - vlen))
                      fcg_bev := { f2.fcg_bev with
                        input := evbuffer_drain f2.fcg_bev.input
                          (to_size_t (wrap32 (nlen + vlen))) } }
                    clt
                else
                  match take_field f2 nlen with
                  | none => .undefined
                  | some (pname, f3) => params_value n pname vlen f3 clt
        else .ok (0, f, clt) := by
      simp only [fcgi_parse_params_loop, params_value]
    rw [hu] at h
    split at h
    · split at h
      · cases h
      · cases h
      · split at h
        · simp only [res.ok.injEq, Prod.mk.injEq] at h
          obtain ⟨_, _, e3⟩ := h
          subst e3
          exact hc
        · split at h
          · cases h
          · cases h
          · split at h
            · simp only [res.ok.injEq, Prod.mk.injEq] at h
              obtain ⟨_, _, e3⟩ := h
              subst e3
              exact hc
            · split at h
              · simp only [res.ok.injEq, Prod.mk.injEq] at h
                obtain ⟨_, _, e3⟩ := h
                subst e3
                exact hc
              · split at h
                · exact ih _ _ _ _ _ h hc
                · split at h
                  · cases h
                  · exact params_value_path n ih _ _ _ clt r f1 _ h hc
    · simp only [res.ok.injEq, Prod.mk.injEq] at h
      obtain ⟨_, _, e3⟩ := h
      subst e3
      exact hc

set_option maxRecDepth 100000 in
/-- C36: for every request whose `path_info` begins with `/`, the pattern
`/*` matches it, so that the loop of `route_dispatch` finds a route of the
table and calls `route_home`, `route_search`, `route_categories` or
`route_port`; the reply `51 not found`, the code after the loop, is not
reached.  The paths that `fcgi_parse_params` stores all begin with `/`: a
request whose path was unset or began with `/` before the call has its path
unset or beginning with `/` after it, and a new request has no path. -/
theorem dispatch_no_fallback (f : fcgi) (clt : client) (p s : List Nat)
    (hp : clt.clt_path_info = some p) (hs : cstr p = 47 :: s) :
    fnmatch (bytes "/*") (cstr p) = true ∧
    (∃ r, r ∈ routes ∧ routes.find? (fun r => fnmatch r.1 (cstr p)) = some r ∧
      route_dispatch f clt = r.2 f clt) ∧
    (route_dispatch f clt = route_home f clt ∨ route_dispatch f clt = route_search f clt ∨
      route_dispatch f clt = route_categories f clt ∨
      route_dispatch f clt = route_port f clt) ∧
    (∀ (g : fcgi) (c : client) (r : Int) (g1 : fcgi) (c1 : client),
      fcgi_parse_params g c = .ok (r, g1, c1) → path_ok c → path_ok c1) ∧
    (∀ id : Nat, path_ok (client_calloc id)) := by
  have hm : fnmatch (bytes "/*") (cstr p) = true := by
    rw [hs]
    exact fnmatch_slash_star s
  have htab := (route_dispatch_table f clt p hp).1
  refine ⟨hm, ?_, ?_, ?_, ?_⟩
  · cases hfind : routes.find? (fun r => fnmatch r.1 (cstr p)) with
    | none =>
      have hno := List.find?_eq_none.mp hfind (bytes "/*", route_port) (by simp [routes])
      simp only [hm, not_true_eq_false] at hno
    | some r =>
      rw [hfind] at htab
      exact ⟨r, List.mem_of_find?_eq_some hfind, rfl, htab⟩
  · cases hfind : routes.find? (fun r => fnmatch r.1 (cstr p)) with
    | none =>
      have hno := List.find?_eq_none.mp hfind (bytes "/*", route_port) (by simp [routes])
      simp only [hm, not_true_eq_false] at hno
    | some r =>
      rw [hfind] at htab
      have hmem := List.mem_of_find?_eq_some hfind
      simp only [routes, List.mem_cons, List.mem_singleton, List.not_mem_nil, or_false] at hmem
      rcases hmem with e | e | e | e
      · exact Or.inl (by rw [htab, e])
      · exact Or.inr (Or.inl (by rw [htab, e]))
      · exact Or.inr (Or.inr (Or.inl (by rw [htab, e])))
      · exact Or.inr (Or.inr (Or.inr (by rw [htab, e])))
  · intro g c r g1 c1 h hc
    exact fcgi_parse_params_loop_path _ g c r g1 c1 h hc
  · intro id p0 h0
    simp [client_calloc, client_zero] at h0

set_option maxRecDepth 100000 in
theorem dispatch_no_fallback_witness :
    fnmatch (bytes "/*") (cstr (bytes "/foo/bar")) = true :=
  (dispatch_no_fallback (fcgi_new 1 env_empty none)
    { client_calloc 1 with clt_path_info := some (bytes "/foo/bar") }
    (bytes "/foo/bar") (bytes "foo/bar") rfl (by decide)).1

/-! ## The supervisor -/

/-- The loop around `waitpid` goes on while children are reaped. -/
theorem main_wait_children (cs : List (Nat × Nat)) :
    ∀ (rest : List wait_result) (status errno : Nat),
      ∃ status1 : Nat,
        main_wait (cs.map (fun c => wait_result.child c.1 c.2) ++ rest) status errno =
          main_wait rest status1 errno := by
  induction cs with
  | nil => intro rest status errno; exact ⟨status, rfl⟩
  | cons c t ih =>
    intro rest status errno
    have hne : ((c.1 : Nat) : Int) ≠ -1 := by omega
    obtain ⟨s1, h1⟩ := ih rest c.2 errno
    refine ⟨s1, ?_⟩
    rw [← h1]
    simp only [List.map_cons, List.cons_append, main_wait, hne, ne_eq, not_false_eq_true,
      true_or, if_true]
    rfl

set_option maxRecDepth 100000 in
/-- C34 fails on the code: the loop around `waitpid` goes on while
`pid != -1`, so it leaves with -1 only, and the code that names the cause and
logs it is never reached.  For every sequence of `k` children followed by
`ECHILD`, `main` returns 1 and no line is logged; with one child that exited
with 0, the line `child process 100 exited successfully` is not written. -/
theorem main_reap_logs_nothing (cs : List (Nat × Nat)) (errno : Nat) :
    main_reap (cs.map (fun c => wait_result.child c.1 c.2) ++ [wait_result.failed ECHILD])
      errno = .ok (main_end.returned 1, []) ∧
    main_reap [wait_result.child 100 0, wait_result.failed ECHILD] 0 =
      .ok (main_end.returned 1, []) ∧
    ([] : List (List Nat)) ≠ [bytes "child process 100 exited successfully"] := by
  refine ⟨?_, by decide, by decide⟩
  obtain ⟨s1, h1⟩ := main_wait_children cs [wait_result.failed ECHILD] 0 errno
  simp only [main_reap, List.length_append, List.length_map, List.length_singleton,
    main_reap_loop, h1]
  simp [main_wait, ECHILD, EINTR]

/-! ## The pause of `fcgi_accept` -/

/-- No call of `fcgi_accept` registers `env_sockev`. -/
theorem fcgi_accept_sockev (e : listener) (ev : Nat) (a : accept_result)
    (h : e.env_sockev.inserted = false) : (fcgi_accept e ev a).1.env_sockev.inserted = false := by
  unfold fcgi_accept
  simp only
  split
  · exact h
  · split
    · split
      · rfl
      · exact h
    · exact h

/-- Once `env_sockev` is removed, no turn of `event_dispatch` registers it or
calls `accept_reserve`. -/
theorem dispatch_paused (os : List occurrence) :
    ∀ e : listener, e.env_sockev.inserted = false →
      (dispatch e os).1.env_sockev.inserted = false ∧
      (dispatch e os).2 = List.replicate os.length false := by
  induction os with
  | nil => intro e h; exact ⟨h, rfl⟩
  | cons o rest ih =>
    intro e h
    have hs : (dispatch_step e o).1.env_sockev.inserted = false ∧
        (dispatch_step e o).2 = false := by
      cases o with
      | readable a => simp [dispatch_step, h]
      | second =>
        simp only [dispatch_step]
        split
        · exact ⟨h, rfl⟩
        · split
          · exact ⟨fcgi_accept_sockev _ _ _ h, rfl⟩
          · exact ⟨h, rfl⟩
    obtain ⟨i1, i2⟩ := ih (dispatch_step e o).1 hs.1
    refine ⟨i1, ?_⟩
    simp only [dispatch, hs.2, i2, List.length_cons, List.replicate_succ]

set_option maxRecDepth 100000 in
/-- C33 fails on the code: after `accept_reserve` failed with `EMFILE` or
`ENFILE`, `env_sockev` is removed and the timer `env_pausev` is armed for one
second, but `fcgi_accept` called with `EV_TIMEOUT` adds `env_pausev` and not
`env_sockev`: the listen event stays removed, and in no later turn of
`event_dispatch` is `accept_reserve` called.  From the events of
`server_main`: the socket readable with `EMFILE`, one second, the socket
readable again; only the first turn calls `accept_reserve`. -/
theorem accept_pause_never_resumes (e : listener) (a : accept_result)
    (os : List occurrence) :
    (fcgi_accept e EV_READ (.error EMFILE)).1.env_sockev.inserted = false ∧
    (fcgi_accept e EV_READ (.error EMFILE)).1.env_pausev.timeout = some 1 ∧
    (fcgi_accept e EV_READ (.error ENFILE)).1.env_sockev.inserted = false ∧
    (fcgi_accept e EV_READ (.error ENFILE)).1.env_pausev.timeout = some 1 ∧
    (fcgi_accept (fcgi_accept e EV_READ (.error EMFILE)).1 EV_TIMEOUT
      a).1.env_sockev.inserted = false ∧
    (fcgi_accept (fcgi_accept e EV_READ (.error ENFILE)).1 EV_TIMEOUT
      a).1.env_sockev.inserted = false ∧
    (dispatch (fcgi_accept e EV_READ (.error EMFILE)).1 os).2 =
      List.replicate os.length false ∧
    (dispatch (fcgi_accept e EV_READ (.error ENFILE)).1 os).2 =
      List.replicate os.length false ∧
    server_main_events.env_sockev.inserted = true ∧
    (dispatch server_main_events
      [occurrence.readable (.error EMFILE), occurrence.second,
        occurrence.readable (.sock 5)]).2 = [true, false, false] ∧
    (dispatch server_main_events
      [occurrence.readable (.error EMFILE), occurrence.second,
        occurrence.readable (.sock 5)]).1.env_sockev.inserted = false := by
  have h1 : (fcgi_accept e EV_READ (.error EMFILE)).1.env_sockev.inserted = false := by
    simp [fcgi_accept, EV_READ, EV_TIMEOUT, event_del]
  have h2 : (fcgi_accept e EV_READ (.error ENFILE)).1.env_sockev.inserted = false := by
    simp [fcgi_accept, EV_READ, EV_TIMEOUT, event_del]
  refine ⟨h1, ?_, h2, ?_, fcgi_accept_sockev _ _ _ h1, fcgi_accept_sockev _ _ _ h2,
    (dispatch_paused os _ h1).2, (dispatch_paused os _ h2).2, by decide, by decide, by decide⟩
  · simp [fcgi_accept, EV_READ, EV_TIMEOUT, evtimer_add, event_add]
  · simp [fcgi_accept, EV_READ, EV_TIMEOUT, evtimer_add, event_add]

/-! ## Lengths that overflow in `fcgi_parse_params` -/

set_option maxRecDepth 1000000 in
/-- C32 fails on the code: for the pair that declares a name of 2147483647
bytes and a value of 1 byte, in a record of 8 bytes, the sum `nlen + vlen`
wraps to -2147483648, the test `fcg_toread < nlen + vlen` does not hold, and
`fcgi_parse_params` drains `(size_t)(nlen + vlen)` bytes, the whole input
buffer with the record buffered behind this one, and returns 0.  Delivered
after the parameters of request 1 and before its empty `PARAMS` record, the
record leaves the connection open and the request unanswered. -/
theorem fcgi_parse_params_length_overflow :
    wrap32 (2147483647 + 1) = -2147483648 ∧
    (match fcgi_parse_params
        { fcgi_new 1 env_empty none with
          fcg_toread := 8
          fcg_bev :=
            { input := [255, 255, 255, 255, 128, 0, 0, 1] ++ fcgi_record FCGI_PARAMS 1 [] []
              output := []
              wfail := none } }
        (client_calloc 1) with
      | .ok (r, f, _) => (r, f.fcg_bev.input, f.fcg_freed)
      | _ => (-1, [], true)) = (0, [], false) ∧
    (match deliver (fcgi_new 1 env_empty none)
        [fcgi_record FCGI_BEGIN_REQUEST 1 (begin_body 1 1) [] ++
          fcgi_record FCGI_PARAMS 1 (nv_pair (bytes "SCRIPT_NAME") (bytes "/app") ++
            nv_pair (bytes "GEMINI_URL_PATH") (bytes "/")) [] ++
          fcgi_record FCGI_PARAMS 1 [255, 255, 255, 255, 128, 0, 0, 1] [] ++
          fcgi_record FCGI_PARAMS 1 [] []] with
      | .ok f => (f.fcg_freed, f.fcg_bev.output, f.fcg_bev.input,
          f.fcg_clients.map (fun c => c.clt_id))
      | _ => (true, [], [], [])) = (false, [], [], [1]) := by
  refine ⟨by decide, by rfl, by rfl⟩

/-! ## The prepared statements across the output calls -/

theorem same_stmts_refl (e : env) : same_stmts e e := ⟨rfl, rfl, rfl, rfl⟩

theorem same_stmts_trans (e e1 e2 : env) (h1 : same_stmts e e1) (h2 : same_stmts e1 e2) :
    same_stmts e e2 :=
  ⟨h2.1.trans h1.1, h2.2.1.trans h1.2.1, h2.2.2.1.trans h1.2.2.1, h2.2.2.2.trans h1.2.2.2⟩

theorem stmts_idle_of_same (skip : Nat) (e e1 : env) (h : same_stmts e e1)
    (hi : stmts_idle skip e) : stmts_idle skip e1 := by
  obtain ⟨a1, a2, a3, a4⟩ := h
  obtain ⟨b1, b2, b3, b4⟩ := hi
  exact ⟨fun k => by rw [a1]; exact b1 k, fun k => by rw [a2]; exact b2 k,
    fun k => by rw [a3]; exact b3 k, fun k => by rw [a4]; exact b4 k⟩

theorem stmts_idle_weaken (skip : Nat) (e : env) (h : stmts_idle 4 e) : stmts_idle skip e :=
  ⟨fun _ => h.1 (by decide), fun _ => h.2.1 (by decide), fun _ => h.2.2.1 (by decide),
    fun _ => h.2.2.2 (by decide)⟩

theorem idle_set_qsearch (f : fcgi) (s : sqlite3_stmt) (h : stmts_idle 0 f.fcg_env) :
    stmts_idle 0 (set_qsearch f s).fcg_env :=
  ⟨fun k => absurd rfl k, h.2.1, h.2.2.1, h.2.2.2⟩

theorem idle_set_qfullpkgpath (f : fcgi) (s : sqlite3_stmt) (h : stmts_idle 1 f.fcg_env) :
    stmts_idle 1 (set_qfullpkgpath f s).fcg_env :=
  ⟨h.1, fun k => absurd rfl k, h.2.2.1, h.2.2.2⟩

theorem idle_set_qcats (f : fcgi) (s : sqlite3_stmt) (h : stmts_idle 2 f.fcg_env) :
    stmts_idle 2 (set_qcats f s).fcg_env :=
  ⟨h.1, h.2.1, fun k => absurd rfl k, h.2.2.2⟩

theorem idle_set_qbycat (f : fcgi) (s : sqlite3_stmt) (h : stmts_idle 3 f.fcg_env) :
    stmts_idle 3 (set_qbycat f s).fcg_env :=
  ⟨h.1, h.2.1, h.2.2.1, fun k => absurd rfl k⟩

theorem idle_reset_qsearch (f : fcgi) (s : sqlite3_stmt) (h : stmts_idle 0 f.fcg_env) :
    stmts_idle 4 (set_qsearch f (sqlite3_reset s)).fcg_env :=
  ⟨fun _ => rfl, fun _ => h.2.1 (by decide), fun _ => h.2.2.1 (by decide),
    fun _ => h.2.2.2 (by decide)⟩

theorem idle_reset_qfullpkgpath (f : fcgi) (s : sqlite3_stmt) (h : stmts_idle 1 f.fcg_env) :
    stmts_idle 4 (set_qfullpkgpath f (sqlite3_reset s)).fcg_env :=
  ⟨fun _ => h.1 (by decide), fun _ => rfl, fun _ => h.2.2.1 (by decide),
    fun _ => h.2.2.2 (by decide)⟩

theorem idle_reset_qcats (f : fcgi) (s : sqlite3_stmt) (h : stmts_idle 2 f.fcg_env) :
    stmts_idle 4 (set_qcats f (sqlite3_reset s)).fcg_env :=
  ⟨fun _ => h.1 (by decide), fun _ => h.2.1 (by decide), fun _ => rfl,
    fun _ => h.2.2.2 (by decide)⟩

theorem idle_reset_qbycat (f : fcgi) (s : sqlite3_stmt) (h : stmts_idle 3 f.fcg_env) :
    stmts_idle 4 (set_qbycat f (sqlite3_reset s)).fcg_env :=
  ⟨fun _ => h.1 (by decide), fun _ => h.2.1 (by decide), fun _ => h.2.2.1 (by decide),
    fun _ => rfl⟩

/-- The function `clt_flush` leaves the prepared statements alone. -/
theorem clt_flush_stmts (f : fcgi) (clt : client) :
    same_stmts f.fcg_env (clt_flush f clt).2.1.fcg_env := by
  simp only [clt_flush]
  split
  · exact same_stmts_refl _
  · split
    · exact ⟨rfl, rfl, rfl, rfl⟩
    · split
      · exact ⟨rfl, rfl, rfl, rfl⟩
      · exact ⟨rfl, rfl, rfl, rfl⟩

/-- The loop of `clt_write` leaves the prepared statements alone. -/
theorem clt_write_loop_stmts (fuel : Nat) :
    ∀ (f : fcgi) (clt : client) (buf : List Nat) (r : Int) (f1 : fcgi) (clt1 : client),
      clt_write_loop fuel f clt buf = .ok (r, f1, clt1) → same_stmts f.fcg_env f1.fcg_env := by
  induction fuel with
  | zero => intro f clt buf r f1 clt1 h; simp [clt_write_loop] at h
  | succ n ih =>
    intro f clt buf r f1 clt1 h
    simp only [clt_write_loop] at h
    split at h
    · split at h
      · have hfl := clt_flush_stmts f clt
        rcases hc : clt_flush f clt with ⟨r0, fa, ca⟩
        rw [hc] at h hfl
        simp only at h hfl
        split at h
        · simp only [res.ok.injEq, Prod.mk.injEq] at h
          obtain ⟨_, e2, _⟩ := h
          subst e2
          exact hfl
        · exact same_stmts_trans _ _ _ hfl (ih _ _ _ _ _ _ h)
      · exact ih _ _ _ _ _ _ h
    · simp only [res.ok.injEq, Prod.mk.injEq] at h
      obtain ⟨_, e2, _⟩ := h
      subst e2
      exact same_stmts_refl _

/-- The function `clt_write` returns, with 0 or -1, for every write oracle,
and leaves the prepared statements alone. -/
theorem clt_write_any (f : fcgi) (clt : client) (buf : List Nat) (hok : buf_ok clt) :
    ∃ (r : Int) (f1 : fcgi) (clt1 : client),
      clt_write f clt buf = .ok (r, f1, clt1) ∧ (r = 0 ∨ r = -1) ∧ buf_ok clt1 ∧
      same_stmts f.fcg_env f1.fcg_env := by
  obtain ⟨r, f1, clt1, e, hr, _, _⟩ := clt_write_emitted f clt buf hok
  exact ⟨r, f1, clt1, e, hr,
    stepped_buf_ok _ _ _ _ _ (clt_write_stepped f clt buf hok r f1 clt1 e),
    clt_write_loop_stmts _ _ _ _ _ _ _ e⟩

/-- The function `print_maintainer` leaves the prepared statements alone. -/
theorem print_maintainer_stmts (mail : List Nat) :
    ∀ (in_addr : Bool) (f : fcgi) (clt : client) (r : Int) (f1 : fcgi) (clt1 : client),
      print_maintainer mail in_addr f clt = .ok (r, f1, clt1) →
      same_stmts f.fcg_env f1.fcg_env := by
  induction mail with
  | nil =>
    intro in_addr f clt r f1 clt1 h
    simp only [print_maintainer, res.ok.injEq, Prod.mk.injEq] at h
    obtain ⟨_, e2, _⟩ := h
    subst e2
    exact same_stmts_refl _
  | cons c mail ih =>
    intro in_addr f clt r f1 clt1 h
    have key : ∀ (w : res (Int × fcgi × client)) (b : Bool),
        (∃ buf, w = clt_write f clt buf) →
        ((match w with
          | res.ok (r0, f2, clt2) =>
            if r0 = -1 then res.ok (-1, f2, clt2) else print_maintainer mail b f2 clt2
          | res.undefined => res.undefined
          | res.nofuel => res.nofuel) : res (Int × fcgi × client)) = res.ok (r, f1, clt1) →
        same_stmts f.fcg_env f1.fcg_env := by
      intro w b hw hm
      obtain ⟨buf, hw⟩ := hw
      subst hw
      rcases hc : clt_write f clt buf with ⟨r0, f2, clt2⟩ | _ | _
      · rw [hc] at hm
        simp only at hm
        have h2 := clt_write_loop_stmts _ _ _ _ _ _ _ hc
        by_cases h1 : r0 = -1
        · rw [if_pos h1] at hm
          simp only [res.ok.injEq, Prod.mk.injEq] at hm
          obtain ⟨_, e2, _⟩ := hm
          subst e2
          exact h2
        · rw [if_neg h1] at hm
          exact same_stmts_trans _ _ _ h2 (ih _ _ _ _ _ _ hm)
      · rw [hc] at hm
        cases hm
      · rw [hc] at hm
        cases hm
    simp only [print_maintainer] at h
    split at h
    · exact key _ _ ⟨_, rfl⟩ h
    · refine key _ _ ?_ h
      split
      · exact ⟨_, rfl⟩
      · split
        · exact ⟨_, rfl⟩
        · exact ⟨_, rfl⟩

/-- The function `end_request` returns 0 or -1 and leaves the prepared
statements alone. -/
theorem end_request_stmts (f : fcgi) (clt : client) (status proto_status : Int) :
    ((end_request f clt status proto_status).1 = 0 ∨
      (end_request f clt status proto_status).1 = -1) ∧
    same_stmts f.fcg_env (end_request f clt status proto_status).2.fcg_env := by
  have hfl := clt_flush_stmts f clt
  simp only [end_request]
  rcases hc : clt_flush f clt with ⟨r0, fa, ca⟩
  rw [hc] at hfl
  simp only at hfl ⊢
  split
  · exact ⟨Or.inr rfl, hfl⟩
  · have hfr := (fcgi_send_end_req_frame fa ca.clt_id status proto_status).2.2.2.2.2
    split
    · refine ⟨Or.inr rfl, ?_⟩
      refine same_stmts_trans _ _ _ hfl ?_
      simp only [fcgi_error]
      rw [hfr]
      exact ⟨rfl, rfl, rfl, rfl⟩
    · split
      · refine ⟨Or.inl rfl, same_stmts_trans _ _ _ hfl ?_⟩
        simp only
        rw [hfr]
        exact same_stmts_refl _
      · refine ⟨Or.inl rfl, same_stmts_trans _ _ _ hfl ?_⟩
        simp only
        rw [hfr]
        exact same_stmts_refl _

/-! ## Handlers leave the statements reset -/

theorem returns_idle_undefined : returns_idle .undefined := Or.inl rfl

/-- The step `return (-1)` once every statement is reset. -/
theorem returns_idle_fail (f : fcgi) (h : stmts_idle 4 f.fcg_env) :
    returns_idle (.ok (-1, f)) :=
  Or.inr ⟨-1, f, rfl, Or.inr rfl, h⟩

/-- The step `return (fcgi_end_request(clt, status))` once every statement is reset. -/
theorem returns_idle_end (f : fcgi) (clt : client) (status : Int)
    (h : stmts_idle 4 f.fcg_env) : returns_idle (.ok (fcgi_end_request f clt status)) := by
  obtain ⟨h1, h2⟩ := end_request_stmts f clt status FCGI_REQUEST_COMPLETE
  exact Or.inr ⟨_, _, rfl, h1, stmts_idle_of_same 4 _ _ h2 h⟩

/-- A call of `clt_write` followed by `if (.. == -1) return (-1)` and the rest
`k`, for every write oracle. -/
theorem returns_idle_write (f : fcgi) (clt : client) (buf : List Nat)
    (k : fcgi → client → res (Int × fcgi)) (hok : buf_ok clt) (hi : stmts_idle 4 f.fcg_env)
    (hk : ∀ f1 clt1, buf_ok clt1 → stmts_idle 4 f1.fcg_env → returns_idle (k f1 clt1)) :
    returns_idle (on_ok (clt_write f clt buf) k) := by
  obtain ⟨r, f1, clt1, e, hr, hb, hs⟩ := clt_write_any f clt buf hok
  have hi1 := stmts_idle_of_same 4 _ _ hs hi
  rw [e]
  simp only [on_ok]
  split
  · exact returns_idle_fail _ hi1
  · exact hk f1 clt1 hb hi1

/-- A call of `clt_write` followed by `if (.. == -1) goto err` and the rest
`k`, for every write oracle. -/
theorem returns_idle_write_else (skip : Nat) (f : fcgi) (clt : client) (buf : List Nat)
    (err : fcgi → res (Int × fcgi)) (k : fcgi → client → res (Int × fcgi))
    (hok : buf_ok clt) (hi : stmts_idle skip f.fcg_env)
    (herr : ∀ f1, stmts_idle skip f1.fcg_env → returns_idle (err f1))
    (hk : ∀ f1 clt1, buf_ok clt1 → stmts_idle skip f1.fcg_env → returns_idle (k f1 clt1)) :
    returns_idle (on_ok_else (clt_write f clt buf) err k) := by
  obtain ⟨r, f1, clt1, e, hr, hb, hs⟩ := clt_write_any f clt buf hok
  have hi1 := stmts_idle_of_same skip _ _ hs hi
  rw [e]
  simp only [on_ok_else]
  split
  · exact herr f1 hi1
  · exact hk f1 clt1 hb hi1

/-- A call that appends, such as `print_maintainer`, followed by
`if (.. == -1) goto err` and the rest `k`. -/
theorem returns_idle_appends_else (skip : Nat) (r : res (Int × fcgi × client))
    (err : fcgi → res (Int × fcgi)) (k : fcgi → client → res (Int × fcgi))
    (hr : appends_idle skip r)
    (herr : ∀ f1, stmts_idle skip f1.fcg_env → returns_idle (err f1))
    (hk : ∀ f1 clt1, buf_ok clt1 → stmts_idle skip f1.fcg_env → returns_idle (k f1 clt1)) :
    returns_idle (on_ok_else r err k) := by
  rcases hr with e | ⟨x, f1, clt1, e, _, hb, hi⟩
  · rw [e]
    exact Or.inl rfl
  · rw [e]
    simp only [on_ok_else]
    split
    · exact herr f1 hi
    · exact hk f1 clt1 hb hi

theorem appends_idle_skip (skip : Nat) (f : fcgi) (clt : client) (hok : buf_ok clt)
    (hi : stmts_idle skip f.fcg_env) : appends_idle skip (.ok (0, f, clt)) :=
  Or.inr ⟨0, f, clt, rfl, Or.inl rfl, hok, hi⟩

theorem appends_idle_write (skip : Nat) (f : fcgi) (clt : client) (buf : List Nat)
    (hok : buf_ok clt) (hi : stmts_idle skip f.fcg_env) :
    appends_idle skip (clt_write f clt buf) := by
  obtain ⟨r, f1, clt1, e, hr, hb, hs⟩ := clt_write_any f clt buf hok
  exact Or.inr ⟨r, f1, clt1, e, hr, hb, stmts_idle_of_same skip _ _ hs hi⟩

theorem appends_idle_maintainer (skip : Nat) (mail : List Nat) (in_addr : Bool) (f : fcgi)
    (clt : client) (hok : buf_ok clt) (hi : stmts_idle skip f.fcg_env) :
    appends_idle skip (print_maintainer mail in_addr f clt) := by
  obtain ⟨r, f1, clt1, e, hr, _, _⟩ := print_maintainer_emitted mail in_addr f clt hok
  exact Or.inr ⟨r, f1, clt1, e, hr,
    stepped_buf_ok _ _ _ _ _ (print_maintainer_stepped mail in_addr f clt hok r f1 clt1 e),
    stmts_idle_of_same skip _ _ (print_maintainer_stmts mail in_addr f clt r f1 clt1 e) hi⟩

/-- The row loop of `route_categories` returns or stops on a null pointer,
for every write oracle, and touches `env_qcats` only. -/
theorem route_categories_loop_idle (fuel : Nat) :
    ∀ (f : fcgi) (clt : client), buf_ok clt → stmts_idle 2 f.fcg_env →
      rows_left f.fcg_env.env_qcats < fuel →
      appends_idle 2 (route_categories_loop fuel f clt) := by
  induction fuel with
  | zero => intro f clt _ _ h; omega
  | succ m ih =>
    intro f clt hok hi hfuel
    have hi1 : stmts_idle 2 (set_qcats f (sqlite3_step f.fcg_env.env_qcats).2).fcg_env :=
      idle_set_qcats _ _ hi
    simp only [route_categories_loop, clt_printf]
    split
    · exact Or.inr ⟨0, _, _, rfl, Or.inl rfl, hok, hi1⟩
    · exact Or.inr ⟨0, _, _, rfl, Or.inl rfl, hok, hi1⟩
    · rename_i cols hrow
      have hleft := rows_left_step _ cols hrow
      split
      · rename_i script fullpkgpath _ _
        obtain ⟨r, f2, clt2, e, hr, hb, hs⟩ := clt_write_any
          (set_qcats f (sqlite3_step f.fcg_env.env_qcats).2) clt
          (bytes "=> " ++ cstr script ++ [47] ++ fullpkgpath ++ [32] ++ fullpkgpath ++ [10]) hok
        have hi2 := stmts_idle_of_same 2 _ _ hs hi1
        rw [e]
        simp only
        split
        · exact Or.inr ⟨-1, _, _, rfl, Or.inr rfl, hb, hi2⟩
        · refine ih f2 clt2 hb hi2 ?_
          rw [hs.2.2.1]
          simp only [set_qcats]
          omega
      · exact Or.inl rfl

/-- The row loop of `route_listing` returns or stops on a null pointer, for
every write oracle, and touches `env_qbycat` only. -/
theorem route_listing_loop_idle (fuel : Nat) :
    ∀ (f : fcgi) (clt : client), buf_ok clt → stmts_idle 3 f.fcg_env →
      rows_left f.fcg_env.env_qbycat < fuel →
      appends_idle 3 (route_listing_loop fuel f clt) := by
  induction fuel with
  | zero => intro f clt _ _ h; omega
  | succ m ih =>
    intro f clt hok hi hfuel
    have hi1 : stmts_idle 3 (set_qbycat f (sqlite3_step f.fcg_env.env_qbycat).2).fcg_env :=
      idle_set_qbycat _ _ hi
    simp only [route_listing_loop, clt_printf]
    split
    · exact Or.inr ⟨0, _, _, rfl, Or.inl rfl, hok, hi1⟩
    · exact Or.inr ⟨0, _, _, rfl, Or.inl rfl, hok, hi1⟩
    · rename_i cols hrow
      have hleft := rows_left_step _ cols hrow
      split
      · rename_i script fullpkgpath _ _
        obtain ⟨r, f2, clt2, e, hr, hb, hs⟩ := clt_write_any
          (set_qbycat f (sqlite3_step f.fcg_env.env_qbycat).2) clt
          (bytes "=> " ++ cstr script ++ [47] ++ fullpkgpath ++ [32] ++ fullpkgpath ++ [10]) hok
        have hi2 := stmts_idle_of_same 3 _ _ hs hi1
        rw [e]
        simp only
        split
        · exact Or.inr ⟨-1, _, _, rfl, Or.inr rfl, hb, hi2⟩
        · refine ih f2 clt2 hb hi2 ?_
          rw [hs.2.2.2]
          simp only [set_qbycat]
          omega
      · exact Or.inl rfl

/-- The row loop of `route_search` returns or stops on a null pointer, for
every write oracle, and touches `env_qsearch` only. -/
theorem route_search_loop_idle (fuel : Nat) :
    ∀ (f : fcgi) (clt : client) (found : Bool), buf_ok clt → stmts_idle 0 f.fcg_env →
      rows_left f.fcg_env.env_qsearch < fuel →
      route_search_loop fuel f clt found = .undefined ∨
      ∃ (x : Int) (f1 : fcgi) (clt1 : client) (found1 : Bool),
        route_search_loop fuel f clt found = .ok (x, f1, clt1, found1) ∧ (x = 0 ∨ x = -1) ∧
        buf_ok clt1 ∧ stmts_idle 0 f1.fcg_env := by
  induction fuel with
  | zero => intro f clt _ _ _ h; omega
  | succ m ih =>
    intro f clt found hok hi hfuel
    have hi1 : stmts_idle 0 (set_qsearch f (sqlite3_step f.fcg_env.env_qsearch).2).fcg_env :=
      idle_set_qsearch _ _ hi
    simp only [route_search_loop, clt_printf]
    split
    · exact Or.inr ⟨0, _, _, _, rfl, Or.inl rfl, hok, hi1⟩
    · exact Or.inr ⟨0, _, _, _, rfl, Or.inl rfl, hok, hi1⟩
    · rename_i cols hrow
      have hleft := rows_left_step _ cols hrow
      split
      · rename_i script fullpkgpath stem comment _ _ _ _
        obtain ⟨r, f2, clt2, e, hr, hb, hs⟩ := clt_write_any
          (set_qsearch f (sqlite3_step f.fcg_env.env_qsearch).2) clt
          (bytes "=> " ++ cstr script ++ [47] ++ fullpkgpath ++ [32] ++
            stem ++ bytes ": " ++ comment ++ [10]) hok
        have hi2 := stmts_idle_of_same 0 _ _ hs hi1
        rw [e]
        simp only
        split
        · exact Or.inr ⟨-1, _, _, _, rfl, Or.inr rfl, hb, hi2⟩
        · refine ih f2 clt2 true hb hi2 ?_
          rw [hs.1]
          simp only [set_qsearch]
          omega
      · exact Or.inl rfl

theorem route_home_idle (f : fcgi) (clt : client) (hok : buf_ok clt)
    (hi : stmts_idle 4 f.fcg_env) : returns_idle (route_home f clt) := by
  simp only [route_home, server_reply, clt_printf]
  refine returns_idle_write _ _ _ _ hok hi ?_
  intro _ _ _ _
  repeat (first
    | exact returns_idle_undefined
    | exact returns_idle_end _ _ _ (by assumption)
    | (refine returns_idle_write _ _ _ _ (by assumption) (by assumption) ?_; intro _ _ _ _)
    | split)

theorem route_categories_idle (f : fcgi) (clt : client) (hok : buf_ok clt)
    (hi : stmts_idle 4 f.fcg_env) : returns_idle (route_categories f clt) := by
  simp only [route_categories, server_reply, clt_printf, clt_puts]
  refine returns_idle_write _ _ _ _ hok hi ?_
  intro f1 clt1 hb1 hi1
  refine returns_idle_write _ _ _ _ hb1 hi1 ?_
  intro f2 clt2 hb2 hi2
  refine returns_idle_write _ _ _ _ hb2 hi2 ?_
  intro f3 clt3 hb3 hi3
  rcases route_categories_loop_idle _ f3 clt3 hb3 (stmts_idle_weaken 2 _ hi3)
    (rows_left_lt_stmt_fuel _) with e | ⟨x, f4, clt4, e, hx, hb4, hi4⟩
  · rw [e]
    exact returns_idle_undefined
  · rw [e]
    simp only
    split
    · exact returns_idle_fail _ (idle_reset_qcats _ _ hi4)
    · exact returns_idle_end _ _ _ (idle_reset_qcats _ _ hi4)

theorem route_listing_idle (f : fcgi) (clt : client) (hok : buf_ok clt)
    (hi : stmts_idle 4 f.fcg_env) : returns_idle (route_listing f clt) := by
  have herr : ∀ f1 : fcgi, stmts_idle 3 f1.fcg_env →
      returns_idle (.ok (-1, set_qbycat f1 (sqlite3_reset f1.fcg_env.env_qbycat))) :=
    fun f1 h => returns_idle_fail _ (idle_reset_qbycat _ _ h)
  simp only [route_listing, server_reply, clt_printf]
  split
  · exact returns_idle_undefined
  · rename_i pi _
    rw [listing_cut_first _ _ (by rw [List.length_take]; omega)]
    simp only
    split
    · refine returns_idle_write _ _ _ _ hok (idle_reset_qbycat _ _ (stmts_idle_weaken 3 _ hi)) ?_
      intro f1 clt1 hb1 hi1
      exact returns_idle_end _ _ _ hi1
    · refine returns_idle_write_else 3 _ _ _ _ _ hok
        (idle_set_qbycat _ _ (stmts_idle_weaken 3 _ hi)) herr ?_
      intro f1 clt1 hb1 hi1
      refine returns_idle_write_else 3 _ _ _ _ _ hb1 hi1 herr ?_
      intro f2 clt2 hb2 hi2
      rcases route_listing_loop_idle _ f2 clt2 hb2 hi2 (rows_left_lt_stmt_fuel _)
        with e | ⟨x, f4, clt4, e, hx, hb4, hi4⟩
      · rw [e]
        exact returns_idle_undefined
      · rw [e]
        simp only
        split
        · exact returns_idle_fail _ (idle_reset_qbycat _ _ hi4)
        · exact returns_idle_end _ _ _ (idle_reset_qbycat _ _ hi4)

theorem route_search_idle (f : fcgi) (clt : client) (hok : buf_ok clt)
    (hi : stmts_idle 4 f.fcg_env) : returns_idle (route_search f clt) := by
  have herr : ∀ f1 : fcgi, stmts_idle 0 f1.fcg_env →
      returns_idle (.ok (-1, set_qsearch f1 (sqlite3_reset f1.fcg_env.env_qsearch))) :=
    fun f1 h => returns_idle_fail _ (idle_reset_qsearch _ _ h)
  have hokq : ∀ q, buf_ok { clt with clt_query := q } := fun _ => hok
  have hbad : ∀ q, returns_idle (on_ok (clt_write { f with fcg_replies := f.fcg_replies + 1 }
      { clt with clt_query := q } (fmt_02d 59 ++ [32] ++ cstr (bytes "bad request") ++ [13, 10]))
      fun f clt => .ok (fcgi_end_request f clt 1)) := by
    intro q
    refine returns_idle_write _ _ _ _ (hokq q) hi ?_
    intro f1 clt1 hb1 hi1
    exact returns_idle_end _ _ _ hi1
  simp only [route_search, server_reply, clt_printf]
  split
  · refine returns_idle_write _ _ _ _ hok hi ?_
    intro f1 clt1 hb1 hi1
    exact returns_idle_end _ _ _ hi1
  · split
    · exact hbad _
    · obtain ⟨r, equery, he, hr⟩ := fts_escape_returns (unquote (clt.clt_query.getD [])).2 1024
      rw [he]
      simp only
      split
      · exact hbad _
      · split
        · refine returns_idle_write _ _ _ _ (hokq _)
            (idle_reset_qsearch _ _ (stmts_idle_weaken 0 _ hi)) ?_
          intro f1 clt1 hb1 hi1
          exact returns_idle_end _ _ _ hi1
        · refine returns_idle_write_else 0 _ _ _ _ _ (hokq _)
            (idle_set_qsearch _ _ (stmts_idle_weaken 0 _ hi)) herr ?_
          intro f1 clt1 hb1 hi1
          refine returns_idle_write_else 0 _ _ _ _ _ hb1 hi1 herr ?_
          intro f2 clt2 hb2 hi2
          rcases route_search_loop_idle _ f2 clt2 false hb2 hi2 (rows_left_lt_stmt_fuel _)
            with e | ⟨x, f4, clt4, fd, e, hx, hb4, hi4⟩
          · rw [e]
            exact returns_idle_undefined
          · rw [e]
            simp only
            split
            · exact herr _ hi4
            · split
              · refine returns_idle_write _ _ _ _ hb4 (idle_reset_qsearch _ _ hi4) ?_
                intro f5 clt5 hb5 hi5
                exact returns_idle_end _ _ _ hi5
              · exact returns_idle_end _ _ _ (idle_reset_qsearch _ _ hi4)

theorem route_port_idle (f : fcgi) (clt : client) (hok : buf_ok clt)
    (hi : stmts_idle 4 f.fcg_env) : returns_idle (route_port f clt) := by
  have herr : ∀ f1 : fcgi, stmts_idle 1 f1.fcg_env →
      returns_idle (.ok (-1, set_qfullpkgpath f1
        (sqlite3_reset f1.fcg_env.env_qfullpkgpath))) :=
    fun f1 h => returns_idle_fail _ (idle_reset_qfullpkgpath _ _ h)
  have hdone : ∀ (f1 : fcgi) (clt1 : client), buf_ok clt1 → stmts_idle 1 f1.fcg_env →
      returns_idle (.ok (fcgi_end_request (set_qfullpkgpath f1
        (sqlite3_reset f1.fcg_env.env_qfullpkgpath)) clt1 0)) :=
    fun f1 clt1 _ h => returns_idle_end _ _ _ (idle_reset_qfullpkgpath _ _ h)
  have hi0 : ∀ s, stmts_idle 1 (set_qfullpkgpath f s).fcg_env :=
    fun s => idle_set_qfullpkgpath _ _ (stmts_idle_weaken 1 _ hi)
  simp only [route_port, server_reply, clt_printf, clt_puts]
  split
  · exact returns_idle_undefined
  · split
    · refine returns_idle_write _ _ _ _ hok
        (idle_reset_qfullpkgpath _ _ (stmts_idle_weaken 1 _ hi)) ?_
      intro f1 clt1 hb1 hi1
      exact returns_idle_end _ _ _ hi1
    · split
      · exact route_listing_idle _ _ hok (idle_reset_qfullpkgpath _ _ (hi0 _))
      · exact returns_idle_write_else 1 _ _ _ _ _ hok (hi0 _) herr hdone
      · split
        · exact returns_idle_undefined
        · refine returns_idle_write_else 1 _ _ _ _ _ hok (hi0 _) herr ?_
          intro _ _ _ _
          repeat (first
            | exact returns_idle_undefined
            | exact hdone _ _ (by assumption) (by assumption)
            | exact returns_idle_write_else 1 _ _ _ _ _ (by assumption) (by assumption)
                herr hdone
            | (refine returns_idle_write_else 1 _ _ _ _ _ (by assumption) (by assumption)
                herr ?_; intro _ _ _ _)
            | (refine returns_idle_appends_else 1 _ _ _
                (appends_idle_maintainer 1 _ _ _ _ (by assumption) (by assumption)) herr ?_;
                intro _ _ _ _)
            | split)

/-- Every handler of the routing table and the reply 51, for every catalog
and every write oracle: `server_handle` returns 0 or -1, or stops on a null
pointer, and when it returns the four prepared statements are reset. -/
theorem server_handle_idle (f : fcgi) (clt : client) (hok : buf_ok clt)
    (hi : stmts_idle 4 f.fcg_env) : returns_idle (server_handle f clt) := by
  simp only [server_handle, route_dispatch]
  split
  · exact returns_idle_undefined
  · simp only [routes, route_dispatch_loop]
    split
    · exact route_home_idle _ _ hok hi
    · split
      · exact route_search_idle _ _ hok hi
      · split
        · exact route_categories_idle _ _ hok hi
        · split
          · exact route_port_idle _ _ hok hi
          · simp only [server_reply, clt_printf]
            refine returns_idle_write _ _ _ _ hok hi ?_
            intro f1 clt1 hb1 hi1
            exact returns_idle_end _ _ _ hi1

/-! ## The life of a connection -/

theorem lived_refl (f : fcgi) : lived f f :=
  ⟨id, id, fun h => h, id, Or.inl ⟨rfl, rfl⟩⟩

theorem lived_trans (f f1 f2 : fcgi) (h1 : lived f f1) (h2 : lived f1 f2) : lived f f2 := by
  obtain ⟨a1, a2, a3, a4, a5⟩ := h1
  obtain ⟨b1, b2, b3, b4, b5⟩ := h2
  refine ⟨fun h => b1 (a1 h), fun h => b2 (a2 h), fun h => b3 (a3 h), fun h => b4 (a4 h), ?_⟩
  rcases a5 with ⟨x1, x2⟩ | ⟨x1, x2, x3⟩
  · rcases b5 with ⟨y1, y2⟩ | ⟨y1, y2, y3⟩
    · exact Or.inl ⟨y1.trans x1, y2.trans x2⟩
    · exact Or.inr ⟨by rw [← x1]; exact y1, y2, by rw [y3, x2]⟩
  · rcases b5 with ⟨y1, y2⟩ | ⟨y1, _, _⟩
    · exact Or.inr ⟨x1, by rw [y1]; exact x2, by rw [y2, x3]⟩
    · rw [x2] at y1
      cases y1

/-- A step that leaves `fcg_keep_conn`, `fcg_done`, `fcg_freed` and the
environment as they are. -/
theorem lived_eq (f f1 : fcgi) (e1 : f1.fcg_keep_conn = f.fcg_keep_conn)
    (e2 : f1.fcg_done = f.fcg_done) (e3 : f1.fcg_freed = f.fcg_freed)
    (e4 : f1.fcg_env = f.fcg_env) : lived f f1 := by
  refine ⟨fun h => by rw [e1]; exact h, fun h => by rw [e2]; exact h, ?_,
    fun h => by rw [e4]; exact h, Or.inl ⟨e3, by rw [e4]⟩⟩
  intro h hd
  rw [e1]
  rw [e2] at hd
  exact h hd

/-- The function `fcgi_error` on an open connection. -/
theorem lived_fcgi_error (f : fcgi) (hf : f.fcg_freed = false) : lived f (fcgi_error f) :=
  ⟨id, id, fun h => h, fun h => ⟨h.1, h.2.1, h.2.2.1, h.2.2.2⟩, Or.inr ⟨hf, rfl, rfl⟩⟩

/-- The assignment to `fcg_keep_conn` in `fcgi_read`, made when it is not 0. -/
theorem lived_keep_conn (f : fcgi) (v : Nat) (hk : f.fcg_keep_conn ≠ 0) :
    lived f { f with fcg_keep_conn := v } :=
  ⟨fun h => absurd h hk, id, fun h hd => absurd (h hd) hk, id, Or.inl ⟨rfl, rfl⟩⟩

/-- A request handled on an open connection. -/
theorem lived_handled (f f1 : fcgi) (c : client) (r : Int) (hf : f.fcg_freed = false)
    (hh : handled f c r f1) (hs : stmts_idle 4 f.fcg_env → stmts_idle 4 f1.fcg_env) :
    lived f f1 ∧ (r = -1 ↔ f1.fcg_freed = true) := by
  rcases hh with ⟨e, hd, hfr, _, hdone, hin, _⟩ | ⟨e, hd, hfr, _, hdone, hin⟩
  · have hk := hd.2.2.2.2.2.2.2
    refine ⟨⟨fun h => by rw [hk]; exact h, ?_, ?_, hs, Or.inl ⟨hfr, hin⟩⟩, ?_⟩
    · intro h
      rw [hdone]
      split
      · decide
      · exact h
    · intro h hd1
      rw [hk]
      rw [hdone] at hd1
      by_cases h0 : f.fcg_keep_conn = 0
      · exact h0
      · rw [if_neg h0] at hd1
        exact h hd1
    · rw [e, hfr, hf]
      simp
  · have hk := hd.2.2.2.2.2.2.2
    refine ⟨⟨fun h => by rw [hk]; exact h, fun h => by rw [hdone]; exact h, ?_, hs,
      Or.inr ⟨hf, hfr, hin⟩⟩, ?_⟩
    · intro h hd1
      rw [hk]
      rw [hdone] at hd1
      exact h hd1
    · rw [e, hfr]
      simp

/-- The function `fcgi_error` after a step that leaves `fcg_keep_conn`,
`fcg_done`, `fcg_freed` and the environment as they are. -/
theorem lived_fcgi_error_eq (f g : fcgi) (hf : f.fcg_freed = false)
    (e1 : g.fcg_keep_conn = f.fcg_keep_conn) (e2 : g.fcg_done = f.fcg_done)
    (e3 : g.fcg_freed = f.fcg_freed) (e4 : g.fcg_env = f.fcg_env) : lived f (fcgi_error g) :=
  lived_trans f g _ (lived_eq f g e1 e2 e3 e4) (lived_fcgi_error g (by rw [e3]; exact hf))

/-- The header step of `fcgi_read` on an open connection: it goes on with the
connection open, or `fcgi_error` ran. -/
theorem fcgi_read_header_lived (f : fcgi) (hf : f.fcg_freed = false) :
    lived f (fcgi_read_header f).2 ∧
    ((fcgi_read_header f).1 = true → (fcgi_read_header f).2.fcg_freed = false) ∧
    ((fcgi_read_header f).1 = false → (fcgi_read_header f).2.fcg_freed = true) := by
  simp only [fcgi_read_header]
  split
  · exact ⟨lived_fcgi_error_eq f _ hf rfl rfl rfl rfl, by simp, fun _ => rfl⟩
  · split
    · exact ⟨lived_fcgi_error_eq f _ hf rfl rfl rfl rfl, by simp, fun _ => rfl⟩
    · split
      · exact ⟨lived_fcgi_error_eq f _ hf rfl rfl rfl rfl, by simp, fun _ => rfl⟩
      · exact ⟨lived_eq f _ rfl rfl rfl rfl, fun _ => hf, by simp⟩

/-- The body step of `fcgi_read` on an open connection: it goes on with the
connection open, or the connection was torn down, once. -/
theorem fcgi_read_body_lived (f : fcgi) (go : Bool) (f1 : fcgi) (hok : conn_ok f)
    (hf : f.fcg_freed = false) (h : fcgi_read_body f = .ok (go, f1)) :
    lived f f1 ∧ (go = true → f1.fcg_freed = false) ∧ (go = false → f1.fcg_freed = true) := by
  have fin_go : ∀ g : fcgi, res.ok (true, next_record g) = res.ok (go, f1) →
      lived f g → g.fcg_freed = false →
      lived f f1 ∧ (go = true → f1.fcg_freed = false) ∧
        (go = false → f1.fcg_freed = true) := by
    intro g he hg hfr
    simp only [res.ok.injEq, Prod.mk.injEq] at he
    obtain ⟨e1, e2⟩ := he
    subst e1
    subst e2
    exact ⟨lived_trans _ _ _ hg (lived_eq g _ rfl rfl rfl rfl), fun _ => hfr,
      by simp⟩
  have fin_err : ∀ g : fcgi, res.ok (false, fcgi_error g) = res.ok (go, f1) →
      lived f g → g.fcg_freed = false →
      lived f f1 ∧ (go = true → f1.fcg_freed = false) ∧
        (go = false → f1.fcg_freed = true) := by
    intro g he hg hfr
    simp only [res.ok.injEq, Prod.mk.injEq] at he
    obtain ⟨e1, e2⟩ := he
    subst e1
    subst e2
    exact ⟨lived_trans _ _ _ hg (lived_fcgi_error g hfr), by simp, fun _ => rfl⟩
  have hbuf : ∀ c, SPLAY_FIND f.fcg_clients { client_zero with clt_id := f.fcg_rec_id } = some c →
      buf_ok c := by
    intro c hc
    exact (hok.1.2 c (SPLAY_FIND_mem _ _ _ hc).1).2
  have hl0 := lived_refl f
  simp only [fcgi_read_body] at h
  split at h
  · split at h
    · exact fin_err _ h hl0 hf
    · split at h
      · have hfr := fcgi_send_end_req_frame (set_input f (f.fcg_bev.input.drop 8))
          (set_input f (f.fcg_bev.input.drop 8)).fcg_rec_id 1 FCGI_UNKNOWN_ROLE
        obtain ⟨_, hd, hfree, _, hdone, henv⟩ := hfr
        have hl : lived f (fcgi_send_end_req (set_input f (f.fcg_bev.input.drop 8))
            (set_input f (f.fcg_bev.input.drop 8)).fcg_rec_id 1 FCGI_UNKNOWN_ROLE).2 :=
          lived_eq f _ hd.2.2.2.2.2.2.2 hdone hfree henv
        split at h
        · exact fin_err _ h hl (by rw [hfree]; exact hf)
        · exact fin_go _ h hl (by rw [hfree]; exact hf)
      · split at h
        · exact fin_err _ h (lived_eq f _ rfl rfl rfl rfl) hf
        · rename_i hkc
          have hl : ∀ v, lived f { set_input f (f.fcg_bev.input.drop 8) with
              fcg_keep_conn := v } :=
            fun v => lived_trans _ _ _ (lived_eq f (set_input f (f.fcg_bev.input.drop 8))
              rfl rfl rfl rfl) (lived_keep_conn _ v hkc)
          split at h
          · exact fin_go _ h (hl _) hf
          · exact fin_go _ h (lived_trans _ _ _ (hl _) (lived_eq _ _ rfl rfl rfl rfl)) hf
  · split at h
    · split at h
      · exact fin_go _ h (lived_eq f _ rfl rfl rfl rfl) hf
      · rename_i c hfind
        have hb := hbuf c hfind
        split at h
        · split at h
          · cases h
          · cases h
          · rename_i r f2 hs
            have hhd := server_handle_handled _ c hb r f2 hs
            have hst : stmts_idle 4
                (set_input f (evbuffer_drain f.fcg_bev.input
                  (to_size_t f.fcg_toread))).fcg_env → stmts_idle 4 f2.fcg_env := by
              intro hi
              rcases server_handle_idle _ c hb hi with e | ⟨x, g, e, _, hg⟩
              · rw [e] at hs
                cases hs
              · rw [e] at hs
                simp only [res.ok.injEq, Prod.mk.injEq] at hs
                rw [← hs.2]
                exact hg
            obtain ⟨hl, hiff⟩ := lived_handled (set_input f (evbuffer_drain
              f.fcg_bev.input (to_size_t f.fcg_toread))) f2 c r hf hhd hst
            have hl1 := lived_trans _ _ _ (lived_eq f (set_input f (evbuffer_drain
              f.fcg_bev.input (to_size_t f.fcg_toread))) rfl rfl rfl rfl) hl
            split at h
            · rename_i hr
              simp only [res.ok.injEq, Prod.mk.injEq] at h
              obtain ⟨e1, e2⟩ := h
              subst e1
              subst e2
              exact ⟨hl1, by simp, fun _ => hiff.mp hr⟩
            · rename_i hr
              have hnf : f2.fcg_freed = false := by
                cases hfr : f2.fcg_freed with
                | false => rfl
                | true => exact absurd (hiff.mpr hfr) hr
              exact fin_go _ h hl1 hnf
        · split at h
          · cases h
          · cases h
          · rename_i r f2 c1 hp
            obtain ⟨hc, _⟩ := fcgi_parse_params_loop_consumed _ _ _ _ _ _ hp
            obtain ⟨_, _, _, _, _, _, _, _, ckc, cdone, cenv, cfreed, _⟩ := hc
            have hl : lived f { f2 with fcg_clients := client_store f2.fcg_clients c1 } :=
              lived_eq f _ ckc cdone cfreed cenv
            split at h
            · exact fin_err _ h hl (by simp only; rw [cfreed]; exact hf)
            · exact fin_go _ h hl (by simp only; rw [cfreed]; exact hf)
    · split at h
      · exact fin_go _ h (lived_eq f _ rfl rfl rfl rfl) hf
      · split at h
        · split at h
          · exact fin_go _ h (lived_eq f _ rfl rfl rfl rfl) hf
          · rename_i c hfind
            have hb := hbuf c hfind
            have hhd := fcgi_end_request_handled f c 1 hb
            have hst : stmts_idle 4 f.fcg_env →
                stmts_idle 4 (fcgi_end_request f c 1).2.fcg_env :=
              fun hi => stmts_idle_of_same 4 _ _
                (end_request_stmts f c 1 FCGI_REQUEST_COMPLETE).2 hi
            obtain ⟨hl, hiff⟩ := lived_handled f _ c _ hf hhd hst
            split at h
            · rename_i hr
              simp only [res.ok.injEq, Prod.mk.injEq] at h
              obtain ⟨e1, e2⟩ := h
              subst e1
              subst e2
              exact ⟨hl, by simp, fun _ => hiff.mp hr⟩
            · rename_i hr
              have hnf : (fcgi_end_request f c 1).2.fcg_freed = false := by
                cases hfr : (fcgi_end_request f c 1).2.fcg_freed with
                | false => rfl
                | true => exact absurd (hiff.mpr hfr) hr
              exact fin_go _ h hl hnf
        · exact fin_go _ h (lived_eq f _ rfl rfl rfl rfl) hf

/-- The loop of `fcgi_read` on an open connection. -/
theorem fcgi_read_loop_lived (fuel : Nat) :
    ∀ (f f1 : fcgi), conn_ok f → f.fcg_freed = false → fcgi_read_loop fuel f = .ok f1 →
      lived f f1 := by
  induction fuel with
  | zero =>
    intro f f1 _ _ h
    simp [fcgi_read_loop] at h
  | succ n ih =>
    intro f f1 hok hf h
    simp only [fcgi_read_loop] at h
    split at h
    · simp only [res.ok.injEq] at h
      rw [← h]
      exact lived_refl f
    · split at h
      · have hh := (fcgi_read_header_kept f hok).1
        obtain ⟨hl, hgo, hstop⟩ := fcgi_read_header_lived f hf
        split at h
        · rename_i g heq
          rw [heq] at hh hl hgo
          exact lived_trans _ _ _ hl (ih g f1 hh (hgo rfl) h)
        · rename_i g heq
          rw [heq] at hl
          simp only [res.ok.injEq] at h
          rw [← h]
          exact hl
      · split at h
        · cases h
        · cases h
        · rename_i g heq
          obtain ⟨hl, hgo, _⟩ := fcgi_read_body_lived f _ g hok hf heq
          exact lived_trans _ _ _ hl (ih g f1 (fcgi_read_body_kept f _ g hok heq).1 (hgo rfl) h)
        · rename_i g heq
          simp only [res.ok.injEq] at h
          rw [← h]
          exact (fcgi_read_body_lived f _ g hok hf heq).1

/-- The read callback. -/
theorem bufferevent_readcb_lived (f f1 : fcgi) (chunk : List Nat) (hok : conn_ok f)
    (hb : ∀ b ∈ chunk, b < 256) (h : bufferevent_readcb f chunk = .ok f1) : lived f f1 := by
  unfold bufferevent_readcb at h
  split at h
  · simp only [res.ok.injEq] at h
    rw [← h]
    exact lived_refl f
  · rename_i hfr
    have hf : f.fcg_freed = false := by simpa using hfr
    refine lived_trans _ _ _ (lived_eq f (set_input f (f.fcg_bev.input ++ chunk))
      rfl rfl rfl rfl) (fcgi_read_loop_lived _ _ f1 ?_ hf h)
    refine ⟨hok.1, ?_, hok.2.2⟩
    intro b hm
    rcases List.mem_append.mp hm with h1 | h1
    · exact hok.2.1 b h1
    · exact hb b h1

/-- The write callback. -/
theorem bufferevent_writecb_lived (f : fcgi) : lived f (bufferevent_writecb f) := by
  unfold bufferevent_writecb
  split
  · exact lived_refl f
  · rename_i hfr
    have hf : f.fcg_freed = false := by simpa using hfr
    unfold fcgi_write
    split
    · exact lived_fcgi_error_eq f _ hf rfl rfl rfl rfl
    · exact lived_eq f _ rfl rfl rfl rfl

/-- The delivery of input chunks. -/
theorem deliver_lived (chunks : List (List Nat)) :
    ∀ (f f1 : fcgi), conn_ok f → (∀ chunk ∈ chunks, ∀ b ∈ chunk, b < 256) →
      deliver f chunks = .ok f1 → lived f f1 := by
  induction chunks with
  | nil =>
    intro f f1 _ _ h
    simp only [deliver, res.ok.injEq] at h
    rw [← h]
    exact lived_refl f
  | cons chunk rest ih =>
    intro f f1 hok hb h
    simp only [deliver] at h
    split at h
    · rename_i g heq
      have hb0 := hb chunk (List.mem_cons_self _ _)
      exact lived_trans _ _ _ (bufferevent_readcb_lived f g chunk hok hb0 heq)
        (ih g f1 (bufferevent_readcb_conn_ok f g chunk hok hb0 heq)
          (fun c hc => hb c (List.mem_cons_of_mem _ hc)) h)
    · cases h
    · cases h

/-- The write callback leaves `fcg_keep_conn` and `fcg_done` as they are. -/
theorem bufferevent_writecb_flags (f : fcgi) :
    (bufferevent_writecb f).fcg_keep_conn = f.fcg_keep_conn ∧
    (bufferevent_writecb f).fcg_done = f.fcg_done := by
  simp only [bufferevent_writecb, fcgi_write, fcgi_error]
  split
  · exact ⟨rfl, rfl⟩
  · split <;> exact ⟨rfl, rfl⟩

/-- C35: on a connection as `fcgi_accept` creates it, after any sequence of input chunks
(state `f`) and any further chunks (state `f1`): `fcg_done` set implies `fcg_keep_conn = 0`;
`fcg_keep_conn`, once 0, is 0 in every later state; `fcg_done`, once set, stays set; the write
callback changes neither field; and once `fcg_keep_conn` is 0, a responder `BEGIN_REQUEST`
record arriving at any later record boundary is answered by `fcgi_error`: the connection is
released with all its requests. -/
theorem keep_conn_never_restored (id : Nat) (e : env) (wfail : Option Nat)
    (chunks later : List (List Nat)) (f f1 : fcgi)
    (hb : ∀ chunk ∈ chunks, ∀ b ∈ chunk, b < 256)
    (hl : ∀ chunk ∈ later, ∀ b ∈ chunk, b < 256)
    (h : deliver (fcgi_new id e wfail) chunks = .ok f)
    (h1 : deliver f later = .ok f1) :
    (f.fcg_done ≠ 0 → f.fcg_keep_conn = 0) ∧
    (f.fcg_keep_conn = 0 → f1.fcg_keep_conn = 0) ∧
    (f.fcg_done ≠ 0 → f1.fcg_done ≠ 0) ∧
    ((bufferevent_writecb f).fcg_keep_conn = f.fcg_keep_conn ∧
      (bufferevent_writecb f).fcg_done = f.fcg_done) ∧
    (f.fcg_keep_conn = 0 → idle f1 → ∀ (id2 flags : Nat) (padding : List Nat),
      ∃ g : fcgi,
        bufferevent_readcb f1
          (fcgi_record FCGI_BEGIN_REQUEST id2 (begin_body FCGI_RESPONDER flags) padding) = .ok g ∧
        g.fcg_freed = true ∧ g.fcg_clients = [] ∧
        g.fcg_env.fcgi_inflight = f1.fcg_env.fcgi_inflight - 1) := by
  have hok0 := conn_ok_fcgi_new id e wfail
  have hl0 := deliver_lived chunks _ _ hok0 hb h
  have hok := deliver_conn_ok chunks _ _ hok0 hb h
  have hl1 := deliver_lived later _ _ hok hl h1
  refine ⟨?_, hl1.1, hl1.2.1, bufferevent_writecb_flags f, ?_⟩
  · exact hl0.2.2.1 (fun hd => absurd rfl hd)
  · intro hk hi id2 flags padding
    refine ⟨_, readcb_begin_reuse f1 id2 FCGI_RESPONDER flags padding hi (hl1.1 hk) rfl, rfl, rfl,
      rfl⟩

set_option maxRecDepth 1000000 in
/-- The connection of C35 after one `BEGIN_REQUEST` record without the keep-conn flag: the
flag is 0, and a second responder `BEGIN_REQUEST` releases the connection. -/
theorem keep_conn_never_restored_witness :
    deliver (fcgi_new 1 env_empty none)
        [fcgi_record FCGI_BEGIN_REQUEST 1 (begin_body FCGI_RESPONDER 0) []] =
      .ok { fcgi_new 1 env_empty none with
            fcg_clients := [client_calloc 1], fcg_type := FCGI_BEGIN_REQUEST, fcg_rec_id := 1,
            fcg_keep_conn := 0 } ∧
    ∃ g : fcgi,
      bufferevent_readcb
          { fcgi_new 1 env_empty none with
            fcg_clients := [client_calloc 1], fcg_type := FCGI_BEGIN_REQUEST, fcg_rec_id := 1,
            fcg_keep_conn := 0 }
          (fcgi_record FCGI_BEGIN_REQUEST 2 (begin_body FCGI_RESPONDER 1) []) = .ok g ∧
      g.fcg_freed = true ∧ g.fcg_clients = [] ∧ g.fcg_env.fcgi_inflight = 1 - 1 :=
  ⟨rfl,
    (keep_conn_never_restored 1 env_empty none
      [fcgi_record FCGI_BEGIN_REQUEST 1 (begin_body FCGI_RESPONDER 0) []] []
      { fcgi_new 1 env_empty none with
        fcg_clients := [client_calloc 1], fcg_type := FCGI_BEGIN_REQUEST, fcg_rec_id := 1,
        fcg_keep_conn := 0 }
      { fcgi_new 1 env_empty none with
        fcg_clients := [client_calloc 1], fcg_type := FCGI_BEGIN_REQUEST, fcg_rec_id := 1,
        fcg_keep_conn := 0 }
      (by decide) (by simp) rfl rfl).2.2.2.2 rfl ⟨rfl, rfl, rfl, rfl⟩ 2 1 []⟩

set_option maxRecDepth 1000000 in
/-- C31: a handler entered with the four prepared statements reset, for any catalog (rows,
no rows, bind errors and step errors are what the statements answer) and any write oracle,
returns 0 or -1 (or stops on a null pointer) with the four statements reset again; this
holds for each of the five handlers and for `server_handle`. Binding and stepping mark a
statement as in use and `sqlite3_reset` alone clears the mark, so a statement used during
the call was reset before the return. Hence over any sequence of input chunks on a
connection the statements are reset whenever the decoder returns, and the next handler
starts from reset statements. The detail page for `sysutils/tmux`, with a row and a write
that fails, returns -1 with the details statement reset. -/
theorem statements_reset (f : fcgi) (clt : client) (hok : buf_ok clt)
    (hi : stmts_idle 4 f.fcg_env) :
    returns_idle (route_home f clt) ∧ returns_idle (route_search f clt) ∧
    returns_idle (route_categories f clt) ∧ returns_idle (route_listing f clt) ∧
    returns_idle (route_port f clt) ∧ returns_idle (server_handle f clt) ∧
    (∀ (chunks : List (List Nat)) (f1 : fcgi), conn_ok f →
      (∀ chunk ∈ chunks, ∀ b ∈ chunk, b < 256) → deliver f chunks = .ok f1 →
      stmts_idle 4 f1.fcg_env) ∧
    (∀ (s : sqlite3_stmt) (text : List Nat),
      (sqlite3_bind_text s text).2.busy = true ∧ (sqlite3_step s).2.busy = true ∧
      (sqlite3_reset s).busy = false) ∧
    (match route_port (fcgi_new 1 (env_port (bytes "tmux-3.4")) (some 0))
        { client_calloc 1 with clt_path_info := some (bytes "/sysutils/tmux") } with
      | .ok (r, g) => some (r, g.fcg_env.env_qfullpkgpath.busy, g.fcg_env.env_qfullpkgpath.pos)
      | _ => none) = some (-1, false, 0) := by
  refine ⟨route_home_idle f clt hok hi, route_search_idle f clt hok hi,
    route_categories_idle f clt hok hi, route_listing_idle f clt hok hi,
    route_port_idle f clt hok hi, server_handle_idle f clt hok hi, ?_, ?_, by rfl⟩
  · intro chunks f1 hc hb h
    exact (deliver_lived chunks f f1 hc hb h).2.2.2.1 hi
  · intro s text
    refine ⟨?_, rfl, rfl⟩
    simp only [sqlite3_bind_text]
    split
    · split <;> rfl
    · rfl

set_option maxRecDepth 1000000 in
/-- The detail page of C31 over a catalog that holds `sysutils/tmux`, on a connection whose
first write fails: the handler returns with the statements reset. -/
theorem statements_reset_witness :
    returns_idle (route_port (fcgi_new 1 (env_port (bytes "tmux-3.4")) (some 0))
      { client_calloc 1 with clt_path_info := some (bytes "/sysutils/tmux") }) ∧
    stmts_idle 4 (fcgi_new 1 (env_port (bytes "tmux-3.4")) (some 0)).fcg_env :=
  ⟨(statements_reset (fcgi_new 1 (env_port (bytes "tmux-3.4")) (some 0))
      { client_calloc 1 with clt_path_info := some (bytes "/sysutils/tmux") }
      ⟨by decide, by decide⟩ ⟨fun _ => rfl, fun _ => rfl, fun _ => rfl, fun _ => rfl⟩).2.2.2.2.1,
    ⟨fun _ => rfl, fun _ => rfl, fun _ => rfl, fun _ => rfl⟩⟩

/-- What a result `r` with its state says when the call is `stepped` or `handled`: `r` is 0
or -1, and it is -1 exactly when the connection was released during the call. -/
theorem released_iff (f f1 : fcgi) (r : Int) (hf : f.fcg_freed = false)
    (h : (r = 0 ∧ f1.fcg_freed = f.fcg_freed) ∨ (r = -1 ∧ torn_down f f1)) :
    (r = 0 ∨ r = -1) ∧ (r = -1 ↔ f1.fcg_freed = true) ∧ (r = -1 → torn_down f f1) := by
  rcases h with ⟨h0, hk⟩ | ⟨h1, ht⟩
  · refine ⟨Or.inl h0, ⟨fun h => ?_, fun h => ?_⟩, fun h => ?_⟩
    · rw [h0] at h
      exact absurd h (by decide)
    · rw [hk, hf] at h
      exact absurd h (by decide)
    · rw [h0] at h
      exact absurd h (by decide)
  · exact ⟨Or.inr h1, ⟨fun _ => ht.2.1, fun _ => h1⟩, fun _ => ht⟩

/-- The result of a `handled` call. -/
theorem handled_released (f f1 : fcgi) (clt : client) (r : Int) (hf : f.fcg_freed = false)
    (h : handled f clt r f1) :
    (r = 0 ∨ r = -1) ∧ (r = -1 ↔ f1.fcg_freed = true) ∧ (r = -1 → torn_down f f1) := by
  refine released_iff f f1 r hf ?_
  rcases h with ⟨h0, _, hk, _⟩ | h
  · exact Or.inl ⟨h0, hk⟩
  · exact Or.inr h

/-- The result of a `stepped` call. -/
theorem stepped_released (f f1 : fcgi) (clt clt1 : client) (r : Int) (hf : f.fcg_freed = false)
    (h : stepped f clt r f1 clt1) :
    (r = 0 ∨ r = -1) ∧ (r = -1 ↔ f1.fcg_freed = true) ∧ (r = -1 → torn_down f f1) := by
  refine released_iff f f1 r hf ?_
  rcases h with ⟨h0, _, hk, _⟩ | ⟨h1, ht, _⟩
  · exact Or.inl ⟨h0, hk⟩
  · exact Or.inr ⟨h1, ht⟩

/-- The result of `clt_flush`. -/
theorem clt_flush_released (f : fcgi) (clt : client) (hok : buf_ok clt)
    (hf : f.fcg_freed = false) :
    ((clt_flush f clt).1 = 0 ∨ (clt_flush f clt).1 = -1) ∧
    ((clt_flush f clt).1 = -1 ↔ (clt_flush f clt).2.1.fcg_freed = true) ∧
    ((clt_flush f clt).1 = -1 → torn_down f (clt_flush f clt).2.1) := by
  refine released_iff f _ _ hf ?_
  rcases clt_flush_zero_or_neg f clt with h0 | h1
  · obtain ⟨ps, w, buf1, n1, he, _⟩ := ((clt_flush_emitted f clt hok).2.2 h0).1
    exact Or.inl ⟨h0, by rw [he]; rfl⟩
  · exact Or.inr ⟨h1, (clt_flush_failed f clt h1).1⟩

/-- The result of `end_request`. -/
theorem end_request_released (f : fcgi) (clt : client) (status proto_status : Int)
    (hok : buf_ok clt) (hf : f.fcg_freed = false) :
    ((end_request f clt status proto_status).1 = 0 ∨
      (end_request f clt status proto_status).1 = -1) ∧
    ((end_request f clt status proto_status).1 = -1 ↔
      (end_request f clt status proto_status).2.fcg_freed = true) ∧
    ((end_request f clt status proto_status).1 = -1 →
      torn_down f (end_request f clt status proto_status).2) := by
  refine released_iff f _ _ hf ?_
  rcases end_request_failed f clt status proto_status hok with h0 | h1
  · obtain ⟨w, _, he⟩ :=
      (end_request_exact f clt status proto_status (by rw [hok.1]; exact hok.2)).2 h0
    exact Or.inl ⟨h0, by rw [he]; rfl⟩
  · exact Or.inr h1

/-- The decoder hands back the state of a handler that returned -1. -/
theorem fcgi_read_body_released (f f1 : fcgi) (clt : client)
    (ht : f.fcg_type = FCGI_PARAMS) (h0 : f.fcg_toread = 0)
    (hc : SPLAY_FIND f.fcg_clients { client_zero with clt_id := f.fcg_rec_id } = some clt)
    (h : server_handle (set_input f (evbuffer_drain f.fcg_bev.input (to_size_t f.fcg_toread)))
      clt = .ok (-1, f1)) :
    fcgi_read_body f = .ok (false, f1) := by
  simp only [fcgi_read_body, ht, hc, h0] at h ⊢
  rw [if_pos trivial, if_pos trivial, h]
  rfl

/-- The decoder hands back the state of an aborted request whose end failed. -/
theorem fcgi_read_body_abort_released (f : fcgi) (clt : client)
    (ht : f.fcg_type = FCGI_ABORT_REQUEST)
    (hc : SPLAY_FIND f.fcg_clients { client_zero with clt_id := f.fcg_rec_id } = some clt)
    (h : (fcgi_end_request f clt 1).1 = -1) :
    fcgi_read_body f = .ok (false, (fcgi_end_request f clt 1).2) := by
  simp only [fcgi_read_body, ht, hc, h]
  rfl

/-- C38: on an open connection, with a write oracle that can make any write fail, for a
request with a sound buffer: `clt_flush`, `clt_write` and `clt_printf` (which return), and
`end_request`, return 0 or -1, and -1 exactly when the connection was released during the
call, and then `fcgi_error` ran once: the decoder fields are untouched, the request table is
empty and `fcgi_inflight` is one less. Each of the five handlers and `server_handle`, when
it returns, does so in the same way, and it returns or stops on a null pointer when the
statements are reset at entry. The decoder stops on the state a handler or an aborted
request left with -1, unchanged, and it goes on exactly when the connection is still open.
Over any input chunks, a write callback and further chunks, `fcgi_error` ran at most once,
and the callbacks leave a released connection as it is. -/
theorem write_failure_teardown (f : fcgi) (clt : client) (hok : buf_ok clt)
    (hf : f.fcg_freed = false) :
    (((clt_flush f clt).1 = 0 ∨ (clt_flush f clt).1 = -1) ∧
      ((clt_flush f clt).1 = -1 ↔ (clt_flush f clt).2.1.fcg_freed = true) ∧
      ((clt_flush f clt).1 = -1 → torn_down f (clt_flush f clt).2.1)) ∧
    (∀ buf : List Nat, ∃ (r : Int) (f1 : fcgi) (clt1 : client),
      clt_write f clt buf = .ok (r, f1, clt1) ∧ clt_printf f clt buf = .ok (r, f1, clt1) ∧
      (r = 0 ∨ r = -1) ∧ (r = -1 ↔ f1.fcg_freed = true) ∧ (r = -1 → torn_down f f1)) ∧
    (∀ status proto_status : Int,
      ((end_request f clt status proto_status).1 = 0 ∨
        (end_request f clt status proto_status).1 = -1) ∧
      ((end_request f clt status proto_status).1 = -1 ↔
        (end_request f clt status proto_status).2.fcg_freed = true) ∧
      ((end_request f clt status proto_status).1 = -1 →
        torn_down f (end_request f clt status proto_status).2)) ∧
    (∀ H ∈ [route_home, route_search, route_categories, route_listing, route_port,
        server_handle],
      (∀ (r : Int) (f1 : fcgi), H f clt = .ok (r, f1) →
        (r = 0 ∨ r = -1) ∧ (r = -1 ↔ f1.fcg_freed = true) ∧ (r = -1 → torn_down f f1)) ∧
      (stmts_idle 4 f.fcg_env →
        H f clt = .undefined ∨ ∃ (r : Int) (f1 : fcgi), H f clt = .ok (r, f1))) ∧
    (f.fcg_type = FCGI_PARAMS → f.fcg_toread = 0 →
      SPLAY_FIND f.fcg_clients { client_zero with clt_id := f.fcg_rec_id } = some clt →
      ∀ f1 : fcgi,
        server_handle (set_input f (evbuffer_drain f.fcg_bev.input (to_size_t f.fcg_toread)))
          clt = .ok (-1, f1) →
        fcgi_read_body f = .ok (false, f1)) ∧
    (f.fcg_type = FCGI_ABORT_REQUEST →
      SPLAY_FIND f.fcg_clients { client_zero with clt_id := f.fcg_rec_id } = some clt →
      (fcgi_end_request f clt 1).1 = -1 →
      fcgi_read_body f = .ok (false, (fcgi_end_request f clt 1).2)) ∧
    (∀ (go : Bool) (f1 : fcgi), conn_ok f → fcgi_read_body f = .ok (go, f1) →
      (go = false ↔ f1.fcg_freed = true) ∧
      (go = false → f.fcg_want = FCGI_RECORD_BODY →
        ¬ EVBUFFER_LENGTH f.fcg_bev.input < to_size_t f.fcg_toread →
        ∀ fuel : Nat, fcgi_read_loop (fuel + 1) f = .ok f1)) ∧
    (∀ (chunks later : List (List Nat)) (f1 f2 : fcgi), conn_ok f →
      (∀ chunk ∈ chunks, ∀ b ∈ chunk, b < 256) → (∀ chunk ∈ later, ∀ b ∈ chunk, b < 256) →
      deliver f chunks = .ok f1 → deliver (bufferevent_writecb f1) later = .ok f2 →
      (f2.fcg_freed = false ∧ f2.fcg_env.fcgi_inflight = f.fcg_env.fcgi_inflight) ∨
      (f2.fcg_freed = true ∧ f2.fcg_env.fcgi_inflight = f.fcg_env.fcgi_inflight - 1)) ∧
    (∀ (g : fcgi) (chunk : List Nat), g.fcg_freed = true →
      bufferevent_readcb g chunk = .ok g ∧ bufferevent_writecb g = g) := by
  have hw := wrote_refl f clt hok
  have total : ∀ r : res (Int × fcgi), returns_idle r →
      r = .undefined ∨ ∃ (x : Int) (f1 : fcgi), r = .ok (x, f1) := by
    intro r hr
    rcases hr with hr | ⟨x, f1, hr, _⟩
    · exact Or.inl hr
    · exact Or.inr ⟨x, f1, hr⟩
  refine ⟨clt_flush_released f clt hok hf, ?_,
    fun status proto_status => end_request_released f clt status proto_status hok hf, ?_,
    fun ht h0 hc f1 h => fcgi_read_body_released f f1 clt ht h0 hc h,
    fun ht hc h => fcgi_read_body_abort_released f clt ht hc h, ?_, ?_, ?_⟩
  · intro buf
    obtain ⟨r, f1, clt1, h, _, _, _⟩ := clt_write_any f clt buf hok
    exact ⟨r, f1, clt1, h, h,
      stepped_released f f1 clt clt1 r hf (clt_write_stepped f clt buf hok r f1 clt1 h)⟩
  · intro H hH
    simp only [List.mem_cons, List.mem_singleton, List.not_mem_nil, or_false] at hH
    rcases hH with rfl | rfl | rfl | rfl | rfl | rfl
    · exact ⟨fun r f1 h => handled_released f f1 clt r hf (route_home_ok f f clt clt hw r f1 h),
        fun hi => total _ (route_home_idle f clt hok hi)⟩
    · exact ⟨fun r f1 h =>
          handled_released f f1 clt r hf (route_search_ok f f clt clt hw r f1 h),
        fun hi => total _ (route_search_idle f clt hok hi)⟩
    · exact ⟨fun r f1 h =>
          handled_released f f1 clt r hf (route_categories_ok f f clt clt hw r f1 h),
        fun hi => total _ (route_categories_idle f clt hok hi)⟩
    · exact ⟨fun r f1 h =>
          handled_released f f1 clt r hf (route_listing_ok f f clt clt hw r f1 h),
        fun hi => total _ (route_listing_idle f clt hok hi)⟩
    · exact ⟨fun r f1 h => handled_released f f1 clt r hf (route_port_ok f f clt clt hw r f1 h),
        fun hi => total _ (route_port_idle f clt hok hi)⟩
    · exact ⟨fun r f1 h =>
          handled_released f f1 clt r hf (server_handle_handled f clt hok r f1 h),
        fun hi => total _ (server_handle_idle f clt hok hi)⟩
  · intro go f1 hc h
    obtain ⟨_, htrue, hfalse⟩ := fcgi_read_body_lived f go f1 hc hf h
    refine ⟨⟨hfalse, fun hfr => ?_⟩, ?_⟩
    · cases go
      · rfl
      · rw [htrue rfl] at hfr
        cases hfr
    · intro hgo hwant hlen fuel
      rw [fcgi_read_loop_body f fuel hwant hlen, h, hgo]
  · intro chunks later f1 f2 hc hb hl h1 h2
    have l1 := deliver_lived chunks f f1 hc hb h1
    have c1 := deliver_conn_ok chunks f f1 hc hb h1
    have l2 := bufferevent_writecb_lived f1
    have c2 := bufferevent_writecb_conn_ok f1 c1
    have l3 := deliver_lived later _ f2 c2 hl h2
    rcases (lived_trans _ _ _ (lived_trans _ _ _ l1 l2) l3).2.2.2.2 with ⟨ha, hb⟩ | ⟨_, ha, hb⟩
    · exact Or.inl ⟨by rw [ha, hf], hb⟩
    · exact Or.inr ⟨ha, hb⟩
  · intro g chunk hg
    simp only [bufferevent_readcb, bufferevent_writecb, hg, if_true, and_self]

set_option maxRecDepth 1000000 in
/-- The flush of C38 with three bytes buffered, on a connection whose first write fails:
it returns -1 and the connection was released, once. -/
theorem write_failure_teardown_witness :
    (clt_flush (fcgi_new 1 env_empty (some 0)) { client_calloc 1 with clt_buflen := 3 }).1 = -1 ∧
    torn_down (fcgi_new 1 env_empty (some 0))
      (clt_flush (fcgi_new 1 env_empty (some 0))
        { client_calloc 1 with clt_buflen := 3 }).2.1 ∧
    (clt_flush (fcgi_new 1 env_empty (some 0))
      { client_calloc 1 with clt_buflen := 3 }).2.1.fcg_env.fcgi_inflight = 0 :=
  ⟨by rfl,
    (write_failure_teardown (fcgi_new 1 env_empty (some 0))
      { client_calloc 1 with clt_buflen := 3 } ⟨by decide, by decide⟩ rfl).1.2.2 (by rfl),
    by rfl⟩

end PkgFcgi
